import Mathlib

/-!
# The OpenGL command-dispatch engine of `ng` (glrenderer.cpp)

A shallow embedding of `OpenGLRenderer`: its two rendering instruction buffers,
its resource instruction buffer, the operations that push instructions, the
queue swap, the two instruction handlers, the renderer's destructor, and the
public `Send*` operations.

Conventions of the embedding.

* A member function becomes a function from the renderer state (and the id of
  the calling thread) to the state after the call paired with a `Completion`:
  the call returned, raised a C++ exception, or is suspended on a lock.
* What a handler does to the graphics API, to promises and to handles is
  recorded in the `Effects` list of the state, in program order; the
  instructions passed to each handler are recorded in `RenderingExecuted` and
  `ResourceExecuted`.
* Shared futures that an instruction carries are represented by the handle
  they resolve to.
-/

namespace ng

abbrev GLuint := Nat
abbrev PromiseId := Nat
abbrev ThreadId := Nat

/-- The two rendering modes (`RenderingMode`). -/
inductive RenderingMode
  | Synchronous
  | Asynchronous
  deriving DecidableEq

/-- The values of `OpenGLInstructionHandler`; `Unknown raw` stands for any other
value of the underlying integer type. -/
inductive OpenGLInstructionHandler
  | RenderingInstructionHandler
  | ResourceInstructionHandler
  | Unknown (raw : Nat)
  deriving DecidableEq

/-- The opcodes (`OpenGLOpCode`). -/
inductive OpenGLOpCode
  | GenBuffer
  | DeleteBuffer
  | BufferData
  | GenVertexArray
  | DeleteVertexArray
  | SetVertexArrayLayout
  | GenShader
  | DeleteShader
  | CompileShader
  | ShaderStatus
  | GenShaderProgram
  | DeleteShaderProgram
  | LinkShaderProgram
  | ShaderProgramStatus
  | DrawVertexArray
  | Clear
  | SwapBuffers
  | Quit
  deriving DecidableEq

/-- The response of an instruction handler (`InstructionHandlerResponse`). -/
inductive InstructionHandlerResponse
  | Continue
  | Quit
  deriving DecidableEq

/-- The vertex attribute names bound by `LinkShaderProgram`. -/
inductive VertexAttributeName
  | Position
  | Texcoord0
  | Texcoord1
  | Normal
  deriving DecidableEq

/-- One attribute of a vertex format, as read by `SetVertexArrayLayout`. -/
structure VertexAttribute where
  Cardinality : Nat
  AttribType : Nat
  IsNormalized : Bool
  Stride : Nat
  Offset : Nat
  deriving DecidableEq

/-- The parameter blocks of the instructions, one constructor per
`*OpCodeParams` class, with the members that glrenderer.cpp reads. A shared
future of a handle is fulfilled and is represented by the handle it holds
(`OpCodeParamsWithFutures` has the futures in any state); the index buffer of a
layout is `none` when the future is null or not valid. -/
inductive OpCodeParams
  | GenBuffer (Promise : PromiseId)
  | DeleteBuffer (Handle : GLuint)
  | BufferData (BufferDataPromise : PromiseId) (BufferHandle : GLuint) (Target : Nat)
      (Size : Nat) (DataHandle : Nat) (Usage : Nat)
  | GenVertexArray (Promise : PromiseId)
  | DeleteVertexArray (Handle : GLuint)
  | SetVertexArrayLayout (VertexArrayPromise : PromiseId) (VertexArrayHandle : GLuint)
      (Format : List (VertexAttributeName × VertexAttribute))
      (AttributeBuffers : List (VertexAttributeName × GLuint))
      (IndexBuffer : Option GLuint)
  | GenShader (ShaderPromise : PromiseId) (ShaderType : Nat)
  | DeleteShader (Handle : GLuint)
  | CompileShader (CompiledShaderPromise : PromiseId) (ShaderHandle : GLuint)
      (SourceHandle : Nat)
  | ShaderStatus (Promise : PromiseId) (Handle : GLuint)
  | GenShaderProgram (Promise : PromiseId)
  | DeleteShaderProgram (Handle : GLuint)
  | LinkShaderProgram (LinkedProgramPromise : PromiseId) (ShaderProgramHandle : GLuint)
      (VertexShaderHandle : GLuint) (FragmentShaderHandle : GLuint)
  | ShaderProgramStatus (Promise : PromiseId) (Handle : GLuint)
  | DrawVertexArray (VertexArrayHandle : GLuint) (ProgramHandle : GLuint) (Uniforms : Nat)
      (State : Nat) (Mode : Nat) (FirstVertexIndex : Nat) (VertexCount : Nat)
      (IsIndexed : Bool) (IndexType : Nat)
  | Clear (Mask : Nat)
  | SwapBuffers
  | Quit
  deriving DecidableEq

/-- The kinds of server-side resource a handle can own. -/
inductive HandleKind
  | Buffer
  | VertexArray
  | Shader
  | ShaderProgram
  deriving DecidableEq

/-- Modelled from the spec: the handle classes of globject.hpp are not among the
sources. A handle whose last owning reference is released: its destructor
queues the deletion instruction of its kind for the token it wraps. -/
structure ReleasedHandle where
  Kind : HandleKind
  Handle : GLuint
  deriving DecidableEq

/-- An instruction: its parameter block (which fixes the opcode) and `Released`,
the handles whose last owning reference is the parameter block at the time the
instruction is executed; their destructors run when the handler destroys the
block. -/
structure OpenGLInstruction where
  Params : OpCodeParams
  Released : List ReleasedHandle
  deriving DecidableEq

/-- The opcode stored in the instruction. -/
def OpCodeParams.OpCode : OpCodeParams → OpenGLOpCode
  | .GenBuffer _ => .GenBuffer
  | .DeleteBuffer _ => .DeleteBuffer
  | .BufferData _ _ _ _ _ _ => .BufferData
  | .GenVertexArray _ => .GenVertexArray
  | .DeleteVertexArray _ => .DeleteVertexArray
  | .SetVertexArrayLayout _ _ _ _ _ => .SetVertexArrayLayout
  | .GenShader _ _ => .GenShader
  | .DeleteShader _ => .DeleteShader
  | .CompileShader _ _ _ => .CompileShader
  | .ShaderStatus _ _ => .ShaderStatus
  | .GenShaderProgram _ => .GenShaderProgram
  | .DeleteShaderProgram _ => .DeleteShaderProgram
  | .LinkShaderProgram _ _ _ _ => .LinkShaderProgram
  | .ShaderProgramStatus _ _ => .ShaderProgramStatus
  | .DrawVertexArray _ _ _ _ _ _ _ _ _ => .DrawVertexArray
  | .Clear _ => .Clear
  | .SwapBuffers => .SwapBuffers
  | .Quit => .Quit

/-- The opcode of an instruction (`inst.OpCode`). -/
def OpenGLInstruction.OpCode (inst : OpenGLInstruction) : OpenGLOpCode :=
  inst.Params.OpCode

/-- The number of parameter slots of a parameter block. -/
def OpCodeParams.NumParams : OpCodeParams → Nat
  | .GenBuffer _ => 1
  | .DeleteBuffer _ => 1
  | .BufferData _ _ _ _ _ _ => 6
  | .GenVertexArray _ => 1
  | .DeleteVertexArray _ => 1
  | .SetVertexArrayLayout _ _ _ _ _ => 5
  | .GenShader _ _ => 2
  | .DeleteShader _ => 1
  | .CompileShader _ _ _ => 3
  | .ShaderStatus _ _ => 2
  | .GenShaderProgram _ => 1
  | .DeleteShaderProgram _ => 1
  | .LinkShaderProgram _ _ _ _ => 4
  | .ShaderProgramStatus _ _ => 2
  | .DrawVertexArray _ _ _ _ _ _ _ _ _ => 9
  | .Clear _ => 1
  | .SwapBuffers => 0
  | .Quit => 0

/-- Modelled from the spec: `OpenGLInstruction::GetByteSize` of glinstruction.hpp
is not among the sources. The size an instruction occupies in a buffer, counted
in parameter-sized words: one word for the opcode and one per parameter slot. -/
def OpenGLInstruction.GetByteSize (inst : OpenGLInstruction) : Nat :=
  1 + inst.Params.NumParams

/-- The space taken by a list of instructions. -/
def BytesUsed (insts : List OpenGLInstruction) : Nat :=
  (insts.map OpenGLInstruction.GetByteSize).sum

/-- Modelled from the spec: `OpenGLInstructionLinearBuffer` of glinstruction.hpp is
not among the sources. An append-only buffer of fixed capacity: `Instructions`
are the instructions pushed since the last reset, in push order, and `ReadHead`
counts those already popped. -/
structure OpenGLInstructionLinearBuffer where
  Capacity : Nat
  Instructions : List OpenGLInstruction
  ReadHead : Nat
  deriving DecidableEq

namespace OpenGLInstructionLinearBuffer

/-- Modelled from the spec: the constructor of the linear buffer, which is not
among the sources: an empty buffer of the given capacity. -/
def create (capacity : Nat) : OpenGLInstructionLinearBuffer :=
  { Capacity := capacity, Instructions := [], ReadHead := 0 }

/-- Modelled from the spec: `OpenGLInstructionLinearBuffer::PushInstruction`, which
is not among the sources. Appends the instruction; `none` (the C++ `false`) when
the instruction does not fit in the remaining capacity, and then the buffer is
left as it was. -/
def PushInstruction (b : OpenGLInstructionLinearBuffer) (inst : OpenGLInstruction) :
    Option OpenGLInstructionLinearBuffer :=
  if BytesUsed b.Instructions + inst.GetByteSize ≤ b.Capacity then
    some { b with Instructions := b.Instructions ++ [inst] }
  else
    none

/-- Modelled from the spec: `OpenGLInstructionLinearBuffer::PopInstruction`, which
is not among the sources. Reads the next instruction not yet popped and advances
the read head; `none` (the C++ `false`) when every pushed instruction has been
popped. -/
def PopInstruction (b : OpenGLInstructionLinearBuffer) :
    Option (OpenGLInstruction × OpenGLInstructionLinearBuffer) :=
  match b.Instructions.drop b.ReadHead with
  | [] => none
  | inst :: _ => some (inst, { b with ReadHead := b.ReadHead + 1 })

/-- Modelled from the spec: `OpenGLInstructionLinearBuffer::Reset`, which is not
among the sources: forgets the contents and keeps the capacity. -/
def Reset (b : OpenGLInstructionLinearBuffer) : OpenGLInstructionLinearBuffer :=
  { b with Instructions := [], ReadHead := 0 }

/-- The instructions pushed and not yet popped, in push order. -/
def Pending (b : OpenGLInstructionLinearBuffer) : List OpenGLInstruction :=
  b.Instructions.drop b.ReadHead

end OpenGLInstructionLinearBuffer

/-- Modelled from the spec: `OpenGLInstructionRingBuffer` of glinstruction.hpp is not
among the sources. A bounded circular queue: `Instructions` are the instructions
pushed and not yet popped, oldest first. -/
structure OpenGLInstructionRingBuffer where
  Capacity : Nat
  Instructions : List OpenGLInstruction
  deriving DecidableEq

namespace OpenGLInstructionRingBuffer

/-- Modelled from the spec: the constructor of the ring buffer, which is not among
the sources: an empty buffer of the given capacity. -/
def create (capacity : Nat) : OpenGLInstructionRingBuffer :=
  { Capacity := capacity, Instructions := [] }

/-- Modelled from the spec: `OpenGLInstructionRingBuffer::PushInstruction`, which is
not among the sources. Appends the instruction; `none` (the C++ `false`) when it
does not fit, and then the buffer is left as it was. -/
def PushInstruction (b : OpenGLInstructionRingBuffer) (inst : OpenGLInstruction) :
    Option OpenGLInstructionRingBuffer :=
  if BytesUsed b.Instructions + inst.GetByteSize ≤ b.Capacity then
    some { b with Instructions := b.Instructions ++ [inst] }
  else
    none

/-- Modelled from the spec: `OpenGLInstructionRingBuffer::PopInstruction`, which is
not among the sources. Removes the oldest instruction; `none` when empty. -/
def PopInstruction (b : OpenGLInstructionRingBuffer) :
    Option (OpenGLInstruction × OpenGLInstructionRingBuffer) :=
  match b.Instructions with
  | [] => none
  | inst :: rest => some (inst, { b with Instructions := rest })

end OpenGLInstructionRingBuffer

/-- The entry points of the graphics API and of the window that the handlers
call. -/
inductive GLFunction
  | glClear
  | glBindBuffer
  | glBufferData
  | glGenVertexArrays
  | glDeleteVertexArrays
  | glBindVertexArray
  | glVertexAttribPointer
  | glEnableVertexAttribArray
  | glUseProgram
  | glDrawElements
  | glDrawArrays
  | glGenBuffers
  | glDeleteBuffers
  | glCreateShader
  | glDeleteShader
  | glShaderSource
  | glCompileShader
  | glGetShaderiv
  | glCreateProgram
  | glDeleteProgram
  | glAttachShader
  | glBindAttribLocation
  | glLinkProgram
  | glGetProgramiv
  deriving DecidableEq

/-- What a handler does besides touching the queues, in program order. -/
inductive Effect
  | gl (f : GLFunction) (args : List Nat)
  | set_value (promise : PromiseId)
  | AddDependents (handle : GLuint) (dependents : List GLuint)
  | WindowSwapBuffers
  | InvalidOpCode (code : OpenGLOpCode)
  deriving DecidableEq

/-- The C++ exceptions raised by the code embedded here. -/
inductive Raised
  | overflow_error
  | logic_error
  | out_of_range
  | future_error
  deriving DecidableEq

/-- How a call ends: it returns a value, raises an exception, is suspended on a
lock or a wait that another thread has to release, or (for a loop run with a
bound on its iterations) has used up the bound. -/
inductive Completion (α : Type)
  | returned (a : α)
  | raised (e : Raised)
  | blocked
  | unfinished
  deriving DecidableEq

/-- The state of an `OpenGLRenderer` with the `RenderingOpenGLThreadData` and
`ResourceOpenGLThreadData` it owns. The write-buffer index, a `size_t` that is
initialised to 0 and only ever assigned its own logical negation, is a `Bool`
(`false` is 0, `true` is 1). A mutex is `true` when locked. `mRenderingThread` is
the id of the rendering thread, `none` when no thread was started.
`PromisesMade` counts the promises allocated so far; `Effects`,
`RenderingExecuted` and `ResourceExecuted` are the record of what the handlers
have done. -/
structure OpenGLRenderer where
  mRenderingMode : RenderingMode
  mRenderingThread : Option ThreadId
  mResourceThread : Option ThreadId
  mInstructionBuffers : OpenGLInstructionLinearBuffer × OpenGLInstructionLinearBuffer
  mInstructionProducerMutex : Bool × Bool
  mInstructionConsumerMutex : Bool × Bool
  mCurrentWriteBufferIndex : Bool
  mConsumerSemaphore : Nat
  mInstructionBuffer : OpenGLInstructionRingBuffer
  PromisesMade : Nat
  Effects : List Effect
  RenderingExecuted : List OpenGLInstruction
  ResourceExecuted : List OpenGLInstruction
  deriving DecidableEq

/-- Element `i` of a two-element array. -/
def at2 {α : Type} (p : α × α) (i : Bool) : α :=
  if i then p.2 else p.1

/-- A two-element array with element `i` replaced. -/
def set2 {α : Type} (p : α × α) (i : Bool) (a : α) : α × α :=
  if i then (p.1, a) else (a, p.2)

namespace OpenGLRenderer

/-- The rendering buffer `mInstructionBuffers[i]`. -/
def buffer (r : OpenGLRenderer) (i : Bool) : OpenGLInstructionLinearBuffer :=
  at2 r.mInstructionBuffers i

/-- The state with `mInstructionBuffers[i]` replaced. -/
def setBuffer (r : OpenGLRenderer) (i : Bool) (b : OpenGLInstructionLinearBuffer) :
    OpenGLRenderer :=
  { r with mInstructionBuffers := set2 r.mInstructionBuffers i b }

end OpenGLRenderer

/-- The constructor of `OpenGLRenderer` with the constructors of the two thread
data objects: both buffers empty, write index `InitialWriteBufferIndex` = 0, both
consumer mutexes and the producer mutex of buffer 0 locked. In Asynchronous mode
the two threads are started (their ids are arguments here). -/
def OpenGLRenderer.create (renderingMode : RenderingMode)
    (RenderingCommandBufferSize ResourceCommandBufferSize : Nat)
    (renderingThread resourceThread : ThreadId) : OpenGLRenderer :=
  { mRenderingMode := renderingMode
    mRenderingThread :=
      if renderingMode = RenderingMode.Asynchronous then some renderingThread else none
    mResourceThread :=
      if renderingMode = RenderingMode.Asynchronous then some resourceThread else none
    mInstructionBuffers :=
      (OpenGLInstructionLinearBuffer.create RenderingCommandBufferSize,
       OpenGLInstructionLinearBuffer.create RenderingCommandBufferSize)
    mInstructionProducerMutex := (true, false)
    mInstructionConsumerMutex := (true, true)
    mCurrentWriteBufferIndex := false
    mConsumerSemaphore := 0
    mInstructionBuffer := OpenGLInstructionRingBuffer.create ResourceCommandBufferSize
    PromisesMade := 0
    Effects := []
    RenderingExecuted := []
    ResourceExecuted := [] }

/-- The index that `PushRenderingInstruction` writes to: the buffer that is not
the current write buffer when the mode is Synchronous or the caller is the
rendering thread, the current write buffer otherwise. -/
def PushRenderingWriteIndex (r : OpenGLRenderer) (self : ThreadId) : Bool :=
  if r.mRenderingMode = RenderingMode.Synchronous ∨ r.mRenderingThread = some self then
    !r.mCurrentWriteBufferIndex
  else
    r.mCurrentWriteBufferIndex

/-- The member `OpenGLRenderer::PushRenderingInstruction`, called by thread
`self`. The lock on the write-index mutex (recursive, held only for the duration
of a call) is not part of the state. -/
def PushRenderingInstruction (r : OpenGLRenderer) (self : ThreadId)
    (inst : OpenGLInstruction) : OpenGLRenderer × Completion Unit :=
  let writeIndex := PushRenderingWriteIndex r self
  match (r.buffer writeIndex).PushInstruction inst with
  | none => (r, Completion.raised Raised.overflow_error)
  | some b => (r.setBuffer writeIndex b, Completion.returned ())

/-- The result of one computation followed by another: the second completion
when the first returned, the first one's failure otherwise. -/
def Completion.seq {α β : Type} (c : Completion α) (d : Completion β) : Completion β :=
  match c with
  | Completion.returned _ => d
  | Completion.raised e => Completion.raised e
  | Completion.blocked => Completion.blocked
  | Completion.unfinished => Completion.unfinished

/-- A completion with its returned value dropped. -/
def Completion.discard {α : Type} (c : Completion α) : Completion Unit :=
  c.seq (Completion.returned ())

/-- The instruction built by `params.ToInstruction()`, with the handles that its
parameter block will be the last owner of. -/
def ToInstruction (params : OpCodeParams) (released : List ReleasedHandle) :
    OpenGLInstruction :=
  { Params := params, Released := released }

def GL_ARRAY_BUFFER : Nat := 0x8892

def GL_ELEMENT_ARRAY_BUFFER : Nat := 0x8893

/-- Modelled from the spec: `ToGLAttributeIndex` of glenumconversion.hpp is not among
the sources; the attribute location of a vertex attribute name. -/
def ToGLAttributeIndex : VertexAttributeName → Nat
  | .Position => 0
  | .Texcoord0 => 1
  | .Texcoord1 => 2
  | .Normal => 3

/-- The lookup `format.Attributes.at(name)`: `none` stands for the
`std::out_of_range` that `at` raises when the name is not a key of the map. -/
def AttributesAt (format : List (VertexAttributeName × VertexAttribute))
    (name : VertexAttributeName) : Option VertexAttribute :=
  (format.find? (fun entry => entry.1 = name)).map Prod.snd

/-- The loop over the attribute buffers in the `SetVertexArrayLayout` case of
`HandleRenderingInstruction`: the effects, the dependent buffers collected, and
whether the loop ran to its end (`false` when `at` raised). -/
def SetLayoutAttributeLoop (format : List (VertexAttributeName × VertexAttribute)) :
    List (VertexAttributeName × GLuint) → List Effect × List GLuint × Bool
  | [] => ([], [], true)
  | attribBufferPair :: rest =>
    match AttributesAt format attribBufferPair.1 with
    | none => ([], [], false)
    | some attrib =>
      let tail := SetLayoutAttributeLoop format rest
      ([Effect.gl GLFunction.glBindBuffer [GL_ARRAY_BUFFER, attribBufferPair.2],
        Effect.gl GLFunction.glVertexAttribPointer
          [ToGLAttributeIndex attribBufferPair.1, attrib.Cardinality, attrib.AttribType,
           attrib.Stride, attrib.Offset],
        Effect.gl GLFunction.glEnableVertexAttribArray
          [ToGLAttributeIndex attribBufferPair.1]] ++ tail.1,
       attribBufferPair.2 :: tail.2.1, tail.2.2)

/-- The function `HandleCommonInstruction` on a parameter block whose futures
are fulfilled: the effects of the instruction and the response. The two ways of
uploading the data of `BufferData` (through `glMapBuffer` or directly) are one
`glBufferData` effect. The default case, whose debug print is compiled out,
leaves the mark `InvalidOpCode` and nothing else. For a future in any state see
`HandleCommonInstructionWithFutures`. -/
def HandleCommonInstruction (inst : OpenGLInstruction) :
    List Effect × Completion InstructionHandlerResponse :=
  match inst.Params with
  | .Clear mask =>
    ([Effect.gl GLFunction.glClear [mask]],
     Completion.returned InstructionHandlerResponse.Continue)
  | .BufferData promise buffer target size data usage =>
    ([Effect.gl GLFunction.glBindBuffer [target, buffer],
      Effect.gl GLFunction.glBufferData [target, size, data, usage],
      Effect.set_value promise],
     Completion.returned InstructionHandlerResponse.Continue)
  | .SwapBuffers =>
    ([Effect.WindowSwapBuffers], Completion.returned InstructionHandlerResponse.Continue)
  | .Quit => ([], Completion.returned InstructionHandlerResponse.Quit)
  | _ =>
    ([Effect.InvalidOpCode inst.OpCode],
     Completion.returned InstructionHandlerResponse.Continue)

/-- The switch of `HandleRenderingInstruction` on a parameter block whose futures
are fulfilled, so that every `get()` returns its handle: the effects of the
instruction and the response, or the exception raised on the way. Of the
`DrawVertexArray` case the calls that select the program and the vertex array
and the draw call are recorded; the uniform uploads and render-state calls
between them are not. For a future in any state see
`RenderingInstructionEffectsWithFutures`. -/
def RenderingInstructionEffects (inst : OpenGLInstruction) :
    List Effect × Completion InstructionHandlerResponse :=
  match inst.Params with
  | .GenVertexArray promise =>
    ([Effect.gl GLFunction.glGenVertexArrays [1], Effect.set_value promise],
     Completion.returned InstructionHandlerResponse.Continue)
  | .DeleteVertexArray handle =>
    ([Effect.gl GLFunction.glDeleteVertexArrays [1, handle]],
     Completion.returned InstructionHandlerResponse.Continue)
  | .SetVertexArrayLayout promise vertexArray format attributeBuffers indexBuffer =>
    let looped := SetLayoutAttributeLoop format attributeBuffers
    if looped.2.2 then
      let indexEffects :=
        match indexBuffer with
        | some index => [Effect.gl GLFunction.glBindBuffer [GL_ELEMENT_ARRAY_BUFFER, index]]
        | none => []
      let dependentBuffers :=
        match indexBuffer with
        | some index => looped.2.1 ++ [index]
        | none => looped.2.1
      ([Effect.gl GLFunction.glBindVertexArray [vertexArray]] ++ looped.1 ++ indexEffects ++
        [Effect.AddDependents vertexArray dependentBuffers, Effect.set_value promise],
       Completion.returned InstructionHandlerResponse.Continue)
    else
      ([Effect.gl GLFunction.glBindVertexArray [vertexArray]] ++ looped.1,
       Completion.raised Raised.out_of_range)
  | .DrawVertexArray vertexArray program _ _ mode firstVertexIndex vertexCount isIndexed
      indexType =>
    ([Effect.gl GLFunction.glUseProgram [program],
      Effect.gl GLFunction.glBindVertexArray [vertexArray],
      if isIndexed then
        Effect.gl GLFunction.glDrawElements [mode, vertexCount, indexType, firstVertexIndex]
      else
        Effect.gl GLFunction.glDrawArrays [mode, firstVertexIndex, vertexCount]],
     Completion.returned InstructionHandlerResponse.Continue)
  | _ => HandleCommonInstruction inst

/-- The switch of `HandleResourceInstruction` on a parameter block whose futures
are fulfilled, so that every `get()` returns its handle: the effects of the
instruction and the response. The status queries fulfil their promise on both
branches of the status test. For a future in any state see
`ResourceInstructionEffectsWithFutures`. -/
def ResourceInstructionEffects (inst : OpenGLInstruction) :
    List Effect × Completion InstructionHandlerResponse :=
  match inst.Params with
  | .GenBuffer promise =>
    ([Effect.gl GLFunction.glGenBuffers [1], Effect.set_value promise],
     Completion.returned InstructionHandlerResponse.Continue)
  | .DeleteBuffer handle =>
    ([Effect.gl GLFunction.glDeleteBuffers [1, handle]],
     Completion.returned InstructionHandlerResponse.Continue)
  | .GenShader promise shaderType =>
    ([Effect.gl GLFunction.glCreateShader [shaderType], Effect.set_value promise],
     Completion.returned InstructionHandlerResponse.Continue)
  | .DeleteShader handle =>
    ([Effect.gl GLFunction.glDeleteShader [handle]],
     Completion.returned InstructionHandlerResponse.Continue)
  | .CompileShader promise shader source =>
    ([Effect.gl GLFunction.glShaderSource [shader, source],
      Effect.gl GLFunction.glCompileShader [shader],
      Effect.set_value promise],
     Completion.returned InstructionHandlerResponse.Continue)
  | .ShaderStatus promise handle =>
    ([Effect.gl GLFunction.glGetShaderiv [handle], Effect.set_value promise],
     Completion.returned InstructionHandlerResponse.Continue)
  | .GenShaderProgram promise =>
    ([Effect.gl GLFunction.glCreateProgram [], Effect.set_value promise],
     Completion.returned InstructionHandlerResponse.Continue)
  | .DeleteShaderProgram handle =>
    ([Effect.gl GLFunction.glDeleteProgram [handle]],
     Completion.returned InstructionHandlerResponse.Continue)
  | .LinkShaderProgram promise program vertexShader fragmentShader =>
    ([Effect.AddDependents program [vertexShader, fragmentShader],
      Effect.gl GLFunction.glAttachShader [program, vertexShader],
      Effect.gl GLFunction.glAttachShader [program, fragmentShader],
      Effect.gl GLFunction.glBindAttribLocation
        [program, ToGLAttributeIndex VertexAttributeName.Position],
      Effect.gl GLFunction.glBindAttribLocation
        [program, ToGLAttributeIndex VertexAttributeName.Texcoord0],
      Effect.gl GLFunction.glBindAttribLocation
        [program, ToGLAttributeIndex VertexAttributeName.Texcoord1],
      Effect.gl GLFunction.glBindAttribLocation
        [program, ToGLAttributeIndex VertexAttributeName.Normal],
      Effect.gl GLFunction.glLinkProgram [program],
      Effect.set_value promise],
     Completion.returned InstructionHandlerResponse.Continue)
  | .ShaderProgramStatus promise handle =>
    ([Effect.gl GLFunction.glGetProgramiv [handle], Effect.set_value promise],
     Completion.returned InstructionHandlerResponse.Continue)
  | _ => HandleCommonInstruction inst

/-- What a destructor of a released handle does to the renderer. -/
abbrev HandleDestructor :=
  OpenGLRenderer → ThreadId → ReleasedHandle → OpenGLRenderer × Completion Unit

/-- The destruction of a parameter block at the end of a handler's case: the
destructors of the released handles run one after the other, on the thread that
runs the handler; an exception ends the run. -/
def RunDestructors (destroy : HandleDestructor) (self : ThreadId) :
    OpenGLRenderer → List ReleasedHandle → OpenGLRenderer × Completion Unit
  | r, [] => (r, Completion.returned ())
  | r, handle :: rest =>
    match destroy r self handle with
    | (r1, Completion.returned _) => RunDestructors destroy self r1 rest
    | (r1, c) => (r1, c)

/-- The function `HandleResourceInstruction` run by thread `self`, given what the
destructor of a released handle does: the instruction and its effects are
recorded, then the parameter block is destroyed. -/
def HandleResourceInstructionWith (destroy : HandleDestructor) (r : OpenGLRenderer)
    (self : ThreadId) (inst : OpenGLInstruction) :
    OpenGLRenderer × Completion InstructionHandlerResponse :=
  let handled := ResourceInstructionEffects inst
  let r1 := { r with Effects := r.Effects ++ handled.1
                     ResourceExecuted := r.ResourceExecuted ++ [inst] }
  let destroyed := RunDestructors destroy self r1 inst.Released
  (destroyed.1, destroyed.2.seq handled.2)

/-- The member `OpenGLRenderer::PushResourceInstruction` called by thread `self`,
given what the destructor of a released handle does. The buffer mutex, held only
for the duration of the push, is not part of the state. -/
def PushResourceInstructionWith (destroy : HandleDestructor) (r : OpenGLRenderer)
    (self : ThreadId) (inst : OpenGLInstruction) : OpenGLRenderer × Completion Unit :=
  if r.mRenderingMode = RenderingMode.Asynchronous then
    match r.mInstructionBuffer.PushInstruction inst with
    | none => (r, Completion.raised Raised.overflow_error)
    | some b =>
      ({ r with mInstructionBuffer := b, mConsumerSemaphore := r.mConsumerSemaphore + 1 },
       Completion.returned ())
  else
    let handled := HandleResourceInstructionWith destroy r self inst
    (handled.1, handled.2.discard)

/-- The member `OpenGLRenderer::SendDeleteVertexArray`. -/
def SendDeleteVertexArray (r : OpenGLRenderer) (self : ThreadId) (vertexArray : GLuint) :
    OpenGLRenderer × Completion Unit :=
  PushRenderingInstruction r self (ToInstruction (OpCodeParams.DeleteVertexArray vertexArray) [])

/-- Modelled from the spec: the destructors of the handle classes of globject.hpp,
which are not among the sources. The destructor of a handle calls the
`SendDelete*` member of its kind with the token it wraps. -/
def DestroyHandleWith (destroy : HandleDestructor) : HandleDestructor :=
  fun r self handle =>
    match handle.Kind with
    | HandleKind.Buffer =>
      PushResourceInstructionWith destroy r self
        (ToInstruction (OpCodeParams.DeleteBuffer handle.Handle) [])
    | HandleKind.VertexArray => SendDeleteVertexArray r self handle.Handle
    | HandleKind.Shader =>
      PushResourceInstructionWith destroy r self
        (ToInstruction (OpCodeParams.DeleteShader handle.Handle) [])
    | HandleKind.ShaderProgram =>
      PushResourceInstructionWith destroy r self
        (ToInstruction (OpCodeParams.DeleteShaderProgram handle.Handle) [])

/-- The destructor that has nothing to run: the parameter block of a deletion
instruction is one token and owns no handle. -/
def NoHandleToDestroy : HandleDestructor :=
  fun r _ _ => (r, Completion.returned ())

/-- The destructor of a released handle: the deletion instruction it sends owns
no handle, so executing that instruction destroys nothing further. -/
def DestroyHandle : HandleDestructor :=
  DestroyHandleWith NoHandleToDestroy

/-- The function `HandleResourceInstruction`, run by thread `self`. -/
def HandleResourceInstruction (r : OpenGLRenderer) (self : ThreadId)
    (inst : OpenGLInstruction) : OpenGLRenderer × Completion InstructionHandlerResponse :=
  HandleResourceInstructionWith DestroyHandle r self inst

/-- The function `HandleRenderingInstruction`, run by thread `self`: the
instruction and its effects are recorded, then the parameter block is
destroyed. -/
def HandleRenderingInstruction (r : OpenGLRenderer) (self : ThreadId)
    (inst : OpenGLInstruction) : OpenGLRenderer × Completion InstructionHandlerResponse :=
  let handled := RenderingInstructionEffects inst
  let r1 := { r with Effects := r.Effects ++ handled.1
                     RenderingExecuted := r.RenderingExecuted ++ [inst] }
  let destroyed := RunDestructors DestroyHandle self r1 inst.Released
  (destroyed.1, destroyed.2.seq handled.2)

/-- The member `OpenGLRenderer::PushResourceInstruction`, called by thread `self`. -/
def PushResourceInstruction (r : OpenGLRenderer) (self : ThreadId)
    (inst : OpenGLInstruction) : OpenGLRenderer × Completion Unit :=
  PushResourceInstructionWith DestroyHandle r self inst

/-- The member `OpenGLRenderer::PushInstruction`. -/
def PushInstruction (r : OpenGLRenderer) (self : ThreadId)
    (instructionHandler : OpenGLInstructionHandler) (inst : OpenGLInstruction) :
    OpenGLRenderer × Completion Unit :=
  if instructionHandler = OpenGLInstructionHandler.RenderingInstructionHandler then
    PushRenderingInstruction r self inst
  else if instructionHandler = OpenGLInstructionHandler.ResourceInstructionHandler then
    PushResourceInstruction r self inst
  else
    (r, Completion.raised Raised.logic_error)

/-- A bound on the number of iterations of a loop that pops a rendering buffer
until it is empty: one for each pending instruction, one for each deletion
instruction that executing them can append, and one for the pop that fails. -/
def DrainBound (b : OpenGLInstructionLinearBuffer) : Nat :=
  (b.Pending.map (fun inst => 1 + inst.Released.length)).sum + 1

/-- The loop of the Synchronous branch of `SwapRenderingInstructionQueues`:
`while (mInstructionBuffers[index].PopInstruction(inst)) HandleRenderingInstruction(inst)`,
the response being ignored. The first argument bounds the iterations. -/
def SynchronousDrain : Nat → OpenGLRenderer → ThreadId → Bool →
    OpenGLRenderer × Completion Unit
  | 0, r, _, _ => (r, Completion.unfinished)
  | bound + 1, r, self, index =>
    match (r.buffer index).PopInstruction with
    | none => (r, Completion.returned ())
    | some (inst, b) =>
      match HandleRenderingInstruction (r.setBuffer index b) self inst with
      | (r1, Completion.returned _) => SynchronousDrain bound r1 self index
      | (r1, c) => (r1, c.discard)

/-- The inner loop of `OpenGLRenderingThreadEntry`:
`while (instructionBuffer.PopInstruction(inst) && response != Quit) response = HandleRenderingInstruction(inst)`.
The pop comes first in the condition, so an instruction that follows a Quit is
popped and not handled. The first argument bounds the iterations, the last is
the response so far; the result is the response the loop ends with. -/
def RenderingThreadDrain : Nat → OpenGLRenderer → ThreadId → Bool →
    InstructionHandlerResponse → OpenGLRenderer × Completion InstructionHandlerResponse
  | 0, r, _, _, _ => (r, Completion.unfinished)
  | bound + 1, r, self, bufferToConsumeFrom, response =>
    match (r.buffer bufferToConsumeFrom).PopInstruction with
    | none => (r, Completion.returned response)
    | some (inst, b) =>
      if response = InstructionHandlerResponse.Quit then
        (r.setBuffer bufferToConsumeFrom b, Completion.returned response)
      else
        match HandleRenderingInstruction (r.setBuffer bufferToConsumeFrom b) self inst with
        | (r1, Completion.returned next) =>
          RenderingThreadDrain bound r1 self bufferToConsumeFrom next
        | (r1, c) => (r1, c)

/-- The member `OpenGLRenderer::SwapRenderingInstructionQueues`, called by thread
`self`. In Asynchronous mode the call is suspended while the producer mutex of
the other buffer is locked. -/
def SwapRenderingInstructionQueues (r : OpenGLRenderer) (self : ThreadId) :
    OpenGLRenderer × Completion Unit :=
  let finishedWriteIndex := r.mCurrentWriteBufferIndex
  if r.mRenderingMode = RenderingMode.Asynchronous then
    if at2 r.mInstructionProducerMutex (!finishedWriteIndex) then
      (r, Completion.blocked)
    else
      ({ r with
          mInstructionProducerMutex := set2 r.mInstructionProducerMutex (!finishedWriteIndex) true
          mCurrentWriteBufferIndex := !r.mCurrentWriteBufferIndex
          mInstructionConsumerMutex := set2 r.mInstructionConsumerMutex finishedWriteIndex false },
       Completion.returned ())
  else
    match SynchronousDrain (DrainBound (r.buffer finishedWriteIndex)) r self
        finishedWriteIndex with
    | (r1, Completion.returned _) =>
      ({ r1 with mCurrentWriteBufferIndex := !r1.mCurrentWriteBufferIndex },
       Completion.returned ())
    | (r1, c) => (r1, c)

/-- One statement after another: the second runs when the first returned. -/
def andThen (first : OpenGLRenderer × Completion Unit)
    (next : OpenGLRenderer → OpenGLRenderer × Completion Unit) :
    OpenGLRenderer × Completion Unit :=
  match first with
  | (r, Completion.returned _) => next r
  | (r, c) => (r, c)

/-- The member `OpenGLRenderer::SendQuit`. -/
def SendQuit (r : OpenGLRenderer) (self : ThreadId)
    (instructionHandler : OpenGLInstructionHandler) : OpenGLRenderer × Completion Unit :=
  PushInstruction r self instructionHandler (ToInstruction OpCodeParams.Quit [])

/-- The member `OpenGLRenderer::SendSwapBuffers`. -/
def SendSwapBuffers (r : OpenGLRenderer) (self : ThreadId) : OpenGLRenderer × Completion Unit :=
  PushRenderingInstruction r self (ToInstruction OpCodeParams.SwapBuffers [])

/-- The first Asynchronous block of the destructor: the consumer mutex of the
current write buffer is unlocked, then its producer mutex is locked (the call is
suspended while it is held) and unlocked again. -/
def DestructorReleaseFrontBuffer (r : OpenGLRenderer) : OpenGLRenderer × Completion Unit :=
  let index := r.mCurrentWriteBufferIndex
  let r1 := { r with mInstructionConsumerMutex := set2 r.mInstructionConsumerMutex index false }
  if at2 r1.mInstructionProducerMutex index then
    (r1, Completion.blocked)
  else
    (r1, Completion.returned ())

/-- The wait `while (mConsumerSemaphore.getvalue() > 0) yield()` of the destructor:
suspended while the semaphore is up. -/
def DestructorWaitResourceQueue (r : OpenGLRenderer) : OpenGLRenderer × Completion Unit :=
  if r.mConsumerSemaphore > 0 then (r, Completion.blocked) else (r, Completion.returned ())

/-- The destructor `OpenGLRenderer::~OpenGLRenderer`, run by thread `self`. The
blocks guarded by `mRenderingMode == Asynchronous` are skipped in Synchronous
mode. The final joins wait for the two threads, which are not part of this
state, and are not represented. -/
def OpenGLRenderer.destroy (r : OpenGLRenderer) (self : ThreadId) :
    OpenGLRenderer × Completion Unit :=
  let asynchronous : Bool := r.mRenderingMode = RenderingMode.Asynchronous
  andThen (if asynchronous then DestructorReleaseFrontBuffer r else (r, Completion.returned ()))
  fun r1 =>
  andThen (SwapRenderingInstructionQueues r1 self) fun r2 =>
  andThen (if asynchronous then DestructorWaitResourceQueue r2 else (r2, Completion.returned ()))
  fun r3 =>
  andThen (SwapRenderingInstructionQueues r3 self) fun r4 =>
  andThen (if asynchronous then DestructorWaitResourceQueue r4 else (r4, Completion.returned ()))
  fun r5 =>
  andThen (SendQuit r5 self OpenGLInstructionHandler.RenderingInstructionHandler) fun r6 =>
  let r7 :=
    if asynchronous then
      { r6 with mInstructionConsumerMutex := (false, false) }
    else r6
  andThen (SendQuit r7 self OpenGLInstructionHandler.ResourceInstructionHandler) fun r8 =>
  if asynchronous then
    ({ r8 with mConsumerSemaphore := r8.mConsumerSemaphore + 1 }, Completion.returned ())
  else
    (r8, Completion.returned ())

/-- The common shape of the `Send*` members that return a future: a promise is
allocated, the instruction built around it is pushed, and the future of the
promise is returned when the push returned. -/
def SendWithPromise (r : OpenGLRenderer)
    (push : OpenGLRenderer → PromiseId → OpenGLRenderer × Completion Unit) :
    OpenGLRenderer × Completion PromiseId :=
  let promise := r.PromisesMade
  let pushed := push { r with PromisesMade := r.PromisesMade + 1 } promise
  (pushed.1, pushed.2.seq (Completion.returned promise))

/-- The member `OpenGLRenderer::SendGenBuffer`. -/
def SendGenBuffer (r : OpenGLRenderer) (self : ThreadId) (released : List ReleasedHandle) :
    OpenGLRenderer × Completion PromiseId :=
  SendWithPromise r fun r1 promise =>
    PushResourceInstruction r1 self (ToInstruction (OpCodeParams.GenBuffer promise) released)

/-- The member `OpenGLRenderer::SendDeleteBuffer`. -/
def SendDeleteBuffer (r : OpenGLRenderer) (self : ThreadId) (buffer : GLuint) :
    OpenGLRenderer × Completion Unit :=
  PushResourceInstruction r self (ToInstruction (OpCodeParams.DeleteBuffer buffer) [])

/-- The member `OpenGLRenderer::SendBufferData`. -/
def SendBufferData (r : OpenGLRenderer) (self : ThreadId)
    (instructionHandler : OpenGLInstructionHandler) (bufferHandle : GLuint) (target size : Nat)
    (dataHandle usage : Nat) (released : List ReleasedHandle) :
    OpenGLRenderer × Completion PromiseId :=
  SendWithPromise r fun r1 promise =>
    PushInstruction r1 self instructionHandler
      (ToInstruction (OpCodeParams.BufferData promise bufferHandle target size dataHandle usage)
        released)

/-- The member `OpenGLRenderer::SendGenVertexArray`. -/
def SendGenVertexArray (r : OpenGLRenderer) (self : ThreadId)
    (released : List ReleasedHandle) : OpenGLRenderer × Completion PromiseId :=
  SendWithPromise r fun r1 promise =>
    PushRenderingInstruction r1 self
      (ToInstruction (OpCodeParams.GenVertexArray promise) released)

/-- The member `OpenGLRenderer::SendSetVertexArrayLayout`. -/
def SendSetVertexArrayLayout (r : OpenGLRenderer) (self : ThreadId)
    (vertexArrayHandle : GLuint) (format : List (VertexAttributeName × VertexAttribute))
    (attributeBuffers : List (VertexAttributeName × GLuint)) (indexBuffer : Option GLuint)
    (released : List ReleasedHandle) : OpenGLRenderer × Completion PromiseId :=
  SendWithPromise r fun r1 promise =>
    PushRenderingInstruction r1 self
      (ToInstruction
        (OpCodeParams.SetVertexArrayLayout promise vertexArrayHandle format attributeBuffers
          indexBuffer)
        released)

/-- The member `OpenGLRenderer::SendGenShader`. -/
def SendGenShader (r : OpenGLRenderer) (self : ThreadId) (shaderType : Nat)
    (released : List ReleasedHandle) : OpenGLRenderer × Completion PromiseId :=
  SendWithPromise r fun r1 promise =>
    PushResourceInstruction r1 self
      (ToInstruction (OpCodeParams.GenShader promise shaderType) released)

/-- The member `OpenGLRenderer::SendDeleteShader`. -/
def SendDeleteShader (r : OpenGLRenderer) (self : ThreadId) (shader : GLuint) :
    OpenGLRenderer × Completion Unit :=
  PushResourceInstruction r self (ToInstruction (OpCodeParams.DeleteShader shader) [])

/-- The member `OpenGLRenderer::SendCompileShader`. -/
def SendCompileShader (r : OpenGLRenderer) (self : ThreadId) (shaderHandle : GLuint)
    (shaderSource : Nat) (released : List ReleasedHandle) :
    OpenGLRenderer × Completion PromiseId :=
  SendWithPromise r fun r1 promise =>
    PushResourceInstruction r1 self
      (ToInstruction (OpCodeParams.CompileShader promise shaderHandle shaderSource) released)

/-- The member `OpenGLRenderer::SendGetShaderStatus`. -/
def SendGetShaderStatus (r : OpenGLRenderer) (self : ThreadId) (shader : GLuint)
    (released : List ReleasedHandle) : OpenGLRenderer × Completion PromiseId :=
  SendWithPromise r fun r1 promise =>
    PushResourceInstruction r1 self
      (ToInstruction (OpCodeParams.ShaderStatus promise shader) released)

/-- The member `OpenGLRenderer::SendGenShaderProgram`. -/
def SendGenShaderProgram (r : OpenGLRenderer) (self : ThreadId)
    (released : List ReleasedHandle) : OpenGLRenderer × Completion PromiseId :=
  SendWithPromise r fun r1 promise =>
    PushResourceInstruction r1 self
      (ToInstruction (OpCodeParams.GenShaderProgram promise) released)

/-- The member `OpenGLRenderer::SendDeleteShaderProgram`. -/
def SendDeleteShaderProgram (r : OpenGLRenderer) (self : ThreadId) (program : GLuint) :
    OpenGLRenderer × Completion Unit :=
  PushResourceInstruction r self (ToInstruction (OpCodeParams.DeleteShaderProgram program) [])

/-- The member `OpenGLRenderer::SendLinkProgram`. -/
def SendLinkProgram (r : OpenGLRenderer) (self : ThreadId) (programHandle : GLuint)
    (vertexShaderHandle fragmentShaderHandle : GLuint) (released : List ReleasedHandle) :
    OpenGLRenderer × Completion PromiseId :=
  SendWithPromise r fun r1 promise =>
    PushResourceInstruction r1 self
      (ToInstruction
        (OpCodeParams.LinkShaderProgram promise programHandle vertexShaderHandle
          fragmentShaderHandle)
        released)

/-- The member `OpenGLRenderer::SendGetProgramStatus`. -/
def SendGetProgramStatus (r : OpenGLRenderer) (self : ThreadId) (program : GLuint)
    (released : List ReleasedHandle) : OpenGLRenderer × Completion PromiseId :=
  SendWithPromise r fun r1 promise =>
    PushResourceInstruction r1 self
      (ToInstruction (OpCodeParams.ShaderProgramStatus promise program) released)

/-- The member `OpenGLRenderer::SendDrawVertexArray`. -/
def SendDrawVertexArray (r : OpenGLRenderer) (self : ThreadId) (vertexArray program : GLuint)
    (uniforms renderState mode firstVertexIndex vertexCount : Nat) (isIndexed : Bool)
    (indexType : Nat) (released : List ReleasedHandle) : OpenGLRenderer × Completion Unit :=
  PushInstruction r self OpenGLInstructionHandler.RenderingInstructionHandler
    (ToInstruction
      (OpCodeParams.DrawVertexArray vertexArray program uniforms renderState mode
        firstVertexIndex vertexCount isIndexed indexType)
      released)

def GL_COLOR_BUFFER_BIT : Nat := 0x4000

def GL_DEPTH_BUFFER_BIT : Nat := 0x100

def GL_STENCIL_BUFFER_BIT : Nat := 0x400

/-- The member `OpenGLRenderer::Clear`. -/
def Clear (r : OpenGLRenderer) (self : ThreadId) (color depth stencil : Bool) :
    OpenGLRenderer × Completion Unit :=
  PushRenderingInstruction r self
    (ToInstruction
      (OpCodeParams.Clear
        ((if color then GL_COLOR_BUFFER_BIT else 0) ||| (if depth then GL_DEPTH_BUFFER_BIT else 0)
          ||| (if stencil then GL_STENCIL_BUFFER_BIT else 0)))
      [])

/-- The member `OpenGLRenderer::SwapBuffers`. The lock it takes on the recursive
write-index mutex is not part of the state. -/
def SwapBuffers (r : OpenGLRenderer) (self : ThreadId) : OpenGLRenderer × Completion Unit :=
  andThen (SendSwapBuffers r self) fun r1 => SwapRenderingInstructionQueues r1 self

/-- The buffer `b'` is `b` with at most `n` instructions appended, none of which
owns a handle. -/
structure BufferGrows (n : Nat) (b b' : OpenGLInstructionLinearBuffer) : Prop where
  capacity : b'.Capacity = b.Capacity
  readHead : b'.ReadHead = b.ReadHead
  appended : ∃ added, b'.Instructions = b.Instructions ++ added ∧ added.length ≤ n ∧
    ∀ x ∈ added, x.Released = []

/-- What the destruction of at most `n` handles can have changed between the
states `r` and `r'`. -/
structure Destroyed (n : Nat) (r r' : OpenGLRenderer) : Prop where
  mode : r'.mRenderingMode = r.mRenderingMode
  thread : r'.mRenderingThread = r.mRenderingThread
  index : r'.mCurrentWriteBufferIndex = r.mCurrentWriteBufferIndex
  producer : r'.mInstructionProducerMutex = r.mInstructionProducerMutex
  consumer : r'.mInstructionConsumerMutex = r.mInstructionConsumerMutex
  promises : r'.PromisesMade = r.PromisesMade
  rendering : r'.RenderingExecuted = r.RenderingExecuted
  grows : ∀ j, BufferGrows n (r.buffer j) (r'.buffer j)
  effects : ∃ e, r'.Effects = r.Effects ++ e
  resource : ∃ x, r'.ResourceExecuted = r.ResourceExecuted ++ x
  synchronous : r.mRenderingMode = RenderingMode.Synchronous →
    r'.mInstructionBuffer = r.mInstructionBuffer ∧
    r'.mConsumerSemaphore = r.mConsumerSemaphore ∧
    r'.buffer r.mCurrentWriteBufferIndex = r.buffer r.mCurrentWriteBufferIndex

/-- The call came to an end: it returned or raised, and is neither suspended nor
cut short by a bound. -/
def Completion.Ended {α : Type} (c : Completion α) : Prop :=
  (∃ a, c = Completion.returned a) ∨ ∃ e, c = Completion.raised e

/-- The instructions of a list up to and including the first Quit (the whole list
when it holds no Quit). -/
def ThroughFirstQuit : List OpenGLInstruction → List OpenGLInstruction
  | [] => []
  | inst :: rest =>
    if inst.OpCode = OpenGLOpCode.Quit then [inst] else inst :: ThroughFirstQuit rest

/-- The promise that a parameter block carries, when it carries one. -/
def OpCodeParams.Promise : OpCodeParams → Option PromiseId
  | .GenBuffer promise => some promise
  | .BufferData promise _ _ _ _ _ => some promise
  | .GenVertexArray promise => some promise
  | .SetVertexArrayLayout promise _ _ _ _ => some promise
  | .GenShader promise _ => some promise
  | .CompileShader promise _ _ => some promise
  | .ShaderStatus promise _ => some promise
  | .GenShaderProgram promise => some promise
  | .LinkShaderProgram promise _ _ _ => some promise
  | .ShaderProgramStatus promise _ => some promise
  | _ => none

/-- Between the states `r` and `r'` an instruction carrying `promise` was passed
to a handler and the promise was fulfilled. -/
def FulfilledBetween (r r' : OpenGLRenderer) (promise : PromiseId) : Prop :=
  (∃ inst, inst.Params.Promise = some promise ∧
    (inst ∈ r'.ResourceExecuted.drop r.ResourceExecuted.length ∨
      inst ∈ r'.RenderingExecuted.drop r.RenderingExecuted.length)) ∧
  Effect.set_value promise ∈ r'.Effects.drop r.Effects.length

/-- Between the states `r` and `r'` no handler ran: nothing was executed and no
promise was fulfilled. -/
def NothingExecutedBetween (r r' : OpenGLRenderer) : Prop :=
  r'.ResourceExecuted = r.ResourceExecuted ∧ r'.RenderingExecuted = r.RenderingExecuted ∧
    r'.Effects = r.Effects

/-- The table of the queue that handles each opcode, read off the two handlers:
the opcodes with a case in `HandleRenderingInstruction` and the frame
instructions `Clear` and `SwapBuffers` go to the rendering queue, the opcodes
with a case in `HandleResourceInstruction` to the resource queue. `BufferData`
and `Quit` are handled alike by both and are listed under the rendering
queue. -/
def FixedQueue : OpenGLOpCode → OpenGLInstructionHandler
  | .GenVertexArray => .RenderingInstructionHandler
  | .DeleteVertexArray => .RenderingInstructionHandler
  | .SetVertexArrayLayout => .RenderingInstructionHandler
  | .DrawVertexArray => .RenderingInstructionHandler
  | .Clear => .RenderingInstructionHandler
  | .SwapBuffers => .RenderingInstructionHandler
  | .BufferData => .RenderingInstructionHandler
  | .Quit => .RenderingInstructionHandler
  | _ => .ResourceInstructionHandler

/-- A renderer in Synchronous mode as its constructor leaves it, with room for
64 words in each queue. -/
def freshSynchronous : OpenGLRenderer :=
  OpenGLRenderer.create RenderingMode.Synchronous 64 64 1 2

/-- A renderer in Asynchronous mode as its constructor leaves it, with room for
64 words in each queue, rendering thread 1 and resource thread 2. -/
def freshAsynchronous : OpenGLRenderer :=
  OpenGLRenderer.create RenderingMode.Asynchronous 64 64 1 2

/-- The instruction of `Clear(true, false, false)`. -/
def clearColor : OpenGLInstruction :=
  ToInstruction (OpCodeParams.Clear GL_COLOR_BUFFER_BIT) []

/-- The instruction of `SendGenBuffer` that carries promise 0. -/
def genBufferZero : OpenGLInstruction :=
  ToInstruction (OpCodeParams.GenBuffer 0) []

/-- In Synchronous mode, whenever the operation returns a future its instruction
has been passed to a handler and its promise fulfilled during the call. -/
def FulfilsBeforeReturning (send : OpenGLRenderer → OpenGLRenderer × Completion PromiseId) :
    Prop :=
  ∀ r : OpenGLRenderer, r.mRenderingMode = RenderingMode.Synchronous →
    ∀ promise, (send r).2 = Completion.returned promise →
      FulfilledBetween r (send r).1 promise

/-- In Synchronous mode the operation runs no handler: during the call nothing is
executed and no promise is fulfilled. -/
def OnlyQueues (send : OpenGLRenderer → OpenGLRenderer × Completion PromiseId) : Prop :=
  ∀ r : OpenGLRenderer, r.mRenderingMode = RenderingMode.Synchronous →
    NothingExecutedBetween r (send r).1

/-- The instruction of `SendQuit`. -/
def quitInstruction : OpenGLInstruction :=
  ToInstruction OpCodeParams.Quit []

/-- The `BufferData` instruction that `SendBufferData` builds on a fresh renderer
for buffer 5, target 0, size 3, data 9 and usage 0; it carries promise 0. -/
def bufferDataZero : OpenGLInstruction :=
  ToInstruction (OpCodeParams.BufferData 0 5 0 3 9 0) []

/-- The instruction of `SendGenVertexArray` on a fresh renderer (promise 0) whose
future the caller has dropped: the promise is then the only owner of the vertex
array handle that the instruction creates (token 7), and the handle is destroyed
with the parameter block. -/
def genVertexArrayDropped : OpenGLInstruction :=
  ToInstruction (OpCodeParams.GenVertexArray 0) [⟨HandleKind.VertexArray, 7⟩]

/-- Every attribute that the attribute-buffer map names is an attribute of the
vertex format. -/
def NamesOnlyFormatAttributes (format : List (VertexAttributeName × VertexAttribute))
    (attributeBuffers : List (VertexAttributeName × GLuint)) : Prop :=
  ∀ pair ∈ attributeBuffers, AttributesAt format pair.1 ≠ none

/-- The dependents that the `SetVertexArrayLayout` case collects: every attribute
buffer of the map, in map order, then the index buffer when it is valid. -/
def LayoutDependents (attributeBuffers : List (VertexAttributeName × GLuint))
    (indexBuffer : Option GLuint) : List GLuint :=
  attributeBuffers.map Prod.snd ++ indexBuffer.toList

/-- Modelled from the spec: `RenderObjectNode` of renderobjectnode.hpp is not among
the sources. The part of a scene graph node that `CameraNode` touches: the render
object attached to the node, a shared pointer, `none` when null. -/
structure RenderObjectNode where
  mRenderObject : Option Nat
  deriving DecidableEq

/-- Modelled from the spec: `RenderObjectNode::SetRenderObject` of
renderobjectnode.hpp, which is not among the sources: attaches the render object
to the node. -/
def RenderObjectNode.SetRenderObject (node : RenderObjectNode) (renderObject : Option Nat) :
    RenderObjectNode :=
  { node with mRenderObject := renderObject }

/-- The class `CameraNode`: the `RenderObjectNode` it derives from, and its own
members. A shared pointer to a camera is the identity of the camera, `none` when
null; as a camera is a render object the same identity serves for both. The
projection matrix and the clipping distances, which the operations embedded here
neither read nor write, are one value `mProjection`. -/
structure CameraNode where
  base : RenderObjectNode
  mCamera : Option Nat
  mProjection : Nat
  mViewport : Int × Int × Int × Int
  deriving DecidableEq

/-- The member `CameraNode::GetCamera`. -/
def CameraNode.GetCamera (node : CameraNode) : Option Nat :=
  node.mCamera

/-- The member `CameraNode::SetCamera`: stores the camera and calls the
`SetRenderObject` of the base class, by its qualified name. -/
def CameraNode.SetCamera (node : CameraNode) (camera : Option Nat) :
    CameraNode × Completion Unit :=
  ({ node with mCamera := camera, base := node.base.SetRenderObject camera },
   Completion.returned ())

/-- The override `CameraNode::SetRenderObject`: throws `std::logic_error`. -/
def CameraNode.SetRenderObject (node : CameraNode) (_renderObject : Option Nat) :
    CameraNode × Completion Unit :=
  (node, Completion.raised Raised.logic_error)

/-- A camera node whose camera is camera 1, with a viewport of 640 by 480. -/
def sampleCameraNode : CameraNode :=
  { base := { mRenderObject := some 1 }, mCamera := some 1, mProjection := 0,
    mViewport := (0, 0, 640, 480) }

/-- The list of effects registers `dependents` as dependents of `handle` and
later fulfils `promise`, and does nothing else than calls of the graphics API. -/
def RegistersBeforeFulfilling (effects : List Effect) (handle : GLuint)
    (dependents : List GLuint) (promise : PromiseId) : Prop :=
  ∃ before between,
    effects = before ++ Effect.AddDependents handle dependents :: between
      ++ [Effect.set_value promise] ∧
    ∀ e ∈ before ++ between, ∃ f args, e = Effect.gl f args

/-- Where the rendering thread stands in `OpenGLRenderingThreadEntry`: about to
lock the consumer mutex of the buffer it consumes next (the constructor of
`ConsumptionScope`), inside the scope draining that buffer, returned after a
Quit, or ended by an exception that left the handler. -/
inductive RenderingThreadState
  | Waiting (bufferToConsumeFrom : Bool)
  | Draining (bufferToConsumeFrom : Bool)
  | Returned
  | Terminated
  deriving DecidableEq

/-- Where the resource thread stands in `OpenGLResourceThreadEntry`. -/
inductive ResourceThreadState
  | Running
  | Returned
  | Terminated
  deriving DecidableEq

/-- The constructor of `ConsumptionScope` for buffer `b`: locks its consumer
mutex; `none` while the mutex is held. -/
def ConsumptionScopeEnter (r : OpenGLRenderer) (b : Bool) : Option OpenGLRenderer :=
  if at2 r.mInstructionConsumerMutex b then none
  else some { r with mInstructionConsumerMutex := set2 r.mInstructionConsumerMutex b true }

/-- The destructor of `ConsumptionScope` for buffer `b`: resets the buffer and
unlocks its producer mutex. -/
def ConsumptionScopeExit (r : OpenGLRenderer) (b : Bool) : OpenGLRenderer :=
  { (r.setBuffer b (r.buffer b).Reset) with
    mInstructionProducerMutex := set2 r.mInstructionProducerMutex b false }

/-- One iteration of the loop of `OpenGLResourceThreadEntry`, run by thread `self`:
waits on the semaphore (`blocked` while it is down), pops one instruction and
handles it. The result of the pop is not tested in the source: when the buffer
is empty the handler is given `uninitialised`, the instruction object that was
constructed with `NoInitTag`. -/
def OpenGLResourceThreadIteration (r : OpenGLRenderer) (self : ThreadId)
    (uninitialised : OpenGLInstruction) :
    OpenGLRenderer × Completion InstructionHandlerResponse :=
  if r.mConsumerSemaphore = 0 then (r, Completion.blocked)
  else
    let r1 := { r with mConsumerSemaphore := r.mConsumerSemaphore - 1 }
    match r1.mInstructionBuffer.PopInstruction with
    | none => HandleResourceInstruction r1 self uninitialised
    | some (inst, b) => HandleResourceInstruction { r1 with mInstructionBuffer := b } self inst

/-- The destructor `OpenGLRenderer::~OpenGLRenderer` in Asynchronous mode, one
statement at a time, so that the steps of the two threads can come in between:
step `pc` applied to the state, `none` while the step is suspended (a mutex is
held, the semaphore is up), when it raises, and past the last statement before
the joins. Steps: 0 unlocks the consumer mutex of the current write buffer; 1
locks and unlocks its producer mutex; 2 and 4 are the two queue swaps; 3 and 5
wait until the semaphore is down; 6 sends Quit to the rendering queue; 7 unlocks
both consumer mutexes; 8 sends Quit to the resource queue; 9 posts the
semaphore. -/
def DestructorStep (pc : Nat) (r : OpenGLRenderer) (self : ThreadId) : Option OpenGLRenderer :=
  let proceed (step : OpenGLRenderer × Completion Unit) : Option OpenGLRenderer :=
    match step with
    | (r1, Completion.returned _) => some r1
    | _ => none
  match pc with
  | 0 =>
    let unlocked := set2 r.mInstructionConsumerMutex r.mCurrentWriteBufferIndex false
    some { r with mInstructionConsumerMutex := unlocked }
  | 1 => if at2 r.mInstructionProducerMutex r.mCurrentWriteBufferIndex then none else some r
  | 2 => proceed (SwapRenderingInstructionQueues r self)
  | 3 => proceed (DestructorWaitResourceQueue r)
  | 4 => proceed (SwapRenderingInstructionQueues r self)
  | 5 => proceed (DestructorWaitResourceQueue r)
  | 6 => proceed (SendQuit r self OpenGLInstructionHandler.RenderingInstructionHandler)
  | 7 => some { r with mInstructionConsumerMutex := (false, false) }
  | 8 => proceed (SendQuit r self OpenGLInstructionHandler.ResourceInstructionHandler)
  | 9 => some { r with mConsumerSemaphore := r.mConsumerSemaphore + 1 }
  | _ => none

/-- A renderer in Asynchronous mode together with its two threads and the
caller: the state of the renderer, where each thread stands, how many calls of
`SwapRenderingInstructionQueues` have returned, how many drains the rendering
thread has completed, and how many statements of the destructor have run (0
while the renderer is in use). -/
structure Execution where
  renderer : OpenGLRenderer
  renderingThread : RenderingThreadState
  resourceThread : ResourceThreadState
  swapsReturned : Nat
  drainsCompleted : Nat
  destructor : Nat
  deriving DecidableEq

/-- What can happen next in an execution: a call by a caller thread (a push to
either queue, a queue swap, the next statement of the destructor) or a step of
one of the two threads. -/
inductive Action
  | PushRenderingInstruction (caller : ThreadId) (inst : OpenGLInstruction)
  | PushResourceInstruction (caller : ThreadId) (inst : OpenGLInstruction)
  | SwapRenderingInstructionQueues (caller : ThreadId)
  | RenderingThreadEnters
  | RenderingThreadDrains
  | ResourceThreadIterates (uninitialised : OpenGLInstruction)
  | Destructor (caller : ThreadId)
  deriving DecidableEq

/-- The action is a statement of the destructor. -/
def Action.IsDestructor : Action → Bool
  | .Destructor _ => true
  | _ => false

/-- The execution that starts when the constructor has returned: the rendering
thread is about to wait for buffer `InitialWriteBufferIndex` (its
`bufferToConsumeFrom` starts as the other index and is negated at the top of the
loop), nothing has been swapped or drained. -/
def Execution.start (r : OpenGLRenderer) : Execution :=
  { renderer := r
    renderingThread := RenderingThreadState.Waiting false
    resourceThread := ResourceThreadState.Running
    swapsReturned := 0
    drainsCompleted := 0
    destructor := 0 }

/-- The step of the rendering thread that drains the buffer it holds: the inner
loop of `OpenGLRenderingThreadEntry` followed by the destructor of the
`ConsumptionScope`, after which the thread returns when the response is Quit and
goes on to the other buffer otherwise. An exception that leaves the handler is
not caught in the thread: the thread ends there. -/
def Execution.drain (s : Execution) (b : Bool) : Execution :=
  let self := s.renderer.mRenderingThread.getD 0
  let drained :=
    RenderingThreadDrain (DrainBound (s.renderer.buffer b)) s.renderer self b
      InstructionHandlerResponse.Continue
  match drained.2 with
  | Completion.returned response =>
    { s with
      renderer := ConsumptionScopeExit drained.1 b
      renderingThread :=
        if response = InstructionHandlerResponse.Quit then RenderingThreadState.Returned
        else RenderingThreadState.Waiting (!b)
      drainsCompleted := s.drainsCompleted + 1 }
  | _ => { s with renderer := drained.1, renderingThread := RenderingThreadState.Terminated }

/-- One action applied to an execution; `none` when the action cannot be taken
in that state: the call or the thread is suspended, the thread has returned, or
the caller uses a renderer whose destructor has started. -/
def Execution.step (s : Execution) : Action → Option Execution
  | .PushRenderingInstruction caller inst =>
    if s.destructor = 0 then
      some { s with renderer := (PushRenderingInstruction s.renderer caller inst).1 }
    else none
  | .PushResourceInstruction caller inst =>
    if s.destructor = 0 then
      some { s with renderer := (PushResourceInstruction s.renderer caller inst).1 }
    else none
  | .SwapRenderingInstructionQueues caller =>
    if s.destructor = 0 then
      match SwapRenderingInstructionQueues s.renderer caller with
      | (r, Completion.returned _) =>
        some { s with renderer := r, swapsReturned := s.swapsReturned + 1 }
      | _ => none
    else none
  | .RenderingThreadEnters =>
    match s.renderingThread with
    | RenderingThreadState.Waiting b =>
      match ConsumptionScopeEnter s.renderer b with
      | some r => some { s with renderer := r, renderingThread := RenderingThreadState.Draining b }
      | none => none
    | _ => none
  | .RenderingThreadDrains =>
    match s.renderingThread with
    | RenderingThreadState.Draining b => some (s.drain b)
    | _ => none
  | .ResourceThreadIterates uninitialised =>
    if s.resourceThread = ResourceThreadState.Running then
      match OpenGLResourceThreadIteration s.renderer (s.renderer.mResourceThread.getD 0)
          uninitialised with
      | (r, Completion.returned response) =>
        some { s with
          renderer := r
          resourceThread :=
            if response = InstructionHandlerResponse.Quit then ResourceThreadState.Returned
            else ResourceThreadState.Running }
      | (_, Completion.blocked) => none
      | (r, _) => some { s with renderer := r, resourceThread := ResourceThreadState.Terminated }
    else none
  | .Destructor caller =>
    match DestructorStep s.destructor s.renderer caller with
    | some r =>
      some { s with
        renderer := r
        destructor := s.destructor + 1
        swapsReturned :=
          if s.destructor = 2 ∨ s.destructor = 4 then s.swapsReturned + 1 else s.swapsReturned }
    | none => none

/-- The actions of a list applied one after the other; `none` as soon as one of
them cannot be taken. -/
def Execution.run : Execution → List Action → Option Execution
  | s, [] => some s
  | s, action :: rest =>
    match s.step action with
    | some next => next.run rest
    | none => none

/-- What no push and no handler changes between the states `r` and `r'`: the mode,
the ids of the two threads, the write index, the four mutexes, and the
difference between the semaphore count and the number of instructions in the
resource ring buffer (every push to that buffer is followed by one post). -/
structure Kept (r r' : OpenGLRenderer) : Prop where
  mode : r'.mRenderingMode = r.mRenderingMode
  thread : r'.mRenderingThread = r.mRenderingThread
  resource : r'.mResourceThread = r.mResourceThread
  index : r'.mCurrentWriteBufferIndex = r.mCurrentWriteBufferIndex
  producer : r'.mInstructionProducerMutex = r.mInstructionProducerMutex
  consumer : r'.mInstructionConsumerMutex = r.mInstructionConsumerMutex
  backlog : r'.mConsumerSemaphore + r.mInstructionBuffer.Instructions.length
    = r.mConsumerSemaphore + r'.mInstructionBuffer.Instructions.length

/-- The invariant of the lock protocol while the renderer is in use, with `S`
swaps returned and `D` drains completed: the consumer is at most one swap
behind; the producer mutex of the write buffer is held, that of the other buffer
exactly while the consumer is behind; the rendering thread drains only the
buffer that is not the write buffer; and the semaphore counts the instructions
in the resource ring buffer. -/
structure Protocol (s : Execution) : Prop where
  mode : s.renderer.mRenderingMode = RenderingMode.Asynchronous
  inUse : s.destructor = 0
  behind : s.drainsCompleted ≤ s.swapsReturned
  ahead : s.swapsReturned ≤ s.drainsCompleted + 1
  producerCurrent :
    at2 s.renderer.mInstructionProducerMutex s.renderer.mCurrentWriteBufferIndex = true
  producerOther :
    at2 s.renderer.mInstructionProducerMutex (!s.renderer.mCurrentWriteBufferIndex) = true ↔
      s.swapsReturned = s.drainsCompleted + 1
  consumerCurrent :
    at2 s.renderer.mInstructionConsumerMutex s.renderer.mCurrentWriteBufferIndex = true
  consumerOther : s.swapsReturned = s.drainsCompleted →
    at2 s.renderer.mInstructionConsumerMutex (!s.renderer.mCurrentWriteBufferIndex) = true
  draining : ∀ b, s.renderingThread = RenderingThreadState.Draining b →
    b = (!s.renderer.mCurrentWriteBufferIndex) ∧ s.swapsReturned = s.drainsCompleted + 1 ∧
      at2 s.renderer.mInstructionConsumerMutex b = true
  waiting : ∀ b, s.renderingThread = RenderingThreadState.Waiting b →
    (s.swapsReturned = s.drainsCompleted → b = s.renderer.mCurrentWriteBufferIndex) ∧
    (s.swapsReturned = s.drainsCompleted + 1 → b = !s.renderer.mCurrentWriteBufferIndex)
  backlog :
    s.renderer.mConsumerSemaphore = s.renderer.mInstructionBuffer.Instructions.length

/-- The execution reached by the actions of a list, the execution itself when
one of them cannot be taken. -/
def Execution.after (s : Execution) (actions : List Action) : Execution :=
  (s.run actions).getD s

/-- A renderer in Synchronous mode as its constructor leaves it, whose rendering
buffers have room for two words each: one `Clear` instruction. -/
def smallSynchronous : OpenGLRenderer :=
  OpenGLRenderer.create RenderingMode.Synchronous 2 64 1 2

/-- A renderer in Asynchronous mode as its constructor leaves it, whose rendering
buffers have room for two words each: one `Clear` instruction. -/
def smallAsynchronous : OpenGLRenderer :=
  OpenGLRenderer.create RenderingMode.Asynchronous 2 64 1 2

/-- The instruction of `SendSwapBuffers`. -/
def swapBuffersInstruction : OpenGLInstruction :=
  ToInstruction OpCodeParams.SwapBuffers []

/-- One frame of an Asynchronous renderer: the caller (thread 0) pushes a `Clear`
and swaps the queues, then the rendering thread takes the buffer handed over
and drains it. -/
def oneFrame : List Action :=
  [Action.PushRenderingInstruction 0 clearColor, Action.SwapRenderingInstructionQueues 0,
   Action.RenderingThreadEnters, Action.RenderingThreadDrains]

/-- The destructor of an Asynchronous renderer, called by thread 0 while the
rendering thread waits for the current write buffer, up to the joins, with the
rendering thread scheduled as the comments of the destructor expect: after the
first statement the rendering thread drains the current write buffer, then the
destructor runs its remaining statements. -/
def destructorRun : List Action :=
  [Action.Destructor 0, Action.RenderingThreadEnters, Action.RenderingThreadDrains,
   Action.Destructor 0, Action.Destructor 0, Action.Destructor 0, Action.Destructor 0,
   Action.Destructor 0, Action.Destructor 0, Action.Destructor 0, Action.Destructor 0,
   Action.Destructor 0]

/-- The destructor of an Asynchronous renderer that was never used, called by
thread 0, up to the statement that sends Quit to the rendering queue, with the
rendering thread scheduled between the statements so that it holds the current
write buffer for draining when that statement runs. -/
def destructorRace : List Action :=
  [Action.Destructor 0, Action.RenderingThreadEnters, Action.RenderingThreadDrains,
   Action.Destructor 0, Action.Destructor 0, Action.Destructor 0, Action.Destructor 0,
   Action.RenderingThreadEnters, Action.RenderingThreadDrains, Action.RenderingThreadEnters,
   Action.Destructor 0, Action.Destructor 0]

/-- The steps of the two threads after `destructorRun`, while the destructor
waits in its joins: the rendering thread drains the two buffers it is given and
the resource thread takes one instruction. -/
def threadsFinish : List Action :=
  [Action.RenderingThreadEnters, Action.RenderingThreadDrains, Action.RenderingThreadEnters,
   Action.RenderingThreadDrains, Action.ResourceThreadIterates quitInstruction]

/-! ## The Catmull-Rom spline (catmullromspline.hpp) -/

/-- The type `vec<T,3>`: its three components. -/
abbrev Vec3 (T : Type) := T × T × T

/-- Componentwise sum of two vectors (`operator+`). -/
def Vec3.add {T : Type} [Add T] (a b : Vec3 T) : Vec3 T :=
  (a.1 + b.1, a.2.1 + b.2.1, a.2.2 + b.2.2)

/-- Componentwise difference of two vectors (`operator-`). -/
def Vec3.sub {T : Type} [Sub T] (a b : Vec3 T) : Vec3 T :=
  (a.1 - b.1, a.2.1 - b.2.1, a.2.2 - b.2.2)

/-- The opposite of a vector (unary `operator-`). -/
def Vec3.neg {T : Type} [Neg T] (a : Vec3 T) : Vec3 T :=
  (-a.1, -a.2.1, -a.2.2)

/-- A scalar times a vector (`T(k) * v`). -/
def Vec3.scale {T : Type} [Mul T] (k : T) (a : Vec3 T) : Vec3 T :=
  (k * a.1, k * a.2.1, k * a.2.2)

/-- A vector times a scalar (`v * t`). -/
def Vec3.times {T : Type} [Mul T] (a : Vec3 T) (t : T) : Vec3 T :=
  (a.1 * t, a.2.1 * t, a.2.2 * t)

/-- A vector divided by a scalar (`v / T(2)`). -/
def Vec3.over {T : Type} [Div T] (a : Vec3 T) (k : T) : Vec3 T :=
  (a.1 / k, a.2.1 / k, a.2.2 / k)

/-- The element `ControlPoints[i]`. `operator[]` of `std::vector` is not checked;
a read past the end, which C++ leaves undefined, is the zero vector here. -/
def ControlPointAt {T : Type} [Zero T] (ControlPoints : List (Vec3 T)) (i : Nat) : Vec3 T :=
  ControlPoints.getD i (0, 0, 0)

/-- The member `CatmullRomSpline::ValidateSegment`. The sizes are `std::size_t`;
the difference `ControlPoints.size() - 4` is only computed when the size is at
least 4, so it does not wrap. -/
def ValidateSegment {T : Type} (ControlPoints : List (Vec3 T)) (segmentIndex : Nat) :
    Completion Unit :=
  if ControlPoints.length < 4 then Completion.raised Raised.logic_error
  else if segmentIndex > ControlPoints.length - 4 then Completion.raised Raised.logic_error
  else Completion.returned ()

/-- The member `CatmullRomSpline::CalculatePoint`, over a field `T` of exact
numbers. -/
def CalculatePoint {T : Type} [Field T] (ControlPoints : List (Vec3 T)) (segmentIndex : Nat)
    (t : T) : Completion (Vec3 T) :=
  match ValidateSegment ControlPoints segmentIndex with
  | Completion.returned _ =>
    let P := ControlPointAt ControlPoints
    Completion.returned
      (Vec3.over
        (Vec3.add
          (Vec3.add
            (Vec3.add
              (Vec3.scale 2 (P (segmentIndex + 1)))
              (Vec3.times (Vec3.add (Vec3.neg (P segmentIndex)) (P (segmentIndex + 2))) t))
            (Vec3.times
              (Vec3.times
                (Vec3.sub
                  (Vec3.add
                    (Vec3.sub (Vec3.scale 2 (P segmentIndex)) (Vec3.scale 5 (P (segmentIndex + 1))))
                    (Vec3.scale 4 (P (segmentIndex + 2))))
                  (P (segmentIndex + 3)))
                t)
              t))
          (Vec3.times
            (Vec3.times
              (Vec3.times
                (Vec3.add
                  (Vec3.sub
                    (Vec3.add (Vec3.neg (P segmentIndex)) (Vec3.scale 3 (P (segmentIndex + 1))))
                    (Vec3.scale 3 (P (segmentIndex + 2))))
                  (P (segmentIndex + 3)))
                t)
              t)
            t))
        2)
  | Completion.raised e => Completion.raised e
  | Completion.blocked => Completion.blocked
  | Completion.unfinished => Completion.unfinished

/-- The member `CatmullRomSpline::CalculateDerivative`, over a field `T` of exact
numbers. -/
def CalculateDerivative {T : Type} [Field T] (ControlPoints : List (Vec3 T))
    (segmentIndex : Nat) (t : T) : Completion (Vec3 T) :=
  match ValidateSegment ControlPoints segmentIndex with
  | Completion.returned _ =>
    let P := ControlPointAt ControlPoints
    Completion.returned
      (Vec3.over
        (Vec3.add
          (Vec3.add
            (Vec3.add (Vec3.neg (P segmentIndex)) (P (segmentIndex + 2)))
            (Vec3.times
              (Vec3.scale 2
                (Vec3.sub
                  (Vec3.add
                    (Vec3.sub (Vec3.scale 2 (P segmentIndex)) (Vec3.scale 5 (P (segmentIndex + 1))))
                    (Vec3.scale 4 (P (segmentIndex + 2))))
                  (P (segmentIndex + 3))))
              t))
          (Vec3.times
            (Vec3.times
              (Vec3.scale 3
                (Vec3.add
                  (Vec3.sub
                    (Vec3.add (Vec3.neg (P segmentIndex)) (Vec3.scale 3 (P (segmentIndex + 1))))
                    (Vec3.scale 3 (P (segmentIndex + 2))))
                  (P (segmentIndex + 3))))
              t)
            t))
        2)
  | Completion.raised e => Completion.raised e
  | Completion.blocked => Completion.blocked
  | Completion.unfinished => Completion.unfinished

/-- The value a call returned, the zero vector when it did not return. -/
def Completion.value {T : Type} [Zero T] : Completion (Vec3 T) → Vec3 T
  | Completion.returned v => v
  | _ => (0, 0, 0)


/-! ## The MD5 loader (md5loader.cpp): the input stream -/

/-- The value of type `int` (32 bits, two's complement) that an integer wraps
to: the result of an `int` addition and of the conversion of a size to `int`. -/
def toInt32 (x : Int) : Int :=
  (x + 2147483648) % 4294967296 - 2147483648

/-- A value of type `float`, read from decimal notation: it stands for
`Mantissa / 10 ^ DecimalPlaces`. The parsers store such values and compare them
only through the library (`FloatLibrary.Greater`). -/
structure Float32 where
  Mantissa : Int
  DecimalPlaces : Nat
  deriving DecidableEq

/-- The float a value-initialised member holds. -/
def Float32.zero : Float32 :=
  { Mantissa := 0, DecimalPlaces := 0 }

/-- The input side of the `std::stringstream` of a parser: the characters not yet
extracted and the two state bits that the parsers can observe. The stream is
`good()` when neither bit is set. -/
structure InputStream where
  Buffer : List Char
  eofbit : Bool
  failbit : Bool
  deriving DecidableEq

/-- The member `good()` of the stream. -/
def InputStream.good (s : InputStream) : Bool :=
  !s.eofbit && !s.failbit

/-- The function `std::isspace` in the "C" locale. -/
def isspace (c : Char) : Bool :=
  c = ' ' || c = '\t' || c = '\n' || c = Char.ofNat 11 || c = Char.ofNat 12 || c = '\r'

/-- The function `std::isdigit`. -/
def isdigit (c : Char) : Bool :=
  48 ≤ c.toNat && c.toNat ≤ 57

/-- The function `std::isalpha` in the "C" locale. -/
def isalpha (c : Char) : Bool :=
  (65 ≤ c.toNat && c.toNat ≤ 90) || (97 ≤ c.toNat && c.toNat ≤ 122)

/-- The function `std::isalnum` in the "C" locale. -/
def isalnum (c : Char) : Bool :=
  isalpha c || isdigit c

/-- The member `peek()` of the stream: the next character, `none` for
`traits_type::eof()`. On a stream that is not good the sentry sets `failbit`; at
the end of the buffer `eofbit` is set. -/
def InputStream.peek (s : InputStream) : Option Char × InputStream :=
  if s.good then
    match s.Buffer with
    | [] => (none, { s with eofbit := true })
    | c :: _ => (some c, s)
  else (none, { s with failbit := true })

/-- The member `get()` of the stream: extracts the next character, `none` for
`traits_type::eof()`. -/
def InputStream.get (s : InputStream) : Option Char × InputStream :=
  if s.good then
    match s.Buffer with
    | [] => (none, { s with eofbit := true, failbit := true })
    | c :: rest => (some c, { s with Buffer := rest })
  else (none, { s with failbit := true })

/-- The sentry of a formatted extraction (`skipws` is set): fails on a stream that
is not good, skips the leading whitespace, and fails at the end of the buffer.
The result tells whether the extraction may go on. -/
def InputStream.sentry (s : InputStream) : Bool × InputStream :=
  if s.good then
    match s.Buffer.dropWhile isspace with
    | [] => (false, { Buffer := [], eofbit := true, failbit := true })
    | c :: rest => (true, { s with Buffer := c :: rest })
  else (false, { s with failbit := true })

/-- The extraction `stream >> ch` of a `char`; the `failbit` of the stream that
results tells whether it failed, and then the character is `default`. -/
def InputStream.extractChar (s : InputStream) : Char × InputStream :=
  match s.sentry with
  | (true, s1) =>
    match s1.Buffer with
    | c :: rest => (c, { s1 with Buffer := rest })
    | [] => (default, { s1 with eofbit := true, failbit := true })
  | (false, s1) => (default, s1)

/-- The extraction `stream >> id` of a `std::string`: the characters up to the
next whitespace or the end of the buffer, where `eofbit` is set. -/
def InputStream.extractString (s : InputStream) : String × InputStream :=
  match s.sentry with
  | (true, s1) =>
    (String.mk (s1.Buffer.takeWhile fun c => !isspace c),
     { s1 with
       Buffer := s1.Buffer.dropWhile fun c => !isspace c
       eofbit := (s1.Buffer.dropWhile fun c => !isspace c).isEmpty })
  | (false, s1) => ("", s1)

/-- The number that a list of decimal digits denotes. -/
def decimalValue (digits : List Char) : Nat :=
  digits.foldl (fun n c => 10 * n + (c.toNat - 48)) 0

/-- The extraction `stream >> i` of an `int`: an optional sign and the decimal
digits that follow. Without a digit the extraction fails with the value 0; a
number outside the range of `int` fails with the nearest `int`. A failed sentry
leaves the variable as it was, which for the fresh variables of the parsers is
taken to be 0. -/
def InputStream.extractInt (s : InputStream) : Int × InputStream :=
  match s.sentry with
  | (true, s1) =>
    let negative := s1.Buffer.head? = some '-'
    let afterSign :=
      if s1.Buffer.head? = some '-' ∨ s1.Buffer.head? = some '+' then s1.Buffer.tail
      else s1.Buffer
    let digits := afterSign.takeWhile isdigit
    let rest := afterSign.dropWhile isdigit
    let value : Int := if negative then -(decimalValue digits : Int) else decimalValue digits
    if digits = [] then
      (0, { Buffer := rest, eofbit := rest.isEmpty, failbit := true })
    else if value > 2147483647 then
      (2147483647, { Buffer := rest, eofbit := rest.isEmpty, failbit := true })
    else if value < -2147483648 then
      (-2147483648, { Buffer := rest, eofbit := rest.isEmpty, failbit := true })
    else
      (value, { Buffer := rest, eofbit := rest.isEmpty, failbit := false })
  | (false, s1) => (0, s1)

/-- What the parsers take from the C++ library for the type `float`: the
extraction `stream >> f` (the `failbit` of the stream that results tells whether
it failed) and the comparison `a > b`. -/
structure FloatLibrary where
  Extract : InputStream → Float32 × InputStream
  Greater : Float32 → Float32 → Bool

/-- A float library for plain decimal notation: an optional sign, digits, and an
optional point followed by digits, with at least one digit. -/
def decimalFloats : FloatLibrary :=
  { Extract := fun s =>
      match s.sentry with
      | (true, s1) =>
        let negative := s1.Buffer.head? = some '-'
        let afterSign :=
          if s1.Buffer.head? = some '-' ∨ s1.Buffer.head? = some '+' then s1.Buffer.tail
          else s1.Buffer
        let whole := afterSign.takeWhile isdigit
        let afterWhole := afterSign.dropWhile isdigit
        let fraction :=
          if afterWhole.head? = some '.' then afterWhole.tail.takeWhile isdigit else []
        let rest :=
          if afterWhole.head? = some '.' then afterWhole.tail.dropWhile isdigit else afterWhole
        if whole = [] ∧ fraction = [] then
          (Float32.zero, { Buffer := rest, eofbit := rest.isEmpty, failbit := true })
        else
          ({ Mantissa :=
               if negative then -(decimalValue (whole ++ fraction) : Int)
               else decimalValue (whole ++ fraction)
             DecimalPlaces := fraction.length },
           { Buffer := rest, eofbit := rest.isEmpty, failbit := false })
      | (false, s1) => (Float32.zero, s1)
    Greater := fun a b =>
      a.Mantissa * 10 ^ b.DecimalPlaces > b.Mantissa * 10 ^ a.DecimalPlaces }

/-! ## The MD5 loader: `MD5ParserBase` -/

/-- The class `MD5ParserBase` together with the members that a derived class
adds: the error string (a reference to the caller's string), the input stream,
and the members of the derived parser. -/
structure MD5ParserBase (Members : Type) where
  mError : String
  mInputStream : InputStream
  members : Members

/-- How an `Accept*` or `Require*` member ends: `none` when a loop has used up
its bound; otherwise the parser after the call with `some` of the outputs when
the member returned `true` and with `none` when it returned `false`. -/
abbrev Accept (σ α : Type) := Option (Option α × σ)

/-- The operator `&&` between two members: the second runs when the first
returned `true`, on the state the first left, with the outputs of the first. -/
def Accept.andThen {σ α β : Type} (first : Accept σ α) (next : α → σ → Accept σ β) :
    Accept σ β :=
  match first with
  | none => none
  | some (none, p) => some (none, p)
  | some (some a, p) => next a p

namespace MD5ParserBase

variable {Members : Type}

/-- The statements `mError = message; return false;`. -/
def Reject {α : Type} (message : String) (p : MD5ParserBase Members) :
    Accept (MD5ParserBase Members) α :=
  some (none, { p with mError := message })

/-- The statement `return true;` with the outputs of the member. -/
def Done {α : Type} (a : α) (p : MD5ParserBase Members) : Accept (MD5ParserBase Members) α :=
  some (some a, p)

/-- The loop of `EatWhitespace`, for at most `bound` characters. -/
def EatWhitespaceLoop : Nat → InputStream → InputStream
  | 0, s => s
  | bound + 1, s =>
    match s.peek with
    | (some c, s1) => if isspace c then EatWhitespaceLoop bound s1.get.2 else s1
    | (none, s1) => s1

/-- The member `EatWhitespace`. The loop extracts one character for each
iteration but the last, so the length of the buffer bounds it. -/
def EatWhitespace (p : MD5ParserBase Members) : MD5ParserBase Members :=
  { p with
    mInputStream := EatWhitespaceLoop (p.mInputStream.Buffer.length + 1) p.mInputStream }

/-- The member `AcceptIdentifier`. The loop over the characters after the first
sets the error for each character that is not alphanumeric and goes on. -/
def AcceptIdentifier (p : MD5ParserBase Members) : Accept (MD5ParserBase Members) String :=
  let extracted := p.mInputStream.extractString
  let p1 := { p with mInputStream := extracted.2 }
  if extracted.2.failbit then Reject "Expected identifier" p1
  else if !isalpha (extracted.1.data.headD default) then
    Reject "Expected identifier (identifiers begin with alpha character)" p1
  else
    Done extracted.1
      (extracted.1.data.tail.foldl
        (fun q c =>
          if !isalnum c then
            { q with
              mError :=
                "Expected identifier (identifiers must be made of alphanumeric characters)" }
          else q)
        p1)

/-- The member `RequireIdentifier`. -/
def RequireIdentifier (required : String) (p : MD5ParserBase Members) :
    Accept (MD5ParserBase Members) Unit :=
  match AcceptIdentifier p with
  | none => none
  | some (none, p1) => Reject ("Expected " ++ required) p1
  | some (some id, p1) =>
    if id ≠ required then Reject ("Expected " ++ required) p1 else Done () p1

/-- The member `AcceptChar`. -/
def AcceptChar (p : MD5ParserBase Members) : Accept (MD5ParserBase Members) Char :=
  let extracted := p.mInputStream.extractChar
  if extracted.2.failbit then Reject "Expected char" { p with mInputStream := extracted.2 }
  else Done extracted.1 { p with mInputStream := extracted.2 }

/-- The member `RequireChar`. -/
def RequireChar (required : Char) (p : MD5ParserBase Members) :
    Accept (MD5ParserBase Members) Unit :=
  match AcceptChar p with
  | none => none
  | some (none, p1) => Reject ("Expected ".push required) p1
  | some (some ch, p1) =>
    if ch ≠ required then Reject ("Expected ".push required) p1 else Done () p1

/-- The loop of `AcceptDoubleQuotedString`, for at most `bound` iterations, with
the string `s` read so far and the flag `escaped`. The character 34 is the
double quote and 92 the backslash; `peek()` at the end of the stream, converted
to `char`, is the character 255. -/
def AcceptDoubleQuotedStringLoop :
    Nat → MD5ParserBase Members → String → Bool → Accept (MD5ParserBase Members) String
  | 0, _, _, _ => none
  | bound + 1, p, s, escaped =>
    let tested := if escaped then (none, p.mInputStream) else p.mInputStream.peek
    if escaped ∨ tested.1 ≠ some (Char.ofNat 34) then
      let peeked : Char := (tested.2.peek.1).getD (Char.ofNat 255)
      let p1 := { p with mInputStream := tested.2.peek.2 }
      if escaped then
        if peeked = Char.ofNat 92 ∨ peeked = Char.ofNat 34 then
          AcceptDoubleQuotedStringLoop bound
            { p1 with mInputStream := p1.mInputStream.get.2 } (s.push peeked) false
        else if peeked = 'n' then
          AcceptDoubleQuotedStringLoop bound
            { p1 with mInputStream := p1.mInputStream.get.2 } (s.push '\n') false
        else if peeked = 't' then
          AcceptDoubleQuotedStringLoop bound
            { p1 with mInputStream := p1.mInputStream.get.2 } (s.push '\t') false
        else if peeked = 'r' then
          AcceptDoubleQuotedStringLoop bound
            { p1 with mInputStream := p1.mInputStream.get.2 } (s.push '\r') false
        else
          Reject ("Unescapable character: ".push peeked) p1
      else if peeked = Char.ofNat 92 then
        AcceptDoubleQuotedStringLoop bound
          { p1 with mInputStream := p1.mInputStream.get.2 } s true
      else
        AcceptDoubleQuotedStringLoop bound
          { p1 with mInputStream := p1.mInputStream.get.2 } (s.push peeked) false
    else
      Done s { p with mInputStream := tested.2 }

/-- The member `AcceptDoubleQuotedString`, its loop run for at most `bound`
iterations. -/
def AcceptDoubleQuotedString (bound : Nat) (p : MD5ParserBase Members) :
    Accept (MD5ParserBase Members) String :=
  (RequireChar (Char.ofNat 34) p).andThen fun _ p1 =>
  (AcceptDoubleQuotedStringLoop bound p1 "" false).andThen fun s p2 =>
  (RequireChar (Char.ofNat 34) p2).andThen fun _ p3 =>
  Done s p3

/-- The member `AcceptInt`. -/
def AcceptInt (p : MD5ParserBase Members) : Accept (MD5ParserBase Members) Int :=
  let extracted := p.mInputStream.extractInt
  if extracted.2.failbit then Reject "Expected int" { p with mInputStream := extracted.2 }
  else Done extracted.1 { p with mInputStream := extracted.2 }

/-- The member `RequireInt`. Its message names the integer read, not the one
required. -/
def RequireInt (required : Int) (p : MD5ParserBase Members) :
    Accept (MD5ParserBase Members) Unit :=
  match AcceptInt p with
  | none => none
  | some (none, p1) =>
    Reject ("Expected " ++ toString p.mInputStream.extractInt.1) p1
  | some (some i, p1) =>
    if i ≠ required then Reject ("Expected " ++ toString i) p1 else Done () p1

/-- The member `AcceptFloat`. -/
def AcceptFloat (library : FloatLibrary) (p : MD5ParserBase Members) :
    Accept (MD5ParserBase Members) Float32 :=
  let extracted := library.Extract p.mInputStream
  if extracted.2.failbit then Reject "Expected float" { p with mInputStream := extracted.2 }
  else Done extracted.1 { p with mInputStream := extracted.2 }

/-- The member `AcceptVersion`; the output is the version it assigns. -/
def AcceptVersion (p : MD5ParserBase Members) : Accept (MD5ParserBase Members) Int :=
  (RequireIdentifier "MD5Version" p).andThen fun _ p1 =>
  (RequireInt 10 p1).andThen fun _ p2 =>
  Done 10 p2

/-- The member `AcceptCommandLine`; the output is the command line it assigns. -/
def AcceptCommandLine (bound : Nat) (p : MD5ParserBase Members) :
    Accept (MD5ParserBase Members) String :=
  (RequireIdentifier "commandline" p).andThen fun _ p1 =>
  (AcceptDoubleQuotedString bound p1).andThen fun cmd p2 =>
  Done cmd p2

/-- Three floats between parentheses, the sequence `RequireChar('(') &&
AcceptFloat(v[0]) && AcceptFloat(v[1]) && AcceptFloat(v[2]) && RequireChar(')')`
that several members contain. -/
def AcceptTriple (library : FloatLibrary) (p : MD5ParserBase Members) :
    Accept (MD5ParserBase Members) (Float32 × Float32 × Float32) :=
  (RequireChar '(' p).andThen fun _ p1 =>
  (AcceptFloat library p1).andThen fun x p2 =>
  (AcceptFloat library p2).andThen fun y p3 =>
  (AcceptFloat library p3).andThen fun z p4 =>
  (RequireChar ')' p4).andThen fun _ p5 =>
  Done (x, y, z) p5

/-- The shape that the `while (true)` loops of the two parsers share, for at most
`bound` iterations: `EatWhitespace()`, then a test of `peek()` that ends the
loop (after a `get()` when `Consume` is set), then the body, which ends the
member with `false` when it fails, then the increment of the `int` counter. The
output is the counter when the loop ends. -/
def AcceptLoop (Stop : Option Char → Bool) (Consume : Bool)
    (Body : MD5ParserBase Members → Accept (MD5ParserBase Members) Unit) :
    Nat → Int → MD5ParserBase Members → Accept (MD5ParserBase Members) Int
  | 0, _, _ => none
  | bound + 1, numAccepted, p =>
    let p1 := EatWhitespace p
    let p2 := { p1 with mInputStream := p1.mInputStream.peek.2 }
    if Stop p1.mInputStream.peek.1 then
      Done numAccepted
        (if Consume then { p2 with mInputStream := p2.mInputStream.get.2 } else p2)
    else
      (Body p2).andThen fun _ p3 =>
      AcceptLoop Stop Consume Body bound (toInt32 (numAccepted + 1)) p3

end MD5ParserBase

/-- Modelled from the spec: `IReadFile` of readfile.hpp and its `getline` are not
among the sources. A file is the list of the lines that `getline` yields. -/
abbrev IReadFile := List String

/-- The part of a line that `line.substr(0, line.find("//"))` keeps. -/
def StripComment : List Char → List Char
  | [] => []
  | '/' :: '/' :: _ => []
  | c :: rest => c :: StripComment rest

/-- The stream that the constructors of the two parsers fill: every line of the
file without its comment, followed by a line feed. -/
def InputStream.ofFile (file : IReadFile) : InputStream :=
  { Buffer := (file.map fun line => StripComment line.data ++ ['\n']).flatten
    eofbit := false
    failbit := false }


/-! ## The MD5 loader: the model and `MD5MeshParser` -/

/-- Modelled from the spec: the class `MD5Joint` of md5model.hpp, which is not
among the sources, with the members that the loader assigns. -/
structure MD5Joint where
  Name : String
  ParentIndex : Int
  Position : Float32 × Float32 × Float32
  Orientation : Float32 × Float32 × Float32
  deriving DecidableEq

/-- Modelled from the spec: the class `MD5Vertex` of md5model.hpp, which is not
among the sources, with the members that the loader assigns. -/
structure MD5Vertex where
  Texcoords : Float32 × Float32
  StartWeight : Int
  WeightCount : Int
  deriving DecidableEq

/-- Modelled from the spec: the class `MD5Triangle` of md5model.hpp, which is not
among the sources; `VertexIndices` is its array of three `int`. -/
structure MD5Triangle where
  VertexIndices : Int × Int × Int
  deriving DecidableEq

/-- Modelled from the spec: the class `MD5Weight` of md5model.hpp, which is not
among the sources, with the members that the loader assigns. -/
structure MD5Weight where
  JointIndex : Int
  WeightBias : Float32
  WeightPosition : Float32 × Float32 × Float32
  deriving DecidableEq

/-- Modelled from the spec: the class `MD5Mesh` of md5model.hpp, which is not
among the sources, with the members that the loader assigns. -/
structure MD5Mesh where
  Shader : String
  Vertices : List MD5Vertex
  Triangles : List MD5Triangle
  Weights : List MD5Weight
  deriving DecidableEq

/-- Modelled from the spec: the class `MD5Model` of md5model.hpp, which is not
among the sources, with the members that the loader assigns. -/
structure MD5Model where
  MD5Version : Int
  CommandLine : String
  BindPoseJoints : List MD5Joint
  Meshes : List MD5Mesh
  deriving DecidableEq

/-- Modelled from the spec: a value-initialised `MD5Vertex`, what `resize` puts
in the new places of the vector. -/
def MD5Vertex.empty : MD5Vertex :=
  { Texcoords := (Float32.zero, Float32.zero), StartWeight := 0, WeightCount := 0 }

/-- Modelled from the spec: a value-initialised `MD5Triangle`. -/
def MD5Triangle.empty : MD5Triangle :=
  { VertexIndices := (0, 0, 0) }

/-- Modelled from the spec: a value-initialised `MD5Weight`. -/
def MD5Weight.empty : MD5Weight :=
  { JointIndex := 0, WeightBias := Float32.zero,
    WeightPosition := (Float32.zero, Float32.zero, Float32.zero) }

/-- Modelled from the spec: the mesh that `emplace_back()` constructs. -/
def MD5Mesh.empty : MD5Mesh :=
  { Shader := "", Vertices := [], Triangles := [], Weights := [] }

/-- Modelled from the spec: a default-constructed `MD5Model`. -/
def MD5Model.empty : MD5Model :=
  { MD5Version := 0, CommandLine := "", BindPoseJoints := [], Meshes := [] }

/-- The member `resize(n)` of `std::vector`: the first `n` elements, followed by
value-initialised elements up to the size `n`. -/
def resize {α : Type} (v : List α) (n : Nat) (empty : α) : List α :=
  v.take n ++ List.replicate (n - v.length) empty

/-- An assignment through `back()`: the last element of the vector is replaced
by its image. -/
def modifyBack {α : Type} (f : α → α) : List α → List α
  | [] => []
  | [a] => [f a]
  | a :: b :: rest => a :: modifyBack f (b :: rest)

/-- The element `back()` of a vector of meshes. -/
def backMesh (meshes : List MD5Mesh) : MD5Mesh :=
  meshes.getLastD MD5Mesh.empty

/-- The three kinds of indexed entries of a mesh. -/
inductive EntryKind
  | vert
  | tri
  | weight
  deriving DecidableEq

/-- An indexed entry that the mesh parser has accepted: the position of its mesh
in `Meshes`, its kind, and the index written in the file. -/
structure AcceptedEntry where
  Mesh : Nat
  Kind : EntryKind
  Index : Int
  deriving DecidableEq

/-- The members of the class `MD5MeshParser`. `mModel` is a reference to the
model being filled. `Accepted` is not in the source: it records, in the order
of the file, the indexed entries accepted so far. -/
structure MD5MeshParserMembers where
  mModel : MD5Model
  mNumExpectedJoints : Int
  mNumExpectedMeshes : Int
  mNumExpectedVertices : Int
  mNumExpectedTriangles : Int
  mNumExpectedWeights : Int
  mExpectedIndices : List Bool
  Accepted : List AcceptedEntry

/-- The class `MD5MeshParser`. -/
abbrev MD5MeshParser := MD5ParserBase MD5MeshParserMembers

namespace MD5MeshParser

open MD5ParserBase

/-- The record of an accepted entry of the mesh at the back of `Meshes`. -/
def Record (kind : EntryKind) (index : Int) (m : MD5MeshParserMembers) : List AcceptedEntry :=
  m.Accepted ++ [{ Mesh := m.mModel.Meshes.length - 1, Kind := kind, Index := index }]

/-- The member `AcceptNumJoints`. -/
def AcceptNumJoints (p : MD5MeshParser) : Accept MD5MeshParser Unit :=
  ((RequireIdentifier "numJoints" p).andThen fun _ p1 => AcceptInt p1).andThen
  fun numJoints p2 =>
  if numJoints < 0 then Reject "numJoints < 0" p2
  else Done () { p2 with members := { p2.members with mNumExpectedJoints := numJoints } }

/-- The member `AcceptNumMeshes`. -/
def AcceptNumMeshes (p : MD5MeshParser) : Accept MD5MeshParser Unit :=
  ((RequireIdentifier "numMeshes" p).andThen fun _ p1 => AcceptInt p1).andThen
  fun numMeshes p2 =>
  if numMeshes < 0 then Reject "numMeshes < 0" p2
  else Done () { p2 with members := { p2.members with mNumExpectedMeshes := numMeshes } }

/-- The condition of the `if` of `AcceptJoint`: the extractions that fill the
joint. -/
def AcceptJointFields (library : FloatLibrary) (bound : Nat) (p : MD5MeshParser) :
    Accept MD5MeshParser MD5Joint :=
  (AcceptDoubleQuotedString bound p).andThen fun name p1 =>
  (AcceptInt p1).andThen fun parentIndex p2 =>
  (AcceptTriple library p2).andThen fun position p3 =>
  (AcceptTriple library p3).andThen fun orientation p4 =>
  Done { Name := name, ParentIndex := parentIndex, Position := position,
         Orientation := orientation } p4

/-- The member `AcceptJoint`. -/
def AcceptJoint (library : FloatLibrary) (bound : Nat) (p : MD5MeshParser) :
    Accept MD5MeshParser Unit :=
  (AcceptJointFields library bound p).andThen fun joint p1 =>
  if joint.ParentIndex < -1 ∨ joint.ParentIndex ≥ p1.members.mNumExpectedJoints ∨
      joint.ParentIndex = toInt32 p1.members.mModel.BindPoseJoints.length then
    Reject "Parent index out of range, or self-referential" p1
  else if joint.ParentIndex > toInt32 p1.members.mModel.BindPoseJoints.length then
    Reject "Parent joints must appear before their children." p1
  else
    Done ()
      { p1 with
        members :=
          { p1.members with
            mModel :=
              { p1.members.mModel with
                BindPoseJoints := p1.members.mModel.BindPoseJoints ++ [joint] } } }

/-- The member `AcceptJoints`. -/
def AcceptJoints (library : FloatLibrary) (bound : Nat) (p : MD5MeshParser) :
    Accept MD5MeshParser Unit :=
  ((RequireIdentifier "joints" p).andThen fun _ p1 => RequireChar '{' p1).andThen fun _ p2 =>
  (AcceptLoop (fun peeked => peeked = some '}') true (AcceptJoint library bound) bound 0
    p2).andThen fun numAcceptedJoints p3 =>
  if numAcceptedJoints ≠ p3.members.mNumExpectedJoints then
    Reject
      ("Expected " ++ toString p3.members.mNumExpectedJoints ++ " joints, but got "
        ++ toString numAcceptedJoints) p3
  else Done () p3

/-- The member `AcceptNumVertices`. -/
def AcceptNumVertices (p : MD5MeshParser) : Accept MD5MeshParser Unit :=
  ((RequireIdentifier "numverts" p).andThen fun _ p1 => AcceptInt p1).andThen
  fun numverts p2 =>
  if numverts < 0 then Reject "numverts < 0" p2
  else
    Done ()
      { p2 with
        members :=
          { p2.members with
            mModel :=
              { p2.members.mModel with
                Meshes :=
                  modifyBack
                    (fun mesh =>
                      { mesh with
                        Vertices := resize mesh.Vertices numverts.toNat MD5Vertex.empty })
                    p2.members.mModel.Meshes }
            mNumExpectedVertices := numverts
            mExpectedIndices := resize [] numverts.toNat false } }

/-- The condition of the `if` of `AcceptVertex`: the extractions that fill the
index and the vertex. -/
def AcceptVertexFields (library : FloatLibrary) (p : MD5MeshParser) :
    Accept MD5MeshParser (Int × MD5Vertex) :=
  (RequireIdentifier "vert" p).andThen fun _ p1 =>
  (AcceptInt p1).andThen fun vertexIndex p2 =>
  (RequireChar '(' p2).andThen fun _ p3 =>
  (AcceptFloat library p3).andThen fun u p4 =>
  (AcceptFloat library p4).andThen fun v p5 =>
  (RequireChar ')' p5).andThen fun _ p6 =>
  (AcceptInt p6).andThen fun startWeight p7 =>
  (AcceptInt p7).andThen fun weightCount p8 =>
  Done (vertexIndex,
    { Texcoords := (u, v), StartWeight := startWeight, WeightCount := weightCount }) p8

/-- The member `AcceptVertex`. -/
def AcceptVertex (library : FloatLibrary) (p : MD5MeshParser) : Accept MD5MeshParser Unit :=
  (AcceptVertexFields library p).andThen fun fields p1 =>
  if fields.1 < 0 ∨ fields.1 ≥ p1.members.mNumExpectedVertices then
    Reject "vertexIndex out of bounds" p1
  else if fields.2.StartWeight < 0 then Reject "StartWeight < 0" p1
  else if fields.2.WeightCount < 0 then Reject "WeightCount < 0" p1
  else if p1.members.mExpectedIndices.getD fields.1.toNat false = true then
    Reject "Duplicate vertexIndex" p1
  else
    Done ()
      { p1 with
        members :=
          { p1.members with
            mExpectedIndices := p1.members.mExpectedIndices.set fields.1.toNat true
            mModel :=
              { p1.members.mModel with
                Meshes :=
                  modifyBack
                    (fun mesh =>
                      { mesh with Vertices := mesh.Vertices.set fields.1.toNat fields.2 })
                    p1.members.mModel.Meshes }
            Accepted := Record EntryKind.vert fields.1 p1.members } }

/-- The member `AcceptVertices`. -/
def AcceptVertices (library : FloatLibrary) (bound : Nat) (p : MD5MeshParser) :
    Accept MD5MeshParser Unit :=
  (AcceptLoop (fun peeked => peeked ≠ some 'v') false (AcceptVertex library) bound 0
    p).andThen fun numAcceptedVertices p1 =>
  if numAcceptedVertices ≠ p1.members.mNumExpectedVertices then
    Reject
      ("Expected " ++ toString p1.members.mNumExpectedVertices ++ " vertices, but got "
        ++ toString numAcceptedVertices) p1
  else Done () p1

/-- The member `AcceptNumTriangles`. -/
def AcceptNumTriangles (p : MD5MeshParser) : Accept MD5MeshParser Unit :=
  ((RequireIdentifier "numtris" p).andThen fun _ p1 => AcceptInt p1).andThen
  fun numtris p2 =>
  if numtris < 0 then Reject "numtris < 0" p2
  else
    Done ()
      { p2 with
        members :=
          { p2.members with
            mModel :=
              { p2.members.mModel with
                Meshes :=
                  modifyBack
                    (fun mesh =>
                      { mesh with
                        Triangles := resize mesh.Triangles numtris.toNat MD5Triangle.empty })
                    p2.members.mModel.Meshes }
            mNumExpectedTriangles := numtris
            mExpectedIndices := resize [] numtris.toNat false } }

/-- The condition of the `if` of `AcceptTriangle`: the extractions that fill the
index and the triangle. -/
def AcceptTriangleFields (p : MD5MeshParser) : Accept MD5MeshParser (Int × MD5Triangle) :=
  (RequireIdentifier "tri" p).andThen fun _ p1 =>
  (AcceptInt p1).andThen fun triangleIndex p2 =>
  (AcceptInt p2).andThen fun a p3 =>
  (AcceptInt p3).andThen fun b p4 =>
  (AcceptInt p4).andThen fun c p5 =>
  Done (triangleIndex, { VertexIndices := (a, b, c) }) p5

/-- The member `AcceptTriangle`. -/
def AcceptTriangle (p : MD5MeshParser) : Accept MD5MeshParser Unit :=
  (AcceptTriangleFields p).andThen fun fields p1 =>
  if fields.1 < 0 ∨ fields.1 ≥ p1.members.mNumExpectedTriangles then
    Reject "triangleIndex out of bounds" p1
  else if fields.2.VertexIndices.1 < 0 ∨
      fields.2.VertexIndices.1 ≥ p1.members.mNumExpectedVertices then
    Reject "VertexIndices[0] out of bounds" p1
  else if fields.2.VertexIndices.2.1 < 0 ∨
      fields.2.VertexIndices.2.1 ≥ p1.members.mNumExpectedVertices then
    Reject "VertexIndices[1] out of bounds" p1
  else if fields.2.VertexIndices.2.2 < 0 ∨
      fields.2.VertexIndices.2.2 ≥ p1.members.mNumExpectedVertices then
    Reject "VertexIndices[2] out of bounds" p1
  else if p1.members.mExpectedIndices.getD fields.1.toNat false = true then
    Reject "duplicate triangleIndex" p1
  else
    Done ()
      { p1 with
        members :=
          { p1.members with
            mExpectedIndices := p1.members.mExpectedIndices.set fields.1.toNat true
            mModel :=
              { p1.members.mModel with
                Meshes :=
                  modifyBack
                    (fun mesh =>
                      { mesh with Triangles := mesh.Triangles.set fields.1.toNat fields.2 })
                    p1.members.mModel.Meshes }
            Accepted := Record EntryKind.tri fields.1 p1.members } }

/-- The member `AcceptTriangles`. -/
def AcceptTriangles (bound : Nat) (p : MD5MeshParser) : Accept MD5MeshParser Unit :=
  (AcceptLoop (fun peeked => peeked ≠ some 't') false AcceptTriangle bound 0 p).andThen
  fun numAcceptedTriangles p1 =>
  if numAcceptedTriangles ≠ p1.members.mNumExpectedTriangles then
    Reject
      ("Expected " ++ toString p1.members.mNumExpectedTriangles ++ " triangles, but got "
        ++ toString numAcceptedTriangles) p1
  else Done () p1

/-- The member `AcceptNumWeights`. -/
def AcceptNumWeights (p : MD5MeshParser) : Accept MD5MeshParser Unit :=
  ((RequireIdentifier "numweights" p).andThen fun _ p1 => AcceptInt p1).andThen
  fun numweights p2 =>
  if numweights < 0 then Reject "numweights < 0" p2
  else
    Done ()
      { p2 with
        members :=
          { p2.members with
            mModel :=
              { p2.members.mModel with
                Meshes :=
                  modifyBack
                    (fun mesh =>
                      { mesh with
                        Weights := resize mesh.Weights numweights.toNat MD5Weight.empty })
                    p2.members.mModel.Meshes }
            mNumExpectedWeights := numweights
            mExpectedIndices := resize [] numweights.toNat false } }

/-- The condition of the `if` of `AcceptWeight`: the extractions that fill the
index and the weight. -/
def AcceptWeightFields (library : FloatLibrary) (p : MD5MeshParser) :
    Accept MD5MeshParser (Int × MD5Weight) :=
  (RequireIdentifier "weight" p).andThen fun _ p1 =>
  (AcceptInt p1).andThen fun weightIndex p2 =>
  (AcceptInt p2).andThen fun jointIndex p3 =>
  (AcceptFloat library p3).andThen fun weightBias p4 =>
  (AcceptTriple library p4).andThen fun weightPosition p5 =>
  Done (weightIndex,
    { JointIndex := jointIndex, WeightBias := weightBias,
      WeightPosition := weightPosition }) p5

/-- The member `AcceptWeight`. -/
def AcceptWeight (library : FloatLibrary) (p : MD5MeshParser) : Accept MD5MeshParser Unit :=
  (AcceptWeightFields library p).andThen fun fields p1 =>
  if fields.1 < 0 ∨ fields.1 ≥ p1.members.mNumExpectedWeights then
    Reject "weightIndex out of bounds" p1
  else if fields.2.JointIndex < 0 ∨ fields.2.JointIndex ≥ p1.members.mNumExpectedJoints then
    Reject "JointIndex out of bounds" p1
  else if p1.members.mExpectedIndices.getD fields.1.toNat false = true then
    Reject "duplicate weightIndex" p1
  else
    Done ()
      { p1 with
        members :=
          { p1.members with
            mExpectedIndices := p1.members.mExpectedIndices.set fields.1.toNat true
            mModel :=
              { p1.members.mModel with
                Meshes :=
                  modifyBack
                    (fun mesh =>
                      { mesh with Weights := mesh.Weights.set fields.1.toNat fields.2 })
                    p1.members.mModel.Meshes }
            Accepted := Record EntryKind.weight fields.1 p1.members } }

/-- The test of the loop that ends `AcceptWeights`, for one vertex; the sum is an
`int` addition. -/
def WeightsOutOfBounds (mNumExpectedWeights : Int) (vert : MD5Vertex) : Bool :=
  vert.StartWeight ≥ mNumExpectedWeights ∨
    toInt32 (vert.StartWeight + vert.WeightCount) > mNumExpectedWeights

/-- The member `AcceptWeights`. -/
def AcceptWeights (library : FloatLibrary) (bound : Nat) (p : MD5MeshParser) :
    Accept MD5MeshParser Unit :=
  (AcceptLoop (fun peeked => peeked ≠ some 'w') false (AcceptWeight library) bound 0
    p).andThen fun numAcceptedWeights p1 =>
  if numAcceptedWeights ≠ p1.members.mNumExpectedWeights then
    Reject
      ("Expected " ++ toString p1.members.mNumExpectedWeights ++ " weights, but got "
        ++ toString numAcceptedWeights) p1
  else if (backMesh p1.members.mModel.Meshes).Vertices.any
      (WeightsOutOfBounds p1.members.mNumExpectedWeights) then
    Reject "StartWeight/WeightCount out of bounds" p1
  else Done () p1

/-- The member `AcceptMesh`. -/
def AcceptMesh (library : FloatLibrary) (bound : Nat) (p : MD5MeshParser) :
    Accept MD5MeshParser Unit :=
  ((RequireIdentifier "mesh" p).andThen fun _ p1 => RequireChar '{' p1).andThen fun _ p2 =>
  (RequireIdentifier "shader"
    { p2 with
      members :=
        { p2.members with
          mModel :=
            { p2.members.mModel with
              Meshes := p2.members.mModel.Meshes ++ [MD5Mesh.empty] } } }).andThen fun _ p3 =>
  (AcceptDoubleQuotedString bound p3).andThen fun shader p4 =>
  (AcceptNumVertices
    { p4 with
      members :=
        { p4.members with
          mModel :=
            { p4.members.mModel with
              Meshes :=
                modifyBack (fun mesh => { mesh with Shader := shader })
                  p4.members.mModel.Meshes } } }).andThen fun _ p5 =>
  (AcceptVertices library bound p5).andThen fun _ p6 =>
  (AcceptNumTriangles p6).andThen fun _ p7 =>
  (AcceptTriangles bound p7).andThen fun _ p8 =>
  (AcceptNumWeights p8).andThen fun _ p9 =>
  (AcceptWeights library bound p9).andThen fun _ p10 =>
  RequireChar '}' p10

/-- The member `AcceptMeshes`. -/
def AcceptMeshes (library : FloatLibrary) (bound : Nat) (p : MD5MeshParser) :
    Accept MD5MeshParser Unit :=
  (AcceptLoop (fun peeked => peeked = none) false (AcceptMesh library bound) bound 0
    p).andThen fun numAcceptedMeshes p1 =>
  if numAcceptedMeshes ≠ p1.members.mNumExpectedMeshes then
    Reject
      ("Expected " ++ toString p1.members.mNumExpectedMeshes ++ " meshes, but got "
        ++ toString numAcceptedMeshes) p1
  else Done () p1

/-- The constructor of `MD5MeshParser`. The `int` members, which the constructor
leaves uninitialised and which are assigned before they are read, start as 0. -/
def create (model : MD5Model) (md5meshFile : IReadFile) (error : String) : MD5MeshParser :=
  { mError := error
    mInputStream := InputStream.ofFile md5meshFile
    members :=
      { mModel := model
        mNumExpectedJoints := 0
        mNumExpectedMeshes := 0
        mNumExpectedVertices := 0
        mNumExpectedTriangles := 0
        mNumExpectedWeights := 0
        mExpectedIndices := []
        Accepted := [] } }

/-- The member `MD5MeshParser::Parse`. -/
def Parse (library : FloatLibrary) (bound : Nat) (p : MD5MeshParser) :
    Accept MD5MeshParser Unit :=
  (AcceptVersion p).andThen fun version p1 =>
  (AcceptCommandLine bound
    { p1 with
      members :=
        { p1.members with
          mModel := { p1.members.mModel with MD5Version := version } } }).andThen
  fun commandLine p2 =>
  (AcceptNumJoints
    { p2 with
      members :=
        { p2.members with
          mModel := { p2.members.mModel with CommandLine := commandLine } } }).andThen
  fun _ p3 =>
  (AcceptNumMeshes p3).andThen fun _ p4 =>
  (AcceptJoints library bound p4).andThen fun _ p5 =>
  AcceptMeshes library bound p5

end MD5MeshParser

/-- The function `TryLoadMD5Mesh`, the loops of the parser run for at most
`bound` iterations each: `none` when a loop has used up the bound, otherwise
the value returned with the caller's model and error string after the call. -/
def TryLoadMD5Mesh (library : FloatLibrary) (bound : Nat) (model : MD5Model)
    (md5meshFile : IReadFile) (_error : String) : Option (Bool × MD5Model × String) :=
  match (MD5MeshParser.create MD5Model.empty md5meshFile "").Parse library bound with
  | none => none
  | some (none, parser) => some (false, model, parser.mError)
  | some (some _, parser) => some (true, parser.members.mModel, parser.mError)

/-- The function `LoadMD5Mesh`: the caller's model after the call when it
returns, the message of the `std::runtime_error` when it throws. -/
def LoadMD5Mesh (library : FloatLibrary) (bound : Nat) (model : MD5Model)
    (md5meshFile : IReadFile) : Option (Except String MD5Model) :=
  match TryLoadMD5Mesh library bound model md5meshFile "" with
  | none => none
  | some (false, _, error) => some (Except.error error)
  | some (true, loaded, _) => some (Except.ok loaded)

/-- A mesh file with two joints and one mesh of three vertices, one triangle and
two weights. -/
def sampleMeshFile : IReadFile :=
  ["MD5Version 10 // a sample",
   "commandline \x22\x22",
   "",
   "numJoints 2",
   "numMeshes 1",
   "",
   "joints \x7b",
   "  \x22origin\x22 -1 ( 0 0 0 ) ( -0.5 0 0 ) // root",
   "  \x22arm\x22 0 ( 1 2.5 0 ) ( 0 0 0 )",
   "\x7d",
   "",
   "mesh \x7b",
   "  shader \x22skin\x22",
   "  numverts 3",
   "  vert 0 ( 0 0 ) 0 1",
   "  vert 2 ( 1 1 ) 0 2",
   "  vert 1 ( 1 0 ) 1 1",
   "  numtris 1",
   "  tri 0 0 2 1",
   "  numweights 2",
   "  weight 1 1 0.5 ( 0 1 0 )",
   "  weight 0 0 1 ( 0 0 0 )",
   "\x7d"]


/-! ## The MD5 loader: the animation and `MD5AnimParser` -/

/-- Modelled from the spec: the class `MD5AnimationJoint` of md5model.hpp, which is
not among the sources, with the members that the loader assigns. `Flags`
receives an `int` that is not negative and is kept as that number. -/
structure MD5AnimationJoint where
  Name : String
  ParentIndex : Int
  Flags : Nat
  StartIndex : Int
  deriving DecidableEq

/-- Modelled from the spec: the class `MD5FrameBounds` of md5model.hpp, which is
not among the sources. -/
structure MD5FrameBounds where
  MinimumExtent : Float32 × Float32 × Float32
  MaximumExtent : Float32 × Float32 × Float32
  deriving DecidableEq

/-- Modelled from the spec: the class `MD5JointPose` of md5model.hpp, which is not
among the sources. -/
structure MD5JointPose where
  Position : Float32 × Float32 × Float32
  Orientation : Float32 × Float32 × Float32
  deriving DecidableEq

/-- Modelled from the spec: the class `MD5Frame` of md5model.hpp, which is not
among the sources. -/
structure MD5Frame where
  AnimationComponents : List Float32
  deriving DecidableEq

/-- Modelled from the spec: the class `MD5Anim` of md5model.hpp, which is not
among the sources, with the members that the loader assigns. -/
structure MD5Anim where
  MD5Version : Int
  CommandLine : String
  FrameRate : Int
  Joints : List MD5AnimationJoint
  FrameBounds : List MD5FrameBounds
  BaseFrame : List MD5JointPose
  Frames : List MD5Frame
  deriving DecidableEq

/-- Modelled from the spec: a default-constructed `MD5Anim`. -/
def MD5Anim.empty : MD5Anim :=
  { MD5Version := 0, CommandLine := "", FrameRate := 0, Joints := [], FrameBounds := [],
    BaseFrame := [], Frames := [] }

/-- The members of the class `MD5AnimParser`; `mAnim` is a reference to the
animation being filled. -/
structure MD5AnimParserMembers where
  mAnim : MD5Anim
  mNumExpectedFrames : Int
  mNumExpectedJoints : Int
  mNumExpectedAnimatedComponents : Int

/-- The class `MD5AnimParser`. -/
abbrev MD5AnimParser := MD5ParserBase MD5AnimParserMembers

/-- The count that the inner loop of `AcceptAnimationComponents` makes for a
joint: the number of bits set among the 6 low bits of its flags. -/
def ComponentCount (Flags : Nat) : Int :=
  ((List.range 6).filter fun i => Flags &&& (1 <<< i) ≠ 0).length

/-- The test that `AcceptAnimationComponents` makes for one joint after a frame
of `numAcceptedAnimationComponents` values; the sum is an `int` addition. -/
def FrameDataOutOfRange (numAcceptedAnimationComponents : Int) (joint : MD5AnimationJoint) :
    Bool :=
  joint.StartIndex ≥ numAcceptedAnimationComponents ∨
    toInt32 (joint.StartIndex + ComponentCount joint.Flags) > numAcceptedAnimationComponents

namespace MD5AnimParser

open MD5ParserBase

/-- The member `AcceptNumFrames`. -/
def AcceptNumFrames (p : MD5AnimParser) : Accept MD5AnimParser Unit :=
  ((RequireIdentifier "numFrames" p).andThen fun _ p1 => AcceptInt p1).andThen
  fun numFrames p2 =>
  if numFrames < 0 then Reject "numFrames < 0" p2
  else Done () { p2 with members := { p2.members with mNumExpectedFrames := numFrames } }

/-- The member `AcceptNumJoints`. -/
def AcceptNumJoints (p : MD5AnimParser) : Accept MD5AnimParser Unit :=
  ((RequireIdentifier "numJoints" p).andThen fun _ p1 => AcceptInt p1).andThen
  fun numJoints p2 =>
  if numJoints < 0 then Reject "numJoints < 0" p2
  else Done () { p2 with members := { p2.members with mNumExpectedJoints := numJoints } }

/-- The member `AcceptFrameRate`. -/
def AcceptFrameRate (p : MD5AnimParser) : Accept MD5AnimParser Unit :=
  ((RequireIdentifier "frameRate" p).andThen fun _ p1 => AcceptInt p1).andThen
  fun frameRate p2 =>
  if frameRate < 0 then Reject "frameRate < 0" p2
  else
    Done ()
      { p2 with
        members := { p2.members with mAnim := { p2.members.mAnim with FrameRate := frameRate } } }

/-- The member `AcceptNumAnimatedComponents`. -/
def AcceptNumAnimatedComponents (p : MD5AnimParser) : Accept MD5AnimParser Unit :=
  ((RequireIdentifier "numAnimatedComponents" p).andThen fun _ p1 => AcceptInt p1).andThen
  fun numAnimatedComponents p2 =>
  if numAnimatedComponents < 0 then Reject "numAnimatedComponents < 0" p2
  else
    Done ()
      { p2 with
        members :=
          { p2.members with mNumExpectedAnimatedComponents := numAnimatedComponents } }

/-- The condition of the `if` of `AcceptHierarchyJoint`: the extractions of the
name, the parent index, the flags and the start index. -/
def AcceptHierarchyJointFields (bound : Nat) (p : MD5AnimParser) :
    Accept MD5AnimParser (String × Int × Int × Int) :=
  (AcceptDoubleQuotedString bound p).andThen fun name p1 =>
  (AcceptInt p1).andThen fun parentIndex p2 =>
  (AcceptInt p2).andThen fun flags p3 =>
  (AcceptInt p3).andThen fun startIndex p4 =>
  Done (name, parentIndex, flags, startIndex) p4

/-- The member `AcceptHierarchyJoint`. -/
def AcceptHierarchyJoint (bound : Nat) (p : MD5AnimParser) : Accept MD5AnimParser Unit :=
  (AcceptHierarchyJointFields bound p).andThen fun fields p1 =>
  if fields.2.1 < -1 ∨ fields.2.1 ≥ p1.members.mNumExpectedJoints ∨
      fields.2.1 = toInt32 p1.members.mAnim.Joints.length then
    Reject "parentIndex out of bounds or self-referential" p1
  else if fields.2.1 > toInt32 p1.members.mAnim.Joints.length then
    Reject "Parent joints must appear before their children." p1
  else if fields.2.2.2 < 0 ∨ fields.2.2.2 ≥ p1.members.mNumExpectedAnimatedComponents then
    Reject "joint's startIndex is out of bounds" p1
  else if fields.2.2.1 < 0 then Reject "flags must be a positive number" p1
  else if fields.2.2.1.toNat ||| 0x3F ≠ 0x3F then
    Reject
      "flags may only have 6 least significant bits set (numbers from 0 to 63 inclusive.)" p1
  else
    Done ()
      { p1 with
        members :=
          { p1.members with
            mAnim :=
              { p1.members.mAnim with
                Joints :=
                  p1.members.mAnim.Joints ++
                    [{ Name := fields.1, ParentIndex := fields.2.1,
                       Flags := fields.2.2.1.toNat, StartIndex := fields.2.2.2 }] } } }

/-- The member `AcceptHierarchy`. -/
def AcceptHierarchy (bound : Nat) (p : MD5AnimParser) : Accept MD5AnimParser Unit :=
  ((RequireIdentifier "hierarchy" p).andThen fun _ p1 => RequireChar '{' p1).andThen
  fun _ p2 =>
  (AcceptLoop (fun peeked => peeked = some '}') true (AcceptHierarchyJoint bound) bound 0
    p2).andThen fun numAcceptedJoints p3 =>
  if numAcceptedJoints ≠ p3.members.mNumExpectedJoints then
    Reject
      ("Expected " ++ toString p3.members.mNumExpectedJoints ++ " joints, but got "
        ++ toString numAcceptedJoints) p3
  else Done () p3

/-- The member `AcceptBound`. -/
def AcceptBound (library : FloatLibrary) (p : MD5AnimParser) : Accept MD5AnimParser Unit :=
  ((AcceptTriple library p).andThen fun minimum p1 =>
    (AcceptTriple library p1).andThen fun maximum p2 =>
    Done ({ MinimumExtent := minimum, MaximumExtent := maximum } : MD5FrameBounds)
      p2).andThen fun bounds p3 =>
  if library.Greater bounds.MinimumExtent.1 bounds.MaximumExtent.1 ∨
      library.Greater bounds.MinimumExtent.2.1 bounds.MaximumExtent.2.1 ∨
      library.Greater bounds.MinimumExtent.2.2 bounds.MaximumExtent.2.2 then
    Reject "MinimumExtent > MaximumExtent" p3
  else
    Done ()
      { p3 with
        members :=
          { p3.members with
            mAnim :=
              { p3.members.mAnim with
                FrameBounds := p3.members.mAnim.FrameBounds ++ [bounds] } } }

/-- The member `AcceptBounds`. -/
def AcceptBounds (library : FloatLibrary) (bound : Nat) (p : MD5AnimParser) :
    Accept MD5AnimParser Unit :=
  ((RequireIdentifier "bounds" p).andThen fun _ p1 => RequireChar '{' p1).andThen fun _ p2 =>
  (AcceptLoop (fun peeked => peeked = some '}') true (AcceptBound library) bound 0
    p2).andThen fun numAcceptedBounds p3 =>
  if numAcceptedBounds ≠ p3.members.mNumExpectedFrames then
    Reject "Mismatch between number of bounds and number of frames" p3
  else Done () p3

/-- The member `AcceptBaseFrameJointPose`. -/
def AcceptBaseFrameJointPose (library : FloatLibrary) (p : MD5AnimParser) :
    Accept MD5AnimParser Unit :=
  (AcceptTriple library p).andThen fun position p1 =>
  (AcceptTriple library p1).andThen fun orientation p2 =>
  Done ()
    { p2 with
      members :=
        { p2.members with
          mAnim :=
            { p2.members.mAnim with
              BaseFrame :=
                p2.members.mAnim.BaseFrame ++
                  [{ Position := position, Orientation := orientation }] } } }

/-- The member `AcceptBaseFrame`. -/
def AcceptBaseFrame (library : FloatLibrary) (bound : Nat) (p : MD5AnimParser) :
    Accept MD5AnimParser Unit :=
  ((RequireIdentifier "baseframe" p).andThen fun _ p1 => RequireChar '{' p1).andThen
  fun _ p2 =>
  (AcceptLoop (fun peeked => peeked = some '}') true (AcceptBaseFrameJointPose library) bound
    0 p2).andThen fun numAcceptedBaseFrameJointPoses p3 =>
  if numAcceptedBaseFrameJointPoses ≠ p3.members.mNumExpectedJoints then
    Reject
      "Mismatch between number of base frame joint poses and the number of expected joints" p3
  else Done () p3

/-- The body of the first loop of `AcceptAnimationComponents`: a float is
extracted and pushed to the frame at the back of `Frames`. -/
def AcceptAnimationComponent (library : FloatLibrary) (p : MD5AnimParser) :
    Accept MD5AnimParser Unit :=
  (AcceptFloat library p).andThen fun value p1 =>
  Done ()
    { p1 with
      members :=
        { p1.members with
          mAnim :=
            { p1.members.mAnim with
              Frames :=
                modifyBack
                  (fun frame =>
                    { frame with AnimationComponents := frame.AnimationComponents ++ [value] })
                  p1.members.mAnim.Frames } } }

/-- The member `AcceptAnimationComponents`. -/
def AcceptAnimationComponents (library : FloatLibrary) (bound : Nat) (p : MD5AnimParser) :
    Accept MD5AnimParser Unit :=
  (AcceptLoop (fun peeked => peeked = some '}') false (AcceptAnimationComponent library)
    bound 0 p).andThen fun numAcceptedAnimationComponents p1 =>
  if numAcceptedAnimationComponents ≠ p1.members.mNumExpectedAnimatedComponents then
    Reject "mismatch between number of frame components and numAnimatedComponents" p1
  else if p1.members.mAnim.Joints.any (FrameDataOutOfRange numAcceptedAnimationComponents) then
    Reject "joint's frame data is out of range" p1
  else Done () p1

/-- The body of the loop of `AcceptFrames`: one frame. The loop counts the frame
before the closing brace is required, and the count is dropped when the brace
is missing. -/
def AcceptFrame (library : FloatLibrary) (bound : Nat) (p : MD5AnimParser) :
    Accept MD5AnimParser Unit :=
  ((RequireIdentifier "frame" p).andThen fun _ p1 =>
    (AcceptInt p1).andThen fun frameNumber p2 =>
    (RequireChar '{' p2).andThen fun _ p3 => Done frameNumber p3).andThen
  fun frameNumber p4 =>
  if frameNumber ≠ toInt32 p4.members.mAnim.Frames.length then
    Reject "Incorrect frame index" p4
  else
    (AcceptAnimationComponents library bound
      { p4 with
        members :=
          { p4.members with
            mAnim :=
              { p4.members.mAnim with
                Frames := p4.members.mAnim.Frames ++ [{ AnimationComponents := [] }] } } }).andThen
    fun _ p5 => RequireChar '}' p5

/-- The member `AcceptFrames`. -/
def AcceptFrames (library : FloatLibrary) (bound : Nat) (p : MD5AnimParser) :
    Accept MD5AnimParser Unit :=
  (AcceptLoop (fun peeked => peeked = none) false (AcceptFrame library bound) bound 0
    p).andThen fun numAcceptedFrames p1 =>
  if numAcceptedFrames ≠ p1.members.mNumExpectedFrames then
    Reject "mismatch between number of frames and number of expected frames" p1
  else Done () p1

/-- The constructor of `MD5AnimParser`. The `int` members, which the constructor
leaves uninitialised and which are assigned before they are read, start as 0. -/
def create (anim : MD5Anim) (md5animFile : IReadFile) (error : String) : MD5AnimParser :=
  { mError := error
    mInputStream := InputStream.ofFile md5animFile
    members :=
      { mAnim := anim
        mNumExpectedFrames := 0
        mNumExpectedJoints := 0
        mNumExpectedAnimatedComponents := 0 } }

/-- The member `MD5AnimParser::Parse`. -/
def Parse (library : FloatLibrary) (bound : Nat) (p : MD5AnimParser) :
    Accept MD5AnimParser Unit :=
  (AcceptVersion p).andThen fun version p1 =>
  (AcceptCommandLine bound
    { p1 with
      members :=
        { p1.members with mAnim := { p1.members.mAnim with MD5Version := version } } }).andThen
  fun commandLine p2 =>
  (AcceptNumFrames
    { p2 with
      members :=
        { p2.members with
          mAnim := { p2.members.mAnim with CommandLine := commandLine } } }).andThen
  fun _ p3 =>
  (AcceptNumJoints p3).andThen fun _ p4 =>
  (AcceptFrameRate p4).andThen fun _ p5 =>
  (AcceptNumAnimatedComponents p5).andThen fun _ p6 =>
  (AcceptHierarchy bound p6).andThen fun _ p7 =>
  (AcceptBounds library bound p7).andThen fun _ p8 =>
  (AcceptBaseFrame library bound p8).andThen fun _ p9 =>
  AcceptFrames library bound p9

end MD5AnimParser

/-- The function `TryLoadMD5Anim`, the loops of the parser run for at most
`bound` iterations each: `none` when a loop has used up the bound, otherwise
the value returned with the caller's animation and error string after the
call. -/
def TryLoadMD5Anim (library : FloatLibrary) (bound : Nat) (anim : MD5Anim)
    (md5animFile : IReadFile) (_error : String) : Option (Bool × MD5Anim × String) :=
  match (MD5AnimParser.create MD5Anim.empty md5animFile "").Parse library bound with
  | none => none
  | some (none, parser) => some (false, anim, parser.mError)
  | some (some _, parser) => some (true, parser.members.mAnim, parser.mError)

/-- An animation file with two joints and one frame of four components. -/
def sampleAnimFile : IReadFile :=
  ["MD5Version 10",
   "commandline \x22\x22",
   "numFrames 1",
   "numJoints 2",
   "frameRate 24",
   "numAnimatedComponents 4",
   "hierarchy \x7b",
   "  \x22origin\x22 -1 3 0",
   "  \x22arm\x22 0 16 3",
   "\x7d",
   "bounds \x7b",
   "  ( -1 -1 -1 ) ( 1 1 1 )",
   "\x7d",
   "baseframe \x7b",
   "  ( 0 0 0 ) ( 0 0 0 )",
   "  ( 1 0 0 ) ( 0 0 0 )",
   "\x7d",
   "frame 0 \x7b",
   "  0.5 1 0 0.25",
   "\x7d"]

/-- An animation file without frames whose only joint has all six flags set and
starts at component 0, while the file announces one animated component. -/
def noFrameAnimFile : IReadFile :=
  ["MD5Version 10",
   "commandline \x22\x22",
   "numFrames 0",
   "numJoints 1",
   "frameRate 24",
   "numAnimatedComponents 1",
   "hierarchy \x7b",
   "  \x22origin\x22 -1 63 0",
   "\x7d",
   "bounds \x7b",
   "\x7d",
   "baseframe \x7b",
   "  ( 0 0 0 ) ( 0 0 0 )",
   "\x7d"]

/-- A mesh file whose only vertex starts at weight 1 with 2147483647 weights,
in a mesh of two weights. -/
def overflowMeshFile : IReadFile :=
  ["MD5Version 10",
   "commandline \x22\x22",
   "numJoints 1",
   "numMeshes 1",
   "joints \x7b",
   "  \x22origin\x22 -1 ( 0 0 0 ) ( 0 0 0 )",
   "\x7d",
   "mesh \x7b",
   "  shader \x22skin\x22",
   "  numverts 1",
   "  vert 0 ( 0 0 ) 1 2147483647",
   "  numtris 0",
   "  numweights 2",
   "  weight 0 0 1 ( 0 0 0 )",
   "  weight 1 0 1 ( 0 0 0 )",
   "\x7d"]

/-- A file that ends inside the double-quoted string of its command line. -/
def unterminatedQuoteFile : IReadFile :=
  ["MD5Version 10", "commandline \x22abc"]


/-! ## The MD5 loader: what the statements are about -/

/-- A member of a parser that leaves the members of the derived class as they
are. -/
def KeepsMembers {Members α : Type}
    (f : MD5ParserBase Members → Accept (MD5ParserBase Members) α) : Prop :=
  ∀ p r q, f p = some (r, q) → q.members = p.members

/-- A member of a parser that sets a message whenever it returns `false` and
leaves the error string as it is when it returns `true`. -/
structure Disciplined {Members α : Type}
    (f : MD5ParserBase Members → Accept (MD5ParserBase Members) α) : Prop where
  rejected : ∀ p q, f p = some (none, q) → q.mError ≠ ""
  accepted : ∀ p a q, f p = some (some a, q) → q.mError = p.mError

/-- Parents come before their children: the parent index at position `i` is at
least -1 and smaller than `i`. -/
def ParentsFirst (parents : List Int) : Prop :=
  ∀ (i : Nat) (parent : Int), parents[i]? = some parent → -1 ≤ parent ∧ parent < i

/-- The indices of the entries of kind `kind` accepted for the mesh at position
`mesh`, in the order of the file. -/
def EntriesOf (accepted : List AcceptedEntry) (mesh : Nat) (kind : EntryKind) : List Int :=
  (accepted.filter fun e => e.Mesh = mesh ∧ e.Kind = kind).map fun e => e.Index

/-- The indices from 0 up to `n`, not included. -/
def IndicesBelow (n : Nat) : List Int :=
  (List.range n).map Int.ofNat

/-- An indexed part of a mesh while its entries are read: `flags` is
`mExpectedIndices`, `elems` the vector being filled, `entries` the indices
accepted so far, `n` the number announced, and `Q` what every accepted element
satisfies. -/
structure Filling {α : Type} (Q : α → Prop) (n : Nat) (flags : List Bool) (elems : List α)
    (entries : List Int) : Prop where
  flags_length : flags.length = n
  elems_length : elems.length = n
  nodup : entries.Nodup
  range : ∀ e ∈ entries, 0 ≤ e ∧ e < n
  marked : ∀ i : Nat, i < n → (flags.getD i false = true ↔ (i : Int) ∈ entries)
  good : ∀ (i : Nat) (x : α), flags.getD i false = true → elems[i]? = some x → Q x

/-- The three indices of a triangle are indices of the `numverts` vertices. -/
def TriangleInBounds (numverts : Nat) (triangle : MD5Triangle) : Prop :=
  (0 ≤ triangle.VertexIndices.1 ∧ triangle.VertexIndices.1 < numverts) ∧
  (0 ≤ triangle.VertexIndices.2.1 ∧ triangle.VertexIndices.2.1 < numverts) ∧
  (0 ≤ triangle.VertexIndices.2.2 ∧ triangle.VertexIndices.2.2 < numverts)

/-- The joint of a weight is one of the `numJoints` joints. -/
def WeightInBounds (numJoints : Int) (weight : MD5Weight) : Prop :=
  0 ≤ weight.JointIndex ∧ weight.JointIndex < numJoints


/-- What the mesh parser leaves as it is from the members `m0` to the members
`m` while it reads the meshes: the joints and the numbers of joints and meshes
announced. -/
structure MeshPhase (m0 m : MD5MeshParserMembers) : Prop where
  joints : m.mModel.BindPoseJoints = m0.mModel.BindPoseJoints
  numJoints : m.mNumExpectedJoints = m0.mNumExpectedJoints
  numMeshes : m.mNumExpectedMeshes = m0.mNumExpectedMeshes

/-- The entries of kind `kind` with the indices `entries`, of the mesh at
position `mesh`. -/
def EntriesFor (mesh : Nat) (kind : EntryKind) (entries : List Int) : List AcceptedEntry :=
  entries.map fun index => { Mesh := mesh, Kind := kind, Index := index }

/-- What the vertex entries establish for a vertex: its two weight numbers are not
negative. -/
def VertexAccepted (vertex : MD5Vertex) : Prop :=
  0 ≤ vertex.StartWeight ∧ 0 ≤ vertex.WeightCount

/-- A mesh that `AcceptMesh` has accepted, with the indices of its `vert`, `tri`
and `weight` entries in the order of the file: each kind of entry covers its
indices exactly once, the triangles name vertices of the mesh, the weights name
joints among the `numJoints` announced, and every vertex has passed the tests on
its weights. -/
structure MeshParsed (numJoints : Int) (mesh : MD5Mesh) (verts tris weights : List Int) :
    Prop where
  verts : verts.Perm (IndicesBelow mesh.Vertices.length)
  tris : tris.Perm (IndicesBelow mesh.Triangles.length)
  weights : weights.Perm (IndicesBelow mesh.Weights.length)
  triangles : ∀ triangle ∈ mesh.Triangles, TriangleInBounds mesh.Vertices.length triangle
  joints : ∀ weight ∈ mesh.Weights, WeightInBounds numJoints weight
  vertices : ∀ vertex ∈ mesh.Vertices,
    VertexAccepted vertex ∧
      MD5MeshParser.WeightsOutOfBounds mesh.Weights.length vertex = false


/-- The meshes accepted so far with the record of their entries: every entry
belongs to one of the meshes, and every mesh is as `MeshParsed` says with the
entries recorded for its position. -/
structure MeshesParsed (numJoints : Int) (meshes : List MD5Mesh)
    (accepted : List AcceptedEntry) : Prop where
  known : ∀ e ∈ accepted, e.Mesh < meshes.length
  parsed : ∀ (k : Nat) (mesh : MD5Mesh), meshes[k]? = some mesh →
    MeshParsed numJoints mesh (EntriesOf accepted k EntryKind.vert)
      (EntriesOf accepted k EntryKind.tri) (EntriesOf accepted k EntryKind.weight)

/-- A model that the mesh parser has accepted, with the record of the entries:
parents come before their children among the joints, and the meshes are as
`MeshesParsed` says for the number of joints of the model. -/
structure ModelParsed (model : MD5Model) (accepted : List AcceptedEntry) : Prop where
  joints : ParentsFirst (model.BindPoseJoints.map fun joint => joint.ParentIndex)
  meshes : MeshesParsed model.BindPoseJoints.length model.Meshes accepted


/-- What the animation parser leaves as it is from the members `m0` to the
members `m` after the hierarchy: the joints, the frames, and the number of
animated components announced. -/
structure AnimPhase (m0 m : MD5AnimParserMembers) : Prop where
  joints : m.mAnim.Joints = m0.mAnim.Joints
  frames : m.mAnim.Frames = m0.mAnim.Frames
  components : m.mNumExpectedAnimatedComponents = m0.mNumExpectedAnimatedComponents

/-- What `AcceptHierarchyJoint` has tested of a joint, for the number of animated
components announced. -/
def HierarchyJointAccepted (numAnimatedComponents : Int) (joint : MD5AnimationJoint) : Prop :=
  joint.Flags ≤ 63 ∧ 0 ≤ joint.StartIndex ∧ joint.StartIndex < numAnimatedComponents

/-- An animation that the parser has accepted, for the number of animated
components announced: parents come before their children, every joint has
passed the tests of `AcceptHierarchyJoint`, the length of every frame converted
to `int` is the number announced, and when there is a frame every joint has
passed the test on its frame data. -/
structure AnimParsed (anim : MD5Anim) (numAnimatedComponents : Int) : Prop where
  parents : ParentsFirst (anim.Joints.map fun joint => joint.ParentIndex)
  joints : ∀ joint ∈ anim.Joints, HierarchyJointAccepted numAnimatedComponents joint
  frames : ∀ frame ∈ anim.Frames,
    toInt32 frame.AnimationComponents.length = numAnimatedComponents
  data : anim.Frames ≠ [] →
    ∀ joint ∈ anim.Joints, FrameDataOutOfRange numAnimatedComponents joint = false


/-- What `TryLoadMD5Mesh` yields for a file when the caller's model is empty, and
`(false, MD5Model.empty, "")` when a loop has used up the bound. -/
def loadedMesh (library : FloatLibrary) (bound : Nat) (md5meshFile : IReadFile) :
    Bool × MD5Model × String :=
  (TryLoadMD5Mesh library bound MD5Model.empty md5meshFile "").getD
    (false, MD5Model.empty, "")

/-- What `TryLoadMD5Anim` yields for a file when the caller's animation is empty,
and `(false, MD5Anim.empty, "")` when a loop has used up the bound. -/
def loadedAnim (library : FloatLibrary) (bound : Nat) (md5animFile : IReadFile) :
    Bool × MD5Anim × String :=
  (TryLoadMD5Anim library bound MD5Anim.empty md5animFile "").getD
    (false, MD5Anim.empty, "")

/-- A mesh file that announces a negative number of joints. -/
def negativeJointsFile : IReadFile :=
  ["MD5Version 10", "commandline \x22\x22", "numJoints -2"]

/-- A model with one joint and no mesh, as a caller may hold before a load. -/
def previousModel : MD5Model :=
  { MD5Version := 10, CommandLine := "old",
    BindPoseJoints :=
      [{ Name := "root", ParentIndex := -1,
         Position := (Float32.zero, Float32.zero, Float32.zero),
         Orientation := (Float32.zero, Float32.zero, Float32.zero) }],
    Meshes := [] }

/-! ## The UV sphere (uvsphere.cpp) -/

/-- The conversion of an `int` to `std::uint32_t`: the value modulo 2^32. -/
def toUInt32 (x : Int) : Nat :=
  (x % 4294967296).toNat

/-- A loop `for (int i = 0; i < limit; i++)` whose body assigns neither `i` nor
the limit: the body runs for `i` = 0, ..., `limit - 1` in this order, and not
at all when the limit is not positive. The increment does not overflow, `i`
being smaller than the limit when it is made. -/
def ForInt {σ : Type} (limit : Int) (body : Int → σ → σ) (s : σ) : σ :=
  (List.range limit.toNat).foldl (fun acc (i : Nat) => body (i : Int) acc) s

/-- An element of `sphereVertices`. Its coordinates are computed in `float` from
the angles `theta = radiansPerSegment * segment` and `phi = radiansPerRing *
ring` and from the radius; the element is represented by the values of the two
loop counters for which it is pushed. -/
structure SphereVertex where
  Segment : Int
  Ring : Int
  deriving DecidableEq

/-- What `UVSphere::Init` has generated when it calls `mMesh->Init`: the two
vectors and the two sizes it computes from the vector of indices, `sizeof` of an
index being 4. -/
structure SphereBuffers where
  sphereVertices : List SphereVertex
  sphereIndices : List Nat
  indexBufferSize : Nat
  indexCount : Nat
  deriving DecidableEq

namespace UVSphere

/-- The member `UVSphere::Init` up to its call of `mMesh->Init`, with the buffers
it passes to that call; the call itself, whose code is not among the sources,
and the assignments of `mNumRings`, `mNumSegments` and `mRadius` after it are
left out. The test `radius < 0` is the comparison `0 > radius` of the float
library. The arithmetic on `int` wraps to 32 bits and every index is converted
to `std::uint32_t` when it is pushed. -/
def Init (library : FloatLibrary) (numRings numSegments : Int) (radius : Float32) :
    Completion SphereBuffers :=
  if numRings < 1 ∨ numSegments < 1 ∨ library.Greater Float32.zero radius = true then
    Completion.raised Raised.logic_error
  else
    let sphereVertices : List SphereVertex :=
      ForInt (toInt32 (numSegments + 1))
        (fun segment vertices =>
          ForInt (toInt32 (numRings + 1))
            (fun ring vertices1 => vertices1 ++ [{ Segment := segment, Ring := ring }])
            vertices)
        []
    let sphereIndices : List Nat :=
      ForInt numSegments
        (fun segment indices =>
          let indices1 :=
            ForInt (toInt32 (numRings + 1))
              (fun ring indices0 =>
                indices0 ++
                  [toUInt32 (toInt32 (toInt32 (segment * toInt32 (numRings + 1)) + ring)),
                   toUInt32
                     (toInt32
                       (toInt32 (toInt32 (segment + 1) * toInt32 (numRings + 1)) + ring))])
              indices
          if segment < toInt32 (numSegments - 1) then
            indices1 ++
              [toUInt32
                 (toInt32
                   (toInt32 (toInt32 (segment + 1) * toInt32 (numRings + 1)) + numRings)),
               toUInt32 (toInt32 (toInt32 (segment + 1) * toInt32 (numRings + 1)))]
          else indices1)
        []
    Completion.returned
      { sphereVertices := sphereVertices
        sphereIndices := sphereIndices
        indexBufferSize := sphereIndices.length * 4
        indexCount := sphereIndices.length }

end UVSphere

/-- The float 1, in decimal notation. -/
def Float32.one : Float32 :=
  { Mantissa := 1, DecimalPlaces := 0 }

/-- The float -1, in decimal notation. -/
def Float32.minusOne : Float32 :=
  { Mantissa := -1, DecimalPlaces := 0 }

/-- The instructions `added` are deletion instructions of vertex arrays among the
released handles `handles`: what the destructors of these handles can append to
a rendering buffer. -/
def DeletionsOf (handles : List ReleasedHandle) (added : List OpenGLInstruction) : Prop :=
  ∀ x ∈ added, ∃ handle ∈ handles, handle.Kind = HandleKind.VertexArray ∧
    x = ToInstruction (OpCodeParams.DeleteVertexArray handle.Handle) []

/-- The instructions `added` are deletion instructions of vertex arrays that the
instructions `handled` release. -/
def DeletionsFor (handled : List OpenGLInstruction) (added : List OpenGLInstruction) : Prop :=
  ∀ x ∈ added, ∃ inst ∈ handled, DeletionsOf inst.Released [x]

/-! ## The handlers when a future may be unfulfilled -/

/-- Modelled from the spec: `OpenGLSharedFuture` of glinstruction.hpp is not among
the sources. The state of a shared future of a handle at the time a handler
reads it: fulfilled with the handle, broken (its promise was destroyed without
being fulfilled), or pending (its promise is neither fulfilled nor destroyed). -/
inductive OpenGLSharedFuture
  | fulfilled (handle : GLuint)
  | broken
  | pending
  deriving DecidableEq

/-- Modelled from the spec: the member `get()` of a shared future, which is not
among the sources. It returns the handle of a fulfilled future, raises
`std::future_error` on a broken one, and suspends the caller on a pending one. -/
def OpenGLSharedFuture.get : OpenGLSharedFuture → Completion GLuint
  | .fulfilled handle => Completion.returned handle
  | .broken => Completion.raised Raised.future_error
  | .pending => Completion.blocked

/-- The parameter blocks of the instructions with the shared futures they hold:
as `OpCodeParams`, every handle that the block holds as a shared future being
that future in any state. The index buffer of a layout is `none` when the future
is null or not valid. -/
inductive OpCodeParamsWithFutures
  | GenBuffer (Promise : PromiseId)
  | DeleteBuffer (Handle : GLuint)
  | BufferData (BufferDataPromise : PromiseId) (BufferHandle : OpenGLSharedFuture)
      (Target : Nat) (Size : Nat) (DataHandle : Nat) (Usage : Nat)
  | GenVertexArray (Promise : PromiseId)
  | DeleteVertexArray (Handle : GLuint)
  | SetVertexArrayLayout (VertexArrayPromise : PromiseId)
      (VertexArrayHandle : OpenGLSharedFuture)
      (Format : List (VertexAttributeName × VertexAttribute))
      (AttributeBuffers : List (VertexAttributeName × OpenGLSharedFuture))
      (IndexBuffer : Option OpenGLSharedFuture)
  | GenShader (ShaderPromise : PromiseId) (ShaderType : Nat)
  | DeleteShader (Handle : GLuint)
  | CompileShader (CompiledShaderPromise : PromiseId) (ShaderHandle : OpenGLSharedFuture)
      (SourceHandle : Nat)
  | ShaderStatus (Promise : PromiseId) (Handle : OpenGLSharedFuture)
  | GenShaderProgram (Promise : PromiseId)
  | DeleteShaderProgram (Handle : GLuint)
  | LinkShaderProgram (LinkedProgramPromise : PromiseId)
      (ShaderProgramHandle : OpenGLSharedFuture) (VertexShaderHandle : OpenGLSharedFuture)
      (FragmentShaderHandle : OpenGLSharedFuture)
  | ShaderProgramStatus (Promise : PromiseId) (Handle : OpenGLSharedFuture)
  | DrawVertexArray (VertexArrayHandle : OpenGLSharedFuture)
      (ProgramHandle : OpenGLSharedFuture) (Uniforms : Nat) (State : Nat) (Mode : Nat)
      (FirstVertexIndex : Nat) (VertexCount : Nat) (IsIndexed : Bool) (IndexType : Nat)
  | Clear (Mask : Nat)
  | SwapBuffers
  | Quit
  deriving DecidableEq

/-- The opcode of a parameter block with futures. -/
def OpCodeParamsWithFutures.OpCode : OpCodeParamsWithFutures → OpenGLOpCode
  | .GenBuffer _ => .GenBuffer
  | .DeleteBuffer _ => .DeleteBuffer
  | .BufferData _ _ _ _ _ _ => .BufferData
  | .GenVertexArray _ => .GenVertexArray
  | .DeleteVertexArray _ => .DeleteVertexArray
  | .SetVertexArrayLayout _ _ _ _ _ => .SetVertexArrayLayout
  | .GenShader _ _ => .GenShader
  | .DeleteShader _ => .DeleteShader
  | .CompileShader _ _ _ => .CompileShader
  | .ShaderStatus _ _ => .ShaderStatus
  | .GenShaderProgram _ => .GenShaderProgram
  | .DeleteShaderProgram _ => .DeleteShaderProgram
  | .LinkShaderProgram _ _ _ _ => .LinkShaderProgram
  | .ShaderProgramStatus _ _ => .ShaderProgramStatus
  | .DrawVertexArray _ _ _ _ _ _ _ _ _ => .DrawVertexArray
  | .Clear _ => .Clear
  | .SwapBuffers => .SwapBuffers
  | .Quit => .Quit

/-- What a case of a handler has done when it ends or is suspended: the effects
so far, in program order, and how it went on. -/
abbrev Handling (α : Type) := List Effect × Completion α

/-- One part of a case after another: the second runs when the first returned,
with what it returned. -/
def Handling.andThen {α β : Type} (first : Handling α) (next : α → Handling β) : Handling β :=
  match first.2 with
  | Completion.returned a => (first.1 ++ (next a).1, (next a).2)
  | Completion.raised e => (first.1, Completion.raised e)
  | Completion.blocked => (first.1, Completion.blocked)
  | Completion.unfinished => (first.1, Completion.unfinished)

/-- The end of a case that returns. -/
def Handling.done {α : Type} (a : α) : Handling α :=
  ([], Completion.returned a)

theorem buffer_setBuffer_same (r : OpenGLRenderer) (i : Bool)
    (b : OpenGLInstructionLinearBuffer) : (r.setBuffer i b).buffer i = b := by
  cases i <;> simp [OpenGLRenderer.buffer, OpenGLRenderer.setBuffer, at2, set2]

theorem buffer_setBuffer_other (r : OpenGLRenderer) (i : Bool)
    (b : OpenGLInstructionLinearBuffer) : (r.setBuffer i b).buffer (!i) = r.buffer (!i) := by
  cases i <;> simp [OpenGLRenderer.buffer, OpenGLRenderer.setBuffer, at2, set2]

theorem buffer_setBuffer_ne (r : OpenGLRenderer) (i j : Bool)
    (b : OpenGLInstructionLinearBuffer) (h : j ≠ i) :
    (r.setBuffer i b).buffer j = r.buffer j := by
  cases i <;> cases j <;> simp_all [OpenGLRenderer.buffer, OpenGLRenderer.setBuffer, at2, set2]

theorem BufferGrows_same (n : Nat) (b : OpenGLInstructionLinearBuffer) : BufferGrows n b b :=
  ⟨rfl, rfl, [], by simp, by simp, by simp⟩

theorem BufferGrows_chain {n m : Nat} {a b c : OpenGLInstructionLinearBuffer}
    (h1 : BufferGrows n a b) (h2 : BufferGrows m b c) : BufferGrows (n + m) a c := by
  obtain ⟨c1, r1, x1, e1, l1, p1⟩ := h1
  obtain ⟨c2, r2, x2, e2, l2, p2⟩ := h2
  refine ⟨by rw [c2, c1], by rw [r2, r1], x1 ++ x2, ?_, ?_, ?_⟩
  · rw [e2, e1, List.append_assoc]
  · simp only [List.length_append]; omega
  · intro x hx
    rcases List.mem_append.mp hx with h | h
    · exact p1 x h
    · exact p2 x h

theorem BufferGrows_push {b b' : OpenGLInstructionLinearBuffer} {inst : OpenGLInstruction}
    (h : b.PushInstruction inst = some b') (hrel : inst.Released = []) :
    BufferGrows 1 b b' := by
  unfold OpenGLInstructionLinearBuffer.PushInstruction at h
  split at h
  · cases h
    exact ⟨rfl, rfl, [inst], rfl, by simp, by simp [hrel]⟩
  · cases h

theorem Destroyed_same (n : Nat) (r : OpenGLRenderer) : Destroyed n r r :=
  { mode := rfl, thread := rfl, index := rfl, producer := rfl, consumer := rfl
    promises := rfl, rendering := rfl
    grows := fun _ => BufferGrows_same n _
    effects := ⟨[], by simp⟩
    resource := ⟨[], by simp⟩
    synchronous := fun _ => ⟨rfl, rfl, rfl⟩ }

theorem Destroyed_chain {n m : Nat} {a b c : OpenGLRenderer}
    (h1 : Destroyed n a b) (h2 : Destroyed m b c) : Destroyed (n + m) a c := by
  obtain ⟨e1, he1⟩ := h1.effects
  obtain ⟨e2, he2⟩ := h2.effects
  obtain ⟨x1, hx1⟩ := h1.resource
  obtain ⟨x2, hx2⟩ := h2.resource
  exact
    { mode := by rw [h2.mode, h1.mode]
      thread := by rw [h2.thread, h1.thread]
      index := by rw [h2.index, h1.index]
      producer := by rw [h2.producer, h1.producer]
      consumer := by rw [h2.consumer, h1.consumer]
      promises := by rw [h2.promises, h1.promises]
      rendering := by rw [h2.rendering, h1.rendering]
      grows := fun j => BufferGrows_chain (h1.grows j) (h2.grows j)
      effects := ⟨e1 ++ e2, by rw [he2, he1, List.append_assoc]⟩
      resource := ⟨x1 ++ x2, by rw [hx2, hx1, List.append_assoc]⟩
      synchronous := fun hs => by
        have s1 := h1.synchronous hs
        have s2 := h2.synchronous (by rw [h1.mode]; exact hs)
        rw [h1.index] at s2
        exact ⟨by rw [s2.1, s1.1], by rw [s2.2.1, s1.2.1], by rw [s2.2.2, s1.2.2]⟩ }

theorem PushRenderingInstruction_of_some {r : OpenGLRenderer} {self : ThreadId}
    {inst : OpenGLInstruction} {b : OpenGLInstructionLinearBuffer}
    (h : (r.buffer (PushRenderingWriteIndex r self)).PushInstruction inst = some b) :
    PushRenderingInstruction r self inst
      = (r.setBuffer (PushRenderingWriteIndex r self) b, Completion.returned ()) := by
  simp [PushRenderingInstruction, h]

theorem PushRenderingInstruction_of_none {r : OpenGLRenderer} {self : ThreadId}
    {inst : OpenGLInstruction}
    (h : (r.buffer (PushRenderingWriteIndex r self)).PushInstruction inst = none) :
    PushRenderingInstruction r self inst = (r, Completion.raised Raised.overflow_error) := by
  simp [PushRenderingInstruction, h]

theorem PushRenderingInstruction_destroyed (r : OpenGLRenderer) (self : ThreadId)
    (inst : OpenGLInstruction) (hrel : inst.Released = []) :
    Destroyed 1 r (PushRenderingInstruction r self inst).1 := by
  cases hp : (r.buffer (PushRenderingWriteIndex r self)).PushInstruction inst with
  | none =>
    rw [PushRenderingInstruction_of_none hp]
    exact Destroyed_same 1 r
  | some b =>
    rw [PushRenderingInstruction_of_some hp]
    refine
      { mode := rfl, thread := rfl, index := rfl, producer := rfl, consumer := rfl
        promises := rfl, rendering := rfl
        grows := ?_
        effects := ⟨[], by simp [OpenGLRenderer.setBuffer]⟩
        resource := ⟨[], by simp [OpenGLRenderer.setBuffer]⟩
        synchronous := ?_ }
    · intro j
      by_cases hj : j = PushRenderingWriteIndex r self
      · subst hj
        simp only [buffer_setBuffer_same]
        exact BufferGrows_push hp hrel
      · simp only [buffer_setBuffer_ne r _ j b hj]
        exact BufferGrows_same 1 _
    · intro hs
      refine ⟨rfl, rfl, ?_⟩
      have hidx : PushRenderingWriteIndex r self = !r.mCurrentWriteBufferIndex := by
        simp [PushRenderingWriteIndex, hs]
      show ((r.setBuffer (PushRenderingWriteIndex r self) b).buffer r.mCurrentWriteBufferIndex
        = r.buffer r.mCurrentWriteBufferIndex)
      rw [hidx]
      apply buffer_setBuffer_ne
      cases r.mCurrentWriteBufferIndex <;> simp

theorem PushRenderingInstruction_ended (r : OpenGLRenderer) (self : ThreadId)
    (inst : OpenGLInstruction) :
    (PushRenderingInstruction r self inst).2 = Completion.returned () ∨
      (PushRenderingInstruction r self inst).2 = Completion.raised Raised.overflow_error := by
  cases hp : (r.buffer (PushRenderingWriteIndex r self)).PushInstruction inst with
  | none => rw [PushRenderingInstruction_of_none hp]; exact Or.inr rfl
  | some b => rw [PushRenderingInstruction_of_some hp]; exact Or.inl rfl

theorem ResourceInstructionEffects_returned (inst : OpenGLInstruction) :
    ∃ response, (ResourceInstructionEffects inst).2 = Completion.returned response := by
  unfold ResourceInstructionEffects HandleCommonInstruction
  rcases inst with ⟨params, released⟩
  cases params <;> simp

theorem PushResourceInstructionWith_async_some {destroy : HandleDestructor}
    {r : OpenGLRenderer} {self : ThreadId} {inst : OpenGLInstruction}
    {b : OpenGLInstructionRingBuffer} (hm : r.mRenderingMode = RenderingMode.Asynchronous)
    (hp : r.mInstructionBuffer.PushInstruction inst = some b) :
    PushResourceInstructionWith destroy r self inst
      = ({ r with mInstructionBuffer := b, mConsumerSemaphore := r.mConsumerSemaphore + 1 },
         Completion.returned ()) := by
  simp [PushResourceInstructionWith, hm, hp]

theorem PushResourceInstructionWith_async_none {destroy : HandleDestructor}
    {r : OpenGLRenderer} {self : ThreadId} {inst : OpenGLInstruction}
    (hm : r.mRenderingMode = RenderingMode.Asynchronous)
    (hp : r.mInstructionBuffer.PushInstruction inst = none) :
    PushResourceInstructionWith destroy r self inst
      = (r, Completion.raised Raised.overflow_error) := by
  simp [PushResourceInstructionWith, hm, hp]

theorem PushResourceInstructionWith_sync {destroy : HandleDestructor}
    {r : OpenGLRenderer} {self : ThreadId} {inst : OpenGLInstruction}
    (hm : r.mRenderingMode = RenderingMode.Synchronous) :
    PushResourceInstructionWith destroy r self inst
      = ((HandleResourceInstructionWith destroy r self inst).1,
         (HandleResourceInstructionWith destroy r self inst).2.discard) := by
  simp [PushResourceInstructionWith, hm]

theorem mode_cases (r : OpenGLRenderer) :
    r.mRenderingMode = RenderingMode.Synchronous ∨
      r.mRenderingMode = RenderingMode.Asynchronous := by
  cases r.mRenderingMode <;> simp

theorem PushResourceInstructionWith_none_destroyed (r : OpenGLRenderer) (self : ThreadId)
    (inst : OpenGLInstruction) (hrel : inst.Released = []) :
    Destroyed 1 r (PushResourceInstructionWith NoHandleToDestroy r self inst).1 ∧
      ((PushResourceInstructionWith NoHandleToDestroy r self inst).2 = Completion.returned () ∨
        (PushResourceInstructionWith NoHandleToDestroy r self inst).2
          = Completion.raised Raised.overflow_error) := by
  rcases mode_cases r with hm | hm
  · rw [PushResourceInstructionWith_sync hm]
    obtain ⟨response, hresp⟩ := ResourceInstructionEffects_returned inst
    simp only [HandleResourceInstructionWith, hrel, RunDestructors, Completion.seq,
      Completion.discard, hresp]
    refine ⟨?_, by simp⟩
    exact
      { mode := rfl, thread := rfl, index := rfl, producer := rfl, consumer := rfl
        promises := rfl, rendering := rfl
        grows := fun j => BufferGrows_same 1 _
        effects := ⟨_, rfl⟩
        resource := ⟨_, rfl⟩
        synchronous := fun _ => ⟨rfl, rfl, rfl⟩ }
  · cases hp : r.mInstructionBuffer.PushInstruction inst with
    | none =>
      rw [PushResourceInstructionWith_async_none hm hp]
      exact ⟨Destroyed_same 1 r, Or.inr rfl⟩
    | some b =>
      rw [PushResourceInstructionWith_async_some hm hp]
      refine ⟨?_, Or.inl rfl⟩
      exact
        { mode := rfl, thread := rfl, index := rfl, producer := rfl, consumer := rfl
          promises := rfl, rendering := rfl
          grows := fun j => BufferGrows_same 1 _
          effects := ⟨[], by simp⟩
          resource := ⟨[], by simp⟩
          synchronous := fun hs => by rw [hm] at hs; cases hs }

theorem DestroyHandle_destroyed (r : OpenGLRenderer) (self : ThreadId)
    (handle : ReleasedHandle) :
    Destroyed 1 r (DestroyHandle r self handle).1 ∧
      ((DestroyHandle r self handle).2 = Completion.returned () ∨
        (DestroyHandle r self handle).2 = Completion.raised Raised.overflow_error) := by
  unfold DestroyHandle DestroyHandleWith
  cases handle.Kind
  · exact PushResourceInstructionWith_none_destroyed r self _ rfl
  · exact ⟨PushRenderingInstruction_destroyed r self _ rfl,
      PushRenderingInstruction_ended r self _⟩
  · exact PushResourceInstructionWith_none_destroyed r self _ rfl
  · exact PushResourceInstructionWith_none_destroyed r self _ rfl

theorem RunDestructors_cons_returned {destroy : HandleDestructor} {self : ThreadId}
    {r r1 : OpenGLRenderer} {handle : ReleasedHandle} {rest : List ReleasedHandle}
    (h : destroy r self handle = (r1, Completion.returned ())) :
    RunDestructors destroy self r (handle :: rest) = RunDestructors destroy self r1 rest := by
  simp [RunDestructors, h]

theorem RunDestructors_cons_raised {destroy : HandleDestructor} {self : ThreadId}
    {r r1 : OpenGLRenderer} {handle : ReleasedHandle} {rest : List ReleasedHandle}
    {e : Raised} (h : destroy r self handle = (r1, Completion.raised e)) :
    RunDestructors destroy self r (handle :: rest) = (r1, Completion.raised e) := by
  simp [RunDestructors, h]

theorem RunDestructors_destroyed (self : ThreadId) (handles : List ReleasedHandle) :
    ∀ r : OpenGLRenderer,
      Destroyed handles.length r (RunDestructors DestroyHandle self r handles).1 ∧
        ((RunDestructors DestroyHandle self r handles).2 = Completion.returned () ∨
          (RunDestructors DestroyHandle self r handles).2
            = Completion.raised Raised.overflow_error) := by
  induction handles with
  | nil => intro r; exact ⟨Destroyed_same 0 r, Or.inl rfl⟩
  | cons handle rest ih =>
    intro r
    have hstep := DestroyHandle_destroyed r self handle
    rcases hd : DestroyHandle r self handle with ⟨r1, c⟩
    rw [hd] at hstep
    simp only at hstep
    rcases hstep with ⟨hdes, hc | hc⟩
    · subst hc
      rw [RunDestructors_cons_returned hd]
      have hrest := ih r1
      refine ⟨?_, hrest.2⟩
      have := Destroyed_chain hdes hrest.1
      simpa [Nat.add_comm] using this
    · subst hc
      rw [RunDestructors_cons_raised hd]
      refine ⟨?_, Or.inr rfl⟩
      have := Destroyed_chain hdes (Destroyed_same rest.length r1)
      simpa [Nat.add_comm] using this

theorem HandleRenderingInstruction_destroyed (r : OpenGLRenderer) (self : ThreadId)
    (inst : OpenGLInstruction) :
    Destroyed inst.Released.length
        { r with Effects := r.Effects ++ (RenderingInstructionEffects inst).1
                 RenderingExecuted := r.RenderingExecuted ++ [inst] }
        (HandleRenderingInstruction r self inst).1 ∧
      (HandleRenderingInstruction r self inst).2
        = ((RunDestructors DestroyHandle self
              { r with Effects := r.Effects ++ (RenderingInstructionEffects inst).1
                       RenderingExecuted := r.RenderingExecuted ++ [inst] }
              inst.Released).2).seq (RenderingInstructionEffects inst).2 :=
  ⟨(RunDestructors_destroyed self inst.Released _).1, rfl⟩

theorem HandleResourceInstruction_destroyed (r : OpenGLRenderer) (self : ThreadId)
    (inst : OpenGLInstruction) :
    Destroyed inst.Released.length
        { r with Effects := r.Effects ++ (ResourceInstructionEffects inst).1
                 ResourceExecuted := r.ResourceExecuted ++ [inst] }
        (HandleResourceInstruction r self inst).1 ∧
      (HandleResourceInstruction r self inst).2
        = ((RunDestructors DestroyHandle self
              { r with Effects := r.Effects ++ (ResourceInstructionEffects inst).1
                       ResourceExecuted := r.ResourceExecuted ++ [inst] }
              inst.Released).2).seq (ResourceInstructionEffects inst).2 :=
  ⟨(RunDestructors_destroyed self inst.Released _).1, rfl⟩

theorem RenderingInstructionEffects_ended (inst : OpenGLInstruction) :
    (RenderingInstructionEffects inst).2.Ended := by
  unfold RenderingInstructionEffects HandleCommonInstruction Completion.Ended
  rcases inst with ⟨params, released⟩
  cases params <;> simp
  split <;> simp

theorem HandleRenderingInstruction_ended (r : OpenGLRenderer) (self : ThreadId)
    (inst : OpenGLInstruction) : (HandleRenderingInstruction r self inst).2.Ended := by
  rw [(HandleRenderingInstruction_destroyed r self inst).2]
  rcases (RunDestructors_destroyed self inst.Released
    { r with Effects := r.Effects ++ (RenderingInstructionEffects inst).1
             RenderingExecuted := r.RenderingExecuted ++ [inst] }).2 with h | h
  · rw [h]; exact RenderingInstructionEffects_ended inst
  · rw [h]; exact Or.inr ⟨_, rfl⟩

theorem HandleRenderingInstruction_executed (r : OpenGLRenderer) (self : ThreadId)
    (inst : OpenGLInstruction) :
    (HandleRenderingInstruction r self inst).1.RenderingExecuted
      = r.RenderingExecuted ++ [inst] :=
  (HandleRenderingInstruction_destroyed r self inst).1.rendering

theorem HandleRenderingInstruction_grows (r : OpenGLRenderer) (self : ThreadId)
    (inst : OpenGLInstruction) (j : Bool) :
    BufferGrows inst.Released.length (r.buffer j)
      ((HandleRenderingInstruction r self inst).1.buffer j) :=
  (HandleRenderingInstruction_destroyed r self inst).1.grows j

/-! ## Lemmas on the loops that drain a rendering buffer -/

theorem PopInstruction_some {b b' : OpenGLInstructionLinearBuffer} {inst : OpenGLInstruction}
    (h : b.PopInstruction = some (inst, b')) :
    (∃ rest, b.Instructions.drop b.ReadHead = inst :: rest) ∧
      b' = { b with ReadHead := b.ReadHead + 1 } := by
  unfold OpenGLInstructionLinearBuffer.PopInstruction at h
  split at h
  · cases h
  · rename_i x rest hx
    simp only [Option.some.injEq, Prod.mk.injEq] at h
    exact ⟨⟨rest, by rw [hx, h.1]⟩, h.2.symm⟩

theorem PopInstruction_none {b : OpenGLInstructionLinearBuffer}
    (h : b.PopInstruction = none) : b.Instructions.drop b.ReadHead = [] := by
  unfold OpenGLInstructionLinearBuffer.PopInstruction at h
  split at h
  · assumption
  · cases h

theorem drop_append_cons {α : Type} {l : List α} {n : Nat} {x : α} {rest : List α}
    (h : l.drop n = x :: rest) (a : List α) :
    (l ++ a).drop n = x :: (rest ++ a) ∧ (l ++ a).drop (n + 1) = rest ++ a := by
  have hlen : n < l.length := by
    by_contra hc
    rw [List.drop_eq_nil_of_le (by omega)] at h
    cases h
  have h1 : (l ++ a).drop n = x :: (rest ++ a) := by
    rw [List.drop_append_of_le_length (by omega), h]; rfl
  refine ⟨h1, ?_⟩
  have h2 : (l ++ a).drop (n + 1) = ((l ++ a).drop n).drop 1 := by
    rw [List.drop_drop]
  rw [h2, h1]; rfl

theorem SynchronousDrain_none {bound : Nat} {r : OpenGLRenderer} {self : ThreadId} {i : Bool}
    (h : (r.buffer i).PopInstruction = none) :
    SynchronousDrain (bound + 1) r self i = (r, Completion.returned ()) := by
  simp [SynchronousDrain, h]

theorem SynchronousDrain_returned {bound : Nat} {r r1 : OpenGLRenderer} {self : ThreadId}
    {i : Bool} {inst : OpenGLInstruction} {b : OpenGLInstructionLinearBuffer}
    {response : InstructionHandlerResponse}
    (h : (r.buffer i).PopInstruction = some (inst, b))
    (hh : HandleRenderingInstruction (r.setBuffer i b) self inst
      = (r1, Completion.returned response)) :
    SynchronousDrain (bound + 1) r self i = SynchronousDrain bound r1 self i := by
  simp [SynchronousDrain, h, hh]

theorem SynchronousDrain_raised {bound : Nat} {r r1 : OpenGLRenderer} {self : ThreadId}
    {i : Bool} {inst : OpenGLInstruction} {b : OpenGLInstructionLinearBuffer} {e : Raised}
    (h : (r.buffer i).PopInstruction = some (inst, b))
    (hh : HandleRenderingInstruction (r.setBuffer i b) self inst = (r1, Completion.raised e)) :
    SynchronousDrain (bound + 1) r self i = (r1, Completion.raised e) := by
  simp [SynchronousDrain, h, hh, Completion.discard, Completion.seq]

theorem sum_released_append (l a : List OpenGLInstruction)
    (ha : ∀ x ∈ a, x.Released = []) :
    ((l ++ a).map (fun inst => 1 + inst.Released.length)).sum
      = (l.map (fun inst => 1 + inst.Released.length)).sum + a.length := by
  induction a generalizing l with
  | nil => simp
  | cons x rest ih =>
    have hx : x.Released = [] := ha x (by simp)
    have hrest : ∀ y ∈ rest, y.Released = [] := fun y hy => ha y (by simp [hy])
    have := ih (l ++ [x]) hrest
    simp only [List.append_assoc, List.singleton_append] at this
    rw [this]
    simp [hx]
    omega

/-- One step of a drain: the state of buffer `i` after an instruction was popped
and handled. -/
theorem drain_step {r r2 : OpenGLRenderer} {self : ThreadId} {i : Bool}
    {inst : OpenGLInstruction} {b : OpenGLInstructionLinearBuffer}
    {c : Completion InstructionHandlerResponse}
    (h : (r.buffer i).PopInstruction = some (inst, b))
    (hh : HandleRenderingInstruction (r.setBuffer i b) self inst = (r2, c)) :
    ∃ rest added,
      (r.buffer i).Instructions.drop (r.buffer i).ReadHead = inst :: rest ∧
      (r2.buffer i).Instructions = (r.buffer i).Instructions ++ added ∧
      (r2.buffer i).ReadHead = (r.buffer i).ReadHead + 1 ∧
      (∀ x ∈ added, x.Released = []) ∧
      added.length ≤ inst.Released.length ∧
      r2.RenderingExecuted = r.RenderingExecuted ++ [inst] ∧
      DrainBound (r2.buffer i) + 1 ≤ DrainBound (r.buffer i) := by
  obtain ⟨⟨rest, hrest⟩, hb⟩ := PopInstruction_some h
  have hg := HandleRenderingInstruction_grows (r.setBuffer i b) self inst i
  have he := HandleRenderingInstruction_executed (r.setBuffer i b) self inst
  rw [hh] at hg he
  simp only [buffer_setBuffer_same] at hg
  obtain ⟨_, hread, added, hadd, hlen, hnone⟩ := hg
  subst hb
  simp only at hread hadd
  refine ⟨rest, added, hrest, hadd, hread, hnone, hlen, he, ?_⟩
  unfold DrainBound OpenGLInstructionLinearBuffer.Pending
  rw [hadd, hread, (drop_append_cons hrest added).2, hrest, sum_released_append _ _ hnone]
  simp only [List.map_cons, List.sum_cons]
  omega

theorem HandleRenderingInstruction_result {r r2 : OpenGLRenderer} {self : ThreadId}
    {inst : OpenGLInstruction} {c : Completion InstructionHandlerResponse}
    (hh : HandleRenderingInstruction r self inst = (r2, c)) :
    (∃ response, c = Completion.returned response) ∨ ∃ e, c = Completion.raised e := by
  have := HandleRenderingInstruction_ended r self inst
  rw [hh] at this
  exact this

/-- The loop of the Synchronous drain, for any bound and any state: the buffer
only grows, the instructions handled are an initial segment of its contents from
the read head on, all of them when the loop returns, and the loop ends within
`DrainBound` iterations. -/
theorem SynchronousDrain_spec (self : ThreadId) (i : Bool) :
    ∀ (bound : Nat) (r : OpenGLRenderer),
      (∃ added, ((SynchronousDrain bound r self i).1.buffer i).Instructions
          = (r.buffer i).Instructions ++ added) ∧
      (∃ k, (SynchronousDrain bound r self i).1.RenderingExecuted
          = r.RenderingExecuted ++
            ((((SynchronousDrain bound r self i).1.buffer i).Instructions.drop
              (r.buffer i).ReadHead).take k)) ∧
      ((SynchronousDrain bound r self i).2 = Completion.returned () →
        (SynchronousDrain bound r self i).1.RenderingExecuted
          = r.RenderingExecuted ++
            ((SynchronousDrain bound r self i).1.buffer i).Instructions.drop
              (r.buffer i).ReadHead ∧
        ((SynchronousDrain bound r self i).1.buffer i).Pending = []) ∧
      (DrainBound (r.buffer i) ≤ bound →
        (SynchronousDrain bound r self i).2 ≠ Completion.unfinished) ∧
      (SynchronousDrain bound r self i).2 ≠ Completion.blocked := by
  intro bound
  induction bound with
  | zero =>
    intro r
    refine ⟨⟨[], by simp [SynchronousDrain]⟩, ⟨0, by simp [SynchronousDrain]⟩, ?_, ?_, ?_⟩
    · intro h; simp [SynchronousDrain] at h
    · intro h; simp [DrainBound] at h
    · simp [SynchronousDrain]
  | succ bound ih =>
    intro r
    cases hp : (r.buffer i).PopInstruction with
    | none =>
      rw [SynchronousDrain_none hp]
      have hnil := PopInstruction_none hp
      refine ⟨⟨[], by simp⟩, ⟨0, by simp⟩, ?_, ?_, ?_⟩
      · intro _
        exact ⟨by simp [hnil], hnil⟩
      · intro _ h; cases h
      · intro h; cases h
    | some popped =>
      obtain ⟨inst, b⟩ := popped
      rcases hh : HandleRenderingInstruction (r.setBuffer i b) self inst with ⟨r2, c⟩
      obtain ⟨rest, added, hrest, hadd, hread, _, _, hexec, hbound⟩ := drain_step hp hh
      rcases HandleRenderingInstruction_result hh with ⟨response, hc⟩ | ⟨e, hc⟩
      · subst hc
        rw [SynchronousDrain_returned hp hh]
        obtain ⟨⟨added2, hI⟩, ⟨k, hk⟩, hret, hb, hnb⟩ := ih r2
        have hfinal : ((SynchronousDrain bound r2 self i).1.buffer i).Instructions
            = (r.buffer i).Instructions ++ (added ++ added2) := by
          rw [hI, hadd, List.append_assoc]
        have hdrop := drop_append_cons hrest (added ++ added2)
        refine ⟨⟨added ++ added2, hfinal⟩, ⟨k + 1, ?_⟩, ?_, ?_, hnb⟩
        · rw [hk, hexec, hread, hfinal, hdrop.1, hdrop.2]
          simp
        · intro hr
          obtain ⟨h1, h2⟩ := hret hr
          refine ⟨?_, h2⟩
          rw [h1, hexec, hread, hfinal, hdrop.1, hdrop.2]
          simp
        · intro hle
          exact hb (by omega)
      · subst hc
        rw [SynchronousDrain_raised hp hh]
        have hdrop := drop_append_cons hrest added
        refine ⟨⟨added, hadd⟩, ⟨1, ?_⟩, ?_, ?_, ?_⟩
        · show r2.RenderingExecuted = _
          rw [hexec]
          show _ = r.RenderingExecuted ++ List.take 1 ((r2.buffer i).Instructions.drop _)
          rw [hadd, hdrop.1]
          simp
        · intro h; cases h
        · intro _ h; cases h
        · intro h; cases h

theorem RenderingInstructionEffects_quit (inst : OpenGLInstruction)
    (response : InstructionHandlerResponse)
    (h : (RenderingInstructionEffects inst).2 = Completion.returned response) :
    response = InstructionHandlerResponse.Quit ↔ inst.OpCode = OpenGLOpCode.Quit := by
  unfold RenderingInstructionEffects HandleCommonInstruction at h
  rcases inst with ⟨params, released⟩
  cases params <;>
    simp [OpenGLInstruction.OpCode, OpCodeParams.OpCode] at h ⊢ <;>
    (try split at h) <;> (try simp at h) <;> (try subst h) <;> (try simp)

theorem Completion.seq_returned {α β : Type} {c : Completion α} {d : Completion β} {b : β}
    (h : c.seq d = Completion.returned b) : d = Completion.returned b := by
  cases c <;> simp [Completion.seq] at h
  exact h

theorem HandleRenderingInstruction_quit {r r2 : OpenGLRenderer} {self : ThreadId}
    {inst : OpenGLInstruction} {response : InstructionHandlerResponse}
    (hh : HandleRenderingInstruction r self inst = (r2, Completion.returned response)) :
    response = InstructionHandlerResponse.Quit ↔ inst.OpCode = OpenGLOpCode.Quit := by
  have h := (HandleRenderingInstruction_destroyed r self inst).2
  rw [hh] at h
  exact RenderingInstructionEffects_quit inst response (Completion.seq_returned h.symm)

theorem RenderingThreadDrain_none {bound : Nat} {r : OpenGLRenderer} {self : ThreadId}
    {i : Bool} {response : InstructionHandlerResponse}
    (h : (r.buffer i).PopInstruction = none) :
    RenderingThreadDrain (bound + 1) r self i response = (r, Completion.returned response) := by
  simp [RenderingThreadDrain, h]

theorem RenderingThreadDrain_after_quit {bound : Nat} {r : OpenGLRenderer} {self : ThreadId}
    {i : Bool} {inst : OpenGLInstruction} {b : OpenGLInstructionLinearBuffer}
    (h : (r.buffer i).PopInstruction = some (inst, b)) :
    RenderingThreadDrain (bound + 1) r self i InstructionHandlerResponse.Quit
      = (r.setBuffer i b, Completion.returned InstructionHandlerResponse.Quit) := by
  simp [RenderingThreadDrain, h]

theorem RenderingThreadDrain_returned {bound : Nat} {r r1 : OpenGLRenderer} {self : ThreadId}
    {i : Bool} {inst : OpenGLInstruction} {b : OpenGLInstructionLinearBuffer}
    {next : InstructionHandlerResponse}
    (h : (r.buffer i).PopInstruction = some (inst, b))
    (hh : HandleRenderingInstruction (r.setBuffer i b) self inst
      = (r1, Completion.returned next)) :
    RenderingThreadDrain (bound + 1) r self i InstructionHandlerResponse.Continue
      = RenderingThreadDrain bound r1 self i next := by
  simp [RenderingThreadDrain, h, hh]

theorem RenderingThreadDrain_raised {bound : Nat} {r r1 : OpenGLRenderer} {self : ThreadId}
    {i : Bool} {inst : OpenGLInstruction} {b : OpenGLInstructionLinearBuffer} {e : Raised}
    (h : (r.buffer i).PopInstruction = some (inst, b))
    (hh : HandleRenderingInstruction (r.setBuffer i b) self inst = (r1, Completion.raised e)) :
    RenderingThreadDrain (bound + 1) r self i InstructionHandlerResponse.Continue
      = (r1, Completion.raised e) := by
  simp [RenderingThreadDrain, h, hh]

/-- The inner loop of the rendering thread, for any bound, state and response so
far: the buffer only grows, the instructions handled are an initial segment of
its contents from the read head on, those up to and including the first Quit
when the loop returns, and the loop ends within `DrainBound` iterations. -/
theorem RenderingThreadDrain_spec (self : ThreadId) (i : Bool) :
    ∀ (bound : Nat) (r : OpenGLRenderer) (response : InstructionHandlerResponse),
      (∃ added, ((RenderingThreadDrain bound r self i response).1.buffer i).Instructions
          = (r.buffer i).Instructions ++ added) ∧
      (∃ k, (RenderingThreadDrain bound r self i response).1.RenderingExecuted
          = r.RenderingExecuted ++
            ((((RenderingThreadDrain bound r self i response).1.buffer i).Instructions.drop
              (r.buffer i).ReadHead).take k)) ∧
      (∀ last, (RenderingThreadDrain bound r self i response).2 = Completion.returned last →
        (RenderingThreadDrain bound r self i response).1.RenderingExecuted
          = r.RenderingExecuted ++
            (if response = InstructionHandlerResponse.Quit then []
             else ThroughFirstQuit
              (((RenderingThreadDrain bound r self i response).1.buffer i).Instructions.drop
                (r.buffer i).ReadHead))) ∧
      (DrainBound (r.buffer i) ≤ bound →
        (RenderingThreadDrain bound r self i response).2 ≠ Completion.unfinished) ∧
      (RenderingThreadDrain bound r self i response).2 ≠ Completion.blocked := by
  intro bound
  induction bound with
  | zero =>
    intro r response
    refine ⟨⟨[], by simp [RenderingThreadDrain]⟩, ⟨0, by simp [RenderingThreadDrain]⟩, ?_, ?_, ?_⟩
    · intro last h; simp [RenderingThreadDrain] at h
    · intro h; simp [DrainBound] at h
    · simp [RenderingThreadDrain]
  | succ bound ih =>
    intro r response
    cases hp : (r.buffer i).PopInstruction with
    | none =>
      rw [RenderingThreadDrain_none hp]
      have hnil := PopInstruction_none hp
      refine ⟨⟨[], by simp⟩, ⟨0, by simp⟩, ?_, ?_, ?_⟩
      · intro last _
        simp [hnil, ThroughFirstQuit]
      · intro _ h; cases h
      · intro h; cases h
    | some popped =>
      obtain ⟨inst, b⟩ := popped
      cases response with
      | Quit =>
        rw [RenderingThreadDrain_after_quit hp]
        obtain ⟨_, hb⟩ := PopInstruction_some hp
        subst hb
        refine ⟨⟨[], by simp [buffer_setBuffer_same]⟩,
          ⟨0, by simp [OpenGLRenderer.setBuffer]⟩, ?_, ?_, ?_⟩
        · intro last _
          simp [OpenGLRenderer.setBuffer]
        · intro _ h; cases h
        · intro h; cases h
      | Continue =>
        rcases hh : HandleRenderingInstruction (r.setBuffer i b) self inst with ⟨r2, c⟩
        obtain ⟨rest, added, hrest, hadd, hread, _, _, hexec, hbound⟩ := drain_step hp hh
        rcases HandleRenderingInstruction_result hh with ⟨next, hc⟩ | ⟨e, hc⟩
        · subst hc
          rw [RenderingThreadDrain_returned hp hh]
          have hquit := HandleRenderingInstruction_quit hh
          obtain ⟨⟨added2, hI⟩, ⟨k, hk⟩, hret, hb, hnb⟩ := ih r2 next
          have hfinal : ((RenderingThreadDrain bound r2 self i next).1.buffer i).Instructions
              = (r.buffer i).Instructions ++ (added ++ added2) := by
            rw [hI, hadd, List.append_assoc]
          have hdrop := drop_append_cons hrest (added ++ added2)
          refine ⟨⟨added ++ added2, hfinal⟩, ⟨k + 1, ?_⟩, ?_, ?_, hnb⟩
          · rw [hk, hexec, hread, hfinal, hdrop.1, hdrop.2]
            simp
          · intro last hr
            rw [hret last hr, hexec, hread, hfinal, hdrop.1, hdrop.2]
            by_cases hq : inst.OpCode = OpenGLOpCode.Quit
            · simp [ThroughFirstQuit, hq, hquit.mpr hq]
            · have hn : next ≠ InstructionHandlerResponse.Quit := fun h => hq (hquit.mp h)
              simp [ThroughFirstQuit, hq, hn]
          · intro hle
            exact hb (by omega)
        · subst hc
          rw [RenderingThreadDrain_raised hp hh]
          have hdrop := drop_append_cons hrest added
          refine ⟨⟨added, hadd⟩, ⟨1, ?_⟩, ?_, ?_, ?_⟩
          · show r2.RenderingExecuted = _
            rw [hexec]
            show _ = r.RenderingExecuted ++ List.take 1 ((r2.buffer i).Instructions.drop _)
            rw [hadd, hdrop.1]
            simp
          · intro last h; cases h
          · intro _ h; cases h
          · intro h; cases h

/-! ## The resource queue in Synchronous mode -/

theorem PushResourceInstruction_synchronous (r : OpenGLRenderer) (self : ThreadId)
    (inst : OpenGLInstruction) (hs : r.mRenderingMode = RenderingMode.Synchronous) :
    (∃ rest, (PushResourceInstruction r self inst).1.ResourceExecuted
        = r.ResourceExecuted ++ inst :: rest) ∧
    (∃ more, (PushResourceInstruction r self inst).1.Effects
        = r.Effects ++ (ResourceInstructionEffects inst).1 ++ more) ∧
    (PushResourceInstruction r self inst).1.RenderingExecuted = r.RenderingExecuted ∧
    (PushResourceInstruction r self inst).1.mInstructionBuffer = r.mInstructionBuffer ∧
    (PushResourceInstruction r self inst).1.mConsumerSemaphore = r.mConsumerSemaphore ∧
    (PushResourceInstruction r self inst).1.mRenderingMode = r.mRenderingMode ∧
    ((PushResourceInstruction r self inst).2 = Completion.returned () ∨
      (PushResourceInstruction r self inst).2 = Completion.raised Raised.overflow_error) ∧
    (inst.Released = [] → (PushResourceInstruction r self inst).2 = Completion.returned ()) := by
  have hd := HandleResourceInstruction_destroyed r self inst
  have hrun := RunDestructors_destroyed self inst.Released
    { r with Effects := r.Effects ++ (ResourceInstructionEffects inst).1
             ResourceExecuted := r.ResourceExecuted ++ [inst] }
  obtain ⟨response, hresp⟩ := ResourceInstructionEffects_returned inst
  have hpush : PushResourceInstruction r self inst
      = ((HandleResourceInstruction r self inst).1,
         (HandleResourceInstruction r self inst).2.discard) :=
    PushResourceInstructionWith_sync hs
  rw [hpush]
  obtain ⟨e, he⟩ := hd.1.effects
  obtain ⟨x, hx⟩ := hd.1.resource
  have hsync := hd.1.synchronous hs
  refine ⟨⟨x, ?_⟩, ⟨e, ?_⟩, hd.1.rendering, hsync.1, hsync.2.1, hd.1.mode, ?_, ?_⟩
  · show (HandleResourceInstruction r self inst).1.ResourceExecuted = _
    rw [hx]; simp
  · exact he
  · show (HandleResourceInstruction r self inst).2.discard = _ ∨ _
    rw [hd.2, hresp]
    rcases hrun.2 with h | h <;> rw [h] <;> simp [Completion.seq, Completion.discard]
  · intro hrel
    show (HandleResourceInstruction r self inst).2.discard = _
    rw [hd.2, hresp, hrel]
    simp [RunDestructors, Completion.seq, Completion.discard]

theorem LinearPush_some {b b' : OpenGLInstructionLinearBuffer} {inst : OpenGLInstruction}
    (h : b.PushInstruction inst = some b') :
    b' = { b with Instructions := b.Instructions ++ [inst] } := by
  unfold OpenGLInstructionLinearBuffer.PushInstruction at h
  split at h
  · cases h; rfl
  · cases h

theorem LinearPush_none_iff (b : OpenGLInstructionLinearBuffer) (inst : OpenGLInstruction) :
    b.PushInstruction inst = none ↔ b.Capacity < BytesUsed b.Instructions + inst.GetByteSize := by
  unfold OpenGLInstructionLinearBuffer.PushInstruction
  split <;> simp <;> omega

theorem PushRenderingInstruction_returned_iff (r : OpenGLRenderer) (self : ThreadId)
    (inst : OpenGLInstruction) (r' : OpenGLRenderer) :
    PushRenderingInstruction r self inst = (r', Completion.returned ()) ↔
      ∃ b, (r.buffer (PushRenderingWriteIndex r self)).PushInstruction inst = some b ∧
        r' = r.setBuffer (PushRenderingWriteIndex r self) b := by
  cases hp : (r.buffer (PushRenderingWriteIndex r self)).PushInstruction inst with
  | none => rw [PushRenderingInstruction_of_none hp]; simp
  | some b =>
    rw [PushRenderingInstruction_of_some hp]
    simp only [Prod.mk.injEq, and_true, Option.some.injEq]
    constructor
    · intro h; exact ⟨b, rfl, h.symm⟩
    · rintro ⟨b2, hb, hr⟩; rw [hr, hb]

theorem PushInstruction_rendering (r : OpenGLRenderer) (self : ThreadId)
    (inst : OpenGLInstruction) :
    PushInstruction r self OpenGLInstructionHandler.RenderingInstructionHandler inst
      = PushRenderingInstruction r self inst := by
  simp [PushInstruction]

theorem PushInstruction_resource (r : OpenGLRenderer) (self : ThreadId)
    (inst : OpenGLInstruction) :
    PushInstruction r self OpenGLInstructionHandler.ResourceInstructionHandler inst
      = PushResourceInstruction r self inst := by
  simp [PushInstruction]

theorem PushRenderingInstruction_nothing_executed (r : OpenGLRenderer) (self : ThreadId)
    (inst : OpenGLInstruction) :
    NothingExecutedBetween r (PushRenderingInstruction r self inst).1 := by
  cases hp : (r.buffer (PushRenderingWriteIndex r self)).PushInstruction inst with
  | none => rw [PushRenderingInstruction_of_none hp]; exact ⟨rfl, rfl, rfl⟩
  | some b => rw [PushRenderingInstruction_of_some hp]; exact ⟨rfl, rfl, rfl⟩

theorem Completion.seq_returned_left {α β : Type} {c : Completion α} {d : Completion β}
    {b : β} (h : c.seq d = Completion.returned b) : ∃ a, c = Completion.returned a := by
  cases c <;> simp [Completion.seq] at h
  exact ⟨_, rfl⟩

theorem SendWithPromise_returned {r : OpenGLRenderer}
    {push : OpenGLRenderer → PromiseId → OpenGLRenderer × Completion Unit}
    {promise : PromiseId} (h : (SendWithPromise r push).2 = Completion.returned promise) :
    promise = r.PromisesMade := by
  unfold SendWithPromise at h
  simp only at h
  have := Completion.seq_returned h
  simp only [Completion.returned.injEq] at this
  exact this.symm

/-- A `Send*` member that pushes to the resource queue fulfils its promise during
the call in Synchronous mode. -/
theorem SendWithPromise_resource_fulfilled (self : ThreadId) (mk : PromiseId → OpCodeParams)
    (released : List ReleasedHandle)
    (hmk : ∀ p, (mk p).Promise = some p)
    (hfx : ∀ p, Effect.set_value p ∈ (ResourceInstructionEffects (ToInstruction (mk p) released)).1) :
    FulfilsBeforeReturning fun r =>
      SendWithPromise r fun r1 promise =>
        PushResourceInstruction r1 self (ToInstruction (mk promise) released) := by
  intro r hs promise hret
  have hp := SendWithPromise_returned hret
  subst hp
  obtain ⟨⟨rest, hx⟩, ⟨more, he⟩, hrend, _⟩ :=
    PushResourceInstruction_synchronous { r with PromisesMade := r.PromisesMade + 1 } self
      (ToInstruction (mk r.PromisesMade) released) hs
  refine ⟨⟨ToInstruction (mk r.PromisesMade) released, hmk _, Or.inl ?_⟩, ?_⟩
  · show _ ∈ List.drop _ (PushResourceInstruction _ self _).1.ResourceExecuted
    rw [hx]
    simp
  · show _ ∈ List.drop _ (PushResourceInstruction _ self _).1.Effects
    rw [he]
    simp only [List.append_assoc, List.drop_left, List.mem_append]
    exact Or.inl (hfx _)

theorem SetLayoutAttributeLoop_gl (format : List (VertexAttributeName × VertexAttribute))
    (buffers : List (VertexAttributeName × GLuint)) :
    ∀ e ∈ (SetLayoutAttributeLoop format buffers).1, ∃ f args, e = Effect.gl f args := by
  induction buffers with
  | nil => intro e he; simp [SetLayoutAttributeLoop] at he
  | cons pair rest ih =>
    intro e he
    unfold SetLayoutAttributeLoop at he
    cases hat : AttributesAt format pair.1 with
    | none => simp [hat] at he
    | some attrib =>
      simp only [hat, List.cons_append, List.nil_append, List.mem_cons] at he
      rcases he with h | h | h | h
      · exact ⟨_, _, h⟩
      · exact ⟨_, _, h⟩
      · exact ⟨_, _, h⟩
      · exact ih e h

theorem RenderingInstructionEffects_known (inst : OpenGLInstruction)
    (h : FixedQueue inst.OpCode = OpenGLInstructionHandler.RenderingInstructionHandler) :
    ∀ code, Effect.InvalidOpCode code ∉ (RenderingInstructionEffects inst).1 := by
  intro code hmem
  rcases inst with ⟨params, released⟩
  cases params <;>
    simp [FixedQueue, OpenGLInstruction.OpCode, OpCodeParams.OpCode] at h <;>
    simp [RenderingInstructionEffects, HandleCommonInstruction] at hmem
  · rename_i promise vertexArray format attributeBuffers indexBuffer
    split at hmem
    · simp only [List.cons_append, List.nil_append, List.append_assoc, List.mem_cons,
        List.mem_append, reduceCtorEq, false_or] at hmem
      rcases hmem with h1 | h2
      · obtain ⟨f, args, hf⟩ := SetLayoutAttributeLoop_gl format attributeBuffers _ h1
        cases hf
      · cases indexBuffer <;> simp at h2
    · simp only [List.cons_append, List.nil_append, List.mem_cons, reduceCtorEq,
        false_or] at hmem
      obtain ⟨f, args, hf⟩ := SetLayoutAttributeLoop_gl format attributeBuffers _ hmem
      cases hf
  · rename_i isIndexed _
    cases isIndexed <;> simp at hmem

theorem ResourceInstructionEffects_known (inst : OpenGLInstruction)
    (h : FixedQueue inst.OpCode = OpenGLInstructionHandler.ResourceInstructionHandler ∨
      inst.OpCode = OpenGLOpCode.BufferData ∨ inst.OpCode = OpenGLOpCode.Quit) :
    ∀ code, Effect.InvalidOpCode code ∉ (ResourceInstructionEffects inst).1 := by
  intro code hmem
  rcases inst with ⟨params, released⟩
  cases params <;>
    simp [FixedQueue, OpenGLInstruction.OpCode, OpCodeParams.OpCode] at h <;>
    simp [ResourceInstructionEffects, HandleCommonInstruction] at hmem

theorem ThroughFirstQuit_append (l a : List OpenGLInstruction) :
    ∃ tail, ThroughFirstQuit (l ++ a) = ThroughFirstQuit l ++ tail := by
  induction l with
  | nil => exact ⟨ThroughFirstQuit a, by simp [ThroughFirstQuit]⟩
  | cons x rest ih =>
    obtain ⟨tail, ht⟩ := ih
    by_cases hq : x.OpCode = OpenGLOpCode.Quit
    · exact ⟨[], by simp [ThroughFirstQuit, hq]⟩
    · exact ⟨tail, by simp [ThroughFirstQuit, hq, ht]⟩

theorem ThroughFirstQuit_initial (l : List OpenGLInstruction) :
    ∃ tail, l = ThroughFirstQuit l ++ tail := by
  induction l with
  | nil => exact ⟨[], by simp [ThroughFirstQuit]⟩
  | cons x rest ih =>
    obtain ⟨tail, ht⟩ := ih
    by_cases hq : x.OpCode = OpenGLOpCode.Quit
    · exact ⟨rest, by simp [ThroughFirstQuit, hq]⟩
    · refine ⟨tail, ?_⟩
      simp only [ThroughFirstQuit, hq, if_false, List.cons_append]
      rw [← ht]

theorem Completion.ended_of {α : Type} {c : Completion α}
    (h1 : c ≠ Completion.unfinished) (h2 : c ≠ Completion.blocked) : c.Ended := by
  cases c with
  | returned a => exact Or.inl ⟨a, rfl⟩
  | raised e => exact Or.inr ⟨e, rfl⟩
  | blocked => exact absurd rfl h2
  | unfinished => exact absurd rfl h1

/-- The Synchronous drain of buffer `i`, run with the bound that
`SwapRenderingInstructionQueues` gives it, in terms of the instructions pending
when it starts. -/
theorem SynchronousDrain_pending (r : OpenGLRenderer) (self : ThreadId) (i : Bool) :
    (∃ added k,
      (SynchronousDrain (DrainBound (r.buffer i)) r self i).1.RenderingExecuted
        = r.RenderingExecuted ++ ((r.buffer i).Pending ++ added).take k ∧
      ((r.buffer i).Pending ≠ [] →
        ((SynchronousDrain (DrainBound (r.buffer i)) r self i).1.buffer i).Instructions
          = (r.buffer i).Instructions ++ added) ∧
      ((SynchronousDrain (DrainBound (r.buffer i)) r self i).2 = Completion.returned () →
        (SynchronousDrain (DrainBound (r.buffer i)) r self i).1.RenderingExecuted
          = r.RenderingExecuted ++ ((r.buffer i).Pending ++ added) ∧
        ((SynchronousDrain (DrainBound (r.buffer i)) r self i).1.buffer i).Pending = [])) ∧
    (SynchronousDrain (DrainBound (r.buffer i)) r self i).2.Ended := by
  obtain ⟨⟨added, hI⟩, ⟨k, hk⟩, hret, hb, hnb⟩ :=
    SynchronousDrain_spec self i (DrainBound (r.buffer i)) r
  refine ⟨?_, Completion.ended_of (hb (Nat.le_refl _)) hnb⟩
  by_cases hpend : (r.buffer i).Pending = []
  · have hpop : (r.buffer i).PopInstruction = none := by
      unfold OpenGLInstructionLinearBuffer.PopInstruction
      unfold OpenGLInstructionLinearBuffer.Pending at hpend
      rw [hpend]
    have hrun : SynchronousDrain (DrainBound (r.buffer i)) r self i
        = (r, Completion.returned ()) := by
      unfold DrainBound
      exact SynchronousDrain_none hpop
    rw [hrun]
    exact ⟨[], 0, by simp, fun h => absurd hpend h, fun _ => ⟨by simp [hpend], hpend⟩⟩
  · have hlen : (r.buffer i).ReadHead ≤ (r.buffer i).Instructions.length := by
      by_contra hc
      apply hpend
      unfold OpenGLInstructionLinearBuffer.Pending
      exact List.drop_eq_nil_of_le (by omega)
    have hP : ((SynchronousDrain (DrainBound (r.buffer i)) r self i).1.buffer i).Instructions.drop
        (r.buffer i).ReadHead = (r.buffer i).Pending ++ added := by
      rw [hI, List.drop_append_of_le_length hlen]
      rfl
    rw [hP] at hk hret
    exact ⟨added, k, hk, fun _ => hI, hret⟩

/-- The inner loop of the rendering thread on buffer `i`, run with the bound
`DrainBound`, in terms of the instructions pending when it starts. -/
theorem RenderingThreadDrain_pending (r : OpenGLRenderer) (self : ThreadId) (i : Bool) :
    (∃ added k,
      (RenderingThreadDrain (DrainBound (r.buffer i)) r self i
          InstructionHandlerResponse.Continue).1.RenderingExecuted
        = r.RenderingExecuted ++ ((r.buffer i).Pending ++ added).take k ∧
      ∀ last,
        (RenderingThreadDrain (DrainBound (r.buffer i)) r self i
          InstructionHandlerResponse.Continue).2 = Completion.returned last →
        (RenderingThreadDrain (DrainBound (r.buffer i)) r self i
            InstructionHandlerResponse.Continue).1.RenderingExecuted
          = r.RenderingExecuted ++ ThroughFirstQuit ((r.buffer i).Pending ++ added)) ∧
    (RenderingThreadDrain (DrainBound (r.buffer i)) r self i
      InstructionHandlerResponse.Continue).2.Ended := by
  obtain ⟨⟨added, hI⟩, ⟨k, hk⟩, hret, hb, hnb⟩ :=
    RenderingThreadDrain_spec self i (DrainBound (r.buffer i)) r
      InstructionHandlerResponse.Continue
  refine ⟨?_, Completion.ended_of (hb (Nat.le_refl _)) hnb⟩
  by_cases hpend : (r.buffer i).Pending = []
  · have hpop : (r.buffer i).PopInstruction = none := by
      unfold OpenGLInstructionLinearBuffer.PopInstruction
      unfold OpenGLInstructionLinearBuffer.Pending at hpend
      rw [hpend]
    have hrun : RenderingThreadDrain (DrainBound (r.buffer i)) r self i
        InstructionHandlerResponse.Continue
        = (r, Completion.returned InstructionHandlerResponse.Continue) := by
      unfold DrainBound
      exact RenderingThreadDrain_none hpop
    rw [hrun]
    exact ⟨[], 0, by simp, fun _ _ => by simp [hpend, ThroughFirstQuit]⟩
  · have hlen : (r.buffer i).ReadHead ≤ (r.buffer i).Instructions.length := by
      by_contra hc
      apply hpend
      unfold OpenGLInstructionLinearBuffer.Pending
      exact List.drop_eq_nil_of_le (by omega)
    have hP : ((RenderingThreadDrain (DrainBound (r.buffer i)) r self i
        InstructionHandlerResponse.Continue).1.buffer i).Instructions.drop
        (r.buffer i).ReadHead = (r.buffer i).Pending ++ added := by
      rw [hI, List.drop_append_of_le_length hlen]
      rfl
    rw [hP] at hk hret
    refine ⟨added, k, hk, fun last hl => ?_⟩
    have := hret last hl
    simpa using this

/-! ## The claims -/

/-- C9: `PushInstruction` forwards to `PushRenderingInstruction` when the handler
is `RenderingInstructionHandler`, to `PushResourceInstruction` when it is
`ResourceInstructionHandler`, and for every other handler value raises a logic
error and leaves the whole state, queues and record of executed instructions
included, as it was. -/
theorem PushInstruction_dispatch (r : OpenGLRenderer) (self : ThreadId)
    (inst : OpenGLInstruction) :
    PushInstruction r self OpenGLInstructionHandler.RenderingInstructionHandler inst
      = PushRenderingInstruction r self inst ∧
    PushInstruction r self OpenGLInstructionHandler.ResourceInstructionHandler inst
      = PushResourceInstruction r self inst ∧
    ∀ raw, PushInstruction r self (OpenGLInstructionHandler.Unknown raw) inst
      = (r, Completion.raised Raised.logic_error) := by
  refine ⟨?_, ?_, ?_⟩
  · simp [PushInstruction]
  · simp [PushInstruction]
  · intro raw; simp [PushInstruction]

/-- C10: in Synchronous mode `PushResourceInstruction` passes the instruction to
the resource handler before it comes back (the instruction and its effects are
in the record of the state after the call), and leaves the resource ring buffer
and the semaphore count unchanged; the call returns, unless the destructor of a
released vertex array handle overflowed a rendering buffer, and always returns
when the instruction releases no handle. -/
theorem PushResourceInstruction_synchronous_executes (r : OpenGLRenderer) (self : ThreadId)
    (inst : OpenGLInstruction) (hs : r.mRenderingMode = RenderingMode.Synchronous) :
    (∃ rest, (PushResourceInstruction r self inst).1.ResourceExecuted
        = r.ResourceExecuted ++ inst :: rest) ∧
    (∃ more, (PushResourceInstruction r self inst).1.Effects
        = r.Effects ++ (ResourceInstructionEffects inst).1 ++ more) ∧
    (PushResourceInstruction r self inst).1.mInstructionBuffer = r.mInstructionBuffer ∧
    (PushResourceInstruction r self inst).1.mConsumerSemaphore = r.mConsumerSemaphore ∧
    ((PushResourceInstruction r self inst).2 = Completion.returned () ∨
      (PushResourceInstruction r self inst).2 = Completion.raised Raised.overflow_error) ∧
    (inst.Released = [] → (PushResourceInstruction r self inst).2 = Completion.returned ()) := by
  obtain ⟨h1, h2, _, h4, h5, _, h7, h8⟩ := PushResourceInstruction_synchronous r self inst hs
  exact ⟨h1, h2, h4, h5, h7, h8⟩

/-- Witness of C10: a `GenBuffer` instruction pushed to a fresh Synchronous
renderer is executed at once, the call returns and the ring buffer stays
empty. -/
theorem PushResourceInstruction_synchronous_executes_witness :
    freshSynchronous.mRenderingMode = RenderingMode.Synchronous ∧
    (PushResourceInstruction freshSynchronous 0 genBufferZero).1.mInstructionBuffer
      = freshSynchronous.mInstructionBuffer ∧
    (PushResourceInstruction freshSynchronous 0 genBufferZero).2 = Completion.returned () :=
  ⟨rfl,
   (PushResourceInstruction_synchronous_executes freshSynchronous 0 genBufferZero rfl).2.2.1,
   (PushResourceInstruction_synchronous_executes freshSynchronous 0 genBufferZero rfl).2.2.2.2.2
     rfl⟩

/-- C4: `PushRenderingInstruction` raises an overflow error exactly when the
target buffer rejects the push, which is exactly when the instruction does not
fit in what is left of its capacity; it raises nothing else; when it raises the
state (write index and both buffers included) is unchanged, so a later push
that fits its target buffer returns. -/
theorem PushRenderingInstruction_overflow (r : OpenGLRenderer) (self : ThreadId)
    (inst : OpenGLInstruction) :
    ((PushRenderingInstruction r self inst).2 = Completion.raised Raised.overflow_error ↔
      (r.buffer (PushRenderingWriteIndex r self)).PushInstruction inst = none) ∧
    ((r.buffer (PushRenderingWriteIndex r self)).PushInstruction inst = none ↔
      (r.buffer (PushRenderingWriteIndex r self)).Capacity
        < BytesUsed (r.buffer (PushRenderingWriteIndex r self)).Instructions
            + inst.GetByteSize) ∧
    ((PushRenderingInstruction r self inst).2 = Completion.returned () ∨
      (PushRenderingInstruction r self inst).2 = Completion.raised Raised.overflow_error) ∧
    ((PushRenderingInstruction r self inst).2 = Completion.raised Raised.overflow_error →
      (PushRenderingInstruction r self inst).1 = r ∧
      ∀ (later : ThreadId) (next : OpenGLInstruction),
        (r.buffer (PushRenderingWriteIndex r later)).PushInstruction next ≠ none →
        (PushRenderingInstruction (PushRenderingInstruction r self inst).1 later next).2
          = Completion.returned ()) := by
  refine ⟨?_, LinearPush_none_iff _ _, PushRenderingInstruction_ended r self inst, ?_⟩
  · cases hp : (r.buffer (PushRenderingWriteIndex r self)).PushInstruction inst with
    | none => rw [PushRenderingInstruction_of_none hp]; simp
    | some b => rw [PushRenderingInstruction_of_some hp]; simp
  · cases hp : (r.buffer (PushRenderingWriteIndex r self)).PushInstruction inst with
    | none =>
      rw [PushRenderingInstruction_of_none hp]
      intro _
      refine ⟨rfl, ?_⟩
      intro later next hfit
      cases hn : (r.buffer (PushRenderingWriteIndex r later)).PushInstruction next with
      | none => exact absurd hn hfit
      | some b => rw [PushRenderingInstruction_of_some hn]
    | some b => rw [PushRenderingInstruction_of_some hp]; intro h; cases h

/-- C5, as stated, fails: on a fresh Synchronous renderer no rendering thread
exists, so the caller (thread 0) is not the rendering thread, and yet its push
lands in buffer 1, the buffer that is not the current write buffer (index 0),
which stays empty. -/
theorem PushRenderingInstruction_synchronous_other_buffer :
    freshSynchronous.mRenderingThread ≠ some 0 ∧
    freshSynchronous.mCurrentWriteBufferIndex = false ∧
    (PushRenderingInstruction freshSynchronous 0 clearColor).2 = Completion.returned () ∧
    ((PushRenderingInstruction freshSynchronous 0 clearColor).1.buffer true).Instructions
      = [clearColor] ∧
    ((PushRenderingInstruction freshSynchronous 0 clearColor).1.buffer false).Instructions
      = [] := by
  decide

/-- C5, amended: a push that returns appends to the buffer that is not the
current write buffer if and only if the mode is Synchronous or the caller is the
rendering thread, and then leaves the current write buffer as it was; in
Asynchronous mode, called from any other thread, it appends to the buffer at the
current write index and leaves the other buffer as it was. -/
theorem PushRenderingInstruction_target (r r' : OpenGLRenderer) (self : ThreadId)
    (inst : OpenGLInstruction)
    (h : PushRenderingInstruction r self inst = (r', Completion.returned ())) :
    ((r'.buffer (!r.mCurrentWriteBufferIndex)).Instructions
        = (r.buffer (!r.mCurrentWriteBufferIndex)).Instructions ++ [inst] ↔
      (r.mRenderingMode = RenderingMode.Synchronous ∨ r.mRenderingThread = some self)) ∧
    ((r.mRenderingMode = RenderingMode.Synchronous ∨ r.mRenderingThread = some self) →
      r'.buffer r.mCurrentWriteBufferIndex = r.buffer r.mCurrentWriteBufferIndex) ∧
    (¬ (r.mRenderingMode = RenderingMode.Synchronous ∨ r.mRenderingThread = some self) →
      (r'.buffer r.mCurrentWriteBufferIndex).Instructions
        = (r.buffer r.mCurrentWriteBufferIndex).Instructions ++ [inst] ∧
      r'.buffer (!r.mCurrentWriteBufferIndex) = r.buffer (!r.mCurrentWriteBufferIndex)) := by
  obtain ⟨b, hb, hr⟩ := (PushRenderingInstruction_returned_iff r self inst r').mp h
  have hbi := LinearPush_some hb
  by_cases hc : r.mRenderingMode = RenderingMode.Synchronous ∨ r.mRenderingThread = some self
  · have hidx : PushRenderingWriteIndex r self = !r.mCurrentWriteBufferIndex := by
      simp [PushRenderingWriteIndex, hc]
    rw [hidx] at hb hr hbi
    subst hr
    refine ⟨⟨fun _ => hc, fun _ => ?_⟩, fun _ => ?_, fun hn => absurd hc hn⟩
    · rw [buffer_setBuffer_same, hbi]
    · apply buffer_setBuffer_ne
      cases r.mCurrentWriteBufferIndex <;> simp
  · have hidx : PushRenderingWriteIndex r self = r.mCurrentWriteBufferIndex := by
      simp [PushRenderingWriteIndex, hc]
    rw [hidx] at hb hr hbi
    subst hr
    have hother : (r.setBuffer r.mCurrentWriteBufferIndex b).buffer
        (!r.mCurrentWriteBufferIndex) = r.buffer (!r.mCurrentWriteBufferIndex) :=
      buffer_setBuffer_other r _ b
    refine ⟨⟨fun heq => ?_, fun h => absurd h hc⟩, fun h => absurd h hc, fun _ => ⟨?_, hother⟩⟩
    · rw [hother] at heq
      have := congrArg List.length heq
      simp at this
    · rw [buffer_setBuffer_same, hbi]

/-- Witness of C5, amended: a push by thread 0 to a fresh Asynchronous renderer
(rendering thread 1) returns, and lands in the current write buffer. -/
theorem PushRenderingInstruction_target_witness :
    PushRenderingInstruction freshAsynchronous 0 clearColor
      = ((PushRenderingInstruction freshAsynchronous 0 clearColor).1, Completion.returned ()) ∧
    (((PushRenderingInstruction freshAsynchronous 0 clearColor).1.buffer
        freshAsynchronous.mCurrentWriteBufferIndex).Instructions
      = (freshAsynchronous.buffer freshAsynchronous.mCurrentWriteBufferIndex).Instructions
          ++ [clearColor]) :=
  ⟨by decide,
   ((PushRenderingInstruction_target freshAsynchronous _ 0 clearColor (by decide)).2.2
      (by decide)).1⟩

/-- C8: whatever the mode and the calling thread, `SendDeleteBuffer`,
`SendDeleteShader` and `SendDeleteShaderProgram` go through
`PushResourceInstruction` and leave the rendering buffers and the record of the
rendering handler untouched, `SendDeleteVertexArray` goes through
`PushRenderingInstruction` and leaves the resource ring buffer, the semaphore and
the record of the resource handler untouched; and the handler of the receiving
queue executes each of these opcodes by its own case, deleting the named object,
not by the ignored default case. -/
theorem SendDelete_routing (r : OpenGLRenderer) (self : ThreadId) (handle : GLuint) :
    (SendDeleteBuffer r self handle
        = PushResourceInstruction r self (ToInstruction (OpCodeParams.DeleteBuffer handle) []) ∧
      SendDeleteShader r self handle
        = PushResourceInstruction r self (ToInstruction (OpCodeParams.DeleteShader handle) []) ∧
      SendDeleteShaderProgram r self handle
        = PushResourceInstruction r self
            (ToInstruction (OpCodeParams.DeleteShaderProgram handle) []) ∧
      SendDeleteVertexArray r self handle
        = PushRenderingInstruction r self
            (ToInstruction (OpCodeParams.DeleteVertexArray handle) [])) ∧
    (∀ inst : OpenGLInstruction, inst.Released = [] →
      (PushResourceInstruction r self inst).1.mInstructionBuffers = r.mInstructionBuffers ∧
      (PushResourceInstruction r self inst).1.RenderingExecuted = r.RenderingExecuted) ∧
    (∀ inst : OpenGLInstruction,
      (PushRenderingInstruction r self inst).1.mInstructionBuffer = r.mInstructionBuffer ∧
      (PushRenderingInstruction r self inst).1.mConsumerSemaphore = r.mConsumerSemaphore ∧
      (PushRenderingInstruction r self inst).1.ResourceExecuted = r.ResourceExecuted) ∧
    (∀ released,
      ResourceInstructionEffects (ToInstruction (OpCodeParams.DeleteBuffer handle) released)
        = ([Effect.gl GLFunction.glDeleteBuffers [1, handle]],
           Completion.returned InstructionHandlerResponse.Continue) ∧
      ResourceInstructionEffects (ToInstruction (OpCodeParams.DeleteShader handle) released)
        = ([Effect.gl GLFunction.glDeleteShader [handle]],
           Completion.returned InstructionHandlerResponse.Continue) ∧
      ResourceInstructionEffects
          (ToInstruction (OpCodeParams.DeleteShaderProgram handle) released)
        = ([Effect.gl GLFunction.glDeleteProgram [handle]],
           Completion.returned InstructionHandlerResponse.Continue) ∧
      RenderingInstructionEffects
          (ToInstruction (OpCodeParams.DeleteVertexArray handle) released)
        = ([Effect.gl GLFunction.glDeleteVertexArrays [1, handle]],
           Completion.returned InstructionHandlerResponse.Continue)) := by
  refine ⟨⟨rfl, rfl, rfl, rfl⟩, ?_, ?_, ?_⟩
  · intro inst hrel
    rcases mode_cases r with hm | hm
    · have hd := (HandleResourceInstruction_destroyed r self inst).1
      rw [hrel] at hd
      have hpush : PushResourceInstruction r self inst
          = ((HandleResourceInstruction r self inst).1,
             (HandleResourceInstruction r self inst).2.discard) :=
        PushResourceInstructionWith_sync hm
      rw [hpush]
      refine ⟨?_, hd.rendering⟩
      simp only [HandleResourceInstruction, HandleResourceInstructionWith, hrel,
        RunDestructors]
    · cases hp : r.mInstructionBuffer.PushInstruction inst with
      | none =>
        have : PushResourceInstruction r self inst
            = (r, Completion.raised Raised.overflow_error) :=
          PushResourceInstructionWith_async_none hm hp
        rw [this]; exact ⟨rfl, rfl⟩
      | some b =>
        have : PushResourceInstruction r self inst
            = ({ r with mInstructionBuffer := b
                        mConsumerSemaphore := r.mConsumerSemaphore + 1 },
               Completion.returned ()) :=
          PushResourceInstructionWith_async_some hm hp
        rw [this]; exact ⟨rfl, rfl⟩
  · intro inst
    cases hp : (r.buffer (PushRenderingWriteIndex r self)).PushInstruction inst with
    | none => rw [PushRenderingInstruction_of_none hp]; exact ⟨rfl, rfl, rfl⟩
    | some b => rw [PushRenderingInstruction_of_some hp]; exact ⟨rfl, rfl, rfl⟩
  · intro released
    exact ⟨rfl, rfl, rfl, rfl⟩

/-- C1, as stated, fails: on a fresh Synchronous renderer `SendGenVertexArray`
returns the future of promise 0, and during the call no instruction carrying
that promise was handled and the promise was not fulfilled. -/
theorem SendGenVertexArray_returns_unfulfilled :
    freshSynchronous.mRenderingMode = RenderingMode.Synchronous ∧
    (SendGenVertexArray freshSynchronous 0 []).2 = Completion.returned 0 ∧
    ((SendGenVertexArray freshSynchronous 0 []).1.buffer true).Pending
      = [ToInstruction (OpCodeParams.GenVertexArray 0) []] ∧
    ¬ FulfilledBetween freshSynchronous (SendGenVertexArray freshSynchronous 0 []).1 0 := by
  refine ⟨rfl, by decide, by decide, ?_⟩
  rintro ⟨_, h⟩
  revert h
  decide

/-- C1, amended: in Synchronous mode every `Send*` operation that pushes to the
resource queue (`SendGenBuffer`, `SendGenShader`, `SendCompileShader`,
`SendGetShaderStatus`, `SendGenShaderProgram`, `SendLinkProgram`,
`SendGetProgramStatus`, and `SendBufferData` called with
`ResourceInstructionHandler`) has executed its instruction and fulfilled its
promise when it returns; `SendGenVertexArray`, `SendSetVertexArrayLayout` and
`SendBufferData` called with `RenderingInstructionHandler` only append the
instruction to a rendering buffer: no handler runs during the call. -/
theorem Send_synchronous_fulfilment (self : ThreadId) (released : List ReleasedHandle) :
    FulfilsBeforeReturning (fun r => SendGenBuffer r self released) ∧
    (∀ shaderType, FulfilsBeforeReturning fun r => SendGenShader r self shaderType released) ∧
    (∀ shader source,
      FulfilsBeforeReturning fun r => SendCompileShader r self shader source released) ∧
    (∀ shader, FulfilsBeforeReturning fun r => SendGetShaderStatus r self shader released) ∧
    FulfilsBeforeReturning (fun r => SendGenShaderProgram r self released) ∧
    (∀ program vertexShader fragmentShader,
      FulfilsBeforeReturning fun r =>
        SendLinkProgram r self program vertexShader fragmentShader released) ∧
    (∀ program, FulfilsBeforeReturning fun r => SendGetProgramStatus r self program released) ∧
    (∀ buffer target size data usage,
      FulfilsBeforeReturning fun r =>
        SendBufferData r self OpenGLInstructionHandler.ResourceInstructionHandler buffer target
          size data usage released) ∧
    OnlyQueues (fun r => SendGenVertexArray r self released) ∧
    (∀ vertexArray format attributeBuffers indexBuffer,
      OnlyQueues fun r =>
        SendSetVertexArrayLayout r self vertexArray format attributeBuffers indexBuffer
          released) ∧
    (∀ buffer target size data usage,
      OnlyQueues fun r =>
        SendBufferData r self OpenGLInstructionHandler.RenderingInstructionHandler buffer target
          size data usage released) := by
  refine ⟨?_, ?_, ?_, ?_, ?_, ?_, ?_, ?_, ?_, ?_, ?_⟩
  · exact SendWithPromise_resource_fulfilled self (fun p => OpCodeParams.GenBuffer p) released
      (fun _ => rfl) (fun p => by simp [ResourceInstructionEffects, ToInstruction])
  · intro shaderType
    exact SendWithPromise_resource_fulfilled self (fun p => OpCodeParams.GenShader p shaderType)
      released (fun _ => rfl) (fun p => by simp [ResourceInstructionEffects, ToInstruction])
  · intro shader source
    exact SendWithPromise_resource_fulfilled self
      (fun p => OpCodeParams.CompileShader p shader source)
      released (fun _ => rfl) (fun p => by simp [ResourceInstructionEffects, ToInstruction])
  · intro shader
    exact SendWithPromise_resource_fulfilled self (fun p => OpCodeParams.ShaderStatus p shader)
      released (fun _ => rfl) (fun p => by simp [ResourceInstructionEffects, ToInstruction])
  · exact SendWithPromise_resource_fulfilled self (fun p => OpCodeParams.GenShaderProgram p)
      released (fun _ => rfl) (fun p => by simp [ResourceInstructionEffects, ToInstruction])
  · intro program vertexShader fragmentShader
    exact SendWithPromise_resource_fulfilled self
      (fun p => OpCodeParams.LinkShaderProgram p program vertexShader fragmentShader)
      released (fun _ => rfl) (fun p => by simp [ResourceInstructionEffects, ToInstruction])
  · intro program
    exact SendWithPromise_resource_fulfilled self
      (fun p => OpCodeParams.ShaderProgramStatus p program)
      released (fun _ => rfl) (fun p => by simp [ResourceInstructionEffects, ToInstruction])
  · intro buffer target size data usage
    have h := SendWithPromise_resource_fulfilled self
      (fun p => OpCodeParams.BufferData p buffer target size data usage)
      released (fun _ => rfl)
      (fun p => by simp [ResourceInstructionEffects, HandleCommonInstruction, ToInstruction])
    intro r hs promise hret
    simp only [SendBufferData, PushInstruction_resource] at hret ⊢
    exact h r hs promise hret
  · intro r _
    exact PushRenderingInstruction_nothing_executed _ self _
  · intro vertexArray format attributeBuffers indexBuffer r _
    exact PushRenderingInstruction_nothing_executed _ self _
  · intro buffer target size data usage r _
    simp only [SendBufferData, PushInstruction_rendering]
    exact PushRenderingInstruction_nothing_executed _ self _

/-- C7, as stated, fails: the public operations `SendQuit` and `SendBufferData`
push instructions of one opcode to either queue. On a fresh Asynchronous
renderer, called with `RenderingInstructionHandler` they append the instruction
to the rendering buffer and leave the resource ring buffer empty, and called
with `ResourceInstructionHandler` they append the same instruction to the
resource ring buffer and leave the rendering buffers empty. -/
theorem Quit_and_BufferData_reach_both_queues :
    (((SendQuit freshAsynchronous 0
          OpenGLInstructionHandler.RenderingInstructionHandler).1.buffer false).Instructions
        = [quitInstruction] ∧
      (SendQuit freshAsynchronous 0
          OpenGLInstructionHandler.RenderingInstructionHandler).1.mInstructionBuffer.Instructions
        = []) ∧
    (((SendQuit freshAsynchronous 0
          OpenGLInstructionHandler.ResourceInstructionHandler).1.buffer false).Instructions
        = [] ∧
      (SendQuit freshAsynchronous 0
          OpenGLInstructionHandler.ResourceInstructionHandler).1.mInstructionBuffer.Instructions
        = [quitInstruction]) ∧
    (((SendBufferData freshAsynchronous 0 OpenGLInstructionHandler.RenderingInstructionHandler
          5 0 3 9 0 []).1.buffer false).Instructions = [bufferDataZero] ∧
      (SendBufferData freshAsynchronous 0 OpenGLInstructionHandler.RenderingInstructionHandler
          5 0 3 9 0 []).1.mInstructionBuffer.Instructions = []) ∧
    (((SendBufferData freshAsynchronous 0 OpenGLInstructionHandler.ResourceInstructionHandler
          5 0 3 9 0 []).1.buffer false).Instructions = [] ∧
      (SendBufferData freshAsynchronous 0 OpenGLInstructionHandler.ResourceInstructionHandler
          5 0 3 9 0 []).1.mInstructionBuffer.Instructions = [bufferDataZero]) := by
  decide

/-- C7, amended: for every opcode other than `BufferData` and `Quit` there is one
fixed queue, given by the table `FixedQueue`, to which every public operation
pushes instructions of that opcode, and the handler of that queue has a case for
the opcode; instructions of opcode `BufferData` and `Quit` are pushed by
`SendBufferData` and `SendQuit` to the queue that the caller names, and both
handlers have a case for them. -/
theorem Send_fixed_queue (r : OpenGLRenderer) (self : ThreadId)
    (released : List ReleasedHandle) :
    (SendGenBuffer r self released
        = SendWithPromise r fun r1 p =>
            PushInstruction r1 self (FixedQueue OpenGLOpCode.GenBuffer)
              (ToInstruction (OpCodeParams.GenBuffer p) released)) ∧
    (∀ buffer, SendDeleteBuffer r self buffer
        = PushInstruction r self (FixedQueue OpenGLOpCode.DeleteBuffer)
            (ToInstruction (OpCodeParams.DeleteBuffer buffer) [])) ∧
    (SendGenVertexArray r self released
        = SendWithPromise r fun r1 p =>
            PushInstruction r1 self (FixedQueue OpenGLOpCode.GenVertexArray)
              (ToInstruction (OpCodeParams.GenVertexArray p) released)) ∧
    (∀ vertexArray, SendDeleteVertexArray r self vertexArray
        = PushInstruction r self (FixedQueue OpenGLOpCode.DeleteVertexArray)
            (ToInstruction (OpCodeParams.DeleteVertexArray vertexArray) [])) ∧
    (∀ vertexArray format attributeBuffers indexBuffer,
      SendSetVertexArrayLayout r self vertexArray format attributeBuffers indexBuffer released
        = SendWithPromise r fun r1 p =>
            PushInstruction r1 self (FixedQueue OpenGLOpCode.SetVertexArrayLayout)
              (ToInstruction
                (OpCodeParams.SetVertexArrayLayout p vertexArray format attributeBuffers
                  indexBuffer)
                released)) ∧
    (∀ shaderType, SendGenShader r self shaderType released
        = SendWithPromise r fun r1 p =>
            PushInstruction r1 self (FixedQueue OpenGLOpCode.GenShader)
              (ToInstruction (OpCodeParams.GenShader p shaderType) released)) ∧
    (∀ shader, SendDeleteShader r self shader
        = PushInstruction r self (FixedQueue OpenGLOpCode.DeleteShader)
            (ToInstruction (OpCodeParams.DeleteShader shader) [])) ∧
    (∀ shader source, SendCompileShader r self shader source released
        = SendWithPromise r fun r1 p =>
            PushInstruction r1 self (FixedQueue OpenGLOpCode.CompileShader)
              (ToInstruction (OpCodeParams.CompileShader p shader source) released)) ∧
    (∀ shader, SendGetShaderStatus r self shader released
        = SendWithPromise r fun r1 p =>
            PushInstruction r1 self (FixedQueue OpenGLOpCode.ShaderStatus)
              (ToInstruction (OpCodeParams.ShaderStatus p shader) released)) ∧
    (SendGenShaderProgram r self released
        = SendWithPromise r fun r1 p =>
            PushInstruction r1 self (FixedQueue OpenGLOpCode.GenShaderProgram)
              (ToInstruction (OpCodeParams.GenShaderProgram p) released)) ∧
    (∀ program, SendDeleteShaderProgram r self program
        = PushInstruction r self (FixedQueue OpenGLOpCode.DeleteShaderProgram)
            (ToInstruction (OpCodeParams.DeleteShaderProgram program) [])) ∧
    (∀ program vertexShader fragmentShader,
      SendLinkProgram r self program vertexShader fragmentShader released
        = SendWithPromise r fun r1 p =>
            PushInstruction r1 self (FixedQueue OpenGLOpCode.LinkShaderProgram)
              (ToInstruction
                (OpCodeParams.LinkShaderProgram p program vertexShader fragmentShader)
                released)) ∧
    (∀ program, SendGetProgramStatus r self program released
        = SendWithPromise r fun r1 p =>
            PushInstruction r1 self (FixedQueue OpenGLOpCode.ShaderProgramStatus)
              (ToInstruction (OpCodeParams.ShaderProgramStatus p program) released)) ∧
    (∀ vertexArray program uniforms renderState mode firstVertexIndex vertexCount isIndexed
        indexType,
      SendDrawVertexArray r self vertexArray program uniforms renderState mode firstVertexIndex
          vertexCount isIndexed indexType released
        = PushInstruction r self (FixedQueue OpenGLOpCode.DrawVertexArray)
            (ToInstruction
              (OpCodeParams.DrawVertexArray vertexArray program uniforms renderState mode
                firstVertexIndex vertexCount isIndexed indexType)
              released)) ∧
    (∀ color depth stencil, ∃ mask,
      Clear r self color depth stencil
        = PushInstruction r self (FixedQueue OpenGLOpCode.Clear)
            (ToInstruction (OpCodeParams.Clear mask) [])) ∧
    (SendSwapBuffers r self
        = PushInstruction r self (FixedQueue OpenGLOpCode.SwapBuffers)
            (ToInstruction OpCodeParams.SwapBuffers [])) ∧
    (∀ instructionHandler buffer target size data usage,
      SendBufferData r self instructionHandler buffer target size data usage released
        = SendWithPromise r fun r1 p =>
            PushInstruction r1 self instructionHandler
              (ToInstruction (OpCodeParams.BufferData p buffer target size data usage)
                released)) ∧
    (∀ instructionHandler,
      SendQuit r self instructionHandler
        = PushInstruction r self instructionHandler (ToInstruction OpCodeParams.Quit [])) ∧
    (∀ inst : OpenGLInstruction,
      FixedQueue inst.OpCode = OpenGLInstructionHandler.RenderingInstructionHandler →
      ∀ code, Effect.InvalidOpCode code ∉ (RenderingInstructionEffects inst).1) ∧
    (∀ inst : OpenGLInstruction,
      (FixedQueue inst.OpCode = OpenGLInstructionHandler.ResourceInstructionHandler ∨
        inst.OpCode = OpenGLOpCode.BufferData ∨ inst.OpCode = OpenGLOpCode.Quit) →
      ∀ code, Effect.InvalidOpCode code ∉ (ResourceInstructionEffects inst).1) := by
  refine ⟨?_, ?_, ?_, ?_, ?_, ?_, ?_, ?_, ?_, ?_, ?_, ?_, ?_, ?_, ?_, ?_, ?_, ?_,
    RenderingInstructionEffects_known, ResourceInstructionEffects_known⟩
  · simp only [FixedQueue, PushInstruction_resource]; rfl
  · intro buffer; simp only [FixedQueue, PushInstruction_resource]; rfl
  · simp only [FixedQueue, PushInstruction_rendering]; rfl
  · intro vertexArray; simp only [FixedQueue, PushInstruction_rendering]; rfl
  · intro vertexArray format attributeBuffers indexBuffer
    simp only [FixedQueue, PushInstruction_rendering]; rfl
  · intro shaderType; simp only [FixedQueue, PushInstruction_resource]; rfl
  · intro shader; simp only [FixedQueue, PushInstruction_resource]; rfl
  · intro shader source; simp only [FixedQueue, PushInstruction_resource]; rfl
  · intro shader; simp only [FixedQueue, PushInstruction_resource]; rfl
  · simp only [FixedQueue, PushInstruction_resource]; rfl
  · intro program; simp only [FixedQueue, PushInstruction_resource]; rfl
  · intro program vertexShader fragmentShader
    simp only [FixedQueue, PushInstruction_resource]; rfl
  · intro program; simp only [FixedQueue, PushInstruction_resource]; rfl
  · intro vertexArray program uniforms renderState mode firstVertexIndex vertexCount
      isIndexed indexType
    rfl
  · intro color depth stencil
    exact ⟨_, by simp only [FixedQueue, PushInstruction_rendering]; rfl⟩
  · simp only [FixedQueue, PushInstruction_rendering]; rfl
  · intro instructionHandler buffer target size data usage; rfl
  · intro instructionHandler; rfl

/-- C2, at the failing input: on a fresh Synchronous renderer the caller calls
`Clear(true, false, false)` and then `SwapRenderingInstructionQueues`. Both
return, and the swap has executed nothing: the `Clear` instruction is still
pending, in buffer 1, while the swap drained buffer 0. Only the swap after that
executes it. -/
theorem swap_synchronous_skips_current_frame :
    (Clear freshSynchronous 0 true false false).2 = Completion.returned () ∧
    (SwapRenderingInstructionQueues (Clear freshSynchronous 0 true false false).1 0).2
      = Completion.returned () ∧
    (SwapRenderingInstructionQueues
      (Clear freshSynchronous 0 true false false).1 0).1.RenderingExecuted = [] ∧
    ((SwapRenderingInstructionQueues
      (Clear freshSynchronous 0 true false false).1 0).1.buffer true).Pending
        = [clearColor] ∧
    (SwapRenderingInstructionQueues
      (SwapRenderingInstructionQueues
        (Clear freshSynchronous 0 true false false).1 0).1 0).1.RenderingExecuted
        = [clearColor] := by
  decide

/-- C6, at the failing input: a fresh Synchronous renderer on which the caller
has called `SendGenVertexArray` and dropped the future is destroyed. The
destructor returns; its second drain executes the `GenVertexArray` instruction,
the destructor of the new handle then queues `DeleteVertexArray`, and that
instruction is left unexecuted in buffer 0 (no `glDeleteVertexArrays` was
called), besides the final Quit in buffer 1. -/
theorem destructor_synchronous_leaves_deletion :
    (SendGenVertexArray freshSynchronous 0 [⟨HandleKind.VertexArray, 7⟩]).2
      = Completion.returned 0 ∧
    ((SendGenVertexArray freshSynchronous 0 [⟨HandleKind.VertexArray, 7⟩]).1.destroy 0).2
      = Completion.returned () ∧
    ((SendGenVertexArray freshSynchronous 0
        [⟨HandleKind.VertexArray, 7⟩]).1.destroy 0).1.RenderingExecuted
      = [genVertexArrayDropped] ∧
    (((SendGenVertexArray freshSynchronous 0
        [⟨HandleKind.VertexArray, 7⟩]).1.destroy 0).1.buffer false).Pending
      = [ToInstruction (OpCodeParams.DeleteVertexArray 7) []] ∧
    (((SendGenVertexArray freshSynchronous 0
        [⟨HandleKind.VertexArray, 7⟩]).1.destroy 0).1.buffer true).Pending
      = [quitInstruction] ∧
    ((SendGenVertexArray freshSynchronous 0
        [⟨HandleKind.VertexArray, 7⟩]).1.destroy 0).1.Effects
      = [Effect.gl GLFunction.glGenVertexArrays [1], Effect.set_value 0] := by
  decide

/-- Witness of C1, amended: `SendGenBuffer` on a fresh Synchronous renderer
returns the future of promise 0, fulfilled during the call. -/
theorem Send_synchronous_fulfilment_witness :
    (SendGenBuffer freshSynchronous 0 []).2 = Completion.returned 0 ∧
    FulfilledBetween freshSynchronous (SendGenBuffer freshSynchronous 0 []).1 0 :=
  ⟨by decide, (Send_synchronous_fulfilment 0 []).1 freshSynchronous rfl 0 (by decide)⟩

/-! ## Lemmas on what the handlers raise and register -/

theorem SetLayoutAttributeLoop_complete
    (format : List (VertexAttributeName × VertexAttribute))
    (buffers : List (VertexAttributeName × GLuint)) :
    ((SetLayoutAttributeLoop format buffers).2.2 = true ↔
      NamesOnlyFormatAttributes format buffers) ∧
    ((SetLayoutAttributeLoop format buffers).2.2 = true →
      (SetLayoutAttributeLoop format buffers).2.1 = buffers.map Prod.snd) := by
  induction buffers with
  | nil => simp [SetLayoutAttributeLoop, NamesOnlyFormatAttributes]
  | cons pair rest ih =>
    unfold SetLayoutAttributeLoop
    cases hat : AttributesAt format pair.1 with
    | none =>
      simp only [Bool.false_eq_true, false_iff, false_implies, and_true]
      intro h
      exact h pair (by simp) hat
    | some attrib =>
      simp only [List.map_cons, List.cons.injEq, true_and]
      refine ⟨?_, fun h => ih.2 h⟩
      rw [ih.1]
      constructor
      · intro h p hp
        rcases List.mem_cons.mp hp with hp | hp
        · rw [hp, hat]; simp
        · exact h p hp
      · intro h p hp
        exact h p (List.mem_cons_of_mem _ hp)

theorem ResourceInstructionEffects_quit (inst : OpenGLInstruction)
    (response : InstructionHandlerResponse)
    (h : (ResourceInstructionEffects inst).2 = Completion.returned response) :
    response = InstructionHandlerResponse.Quit ↔ inst.OpCode = OpenGLOpCode.Quit := by
  unfold ResourceInstructionEffects HandleCommonInstruction at h
  rcases inst with ⟨params, released⟩
  cases params <;>
    simp [OpenGLInstruction.OpCode, OpCodeParams.OpCode] at h ⊢ <;>
    (try subst h) <;> (try simp)

theorem HandleResourceInstruction_quit {r r2 : OpenGLRenderer} {self : ThreadId}
    {inst : OpenGLInstruction} {response : InstructionHandlerResponse}
    (hh : HandleResourceInstruction r self inst = (r2, Completion.returned response)) :
    response = InstructionHandlerResponse.Quit ↔ inst.OpCode = OpenGLOpCode.Quit := by
  have h := (HandleResourceInstruction_destroyed r self inst).2
  rw [hh] at h
  exact ResourceInstructionEffects_quit inst response (Completion.seq_returned h.symm)

theorem HandleRenderingInstruction_no_release (r : OpenGLRenderer) (self : ThreadId)
    (inst : OpenGLInstruction) (hrel : inst.Released = []) :
    HandleRenderingInstruction r self inst
      = ({ r with Effects := r.Effects ++ (RenderingInstructionEffects inst).1
                  RenderingExecuted := r.RenderingExecuted ++ [inst] },
         (RenderingInstructionEffects inst).2) := by
  simp [HandleRenderingInstruction, hrel, RunDestructors, Completion.seq]

theorem HandleResourceInstruction_no_release (r : OpenGLRenderer) (self : ThreadId)
    (inst : OpenGLInstruction) (hrel : inst.Released = []) :
    HandleResourceInstruction r self inst
      = ({ r with Effects := r.Effects ++ (ResourceInstructionEffects inst).1
                  ResourceExecuted := r.ResourceExecuted ++ [inst] },
         (ResourceInstructionEffects inst).2) := by
  simp [HandleResourceInstruction, HandleResourceInstructionWith, hrel, RunDestructors,
    Completion.seq]

theorem RenderingInstructionEffects_layout (promise : PromiseId) (vertexArray : GLuint)
    (format : List (VertexAttributeName × VertexAttribute))
    (attributeBuffers : List (VertexAttributeName × GLuint)) (indexBuffer : Option GLuint)
    (released : List ReleasedHandle) :
    (NamesOnlyFormatAttributes format attributeBuffers →
      RenderingInstructionEffects
          (ToInstruction
            (OpCodeParams.SetVertexArrayLayout promise vertexArray format attributeBuffers
              indexBuffer) released)
        = ([Effect.gl GLFunction.glBindVertexArray [vertexArray]]
            ++ (SetLayoutAttributeLoop format attributeBuffers).1
            ++ (match indexBuffer with
                | some index =>
                  [Effect.gl GLFunction.glBindBuffer [GL_ELEMENT_ARRAY_BUFFER, index]]
                | none => [])
            ++ [Effect.AddDependents vertexArray (LayoutDependents attributeBuffers indexBuffer),
                Effect.set_value promise],
           Completion.returned InstructionHandlerResponse.Continue)) ∧
    (¬ NamesOnlyFormatAttributes format attributeBuffers →
      RenderingInstructionEffects
          (ToInstruction
            (OpCodeParams.SetVertexArrayLayout promise vertexArray format attributeBuffers
              indexBuffer) released)
        = ([Effect.gl GLFunction.glBindVertexArray [vertexArray]]
            ++ (SetLayoutAttributeLoop format attributeBuffers).1,
           Completion.raised Raised.out_of_range)) := by
  have hc := SetLayoutAttributeLoop_complete format attributeBuffers
  constructor
  · intro hn
    have h1 := hc.1.mpr hn
    have h2 := hc.2 h1
    simp only [RenderingInstructionEffects, ToInstruction, h1, if_true, h2, LayoutDependents]
    cases indexBuffer <;> simp
  · intro hn
    have h1 : (SetLayoutAttributeLoop format attributeBuffers).2.2 = false := by
      cases hb : (SetLayoutAttributeLoop format attributeBuffers).2.2
      · rfl
      · exact absurd (hc.1.mp hb) hn
    simp [RenderingInstructionEffects, ToInstruction, h1]

/-! ## The claims on the handlers and on the camera node -/

/-- C19: the effects of `LinkShaderProgram` register the vertex shader and the
fragment shader as dependents of the program before the promise is fulfilled;
the effects of a `SetVertexArrayLayout` whose map names only attributes of the
format register every attribute buffer of the map and, when it is valid, the
index buffer as dependents of the vertex array before the promise is fulfilled;
and a `SetVertexArrayLayout` that raises on a missing attribute neither
registers nor fulfils anything. -/
theorem dependents_registered_before_fulfilment (promise : PromiseId)
    (released : List ReleasedHandle) :
    (∀ program vertexShader fragmentShader,
      RegistersBeforeFulfilling
        (ResourceInstructionEffects
          (ToInstruction
            (OpCodeParams.LinkShaderProgram promise program vertexShader fragmentShader)
            released)).1
        program [vertexShader, fragmentShader] promise) ∧
    (∀ vertexArray format attributeBuffers indexBuffer,
      (NamesOnlyFormatAttributes format attributeBuffers →
        RegistersBeforeFulfilling
          (RenderingInstructionEffects
            (ToInstruction
              (OpCodeParams.SetVertexArrayLayout promise vertexArray format attributeBuffers
                indexBuffer)
              released)).1
          vertexArray (LayoutDependents attributeBuffers indexBuffer) promise) ∧
      (¬ NamesOnlyFormatAttributes format attributeBuffers →
        ∀ e ∈ (RenderingInstructionEffects
            (ToInstruction
              (OpCodeParams.SetVertexArrayLayout promise vertexArray format attributeBuffers
                indexBuffer)
              released)).1,
          ∃ f args, e = Effect.gl f args)) := by
  refine ⟨?_, ?_⟩
  · intro program vertexShader fragmentShader
    refine ⟨[],
      [Effect.gl GLFunction.glAttachShader [program, vertexShader],
       Effect.gl GLFunction.glAttachShader [program, fragmentShader],
       Effect.gl GLFunction.glBindAttribLocation
         [program, ToGLAttributeIndex VertexAttributeName.Position],
       Effect.gl GLFunction.glBindAttribLocation
         [program, ToGLAttributeIndex VertexAttributeName.Texcoord0],
       Effect.gl GLFunction.glBindAttribLocation
         [program, ToGLAttributeIndex VertexAttributeName.Texcoord1],
       Effect.gl GLFunction.glBindAttribLocation
         [program, ToGLAttributeIndex VertexAttributeName.Normal],
       Effect.gl GLFunction.glLinkProgram [program]], rfl, ?_⟩
    · intro e he
      simp only [List.nil_append, List.mem_cons, List.mem_singleton, List.not_mem_nil,
        or_false] at he
      rcases he with h | h | h | h | h | h | h <;> exact ⟨_, _, h⟩
  · intro vertexArray format attributeBuffers indexBuffer
    have hl := RenderingInstructionEffects_layout promise vertexArray format attributeBuffers
      indexBuffer released
    refine ⟨fun hn => ?_, fun hn => ?_⟩
    · have heq := hl.1 hn
      clear hl
      rw [heq]
      clear heq
      refine ⟨[Effect.gl GLFunction.glBindVertexArray [vertexArray]]
        ++ (SetLayoutAttributeLoop format attributeBuffers).1
        ++ (match indexBuffer with
            | some index =>
              [Effect.gl GLFunction.glBindBuffer [GL_ELEMENT_ARRAY_BUFFER, index]]
            | none => []), [], ?_, ?_⟩
      · simp only [List.append_assoc, List.singleton_append, List.cons_append,
          List.nil_append]
      · intro e he
        simp only [List.append_nil, List.mem_append, List.mem_singleton] at he
        rcases he with (h | h) | h
        · exact ⟨_, _, h⟩
        · exact SetLayoutAttributeLoop_gl format attributeBuffers e h
        · cases indexBuffer with
          | none => simp at h
          | some index => simp only [List.mem_singleton] at h; exact ⟨_, _, h⟩
    · rw [(hl.2 hn)]
      intro e he
      simp only [List.mem_append, List.mem_singleton] at he
      rcases he with h | h
      · exact ⟨_, _, h⟩
      · exact SetLayoutAttributeLoop_gl format attributeBuffers e h

/-- C20: `CameraNode::SetRenderObject` raises a logic error for every argument and
leaves the node, its camera and its render object included, as it was;
`SetCamera(c)` returns, and after it `GetCamera` returns `c` and the render
object of the node is `c`. -/
theorem CameraNode_SetRenderObject_refused (node : CameraNode) (argument : Option Nat) :
    node.SetRenderObject argument = (node, Completion.raised Raised.logic_error) ∧
    (node.SetCamera argument).2 = Completion.returned () ∧
    (node.SetCamera argument).1.GetCamera = argument ∧
    (node.SetCamera argument).1.base.mRenderObject = argument :=
  ⟨rfl, rfl, rfl, rfl⟩

/-! ## Lemmas on what pushes and handlers keep -/

theorem Kept_same (r : OpenGLRenderer) : Kept r r :=
  ⟨rfl, rfl, rfl, rfl, rfl, rfl, rfl⟩

theorem Kept_chain {a b c : OpenGLRenderer} (h1 : Kept a b) (h2 : Kept b c) : Kept a c :=
  { mode := by rw [h2.mode, h1.mode]
    thread := by rw [h2.thread, h1.thread]
    resource := by rw [h2.resource, h1.resource]
    index := by rw [h2.index, h1.index]
    producer := by rw [h2.producer, h1.producer]
    consumer := by rw [h2.consumer, h1.consumer]
    backlog := by
      have := h1.backlog
      have := h2.backlog
      omega }

theorem Kept_setBuffer (r : OpenGLRenderer) (i : Bool) (b : OpenGLInstructionLinearBuffer) :
    Kept r (r.setBuffer i b) :=
  ⟨rfl, rfl, rfl, rfl, rfl, rfl, rfl⟩

theorem PushRenderingInstruction_kept (r : OpenGLRenderer) (self : ThreadId)
    (inst : OpenGLInstruction) : Kept r (PushRenderingInstruction r self inst).1 := by
  cases hp : (r.buffer (PushRenderingWriteIndex r self)).PushInstruction inst with
  | none => rw [PushRenderingInstruction_of_none hp]; exact Kept_same r
  | some b => rw [PushRenderingInstruction_of_some hp]; exact Kept_setBuffer r _ b

theorem RingPush_some {b b' : OpenGLInstructionRingBuffer} {inst : OpenGLInstruction}
    (h : b.PushInstruction inst = some b') :
    b' = { b with Instructions := b.Instructions ++ [inst] } := by
  unfold OpenGLInstructionRingBuffer.PushInstruction at h
  split at h
  · cases h; rfl
  · cases h

theorem RunDestructors_none (self : ThreadId) (handles : List ReleasedHandle) :
    ∀ r : OpenGLRenderer,
      RunDestructors NoHandleToDestroy self r handles = (r, Completion.returned ()) := by
  induction handles with
  | nil => intro r; rfl
  | cons handle rest ih =>
    intro r
    have hd : NoHandleToDestroy r self handle = (r, Completion.returned ()) := rfl
    rw [RunDestructors_cons_returned hd]
    exact ih r

theorem PushResourceInstructionWith_none_kept (r : OpenGLRenderer) (self : ThreadId)
    (inst : OpenGLInstruction) :
    Kept r (PushResourceInstructionWith NoHandleToDestroy r self inst).1 := by
  rcases mode_cases r with hm | hm
  · rw [PushResourceInstructionWith_sync hm]
    simp only [HandleResourceInstructionWith, RunDestructors_none]
    exact ⟨rfl, rfl, rfl, rfl, rfl, rfl, rfl⟩
  · cases hp : r.mInstructionBuffer.PushInstruction inst with
    | none =>
      rw [PushResourceInstructionWith_async_none hm hp]
      exact Kept_same r
    | some b =>
      rw [PushResourceInstructionWith_async_some hm hp]
      refine ⟨rfl, rfl, rfl, rfl, rfl, rfl, ?_⟩
      rw [RingPush_some hp]
      simp only [List.length_append, List.length_singleton]
      omega

theorem DestroyHandle_kept (r : OpenGLRenderer) (self : ThreadId) (handle : ReleasedHandle) :
    Kept r (DestroyHandle r self handle).1 := by
  unfold DestroyHandle DestroyHandleWith
  cases handle.Kind
  · exact PushResourceInstructionWith_none_kept r self _
  · exact PushRenderingInstruction_kept r self _
  · exact PushResourceInstructionWith_none_kept r self _
  · exact PushResourceInstructionWith_none_kept r self _

theorem RunDestructors_kept (self : ThreadId) (handles : List ReleasedHandle) :
    ∀ r : OpenGLRenderer, Kept r (RunDestructors DestroyHandle self r handles).1 := by
  induction handles with
  | nil => intro r; exact Kept_same r
  | cons handle rest ih =>
    intro r
    have hstep := DestroyHandle_kept r self handle
    have hend := (DestroyHandle_destroyed r self handle).2
    rcases hd : DestroyHandle r self handle with ⟨r1, c⟩
    rw [hd] at hstep hend
    simp only at hstep hend
    rcases hend with hc | hc
    · subst hc
      rw [RunDestructors_cons_returned hd]
      exact Kept_chain hstep (ih r1)
    · subst hc
      rw [RunDestructors_cons_raised hd]
      exact hstep

theorem HandleRenderingInstruction_kept (r : OpenGLRenderer) (self : ThreadId)
    (inst : OpenGLInstruction) : Kept r (HandleRenderingInstruction r self inst).1 := by
  have h := RunDestructors_kept self inst.Released
    { r with Effects := r.Effects ++ (RenderingInstructionEffects inst).1
             RenderingExecuted := r.RenderingExecuted ++ [inst] }
  exact ⟨h.mode, h.thread, h.resource, h.index, h.producer, h.consumer, h.backlog⟩

theorem HandleResourceInstruction_kept (r : OpenGLRenderer) (self : ThreadId)
    (inst : OpenGLInstruction) : Kept r (HandleResourceInstruction r self inst).1 := by
  have h := RunDestructors_kept self inst.Released
    { r with Effects := r.Effects ++ (ResourceInstructionEffects inst).1
             ResourceExecuted := r.ResourceExecuted ++ [inst] }
  exact ⟨h.mode, h.thread, h.resource, h.index, h.producer, h.consumer, h.backlog⟩

theorem PushResourceInstruction_kept (r : OpenGLRenderer) (self : ThreadId)
    (inst : OpenGLInstruction) : Kept r (PushResourceInstruction r self inst).1 := by
  rcases mode_cases r with hm | hm
  · have hpush : PushResourceInstruction r self inst
        = ((HandleResourceInstruction r self inst).1,
           (HandleResourceInstruction r self inst).2.discard) :=
      PushResourceInstructionWith_sync hm
    rw [hpush]
    exact HandleResourceInstruction_kept r self inst
  · cases hp : r.mInstructionBuffer.PushInstruction inst with
    | none =>
      have : PushResourceInstruction r self inst
          = (r, Completion.raised Raised.overflow_error) :=
        PushResourceInstructionWith_async_none hm hp
      rw [this]
      exact Kept_same r
    | some b =>
      have : PushResourceInstruction r self inst
          = ({ r with mInstructionBuffer := b
                      mConsumerSemaphore := r.mConsumerSemaphore + 1 },
             Completion.returned ()) :=
        PushResourceInstructionWith_async_some hm hp
      rw [this]
      refine ⟨rfl, rfl, rfl, rfl, rfl, rfl, ?_⟩
      rw [RingPush_some hp]
      simp only [List.length_append, List.length_singleton]
      omega

theorem RenderingThreadDrain_kept (self : ThreadId) (i : Bool) :
    ∀ (bound : Nat) (r : OpenGLRenderer) (response : InstructionHandlerResponse),
      Kept r (RenderingThreadDrain bound r self i response).1 := by
  intro bound
  induction bound with
  | zero => intro r response; exact Kept_same r
  | succ bound ih =>
    intro r response
    cases hp : (r.buffer i).PopInstruction with
    | none => rw [RenderingThreadDrain_none hp]; exact Kept_same r
    | some popped =>
      obtain ⟨inst, b⟩ := popped
      cases response with
      | Quit =>
        rw [RenderingThreadDrain_after_quit hp]
        exact Kept_setBuffer r i b
      | Continue =>
        have hk := HandleRenderingInstruction_kept (r.setBuffer i b) self inst
        rcases hh : HandleRenderingInstruction (r.setBuffer i b) self inst with ⟨r2, c⟩
        rw [hh] at hk
        rcases HandleRenderingInstruction_result hh with ⟨next, hc⟩ | ⟨e, hc⟩
        · subst hc
          rw [RenderingThreadDrain_returned hp hh]
          exact Kept_chain (Kept_chain (Kept_setBuffer r i b) hk) (ih r2 next)
        · subst hc
          rw [RenderingThreadDrain_raised hp hh]
          exact Kept_chain (Kept_setBuffer r i b) hk

/-! ## The lock protocol while the renderer is in use -/

theorem at2_set2_same {α : Type} (p : α × α) (i : Bool) (a : α) : at2 (set2 p i a) i = a := by
  cases i <;> simp [at2, set2]

theorem at2_set2_other {α : Type} (p : α × α) (i : Bool) (a : α) :
    at2 (set2 p i a) (!i) = at2 p (!i) := by
  cases i <;> simp [at2, set2]

theorem at2_set2_not {α : Type} (p : α × α) (i : Bool) (a : α) :
    at2 (set2 p (!i) a) i = at2 p i := by
  cases i <;> simp [at2, set2]

theorem SwapRenderingInstructionQueues_asynchronous (r : OpenGLRenderer) (self : ThreadId)
    (hm : r.mRenderingMode = RenderingMode.Asynchronous) :
    SwapRenderingInstructionQueues r self
      = if at2 r.mInstructionProducerMutex (!r.mCurrentWriteBufferIndex) then
          (r, Completion.blocked)
        else
          ({ r with
              mInstructionProducerMutex :=
                set2 r.mInstructionProducerMutex (!r.mCurrentWriteBufferIndex) true
              mCurrentWriteBufferIndex := !r.mCurrentWriteBufferIndex
              mInstructionConsumerMutex :=
                set2 r.mInstructionConsumerMutex r.mCurrentWriteBufferIndex false },
           Completion.returned ()) := by
  simp [SwapRenderingInstructionQueues, hm]

theorem Protocol_kept {s s' : Execution} (hp : Protocol s)
    (hk : Kept s.renderer s'.renderer)
    (ht : ∀ b, s'.renderingThread = RenderingThreadState.Draining b ∨
      s'.renderingThread = RenderingThreadState.Waiting b →
      s'.renderingThread = s.renderingThread)
    (hs : s'.swapsReturned = s.swapsReturned) (hd : s'.drainsCompleted = s.drainsCompleted)
    (hx : s'.destructor = s.destructor) : Protocol s' :=
  { mode := by rw [hk.mode]; exact hp.mode
    inUse := by rw [hx]; exact hp.inUse
    behind := by rw [hs, hd]; exact hp.behind
    ahead := by rw [hs, hd]; exact hp.ahead
    producerCurrent := by rw [hk.producer, hk.index]; exact hp.producerCurrent
    producerOther := by rw [hk.producer, hk.index, hs, hd]; exact hp.producerOther
    consumerCurrent := by rw [hk.consumer, hk.index]; exact hp.consumerCurrent
    consumerOther := by rw [hk.consumer, hk.index, hs, hd]; exact hp.consumerOther
    draining := by
      intro b hb
      rw [hk.consumer, hk.index, hs, hd]
      exact hp.draining b (by rw [← ht b (Or.inl hb)]; exact hb)
    waiting := by
      intro b hb
      rw [hk.index, hs, hd]
      exact hp.waiting b (by rw [← ht b (Or.inr hb)]; exact hb)
    backlog := by
      have h1 := hk.backlog
      have h2 := hp.backlog
      omega }

theorem Protocol_start (RenderingCommandBufferSize ResourceCommandBufferSize : Nat)
    (renderingThread resourceThread : ThreadId) :
    Protocol (Execution.start
      (OpenGLRenderer.create RenderingMode.Asynchronous RenderingCommandBufferSize
        ResourceCommandBufferSize renderingThread resourceThread)) :=
  { mode := rfl
    inUse := rfl
    behind := Nat.le_refl _
    ahead := Nat.le_succ _
    producerCurrent := rfl
    producerOther := by
      simp [Execution.start, OpenGLRenderer.create, at2]
    consumerCurrent := rfl
    consumerOther := fun _ => rfl
    draining := by intro b hb; simp [Execution.start] at hb
    waiting := by
      intro b hb
      simp only [Execution.start, RenderingThreadState.Waiting.injEq] at hb
      subst hb
      simp [Execution.start, OpenGLRenderer.create]
    backlog := rfl }

theorem Protocol_swap {s s' : Execution} {caller : ThreadId} (hp : Protocol s)
    (hs : s.step (Action.SwapRenderingInstructionQueues caller) = some s') : Protocol s' := by
  simp only [Execution.step, hp.inUse, if_true,
    SwapRenderingInstructionQueues_asynchronous s.renderer caller hp.mode] at hs
  by_cases hlock :
      at2 s.renderer.mInstructionProducerMutex (!s.renderer.mCurrentWriteBufferIndex) = true
  · simp [hlock] at hs
  · simp only [hlock, Bool.false_eq_true, if_false, Option.some.injEq] at hs
    subst hs
    have hSD : s.swapsReturned = s.drainsCompleted := by
      have h1 := hp.behind
      have h2 := hp.ahead
      have h3 : ¬ s.swapsReturned = s.drainsCompleted + 1 := fun h => hlock (hp.producerOther.mpr h)
      omega
    exact
      { mode := hp.mode
        inUse := rfl
        behind := by show s.drainsCompleted ≤ s.swapsReturned + 1; omega
        ahead := by show s.swapsReturned + 1 ≤ s.drainsCompleted + 1; omega
        producerCurrent := at2_set2_same _ _ _
        producerOther := by
          show at2 (set2 s.renderer.mInstructionProducerMutex
            (!s.renderer.mCurrentWriteBufferIndex) true) (!!s.renderer.mCurrentWriteBufferIndex)
            = true ↔ s.swapsReturned + 1 = s.drainsCompleted + 1
          rw [Bool.not_not, at2_set2_not, hp.producerCurrent]
          simp [hSD]
        consumerCurrent := by
          show at2 (set2 s.renderer.mInstructionConsumerMutex
            s.renderer.mCurrentWriteBufferIndex false) (!s.renderer.mCurrentWriteBufferIndex)
            = true
          rw [at2_set2_other]
          exact hp.consumerOther hSD
        consumerOther := by
          intro h
          have : s.swapsReturned + 1 = s.drainsCompleted := h
          omega
        draining := by
          intro b hb
          have := (hp.draining b hb).2.1
          omega
        waiting := by
          intro b hb
          refine ⟨fun h => ?_, fun _ => ?_⟩
          · have : s.swapsReturned + 1 = s.drainsCompleted := h
            omega
          · show b = !!s.renderer.mCurrentWriteBufferIndex
            rw [Bool.not_not]
            exact (hp.waiting b hb).1 hSD
        backlog := hp.backlog }

theorem Protocol_enters {s s' : Execution} (hp : Protocol s)
    (hs : s.step Action.RenderingThreadEnters = some s') : Protocol s' := by
  simp only [Execution.step] at hs
  cases ht : s.renderingThread with
  | Waiting b =>
    simp only [ht, ConsumptionScopeEnter] at hs
    by_cases hlock : at2 s.renderer.mInstructionConsumerMutex b = true
    · simp [hlock] at hs
    · simp only [hlock, Bool.false_eq_true, if_false, Option.some.injEq] at hs
      subst hs
      have hb : b = !s.renderer.mCurrentWriteBufferIndex := by
        have hc := hp.consumerCurrent
        cases hcur : s.renderer.mCurrentWriteBufferIndex <;> cases b <;> simp_all
      have hSD : s.swapsReturned = s.drainsCompleted + 1 := by
        have h1 := hp.behind
        have h2 := hp.ahead
        have h3 : ¬ s.swapsReturned = s.drainsCompleted := by
          intro h
          have := (hp.waiting b ht).1 h
          rw [this] at hb
          cases hcur : s.renderer.mCurrentWriteBufferIndex <;> simp [hcur] at hb
        omega
      exact
        { mode := hp.mode
          inUse := hp.inUse
          behind := hp.behind
          ahead := hp.ahead
          producerCurrent := hp.producerCurrent
          producerOther := hp.producerOther
          consumerCurrent := by
            show at2 (set2 s.renderer.mInstructionConsumerMutex b true)
              s.renderer.mCurrentWriteBufferIndex = true
            rw [hb, at2_set2_not]
            exact hp.consumerCurrent
          consumerOther := by
            intro h
            have : s.swapsReturned = s.drainsCompleted := h
            omega
          draining := by
            intro b' hb'
            simp only [RenderingThreadState.Draining.injEq] at hb'
            subst hb'
            exact ⟨hb, hSD, at2_set2_same _ _ _⟩
          waiting := by intro b' hb'; simp at hb'
          backlog := hp.backlog }
  | Draining b => simp [ht] at hs
  | Returned => simp [ht] at hs
  | Terminated => simp [ht] at hs

theorem Execution.drain_returned {s : Execution} {b : Bool} {r1 : OpenGLRenderer}
    {response : InstructionHandlerResponse}
    (h : RenderingThreadDrain (DrainBound (s.renderer.buffer b)) s.renderer
      (s.renderer.mRenderingThread.getD 0) b InstructionHandlerResponse.Continue
        = (r1, Completion.returned response)) :
    s.drain b
      = { s with
          renderer := ConsumptionScopeExit r1 b
          renderingThread :=
            if response = InstructionHandlerResponse.Quit then RenderingThreadState.Returned
            else RenderingThreadState.Waiting (!b)
          drainsCompleted := s.drainsCompleted + 1 } := by
  simp [Execution.drain, h]

theorem Execution.drain_raised {s : Execution} {b : Bool} {r1 : OpenGLRenderer} {e : Raised}
    (h : RenderingThreadDrain (DrainBound (s.renderer.buffer b)) s.renderer
      (s.renderer.mRenderingThread.getD 0) b InstructionHandlerResponse.Continue
        = (r1, Completion.raised e)) :
    s.drain b
      = { s with renderer := r1, renderingThread := RenderingThreadState.Terminated } := by
  simp [Execution.drain, h]

theorem RenderingThreadDrain_ended (r : OpenGLRenderer) (self : ThreadId) (b : Bool) :
    (∃ response,
      (RenderingThreadDrain (DrainBound (r.buffer b)) r self b
        InstructionHandlerResponse.Continue).2 = Completion.returned response) ∨
    ∃ e, (RenderingThreadDrain (DrainBound (r.buffer b)) r self b
        InstructionHandlerResponse.Continue).2 = Completion.raised e :=
  (RenderingThreadDrain_pending r self b).2

theorem Protocol_drains {s s' : Execution} (hp : Protocol s)
    (hs : s.step Action.RenderingThreadDrains = some s') : Protocol s' := by
  simp only [Execution.step] at hs
  cases ht : s.renderingThread with
  | Draining b =>
    simp only [ht, Option.some.injEq] at hs
    obtain ⟨hb, hSD, hcons⟩ := hp.draining b ht
    have hk := RenderingThreadDrain_kept (s.renderer.mRenderingThread.getD 0) b
      (DrainBound (s.renderer.buffer b)) s.renderer InstructionHandlerResponse.Continue
    rcases hdr : RenderingThreadDrain (DrainBound (s.renderer.buffer b)) s.renderer
      (s.renderer.mRenderingThread.getD 0) b InstructionHandlerResponse.Continue with ⟨r1, c⟩
    rw [hdr] at hk
    simp only at hk
    have hend := RenderingThreadDrain_ended s.renderer (s.renderer.mRenderingThread.getD 0) b
    rw [hdr] at hend
    rcases hend with ⟨response, hc⟩ | ⟨e, hc⟩
    · simp only at hc
      subst hc
      rw [Execution.drain_returned hdr] at hs
      subst hs
      exact
        { mode := by
            show r1.mRenderingMode = _
            rw [hk.mode]; exact hp.mode
          inUse := hp.inUse
          behind := by show s.drainsCompleted + 1 ≤ s.swapsReturned; omega
          ahead := by show s.swapsReturned ≤ s.drainsCompleted + 1 + 1; omega
          producerCurrent := by
            show at2 (set2 r1.mInstructionProducerMutex b false) r1.mCurrentWriteBufferIndex
              = true
            rw [hk.producer, hk.index, hb, at2_set2_not]
            exact hp.producerCurrent
          producerOther := by
            show at2 (set2 r1.mInstructionProducerMutex b false) (!r1.mCurrentWriteBufferIndex)
              = true ↔ s.swapsReturned = s.drainsCompleted + 1 + 1
            rw [hk.index, hb, at2_set2_same]
            constructor
            · intro h; cases h
            · intro h; omega
          consumerCurrent := by
            show at2 r1.mInstructionConsumerMutex r1.mCurrentWriteBufferIndex = true
            rw [hk.consumer, hk.index]
            exact hp.consumerCurrent
          consumerOther := by
            intro _
            show at2 r1.mInstructionConsumerMutex (!r1.mCurrentWriteBufferIndex) = true
            rw [hk.consumer, hk.index, ← hb]
            exact hcons
          draining := by
            intro b' hb'
            by_cases hq : response = InstructionHandlerResponse.Quit <;> simp [hq] at hb'
          waiting := by
            intro b' hb'
            by_cases hq : response = InstructionHandlerResponse.Quit
            · simp [hq] at hb'
            · simp only [hq, if_false, RenderingThreadState.Waiting.injEq] at hb'
              subst hb'
              refine ⟨fun _ => ?_, fun h => ?_⟩
              · show (!b) = r1.mCurrentWriteBufferIndex
                rw [hk.index, hb, Bool.not_not]
              · have : s.swapsReturned = s.drainsCompleted + 1 + 1 := h
                omega
          backlog := by
            show r1.mConsumerSemaphore = r1.mInstructionBuffer.Instructions.length
            have h1 := hk.backlog
            have h2 := hp.backlog
            omega }
    · simp only at hc
      subst hc
      rw [Execution.drain_raised hdr] at hs
      subst hs
      exact Protocol_kept hp hk (by intro b' hb'; rcases hb' with h | h <;> simp at h)
        rfl rfl rfl
  | Waiting b => simp [ht] at hs
  | Returned => simp [ht] at hs
  | Terminated => simp [ht] at hs

theorem Protocol_push_rendering {s s' : Execution} {caller : ThreadId}
    {inst : OpenGLInstruction} (hp : Protocol s)
    (hs : s.step (Action.PushRenderingInstruction caller inst) = some s') : Protocol s' := by
  simp only [Execution.step, hp.inUse, if_true, Option.some.injEq] at hs
  subst hs
  exact Protocol_kept hp (PushRenderingInstruction_kept s.renderer caller inst)
    (fun _ _ => rfl) rfl rfl hp.inUse.symm

theorem Protocol_push_resource {s s' : Execution} {caller : ThreadId}
    {inst : OpenGLInstruction} (hp : Protocol s)
    (hs : s.step (Action.PushResourceInstruction caller inst) = some s') : Protocol s' := by
  simp only [Execution.step, hp.inUse, if_true, Option.some.injEq] at hs
  subst hs
  exact Protocol_kept hp (PushResourceInstruction_kept s.renderer caller inst)
    (fun _ _ => rfl) rfl rfl hp.inUse.symm

theorem OpenGLResourceThreadIteration_kept (r : OpenGLRenderer) (self : ThreadId)
    (uninitialised : OpenGLInstruction)
    (hb : r.mConsumerSemaphore = r.mInstructionBuffer.Instructions.length) :
    Kept r (OpenGLResourceThreadIteration r self uninitialised).1 := by
  unfold OpenGLResourceThreadIteration
  by_cases hz : r.mConsumerSemaphore = 0
  · simp only [hz, if_true]
    exact Kept_same r
  · simp only [hz, if_false]
    cases hi : r.mInstructionBuffer.Instructions with
    | nil =>
      rw [hi] at hb
      exact absurd hb hz
    | cons inst rest =>
      have hpop : r.mInstructionBuffer.PopInstruction
          = some (inst, { r.mInstructionBuffer with Instructions := rest }) := by
        simp [OpenGLInstructionRingBuffer.PopInstruction, hi]
      simp only [hpop]
      refine Kept_chain ?_ (HandleResourceInstruction_kept _ self inst)
      refine ⟨rfl, rfl, rfl, rfl, rfl, rfl, ?_⟩
      show r.mConsumerSemaphore - 1 + r.mInstructionBuffer.Instructions.length
        = r.mConsumerSemaphore + rest.length
      rw [hi] at hb ⊢
      simp only [List.length_cons] at hb ⊢
      omega

theorem Protocol_resource {s s' : Execution} {uninitialised : OpenGLInstruction}
    (hp : Protocol s)
    (hs : s.step (Action.ResourceThreadIterates uninitialised) = some s') : Protocol s' := by
  simp only [Execution.step] at hs
  by_cases hrun : s.resourceThread = ResourceThreadState.Running
  · simp only [hrun, if_true] at hs
    have hk := OpenGLResourceThreadIteration_kept s.renderer
      (s.renderer.mResourceThread.getD 0) uninitialised hp.backlog
    rcases hit : OpenGLResourceThreadIteration s.renderer
      (s.renderer.mResourceThread.getD 0) uninitialised with ⟨r1, c⟩
    rw [hit] at hk hs
    simp only at hk
    cases c with
    | returned response =>
      simp only [Option.some.injEq] at hs
      subst hs
      exact Protocol_kept hp hk (fun _ _ => rfl) rfl rfl rfl
    | raised e =>
      simp only [Option.some.injEq] at hs
      subst hs
      exact Protocol_kept hp hk (fun _ _ => rfl) rfl rfl rfl
    | blocked => simp at hs
    | unfinished =>
      simp only [Option.some.injEq] at hs
      subst hs
      exact Protocol_kept hp hk (fun _ _ => rfl) rfl rfl rfl
  · simp [hrun] at hs

theorem Protocol_step {s s' : Execution} {action : Action} (hp : Protocol s)
    (ha : action.IsDestructor = false) (hs : s.step action = some s') : Protocol s' := by
  cases action with
  | PushRenderingInstruction caller inst => exact Protocol_push_rendering hp hs
  | PushResourceInstruction caller inst => exact Protocol_push_resource hp hs
  | SwapRenderingInstructionQueues caller => exact Protocol_swap hp hs
  | RenderingThreadEnters => exact Protocol_enters hp hs
  | RenderingThreadDrains => exact Protocol_drains hp hs
  | ResourceThreadIterates uninitialised => exact Protocol_resource hp hs
  | Destructor caller => simp [Action.IsDestructor] at ha

theorem Protocol_run (actions : List Action) :
    ∀ {s s' : Execution}, Protocol s → (∀ a ∈ actions, a.IsDestructor = false) →
      s.run actions = some s' → Protocol s' := by
  induction actions with
  | nil =>
    intro s s' hp _ hs
    simp only [Execution.run, Option.some.injEq] at hs
    subst hs
    exact hp
  | cons action rest ih =>
    intro s s' hp ha hs
    unfold Execution.run at hs
    cases hstep : s.step action with
    | none => simp [hstep] at hs
    | some next =>
      simp only [hstep] at hs
      exact ih (Protocol_step hp (ha action (by simp)) hstep)
        (fun a h => ha a (List.mem_cons_of_mem _ h)) hs

/-! ## Lemmas on the response that ends the rendering thread's loop -/

theorem ThroughFirstQuit_has_quit (l : List OpenGLInstruction) :
    (∃ inst ∈ ThroughFirstQuit l, inst.OpCode = OpenGLOpCode.Quit) ↔
      ∃ inst ∈ l, inst.OpCode = OpenGLOpCode.Quit := by
  induction l with
  | nil => simp [ThroughFirstQuit]
  | cons x rest ih =>
    by_cases hq : x.OpCode = OpenGLOpCode.Quit
    · simp only [ThroughFirstQuit, hq, if_true, List.mem_singleton, exists_eq_left,
        List.mem_cons, exists_eq_or_imp, true_or]
    · simp only [ThroughFirstQuit, hq, if_false, List.mem_cons, exists_eq_or_imp, false_or]
      exact ih

/-- The response with which the inner loop of the rendering thread returns is
Quit exactly when it started as Quit or one of the instructions handled during
the loop is a Quit. -/
theorem RenderingThreadDrain_last (self : ThreadId) (i : Bool) :
    ∀ (bound : Nat) (r : OpenGLRenderer) (response last : InstructionHandlerResponse),
      (RenderingThreadDrain bound r self i response).2 = Completion.returned last →
      (last = InstructionHandlerResponse.Quit ↔
        response = InstructionHandlerResponse.Quit ∨
        ∃ inst ∈ (RenderingThreadDrain bound r self i response).1.RenderingExecuted.drop
            r.RenderingExecuted.length,
          inst.OpCode = OpenGLOpCode.Quit) := by
  intro bound
  induction bound with
  | zero => intro r response last h; simp [RenderingThreadDrain] at h
  | succ bound ih =>
    intro r response last
    cases hp : (r.buffer i).PopInstruction with
    | none =>
      rw [RenderingThreadDrain_none hp]
      intro h
      simp only [Completion.returned.injEq] at h
      subst h
      simp
    | some popped =>
      obtain ⟨inst, b⟩ := popped
      cases response with
      | Quit =>
        rw [RenderingThreadDrain_after_quit hp]
        intro h
        simp only [Completion.returned.injEq] at h
        subst h
        simp
      | Continue =>
        rcases hh : HandleRenderingInstruction (r.setBuffer i b) self inst with ⟨r2, c⟩
        have hexec : r2.RenderingExecuted = r.RenderingExecuted ++ [inst] := by
          have := HandleRenderingInstruction_executed (r.setBuffer i b) self inst
          rw [hh] at this
          exact this
        rcases HandleRenderingInstruction_result hh with ⟨next, hc⟩ | ⟨e, hc⟩
        · subst hc
          rw [RenderingThreadDrain_returned hp hh]
          intro h
          have hquit := HandleRenderingInstruction_quit hh
          obtain ⟨_, ⟨k, hk⟩, _, _, _⟩ := RenderingThreadDrain_spec self i bound r2 next
          generalize List.take k (List.drop (r2.buffer i).ReadHead
            ((RenderingThreadDrain bound r2 self i next).1.buffer i).Instructions) = X at hk
          rw [ih r2 next last h, hk, hexec, hquit]
          have h1 : List.drop (r.RenderingExecuted ++ [inst]).length
              (r.RenderingExecuted ++ [inst] ++ X) = X := List.drop_left _ _
          have h2 : List.drop r.RenderingExecuted.length
              (r.RenderingExecuted ++ [inst] ++ X) = inst :: X := by
            rw [List.append_assoc]
            exact List.drop_left _ _
          rw [h1, h2]
          simp only [List.mem_cons, exists_eq_or_imp, reduceCtorEq, false_or]
        · subst hc
          rw [RenderingThreadDrain_raised hp hh]
          intro h
          cases h

/-! ## The claims on the lock protocol and on the semaphore -/

/-- C18: in every execution of an Asynchronous renderer in use (pushes, queue
swaps and steps of the two threads, in any order, from the state its constructor
leaves), with `k` drains completed by the rendering thread, at most `k + 1`
calls of `SwapRenderingInstructionQueues` have returned; when `k + 1` have, the
producer mutex of the other buffer is held and the next call is suspended on it;
and when only `k` have, that is once another drain has completed, the call
returns. -/
theorem producer_at_most_one_swap_ahead
    (RenderingCommandBufferSize ResourceCommandBufferSize : Nat)
    (renderingThread resourceThread : ThreadId) (actions : List Action) (s : Execution)
    (hinuse : ∀ a ∈ actions, a.IsDestructor = false)
    (hrun : (Execution.start
      (OpenGLRenderer.create RenderingMode.Asynchronous RenderingCommandBufferSize
        ResourceCommandBufferSize renderingThread resourceThread)).run actions = some s) :
    s.swapsReturned ≤ s.drainsCompleted + 1 ∧
    s.drainsCompleted ≤ s.swapsReturned ∧
    (s.swapsReturned = s.drainsCompleted + 1 →
      at2 s.renderer.mInstructionProducerMutex (!s.renderer.mCurrentWriteBufferIndex) = true ∧
      ∀ caller,
        (SwapRenderingInstructionQueues s.renderer caller).2 = Completion.blocked ∧
        s.step (Action.SwapRenderingInstructionQueues caller) = none) ∧
    (s.swapsReturned = s.drainsCompleted →
      ∀ caller, (SwapRenderingInstructionQueues s.renderer caller).2 = Completion.returned ()) := by
  have hp := Protocol_run actions
    (Protocol_start RenderingCommandBufferSize ResourceCommandBufferSize renderingThread
      resourceThread) hinuse hrun
  refine ⟨hp.ahead, hp.behind, fun h => ?_, fun h caller => ?_⟩
  · have hlocked := hp.producerOther.mpr h
    refine ⟨hlocked, fun caller => ?_⟩
    have hb : SwapRenderingInstructionQueues s.renderer caller = (s.renderer, Completion.blocked) := by
      rw [SwapRenderingInstructionQueues_asynchronous s.renderer caller hp.mode, hlocked]
      rfl
    refine ⟨by rw [hb], ?_⟩
    simp only [Execution.step, hb]
    split <;> rfl
  · have hfree :
        at2 s.renderer.mInstructionProducerMutex (!s.renderer.mCurrentWriteBufferIndex)
          = false := by
      cases hc :
        at2 s.renderer.mInstructionProducerMutex (!s.renderer.mCurrentWriteBufferIndex)
      · rfl
      · have := hp.producerOther.mp hc
        omega
    rw [SwapRenderingInstructionQueues_asynchronous s.renderer caller hp.mode, hfree]
    rfl

/-- Witness of C18: one frame on a fresh Asynchronous renderer. -/
theorem producer_at_most_one_swap_ahead_witness :
    (∀ a ∈ oneFrame, a.IsDestructor = false) ∧
    ((Execution.start freshAsynchronous).after oneFrame).swapsReturned
      ≤ ((Execution.start freshAsynchronous).after oneFrame).drainsCompleted + 1 :=
  ⟨by decide,
   (producer_at_most_one_swap_ahead 64 64 1 2 oneFrame
      ((Execution.start freshAsynchronous).after oneFrame) (by decide) (by rfl)).1⟩

/-- C17, the counterexample: on a fresh Asynchronous renderer, after the first
statement of the destructor (the unlock of the consumer mutex of the current
write buffer) the rendering thread takes that mutex: it holds buffer 0 for
draining while the current write index is 0. Scheduled as in `destructorRace`,
the rendering thread holds buffer 0 for draining while the destructor's
`SendQuit` pushes the Quit into that buffer. -/
theorem destructor_hands_write_buffer_to_consumer :
    (((Execution.start freshAsynchronous).run
        [Action.Destructor 0, Action.RenderingThreadEnters]).isSome = true ∧
     ((Execution.start freshAsynchronous).after
        [Action.Destructor 0, Action.RenderingThreadEnters]).renderingThread
      = RenderingThreadState.Draining false ∧
     ((Execution.start freshAsynchronous).after
        [Action.Destructor 0, Action.RenderingThreadEnters]).renderer.mCurrentWriteBufferIndex
      = false) ∧
    ((Execution.start freshAsynchronous).run destructorRace).isSome = true ∧
    ((Execution.start freshAsynchronous).after (destructorRace.take 11)).renderingThread
      = RenderingThreadState.Draining false ∧
    ((Execution.start freshAsynchronous).after (destructorRace.take 11)).destructor = 6 ∧
    (((Execution.start freshAsynchronous).after
      (destructorRace.take 11)).renderer.buffer false).Instructions = [] ∧
    ((Execution.start freshAsynchronous).after destructorRace).renderingThread
      = RenderingThreadState.Draining false ∧
    (((Execution.start freshAsynchronous).after destructorRace).renderer.buffer false).Instructions
      = [quitInstruction] := by
  decide

/-- C17, amended: in every execution of an Asynchronous renderer in use (pushes,
queue swaps and steps of the two threads, in any order, from the state its
constructor leaves), when the rendering thread holds a buffer for draining, that
buffer is not the buffer at the current write index, and a push by any thread
other than the rendering thread writes to another buffer. -/
theorem write_buffer_not_drained_in_use
    (RenderingCommandBufferSize ResourceCommandBufferSize : Nat)
    (renderingThread resourceThread : ThreadId) (actions : List Action) (s : Execution)
    (hinuse : ∀ a ∈ actions, a.IsDestructor = false)
    (hrun : (Execution.start
      (OpenGLRenderer.create RenderingMode.Asynchronous RenderingCommandBufferSize
        ResourceCommandBufferSize renderingThread resourceThread)).run actions = some s) :
    ∀ b, s.renderingThread = RenderingThreadState.Draining b →
      b ≠ s.renderer.mCurrentWriteBufferIndex ∧
      ∀ caller, s.renderer.mRenderingThread ≠ some caller →
        PushRenderingWriteIndex s.renderer caller ≠ b := by
  have hp := Protocol_run actions
    (Protocol_start RenderingCommandBufferSize ResourceCommandBufferSize renderingThread
      resourceThread) hinuse hrun
  intro b hb
  have hne : b ≠ s.renderer.mCurrentWriteBufferIndex := by
    rw [(hp.draining b hb).1]
    cases s.renderer.mCurrentWriteBufferIndex <;> decide
  refine ⟨hne, fun caller hc => ?_⟩
  have : PushRenderingWriteIndex s.renderer caller = s.renderer.mCurrentWriteBufferIndex := by
    simp [PushRenderingWriteIndex, hp.mode, hc]
  rw [this]
  exact fun h => hne h.symm

/-- Witness of C17, amended: on a fresh Asynchronous renderer, after a push and
a queue swap by thread 0 the rendering thread takes the buffer handed over; it
drains buffer 0 while the write index is 1. -/
theorem write_buffer_not_drained_in_use_witness :
    (∀ a ∈ oneFrame.take 3, a.IsDestructor = false) ∧
    ((Execution.start freshAsynchronous).after (oneFrame.take 3)).renderingThread
      = RenderingThreadState.Draining false ∧
    false ≠ ((Execution.start freshAsynchronous).after
      (oneFrame.take 3)).renderer.mCurrentWriteBufferIndex :=
  ⟨by decide, by decide,
   (write_buffer_not_drained_in_use 64 64 1 2 (oneFrame.take 3)
      ((Execution.start freshAsynchronous).after (oneFrame.take 3)) (by decide) (by rfl)
      false (by decide)).1⟩

/-- C11, the counterexample: on a fresh Asynchronous renderer the destructor runs
up to its joins while the resource thread has not run. One instruction, the
Quit, has been pushed to the resource ring buffer, and the semaphore has been
signalled twice: once by `PushResourceInstruction`, once by the `post` that
follows `SendQuit` in the destructor. -/
theorem destructor_signals_twice_for_quit :
    ((Execution.start freshAsynchronous).run destructorRun).isSome = true ∧
    ((Execution.start freshAsynchronous).after destructorRun).destructor = 10 ∧
    ((Execution.start freshAsynchronous).after destructorRun).renderer.ResourceExecuted = [] ∧
    ((Execution.start freshAsynchronous).after
      destructorRun).renderer.mInstructionBuffer.Instructions = [quitInstruction] ∧
    ((Execution.start freshAsynchronous).after destructorRun).renderer.mConsumerSemaphore = 2 ∧
    ((Execution.start freshAsynchronous).after
      (destructorRun.take 10)).renderer.mInstructionBuffer.Instructions = [] ∧
    ((Execution.start freshAsynchronous).after
      (destructorRun.take 10)).renderer.mConsumerSemaphore = 0 := by
  decide

/-- C11, amended: in every execution of an Asynchronous renderer in use (pushes,
queue swaps and steps of the two threads, in any order, from the state its
constructor leaves) the count of the semaphore equals the number of
instructions in the resource ring buffer; a call of `PushResourceInstruction`
in that state either appends its instruction and signals the semaphore once, or
raises `std::overflow_error` and leaves the buffer and the semaphore as they
were; and the statement of the destructor that follows `SendQuit` for the
resource queue signals the semaphore once more without a push. -/
theorem semaphore_counts_resource_backlog
    (RenderingCommandBufferSize ResourceCommandBufferSize : Nat)
    (renderingThread resourceThread : ThreadId) (actions : List Action) (s : Execution)
    (hinuse : ∀ a ∈ actions, a.IsDestructor = false)
    (hrun : (Execution.start
      (OpenGLRenderer.create RenderingMode.Asynchronous RenderingCommandBufferSize
        ResourceCommandBufferSize renderingThread resourceThread)).run actions = some s) :
    s.renderer.mConsumerSemaphore = s.renderer.mInstructionBuffer.Instructions.length ∧
    (∀ caller inst,
      ((PushResourceInstruction s.renderer caller inst).2 = Completion.returned () ∧
        (PushResourceInstruction s.renderer caller inst).1.mInstructionBuffer.Instructions
          = s.renderer.mInstructionBuffer.Instructions ++ [inst] ∧
        (PushResourceInstruction s.renderer caller inst).1.mConsumerSemaphore
          = s.renderer.mConsumerSemaphore + 1) ∨
      ((PushResourceInstruction s.renderer caller inst).2
          = Completion.raised Raised.overflow_error ∧
        (PushResourceInstruction s.renderer caller inst).1 = s.renderer)) ∧
    (∀ r caller, ∃ r', DestructorStep 9 r caller = some r' ∧
      r'.mConsumerSemaphore = r.mConsumerSemaphore + 1 ∧
      r'.mInstructionBuffer = r.mInstructionBuffer) := by
  have hp := Protocol_run actions
    (Protocol_start RenderingCommandBufferSize ResourceCommandBufferSize renderingThread
      resourceThread) hinuse hrun
  refine ⟨hp.backlog, fun caller inst => ?_, fun r caller => ⟨_, rfl, rfl, rfl⟩⟩
  unfold PushResourceInstruction
  cases hpush : s.renderer.mInstructionBuffer.PushInstruction inst with
  | none =>
    rw [PushResourceInstructionWith_async_none hp.mode hpush]
    exact Or.inr ⟨rfl, rfl⟩
  | some b =>
    rw [PushResourceInstructionWith_async_some hp.mode hpush]
    refine Or.inl ⟨rfl, ?_, rfl⟩
    rw [RingPush_some hpush]

/-- Witness of C11, amended: a `GenBuffer` instruction pushed to the resource
queue of a fresh Asynchronous renderer that the resource thread has not yet
taken. -/
theorem semaphore_counts_resource_backlog_witness :
    (∀ a ∈ [Action.PushResourceInstruction 0 genBufferZero], a.IsDestructor = false) ∧
    ((Execution.start freshAsynchronous).after
      [Action.PushResourceInstruction 0 genBufferZero]).renderer.mConsumerSemaphore = 1 ∧
    ((Execution.start freshAsynchronous).after
        [Action.PushResourceInstruction 0 genBufferZero]).renderer.mConsumerSemaphore
      = ((Execution.start freshAsynchronous).after
        [Action.PushResourceInstruction 0
          genBufferZero]).renderer.mInstructionBuffer.Instructions.length :=
  ⟨by decide, by decide,
   (semaphore_counts_resource_backlog 64 64 1 2 [Action.PushResourceInstruction 0 genBufferZero]
      ((Execution.start freshAsynchronous).after
        [Action.PushResourceInstruction 0 genBufferZero]) (by decide) (by rfl)).1⟩

/-! ## The claims on the frames of the two modes -/

/-- C14, at the failing input: on a Synchronous renderer whose rendering buffers
hold one `Clear` instruction each, the caller calls `Clear(true, false, false)`
and `SwapRenderingInstructionQueues` twice. All three calls return, the `Clear`
has been executed and nothing is pending, yet buffer 1, which the second swap
drained, has not been reset: it still holds the executed instruction, so the
next `Clear(true, false, false)`, which is written to that buffer, raises
`std::overflow_error`. On the Asynchronous renderer of the same size the
rendering thread resets each buffer it has drained, and three frames of one
`Clear` each are executed. -/
theorem synchronous_swap_never_resets :
    (Clear smallSynchronous 0 true false false).2 = Completion.returned () ∧
    (SwapRenderingInstructionQueues (Clear smallSynchronous 0 true false false).1 0).2
      = Completion.returned () ∧
    (SwapRenderingInstructionQueues
      (SwapRenderingInstructionQueues (Clear smallSynchronous 0 true false false).1 0).1 0).2
      = Completion.returned () ∧
    (SwapRenderingInstructionQueues
      (SwapRenderingInstructionQueues (Clear smallSynchronous 0 true false false).1 0).1
        0).1.RenderingExecuted = [clearColor] ∧
    ((SwapRenderingInstructionQueues
      (SwapRenderingInstructionQueues (Clear smallSynchronous 0 true false false).1 0).1
        0).1.buffer true).Pending = [] ∧
    ((SwapRenderingInstructionQueues
      (SwapRenderingInstructionQueues (Clear smallSynchronous 0 true false false).1 0).1
        0).1.buffer true).Instructions = [clearColor] ∧
    (SwapRenderingInstructionQueues
      (SwapRenderingInstructionQueues (Clear smallSynchronous 0 true false false).1 0).1
        0).1.buffer true
      ≠ ((SwapRenderingInstructionQueues
          (SwapRenderingInstructionQueues (Clear smallSynchronous 0 true false false).1 0).1
            0).1.buffer true).Reset ∧
    PushRenderingWriteIndex
      (SwapRenderingInstructionQueues
        (SwapRenderingInstructionQueues (Clear smallSynchronous 0 true false false).1 0).1
          0).1 0 = true ∧
    (Clear
      (SwapRenderingInstructionQueues
        (SwapRenderingInstructionQueues (Clear smallSynchronous 0 true false false).1 0).1
          0).1 0 true false false).2 = Completion.raised Raised.overflow_error ∧
    ((Execution.start smallAsynchronous).run (oneFrame ++ oneFrame ++ oneFrame)).isSome = true ∧
    ((Execution.start smallAsynchronous).after
      (oneFrame ++ oneFrame ++ oneFrame)).renderer.RenderingExecuted
      = [clearColor, clearColor, clearColor] ∧
    (((Execution.start smallAsynchronous).after oneFrame).renderer.buffer false)
      = (((Execution.start smallAsynchronous).after oneFrame).renderer.buffer false).Reset := by
  decide

/-- C15, at the failing input: on a fresh Synchronous renderer `SwapBuffers`
returns with nothing executed. Its `SwapBuffers` instruction was written to
buffer 1 while the queue swap it performed retired buffer 0, the buffer at the
write index; the instruction is still pending, and only the next call of
`SwapBuffers` executes it. On a fresh Asynchronous renderer the instruction is
in buffer 0, the buffer the swap hands over to the rendering thread. -/
theorem SwapBuffers_synchronous_misses_retired_buffer :
    (SwapBuffers freshSynchronous 0).2 = Completion.returned () ∧
    freshSynchronous.mCurrentWriteBufferIndex = false ∧
    PushRenderingWriteIndex freshSynchronous 0 = true ∧
    (SwapBuffers freshSynchronous 0).1.RenderingExecuted = [] ∧
    ((SwapBuffers freshSynchronous 0).1.buffer false).Instructions = [] ∧
    ((SwapBuffers freshSynchronous 0).1.buffer true).Pending = [swapBuffersInstruction] ∧
    (SwapBuffers (SwapBuffers freshSynchronous 0).1 0).1.RenderingExecuted
      = [swapBuffersInstruction] ∧
    (SwapBuffers freshAsynchronous 0).2 = Completion.returned () ∧
    PushRenderingWriteIndex freshAsynchronous 0 = false ∧
    ((SwapBuffers freshAsynchronous 0).1.buffer false).Pending = [swapBuffersInstruction] ∧
    at2 (SwapBuffers freshAsynchronous 0).1.mInstructionConsumerMutex false = false := by
  decide

/-- C16, at the failing input: the caller calls `Clear(true, false, false)` and
then `SwapRenderingInstructionQueues`. On a fresh Synchronous renderer both calls
return and no instruction has been executed. On a fresh Asynchronous renderer
the same two calls, followed by the steps of the rendering thread until it is
suspended again, execute the `Clear` instruction. When the renderer is then
destroyed, the Synchronous renderer has executed the `Clear` alone, the
Asynchronous renderer, both of whose threads have returned, the `Clear` and the
Quit. -/
theorem modes_execute_different_instructions :
    Clear freshAsynchronous 0 true false false
      = PushRenderingInstruction freshAsynchronous 0 clearColor ∧
    (Clear freshSynchronous 0 true false false).2 = Completion.returned () ∧
    (SwapRenderingInstructionQueues (Clear freshSynchronous 0 true false false).1 0).2
      = Completion.returned () ∧
    (SwapRenderingInstructionQueues
      (Clear freshSynchronous 0 true false false).1 0).1.RenderingExecuted = [] ∧
    (SwapRenderingInstructionQueues
      (Clear freshSynchronous 0 true false false).1 0).1.ResourceExecuted = [] ∧
    ((Execution.start freshAsynchronous).run oneFrame).isSome = true ∧
    ((Execution.start freshAsynchronous).after oneFrame).renderer.RenderingExecuted
      = [clearColor] ∧
    ((Execution.start freshAsynchronous).after oneFrame).renderingThread
      = RenderingThreadState.Waiting true ∧
    ((Execution.start freshAsynchronous).after oneFrame).step Action.RenderingThreadEnters
      = none ∧
    ((Execution.start freshAsynchronous).after oneFrame).step
      (Action.ResourceThreadIterates clearColor) = none ∧
    ((SwapRenderingInstructionQueues
      (Clear freshSynchronous 0 true false false).1 0).1.destroy 0).2 = Completion.returned () ∧
    ((SwapRenderingInstructionQueues
      (Clear freshSynchronous 0 true false false).1 0).1.destroy 0).1.RenderingExecuted
      = [clearColor] ∧
    ((Execution.start freshAsynchronous).run
      (oneFrame ++ destructorRun ++ threadsFinish)).isSome = true ∧
    ((Execution.start freshAsynchronous).after
      (oneFrame ++ destructorRun ++ threadsFinish)).renderer.RenderingExecuted
      = [clearColor, quitInstruction] ∧
    ((Execution.start freshAsynchronous).after
      (oneFrame ++ destructorRun ++ threadsFinish)).renderingThread
      = RenderingThreadState.Returned ∧
    ((Execution.start freshAsynchronous).after
      (oneFrame ++ destructorRun ++ threadsFinish)).resourceThread
      = ResourceThreadState.Returned := by
  decide

/-! ## The claim on Quit -/

theorem RenderingInstructionEffects_of_quit (inst : OpenGLInstruction)
    (h : inst.OpCode = OpenGLOpCode.Quit) :
    (RenderingInstructionEffects inst).2
      = Completion.returned InstructionHandlerResponse.Quit := by
  rcases inst with ⟨params, released⟩
  cases params <;> simp [OpenGLInstruction.OpCode, OpCodeParams.OpCode] at h ⊢
  simp [RenderingInstructionEffects, HandleCommonInstruction]

theorem ResourceInstructionEffects_of_quit (inst : OpenGLInstruction)
    (h : inst.OpCode = OpenGLOpCode.Quit) :
    (ResourceInstructionEffects inst).2
      = Completion.returned InstructionHandlerResponse.Quit := by
  rcases inst with ⟨params, released⟩
  cases params <;> simp [OpenGLInstruction.OpCode, OpCodeParams.OpCode] at h ⊢
  simp [ResourceInstructionEffects, HandleCommonInstruction]

/-- C12: whenever `HandleRenderingInstruction` or `HandleResourceInstruction`
returns, the response is Quit exactly when the opcode of the instruction is
Quit, and for a Quit instruction (which owns no handle) both return Quit. The
rendering thread, holding buffer `b` for draining, runs its inner loop to the
end; when the loop returns it has executed the instructions of the buffer up to
and including the first Quit and none after it, and the thread has returned
exactly when there is a Quit among them, and otherwise goes on to wait for the
other buffer. The resource thread, when the handler returns for the instruction
it popped, has returned exactly when that instruction is a Quit, and otherwise
keeps running. -/
theorem Quit_ends_the_thread_loops :
    (∀ (r r2 : OpenGLRenderer) (self : ThreadId) (inst : OpenGLInstruction)
        (response : InstructionHandlerResponse),
      HandleRenderingInstruction r self inst = (r2, Completion.returned response) →
      (response = InstructionHandlerResponse.Quit ↔ inst.OpCode = OpenGLOpCode.Quit)) ∧
    (∀ (r r2 : OpenGLRenderer) (self : ThreadId) (inst : OpenGLInstruction)
        (response : InstructionHandlerResponse),
      HandleResourceInstruction r self inst = (r2, Completion.returned response) →
      (response = InstructionHandlerResponse.Quit ↔ inst.OpCode = OpenGLOpCode.Quit)) ∧
    (∀ (r : OpenGLRenderer) (self : ThreadId) (inst : OpenGLInstruction),
      inst.OpCode = OpenGLOpCode.Quit → inst.Released = [] →
      (HandleRenderingInstruction r self inst).2
        = Completion.returned InstructionHandlerResponse.Quit ∧
      (HandleResourceInstruction r self inst).2
        = Completion.returned InstructionHandlerResponse.Quit) ∧
    (∀ (s : Execution) (b : Bool), s.renderingThread = RenderingThreadState.Draining b →
      s.step Action.RenderingThreadDrains = some (s.drain b) ∧
      ∀ last,
        (RenderingThreadDrain (DrainBound (s.renderer.buffer b)) s.renderer
          (s.renderer.mRenderingThread.getD 0) b InstructionHandlerResponse.Continue).2
          = Completion.returned last →
        ∃ added,
          (s.drain b).renderer.RenderingExecuted
            = s.renderer.RenderingExecuted
              ++ ThroughFirstQuit ((s.renderer.buffer b).Pending ++ added) ∧
          ((s.drain b).renderingThread = RenderingThreadState.Returned ↔
            ∃ inst ∈ (s.renderer.buffer b).Pending ++ added,
              inst.OpCode = OpenGLOpCode.Quit) ∧
          ((s.drain b).renderingThread = RenderingThreadState.Returned ∨
            (s.drain b).renderingThread = RenderingThreadState.Waiting (!b))) ∧
    (∀ (s : Execution) (uninitialised inst : OpenGLInstruction)
        (rest : List OpenGLInstruction) (r : OpenGLRenderer)
        (response : InstructionHandlerResponse),
      s.resourceThread = ResourceThreadState.Running →
      s.renderer.mInstructionBuffer.Instructions = inst :: rest →
      OpenGLResourceThreadIteration s.renderer (s.renderer.mResourceThread.getD 0)
        uninitialised = (r, Completion.returned response) →
      ∃ s', s.step (Action.ResourceThreadIterates uninitialised) = some s' ∧
        (s'.resourceThread = ResourceThreadState.Returned ↔
          inst.OpCode = OpenGLOpCode.Quit) ∧
        (s'.resourceThread = ResourceThreadState.Returned ∨
          s'.resourceThread = ResourceThreadState.Running)) := by
  refine ⟨fun r r2 self inst response h => HandleRenderingInstruction_quit h,
    fun r r2 self inst response h => HandleResourceInstruction_quit h,
    fun r self inst hq hrel => ?_, fun s b hb => ?_, ?_⟩
  · rw [HandleRenderingInstruction_no_release r self inst hrel,
      HandleResourceInstruction_no_release r self inst hrel]
    exact ⟨RenderingInstructionEffects_of_quit inst hq,
      ResourceInstructionEffects_of_quit inst hq⟩
  · refine ⟨by simp [Execution.step, hb], fun last hlast => ?_⟩
    obtain ⟨⟨added, k, _, hret⟩, _⟩ :=
      RenderingThreadDrain_pending s.renderer (s.renderer.mRenderingThread.getD 0) b
    have hexec := hret last hlast
    have hq := RenderingThreadDrain_last (s.renderer.mRenderingThread.getD 0) b
      (DrainBound (s.renderer.buffer b)) s.renderer InstructionHandlerResponse.Continue last
      hlast
    rw [hexec, List.drop_left, ThroughFirstQuit_has_quit] at hq
    simp only [reduceCtorEq, false_or] at hq
    have hpair : RenderingThreadDrain (DrainBound (s.renderer.buffer b)) s.renderer
        (s.renderer.mRenderingThread.getD 0) b InstructionHandlerResponse.Continue
        = ((RenderingThreadDrain (DrainBound (s.renderer.buffer b)) s.renderer
            (s.renderer.mRenderingThread.getD 0) b InstructionHandlerResponse.Continue).1,
           Completion.returned last) := by
      rw [← hlast]
    rw [Execution.drain_returned hpair]
    refine ⟨added, ?_, ?_, ?_⟩
    · simpa [ConsumptionScopeExit, OpenGLRenderer.setBuffer] using hexec
    · rw [← hq]
      by_cases hl : last = InstructionHandlerResponse.Quit <;> simp [hl]
    · by_cases hl : last = InstructionHandlerResponse.Quit <;> simp [hl]
  · intro s uninitialised inst rest r response hrun hring hiter
    have hquit : response = InstructionHandlerResponse.Quit ↔ inst.OpCode = OpenGLOpCode.Quit := by
      unfold OpenGLResourceThreadIteration at hiter
      split at hiter
      · cases hiter
      · simp only [OpenGLInstructionRingBuffer.PopInstruction, hring] at hiter
        exact HandleResourceInstruction_quit hiter
    have hstep : s.step (Action.ResourceThreadIterates uninitialised)
        = some { s with
            renderer := r
            resourceThread :=
              if response = InstructionHandlerResponse.Quit then ResourceThreadState.Returned
              else ResourceThreadState.Running } := by
      simp only [Execution.step, hrun, if_true, hiter]
    refine ⟨_, hstep, ?_, ?_⟩
    · rw [← hquit]
      by_cases hl : response = InstructionHandlerResponse.Quit <;> simp [hl]
    · by_cases hl : response = InstructionHandlerResponse.Quit <;> simp [hl]

/-! ## The claims on the Catmull-Rom spline -/

theorem ValidateSegment_returned {T : Type} (ControlPoints : List (Vec3 T))
    (segmentIndex : Nat) (h : segmentIndex + 3 < ControlPoints.length) :
    ValidateSegment ControlPoints segmentIndex = Completion.returned () := by
  unfold ValidateSegment
  rw [if_neg (by omega), if_neg (by omega)]

theorem ValidateSegment_raised {T : Type} (ControlPoints : List (Vec3 T))
    (segmentIndex : Nat) (h : ¬ segmentIndex + 3 < ControlPoints.length) :
    ValidateSegment ControlPoints segmentIndex = Completion.raised Raised.logic_error := by
  unfold ValidateSegment
  by_cases h4 : ControlPoints.length < 4
  · rw [if_pos h4]
  · rw [if_neg h4, if_pos (by omega)]

theorem cubic_hasDerivAt (a b c d t : ℝ) :
    HasDerivAt (fun u : ℝ => (a + b * u + c * u * u + d * u * u * u) / 2)
      ((b + 2 * c * t + 3 * d * t * t) / 2) t := by
  have h := ((((hasDerivAt_const t a).add ((hasDerivAt_id t).const_mul b)).add
    ((hasDerivAt_pow 2 t).const_mul c)).add ((hasDerivAt_pow 3 t).const_mul d)).div_const 2
  convert h using 1
  · funext u
    simp only [Pi.add_apply, id]
    ring
  · ring

/-- C21: over the real numbers, for every list of control points and every
segment index that `ValidateSegment` accepts, both members return for every
`t`, and each component of `CalculateDerivative(segmentIndex, t)` is the
derivative with respect to `t` of that component of
`CalculatePoint(segmentIndex, t)`; for every other segment index both members
raise the logic error for every `t`. -/
theorem CalculateDerivative_is_derivative (ControlPoints : List (Vec3 ℝ))
    (segmentIndex : Nat) :
    (segmentIndex + 3 < ControlPoints.length →
      ∀ t : ℝ,
        (∃ p, CalculatePoint ControlPoints segmentIndex t = Completion.returned p) ∧
        (∃ d, CalculateDerivative ControlPoints segmentIndex t = Completion.returned d) ∧
        HasDerivAt (fun u => (CalculatePoint ControlPoints segmentIndex u).value.1)
          (CalculateDerivative ControlPoints segmentIndex t).value.1 t ∧
        HasDerivAt (fun u => (CalculatePoint ControlPoints segmentIndex u).value.2.1)
          (CalculateDerivative ControlPoints segmentIndex t).value.2.1 t ∧
        HasDerivAt (fun u => (CalculatePoint ControlPoints segmentIndex u).value.2.2)
          (CalculateDerivative ControlPoints segmentIndex t).value.2.2 t) ∧
    (¬ segmentIndex + 3 < ControlPoints.length →
      ∀ t : ℝ,
        CalculatePoint ControlPoints segmentIndex t = Completion.raised Raised.logic_error ∧
        CalculateDerivative ControlPoints segmentIndex t
          = Completion.raised Raised.logic_error) := by
  constructor
  · intro h t
    have hv := ValidateSegment_returned ControlPoints segmentIndex h
    refine ⟨⟨_, by simp only [CalculatePoint, hv]; rfl⟩,
      ⟨_, by simp only [CalculateDerivative, hv]; rfl⟩, ?_, ?_, ?_⟩
    all_goals
      simp only [CalculatePoint, CalculateDerivative, hv, Completion.value, Vec3.over, Vec3.add,
        Vec3.sub, Vec3.neg, Vec3.scale, Vec3.times]
      exact cubic_hasDerivAt _ _ _ _ t
  · intro h t
    have hv := ValidateSegment_raised ControlPoints segmentIndex h
    exact ⟨by simp only [CalculatePoint, hv], by simp only [CalculateDerivative, hv]⟩

/-- C22: `ValidateSegment`, and with it `CalculatePoint` and
`CalculateDerivative` for every `t`, raises the logic error exactly when there
are fewer than 4 control points or `segmentIndex > size - 4`, and returns
otherwise; whenever they do not raise, the indices `segmentIndex`,
`segmentIndex + 1`, `segmentIndex + 2` and `segmentIndex + 3` that the two
members read are all smaller than the number of control points. -/
theorem ValidateSegment_guards_the_reads {T : Type} [Field T] (ControlPoints : List (Vec3 T))
    (segmentIndex : Nat) (t : T) :
    (ValidateSegment ControlPoints segmentIndex = Completion.raised Raised.logic_error ↔
      ControlPoints.length < 4 ∨ (segmentIndex : Int) > (ControlPoints.length : Int) - 4) ∧
    (CalculatePoint ControlPoints segmentIndex t = Completion.raised Raised.logic_error ↔
      ControlPoints.length < 4 ∨ (segmentIndex : Int) > (ControlPoints.length : Int) - 4) ∧
    (CalculateDerivative ControlPoints segmentIndex t = Completion.raised Raised.logic_error ↔
      ControlPoints.length < 4 ∨ (segmentIndex : Int) > (ControlPoints.length : Int) - 4) ∧
    (¬ (ControlPoints.length < 4 ∨ (segmentIndex : Int) > (ControlPoints.length : Int) - 4) →
      (∃ p, CalculatePoint ControlPoints segmentIndex t = Completion.returned p) ∧
      (∃ d, CalculateDerivative ControlPoints segmentIndex t = Completion.returned d) ∧
      segmentIndex < ControlPoints.length ∧ segmentIndex + 1 < ControlPoints.length ∧
      segmentIndex + 2 < ControlPoints.length ∧ segmentIndex + 3 < ControlPoints.length) := by
  by_cases h : segmentIndex + 3 < ControlPoints.length
  · have hv := ValidateSegment_returned ControlPoints segmentIndex h
    have hn : ¬ (ControlPoints.length < 4 ∨
        (segmentIndex : Int) > (ControlPoints.length : Int) - 4) := by omega
    refine ⟨?_, ?_, ?_, fun _ => ⟨⟨_, by simp only [CalculatePoint, hv]; rfl⟩,
      ⟨_, by simp only [CalculateDerivative, hv]; rfl⟩, by omega, by omega, by omega, h⟩⟩
    · rw [hv]; simp only [reduceCtorEq, false_iff]; exact hn
    · simp only [CalculatePoint, hv, reduceCtorEq, false_iff]; exact hn
    · simp only [CalculateDerivative, hv, reduceCtorEq, false_iff]; exact hn
  · have hv := ValidateSegment_raised ControlPoints segmentIndex h
    have hy : ControlPoints.length < 4 ∨
        (segmentIndex : Int) > (ControlPoints.length : Int) - 4 := by omega
    refine ⟨?_, ?_, ?_, fun hn => absurd hy hn⟩
    · rw [hv]; simp only [true_iff]; exact hy
    · simp only [CalculatePoint, hv, true_iff]; exact hy
    · simp only [CalculateDerivative, hv, true_iff]; exact hy

/-! ## Lemmas on the members of `MD5ParserBase` -/

set_option maxRecDepth 1000000

theorem toInt32_of_range {x : Int} (h1 : -2147483648 ≤ x) (h2 : x < 2147483648) :
    toInt32 x = x := by
  unfold toInt32
  omega

theorem toInt32_succ (x : Int) : toInt32 (toInt32 x + 1) = toInt32 (x + 1) := by
  unfold toInt32
  omega

theorem andThen_accepted {σ α β : Type} {first : Accept σ α} {next : α → σ → Accept σ β}
    {b : β} {q : σ} :
    first.andThen next = some (some b, q) ↔
      ∃ a p, first = some (some a, p) ∧ next a p = some (some b, q) := by
  unfold Accept.andThen
  constructor
  · intro h
    split at h
    · cases h
    · cases h
    · exact ⟨_, _, rfl, h⟩
  · rintro ⟨a, p, h1, h2⟩
    rw [h1]
    exact h2

theorem andThen_rejected {σ α β : Type} {first : Accept σ α} {next : α → σ → Accept σ β}
    {q : σ} :
    first.andThen next = some (none, q) ↔
      first = some (none, q) ∨ ∃ a p, first = some (some a, p) ∧ next a p = some (none, q) := by
  unfold Accept.andThen
  constructor
  · intro h
    split at h
    · cases h
    · simp only [Option.some.injEq, Prod.mk.injEq, true_and] at h
      subst h
      exact Or.inl rfl
    · exact Or.inr ⟨_, _, rfl, h⟩
  · rintro (h1 | ⟨a, p, h1, h2⟩)
    · rw [h1]
    · rw [h1]
      exact h2

theorem andThen_returned {σ α β : Type} {first : Accept σ α} {next : α → σ → Accept σ β}
    {r : Option β} {q : σ} (h : first.andThen next = some (r, q)) :
    (first = some (none, q) ∧ r = none) ∨
      ∃ a p, first = some (some a, p) ∧ next a p = some (r, q) := by
  cases r with
  | none =>
    rcases andThen_rejected.mp h with h1 | h1
    · exact Or.inl ⟨h1, rfl⟩
    · exact Or.inr h1
  | some b => exact Or.inr (andThen_accepted.mp h)

theorem KeepsMembers_andThen {Members α β : Type}
    {f : MD5ParserBase Members → Accept (MD5ParserBase Members) α}
    {g : α → MD5ParserBase Members → Accept (MD5ParserBase Members) β}
    (hf : KeepsMembers f) (hg : ∀ a, KeepsMembers (g a)) :
    KeepsMembers fun p => (f p).andThen g := by
  intro p r q h
  rcases andThen_returned h with ⟨h1, _⟩ | ⟨a, p1, h1, h2⟩
  · exact hf p _ q h1
  · rw [hg a p1 r q h2, hf p _ p1 h1]

theorem Disciplined_andThen {Members α β : Type}
    {f : MD5ParserBase Members → Accept (MD5ParserBase Members) α}
    {g : α → MD5ParserBase Members → Accept (MD5ParserBase Members) β}
    (hf : Disciplined f) (hg : ∀ a, Disciplined (g a)) :
    Disciplined fun p => (f p).andThen g :=
  { rejected := by
      intro p q h
      rcases andThen_rejected.mp h with h1 | ⟨a, p1, _, h2⟩
      · exact hf.rejected p q h1
      · exact (hg a).rejected p1 q h2
    accepted := by
      intro p b q h
      obtain ⟨a, p1, h1, h2⟩ := andThen_accepted.mp h
      rw [(hg a).accepted p1 b q h2, hf.accepted p a p1 h1] }

theorem KeepsMembers_Reject {Members α : Type} (message : String) :
    KeepsMembers (MD5ParserBase.Reject message :
      MD5ParserBase Members → Accept (MD5ParserBase Members) α) := by
  intro p r q h
  simp only [MD5ParserBase.Reject, Option.some.injEq, Prod.mk.injEq] at h
  rw [← h.2]

theorem KeepsMembers_Done {Members α : Type} (a : α) :
    KeepsMembers (MD5ParserBase.Done a :
      MD5ParserBase Members → Accept (MD5ParserBase Members) α) := by
  intro p r q h
  simp only [MD5ParserBase.Done, Option.some.injEq, Prod.mk.injEq] at h
  rw [← h.2]

theorem Disciplined_Reject {Members α : Type} {message : String} (hm : message ≠ "") :
    Disciplined (MD5ParserBase.Reject message :
      MD5ParserBase Members → Accept (MD5ParserBase Members) α) :=
  { rejected := by
      intro p q h
      simp only [MD5ParserBase.Reject, Option.some.injEq, Prod.mk.injEq, true_and] at h
      rw [← h]
      exact hm
    accepted := by
      intro p a q h
      simp [MD5ParserBase.Reject] at h }

theorem Disciplined_Done {Members α : Type} (a : α)
    (change : MD5ParserBase Members → Members) :
    Disciplined (fun p => MD5ParserBase.Done a { p with members := change p } :
      MD5ParserBase Members → Accept (MD5ParserBase Members) α) :=
  { rejected := by
      intro p q h
      simp [MD5ParserBase.Done] at h
    accepted := by
      intro p b q h
      simp only [MD5ParserBase.Done, Option.some.injEq, Prod.mk.injEq] at h
      rw [← h.2] }

theorem Disciplined_Done_same {Members α : Type} (a : α) :
    Disciplined (MD5ParserBase.Done a :
      MD5ParserBase Members → Accept (MD5ParserBase Members) α) :=
  { rejected := by
      intro p q h
      simp [MD5ParserBase.Done] at h
    accepted := by
      intro p b q h
      simp only [MD5ParserBase.Done, Option.some.injEq, Prod.mk.injEq] at h
      rw [← h.2] }

theorem Disciplined_ite {Members α : Type} (c : MD5ParserBase Members → Prop)
    [DecidablePred c]
    {f g : MD5ParserBase Members → Accept (MD5ParserBase Members) α}
    (hf : Disciplined f) (hg : Disciplined g) :
    Disciplined fun p => if c p then f p else g p :=
  { rejected := by
      intro p q h
      by_cases hc : c p
      · rw [if_pos hc] at h; exact hf.rejected p q h
      · rw [if_neg hc] at h; exact hg.rejected p q h
    accepted := by
      intro p a q h
      by_cases hc : c p
      · rw [if_pos hc] at h; exact hf.accepted p a q h
      · rw [if_neg hc] at h; exact hg.accepted p a q h }

theorem append_ne_empty {a : String} (b : String) (h : a ≠ "") : a ++ b ≠ "" := by
  intro hab
  apply h
  have hl := congrArg String.length hab
  rw [String.length_append] at hl
  have h0 : a.length = 0 := by
    have : "".length = 0 := rfl
    omega
  exact String.ext (List.length_eq_zero.mp h0)

theorem push_ne_empty (a : String) (c : Char) : a.push c ≠ "" := by
  intro h
  have hl := congrArg String.length h
  rw [String.length_push] at hl
  have : "".length = 0 := rfl
  omega


theorem identifier_fold_members {Members : Type} (chars : List Char) :
    ∀ p : MD5ParserBase Members,
      (chars.foldl
        (fun q c =>
          if !isalnum c then
            { q with
              mError :=
                "Expected identifier (identifiers must be made of alphanumeric characters)" }
          else q)
        p).members = p.members := by
  induction chars with
  | nil => intro p; rfl
  | cons c rest ih =>
    intro p
    rw [List.foldl_cons, ih]
    split <;> rfl

theorem identifier_fold_alnum {Members : Type} (chars : List Char)
    (h : chars.all isalnum = true) :
    ∀ p : MD5ParserBase Members,
      chars.foldl
        (fun q c =>
          if !isalnum c then
            { q with
              mError :=
                "Expected identifier (identifiers must be made of alphanumeric characters)" }
          else q)
        p = p := by
  induction chars with
  | nil => intro p; rfl
  | cons c rest ih =>
    intro p
    rw [List.all_cons, Bool.and_eq_true] at h
    rw [List.foldl_cons, ih h.2]
    simp [h.1]

theorem AcceptIdentifier_keeps {Members : Type} :
    KeepsMembers (MD5ParserBase.AcceptIdentifier :
      MD5ParserBase Members → Accept (MD5ParserBase Members) String) := by
  intro p r q h
  unfold MD5ParserBase.AcceptIdentifier at h
  simp only at h
  split at h
  · rw [KeepsMembers_Reject _ _ r q h]
  · split at h
    · rw [KeepsMembers_Reject _ _ r q h]
    · simp only [MD5ParserBase.Done, Option.some.injEq, Prod.mk.injEq] at h
      rw [← h.2, identifier_fold_members]

theorem AcceptIdentifier_rejected {Members : Type} {p q : MD5ParserBase Members}
    (h : MD5ParserBase.AcceptIdentifier p = some (none, q)) : q.mError ≠ "" := by
  unfold MD5ParserBase.AcceptIdentifier at h
  simp only at h
  split at h
  · exact (Disciplined_Reject (by decide)).rejected _ q h
  · split at h
    · exact (Disciplined_Reject (by decide)).rejected _ q h
    · simp [MD5ParserBase.Done] at h

theorem AcceptIdentifier_accepted {Members : Type} {p q : MD5ParserBase Members}
    {id : String} (h : MD5ParserBase.AcceptIdentifier p = some (some id, q))
    (halnum : id.data.tail.all isalnum = true) : q.mError = p.mError := by
  unfold MD5ParserBase.AcceptIdentifier at h
  simp only at h
  split at h
  · simp [MD5ParserBase.Reject] at h
  · split at h
    · simp [MD5ParserBase.Reject] at h
    · simp only [MD5ParserBase.Done, Option.some.injEq, Prod.mk.injEq] at h
      obtain ⟨hid, hq⟩ := h
      rw [hid] at hq
      rw [identifier_fold_alnum _ halnum] at hq
      rw [← hq]

theorem RequireIdentifier_keeps {Members : Type} (required : String) :
    KeepsMembers (MD5ParserBase.RequireIdentifier required :
      MD5ParserBase Members → Accept (MD5ParserBase Members) Unit) := by
  intro p r q h
  unfold MD5ParserBase.RequireIdentifier at h
  split at h
  · cases h
  · next p1 h1 =>
    rw [KeepsMembers_Reject _ _ r q h]
    exact AcceptIdentifier_keeps p _ p1 h1
  · next id p1 h1 =>
    have hk := AcceptIdentifier_keeps p _ p1 h1
    split at h
    · rw [KeepsMembers_Reject _ _ r q h, hk]
    · rw [KeepsMembers_Done _ _ r q h, hk]

theorem RequireIdentifier_disciplined {Members : Type} (required : String)
    (halnum : required.data.tail.all isalnum = true) :
    Disciplined (MD5ParserBase.RequireIdentifier required :
      MD5ParserBase Members → Accept (MD5ParserBase Members) Unit) :=
  { rejected := by
      intro p q h
      unfold MD5ParserBase.RequireIdentifier at h
      have hm : "Expected " ++ required ≠ "" := append_ne_empty _ (by decide)
      split at h
      · cases h
      · exact (Disciplined_Reject hm).rejected _ q h
      · split at h
        · exact (Disciplined_Reject hm).rejected _ q h
        · simp [MD5ParserBase.Done] at h
    accepted := by
      intro p a q h
      unfold MD5ParserBase.RequireIdentifier at h
      split at h
      · cases h
      · simp [MD5ParserBase.Reject] at h
      · next id p1 h1 =>
        split at h
        · simp [MD5ParserBase.Reject] at h
        · next hid =>
          simp only [MD5ParserBase.Done, Option.some.injEq, Prod.mk.injEq, true_and] at h
          rw [← h]
          have hid2 : id = required := by
            by_contra hc
            exact hid hc
          rw [← hid2] at halnum
          exact AcceptIdentifier_accepted h1 halnum }

theorem AcceptChar_keeps {Members : Type} :
    KeepsMembers (MD5ParserBase.AcceptChar :
      MD5ParserBase Members → Accept (MD5ParserBase Members) Char) := by
  intro p r q h
  unfold MD5ParserBase.AcceptChar at h
  simp only at h
  split at h
  · rw [KeepsMembers_Reject _ _ r q h]
  · rw [KeepsMembers_Done _ _ r q h]

theorem AcceptChar_disciplined {Members : Type} :
    Disciplined (MD5ParserBase.AcceptChar :
      MD5ParserBase Members → Accept (MD5ParserBase Members) Char) :=
  { rejected := by
      intro p q h
      unfold MD5ParserBase.AcceptChar at h
      simp only at h
      split at h
      · exact (Disciplined_Reject (by decide)).rejected _ q h
      · simp [MD5ParserBase.Done] at h
    accepted := by
      intro p a q h
      unfold MD5ParserBase.AcceptChar at h
      simp only at h
      split at h
      · simp [MD5ParserBase.Reject] at h
      · rw [(Disciplined_Done_same _).accepted _ a q h] }

theorem RequireChar_keeps {Members : Type} (required : Char) :
    KeepsMembers (MD5ParserBase.RequireChar required :
      MD5ParserBase Members → Accept (MD5ParserBase Members) Unit) := by
  intro p r q h
  unfold MD5ParserBase.RequireChar at h
  split at h
  · cases h
  · next p1 h1 =>
    rw [KeepsMembers_Reject _ _ r q h]
    exact AcceptChar_keeps p _ p1 h1
  · next ch p1 h1 =>
    have hk := AcceptChar_keeps p _ p1 h1
    split at h
    · rw [KeepsMembers_Reject _ _ r q h, hk]
    · rw [KeepsMembers_Done _ _ r q h, hk]

theorem RequireChar_disciplined {Members : Type} (required : Char) :
    Disciplined (MD5ParserBase.RequireChar required :
      MD5ParserBase Members → Accept (MD5ParserBase Members) Unit) :=
  { rejected := by
      intro p q h
      unfold MD5ParserBase.RequireChar at h
      have hm : "Expected ".push required ≠ "" := push_ne_empty _ _
      split at h
      · cases h
      · exact (Disciplined_Reject hm).rejected _ q h
      · split at h
        · exact (Disciplined_Reject hm).rejected _ q h
        · simp [MD5ParserBase.Done] at h
    accepted := by
      intro p a q h
      unfold MD5ParserBase.RequireChar at h
      split at h
      · cases h
      · simp [MD5ParserBase.Reject] at h
      · next ch p1 h1 =>
        split at h
        · simp [MD5ParserBase.Reject] at h
        · rw [(Disciplined_Done_same _).accepted _ a q h]
          exact AcceptChar_disciplined.accepted p ch p1 h1 }

theorem AcceptInt_keeps {Members : Type} :
    KeepsMembers (MD5ParserBase.AcceptInt :
      MD5ParserBase Members → Accept (MD5ParserBase Members) Int) := by
  intro p r q h
  unfold MD5ParserBase.AcceptInt at h
  simp only at h
  split at h
  · rw [KeepsMembers_Reject _ _ r q h]
  · rw [KeepsMembers_Done _ _ r q h]

theorem AcceptInt_disciplined {Members : Type} :
    Disciplined (MD5ParserBase.AcceptInt :
      MD5ParserBase Members → Accept (MD5ParserBase Members) Int) :=
  { rejected := by
      intro p q h
      unfold MD5ParserBase.AcceptInt at h
      simp only at h
      split at h
      · exact (Disciplined_Reject (by decide)).rejected _ q h
      · simp [MD5ParserBase.Done] at h
    accepted := by
      intro p a q h
      unfold MD5ParserBase.AcceptInt at h
      simp only at h
      split at h
      · simp [MD5ParserBase.Reject] at h
      · rw [(Disciplined_Done_same _).accepted _ a q h] }

theorem RequireInt_keeps {Members : Type} (required : Int) :
    KeepsMembers (MD5ParserBase.RequireInt required :
      MD5ParserBase Members → Accept (MD5ParserBase Members) Unit) := by
  intro p r q h
  unfold MD5ParserBase.RequireInt at h
  split at h
  · cases h
  · next p1 h1 =>
    rw [KeepsMembers_Reject _ _ r q h]
    exact AcceptInt_keeps p _ p1 h1
  · next i p1 h1 =>
    have hk := AcceptInt_keeps p _ p1 h1
    split at h
    · rw [KeepsMembers_Reject _ _ r q h, hk]
    · rw [KeepsMembers_Done _ _ r q h, hk]

theorem RequireInt_disciplined {Members : Type} (required : Int) :
    Disciplined (MD5ParserBase.RequireInt required :
      MD5ParserBase Members → Accept (MD5ParserBase Members) Unit) :=
  { rejected := by
      intro p q h
      unfold MD5ParserBase.RequireInt at h
      split at h
      · cases h
      · exact (Disciplined_Reject (append_ne_empty _ (by decide))).rejected _ q h
      · split at h
        · exact (Disciplined_Reject (append_ne_empty _ (by decide))).rejected _ q h
        · simp [MD5ParserBase.Done] at h
    accepted := by
      intro p a q h
      unfold MD5ParserBase.RequireInt at h
      split at h
      · cases h
      · simp [MD5ParserBase.Reject] at h
      · next i p1 h1 =>
        split at h
        · simp [MD5ParserBase.Reject] at h
        · rw [(Disciplined_Done_same _).accepted _ a q h]
          exact AcceptInt_disciplined.accepted p i p1 h1 }

theorem AcceptFloat_keeps {Members : Type} (library : FloatLibrary) :
    KeepsMembers (MD5ParserBase.AcceptFloat library :
      MD5ParserBase Members → Accept (MD5ParserBase Members) Float32) := by
  intro p r q h
  unfold MD5ParserBase.AcceptFloat at h
  simp only at h
  split at h
  · rw [KeepsMembers_Reject _ _ r q h]
  · rw [KeepsMembers_Done _ _ r q h]

theorem AcceptFloat_disciplined {Members : Type} (library : FloatLibrary) :
    Disciplined (MD5ParserBase.AcceptFloat library :
      MD5ParserBase Members → Accept (MD5ParserBase Members) Float32) :=
  { rejected := by
      intro p q h
      unfold MD5ParserBase.AcceptFloat at h
      simp only at h
      split at h
      · exact (Disciplined_Reject (by decide)).rejected _ q h
      · simp [MD5ParserBase.Done] at h
    accepted := by
      intro p a q h
      unfold MD5ParserBase.AcceptFloat at h
      simp only at h
      split at h
      · simp [MD5ParserBase.Reject] at h
      · rw [(Disciplined_Done_same _).accepted _ a q h] }

theorem AcceptDoubleQuotedStringLoop_keeps {Members : Type} :
    ∀ (bound : Nat) (s : String) (escaped : Bool),
      KeepsMembers (fun p => MD5ParserBase.AcceptDoubleQuotedStringLoop bound p s escaped :
        MD5ParserBase Members → Accept (MD5ParserBase Members) String) := by
  intro bound
  induction bound with
  | zero =>
    intro s escaped p r q h
    simp [MD5ParserBase.AcceptDoubleQuotedStringLoop] at h
  | succ bound ih =>
    intro s escaped p r q h
    simp only [MD5ParserBase.AcceptDoubleQuotedStringLoop] at h
    split_ifs at h <;>
      first
      | (have hk := ih _ _ _ r q h; exact hk)
      | (have hk := KeepsMembers_Reject _ _ r q h; exact hk)
      | (have hk := KeepsMembers_Done _ _ r q h; exact hk)

theorem AcceptDoubleQuotedStringLoop_disciplined {Members : Type} :
    ∀ (bound : Nat) (s : String) (escaped : Bool),
      Disciplined (fun p => MD5ParserBase.AcceptDoubleQuotedStringLoop bound p s escaped :
        MD5ParserBase Members → Accept (MD5ParserBase Members) String) := by
  intro bound
  induction bound with
  | zero =>
    intro s escaped
    exact ⟨fun p q h => by simp [MD5ParserBase.AcceptDoubleQuotedStringLoop] at h,
      fun p a q h => by simp [MD5ParserBase.AcceptDoubleQuotedStringLoop] at h⟩
  | succ bound ih =>
    intro s escaped
    constructor
    · intro p q h
      simp only [MD5ParserBase.AcceptDoubleQuotedStringLoop] at h
      split_ifs at h <;>
        first
        | (have hk := (ih _ _).rejected _ q h; exact hk)
        | (have hk := (Disciplined_Reject (push_ne_empty _ _)).rejected _ q h; exact hk)
        | (simp [MD5ParserBase.Done] at h)
    · intro p a q h
      simp only [MD5ParserBase.AcceptDoubleQuotedStringLoop] at h
      split_ifs at h <;>
        first
        | (have hk := (ih _ _).accepted _ a q h; exact hk)
        | (have hk := (Disciplined_Done_same _).accepted _ a q h; exact hk)
        | (simp [MD5ParserBase.Reject] at h)

theorem AcceptDoubleQuotedString_keeps {Members : Type} (bound : Nat) :
    KeepsMembers (MD5ParserBase.AcceptDoubleQuotedString bound :
      MD5ParserBase Members → Accept (MD5ParserBase Members) String) :=
  KeepsMembers_andThen (RequireChar_keeps _) fun _ =>
    KeepsMembers_andThen (AcceptDoubleQuotedStringLoop_keeps bound _ _) fun _ =>
      KeepsMembers_andThen (RequireChar_keeps _) fun _ => KeepsMembers_Done _

theorem AcceptDoubleQuotedString_disciplined {Members : Type} (bound : Nat) :
    Disciplined (MD5ParserBase.AcceptDoubleQuotedString bound :
      MD5ParserBase Members → Accept (MD5ParserBase Members) String) :=
  Disciplined_andThen (RequireChar_disciplined _) fun _ =>
    Disciplined_andThen (AcceptDoubleQuotedStringLoop_disciplined bound _ _) fun _ =>
      Disciplined_andThen (RequireChar_disciplined _) fun _ => Disciplined_Done_same _

theorem AcceptVersion_keeps {Members : Type} :
    KeepsMembers (MD5ParserBase.AcceptVersion :
      MD5ParserBase Members → Accept (MD5ParserBase Members) Int) :=
  KeepsMembers_andThen (RequireIdentifier_keeps _) fun _ =>
    KeepsMembers_andThen (RequireInt_keeps _) fun _ => KeepsMembers_Done _

theorem AcceptVersion_disciplined {Members : Type} :
    Disciplined (MD5ParserBase.AcceptVersion :
      MD5ParserBase Members → Accept (MD5ParserBase Members) Int) :=
  Disciplined_andThen (RequireIdentifier_disciplined _ (by decide)) fun _ =>
    Disciplined_andThen (RequireInt_disciplined _) fun _ => Disciplined_Done_same _

theorem AcceptCommandLine_keeps {Members : Type} (bound : Nat) :
    KeepsMembers (MD5ParserBase.AcceptCommandLine bound :
      MD5ParserBase Members → Accept (MD5ParserBase Members) String) :=
  KeepsMembers_andThen (RequireIdentifier_keeps _) fun _ =>
    KeepsMembers_andThen (AcceptDoubleQuotedString_keeps bound) fun _ => KeepsMembers_Done _

theorem AcceptCommandLine_disciplined {Members : Type} (bound : Nat) :
    Disciplined (MD5ParserBase.AcceptCommandLine bound :
      MD5ParserBase Members → Accept (MD5ParserBase Members) String) :=
  Disciplined_andThen (RequireIdentifier_disciplined _ (by decide)) fun _ =>
    Disciplined_andThen (AcceptDoubleQuotedString_disciplined bound) fun _ =>
      Disciplined_Done_same _

theorem AcceptTriple_keeps {Members : Type} (library : FloatLibrary) :
    KeepsMembers (MD5ParserBase.AcceptTriple library :
      MD5ParserBase Members → Accept (MD5ParserBase Members) (Float32 × Float32 × Float32)) :=
  KeepsMembers_andThen (RequireChar_keeps _) fun _ =>
    KeepsMembers_andThen (AcceptFloat_keeps library) fun _ =>
      KeepsMembers_andThen (AcceptFloat_keeps library) fun _ =>
        KeepsMembers_andThen (AcceptFloat_keeps library) fun _ =>
          KeepsMembers_andThen (RequireChar_keeps _) fun _ => KeepsMembers_Done _

theorem AcceptTriple_disciplined {Members : Type} (library : FloatLibrary) :
    Disciplined (MD5ParserBase.AcceptTriple library :
      MD5ParserBase Members → Accept (MD5ParserBase Members) (Float32 × Float32 × Float32)) :=
  Disciplined_andThen (RequireChar_disciplined _) fun _ =>
    Disciplined_andThen (AcceptFloat_disciplined library) fun _ =>
      Disciplined_andThen (AcceptFloat_disciplined library) fun _ =>
        Disciplined_andThen (AcceptFloat_disciplined library) fun _ =>
          Disciplined_andThen (RequireChar_disciplined _) fun _ => Disciplined_Done_same _


/-! ## Lemmas on the loops of the parsers and on indexed entries -/

theorem AcceptLoop_invariant {Members : Type} (Stop : Option Char → Bool) (Consume : Bool)
    (Body : MD5ParserBase Members → Accept (MD5ParserBase Members) Unit)
    (I : Nat → Members → Prop)
    (hbody : ∀ n p q, I n p.members → Body p = some (some (), q) → I (n + 1) q.members) :
    ∀ (bound n : Nat) (p : MD5ParserBase Members) (c : Int) (q : MD5ParserBase Members),
      I n p.members →
      MD5ParserBase.AcceptLoop Stop Consume Body bound (toInt32 n) p = some (some c, q) →
      ∃ m, I m q.members ∧ c = toInt32 m := by
  intro bound
  induction bound with
  | zero =>
    intro n p c q _ h
    simp [MD5ParserBase.AcceptLoop] at h
  | succ bound ih =>
    intro n p c q hI h
    simp only [MD5ParserBase.AcceptLoop] at h
    split at h
    · simp only [MD5ParserBase.Done, Option.some.injEq, Prod.mk.injEq] at h
      refine ⟨n, ?_, h.1.symm⟩
      rw [← h.2]
      split <;> exact hI
    · obtain ⟨u, p3, h1, h2⟩ := andThen_accepted.mp h
      have hb := fun hI2 => hbody n _ p3 hI2 h1
      have hI3 := hb hI
      rw [toInt32_succ] at h2
      have hcast : ((n : Int) + 1) = ((n + 1 : Nat) : Int) := by push_cast; rfl
      rw [hcast] at h2
      exact ih (n + 1) p3 c q hI3 h2

theorem AcceptLoop_disciplined {Members : Type} (Stop : Option Char → Bool) (Consume : Bool)
    {Body : MD5ParserBase Members → Accept (MD5ParserBase Members) Unit}
    (hbody : Disciplined Body) :
    ∀ (bound : Nat) (c : Int),
      Disciplined (MD5ParserBase.AcceptLoop Stop Consume Body bound c) := by
  intro bound
  induction bound with
  | zero =>
    intro c
    exact ⟨fun p q h => by simp [MD5ParserBase.AcceptLoop] at h,
      fun p a q h => by simp [MD5ParserBase.AcceptLoop] at h⟩
  | succ bound ih =>
    intro c
    constructor
    · intro p q h
      simp only [MD5ParserBase.AcceptLoop] at h
      split at h
      · simp [MD5ParserBase.Done] at h
      · rcases andThen_rejected.mp h with h1 | ⟨u, p3, h1, h2⟩
        · exact hbody.rejected _ q h1
        · exact (ih _).rejected p3 q h2
    · intro p a q h
      simp only [MD5ParserBase.AcceptLoop] at h
      split at h
      · simp only [MD5ParserBase.Done, Option.some.injEq, Prod.mk.injEq] at h
        rw [← h.2]
        split <;> rfl
      · obtain ⟨u, p3, h1, h2⟩ := andThen_accepted.mp h
        rw [(ih _).accepted p3 a q h2]
        have hb := hbody.accepted _ u p3 h1
        exact hb

theorem ParentsFirst_nil : ParentsFirst [] := by
  intro i parent h
  simp at h

theorem ParentsFirst_append {parents : List Int} {parent : Int} (h : ParentsFirst parents)
    (h1 : -1 ≤ parent) (h2 : parent < parents.length) : ParentsFirst (parents ++ [parent]) := by
  intro i x hx
  by_cases hi : i < parents.length
  · rw [List.getElem?_append_left hi] at hx
    exact h i x hx
  · rw [List.getElem?_append_right (by omega)] at hx
    have hi0 : i - parents.length = 0 := by
      by_contra hc
      have : ([parent] : List Int)[i - parents.length]? = none := by
        apply List.getElem?_eq_none
        simp only [List.length_singleton]
        omega
      rw [this] at hx
      cases hx
    rw [hi0] at hx
    simp only [List.getElem?_cons_zero, Option.some.injEq] at hx
    subst hx
    have : i = parents.length := by omega
    subst this
    exact ⟨h1, h2⟩

theorem resize_length {α : Type} (v : List α) (n : Nat) (empty : α) :
    (resize v n empty).length = n := by
  simp only [resize, List.length_append, List.length_take, List.length_replicate]
  omega

theorem modifyBack_concat {α : Type} (f : α → α) (l : List α) (a : α) :
    modifyBack f (l ++ [a]) = l ++ [f a] := by
  induction l with
  | nil => rfl
  | cons x rest ih =>
    cases rest with
    | nil => rfl
    | cons y rest2 =>
      have hstep : modifyBack f (x :: y :: rest2 ++ [a])
          = x :: modifyBack f (y :: rest2 ++ [a]) := rfl
      rw [hstep, ih]
      rfl

theorem backMesh_concat (l : List MD5Mesh) (a : MD5Mesh) : backMesh (l ++ [a]) = a := by
  simp [backMesh]

theorem IndicesBelow_mem {n : Nat} {e : Int} : e ∈ IndicesBelow n ↔ 0 ≤ e ∧ e < n := by
  simp only [IndicesBelow, List.mem_map, List.mem_range]
  constructor
  · rintro ⟨i, hi, rfl⟩
    simp only [Int.ofNat_eq_coe]
    omega
  · rintro ⟨h0, hn⟩
    refine ⟨e.toNat, by omega, ?_⟩
    simp only [Int.ofNat_eq_coe]
    omega

theorem IndicesBelow_nodup (n : Nat) : (IndicesBelow n).Nodup := by
  unfold IndicesBelow
  refine List.Nodup.map ?_ (List.nodup_range n)
  intro a b h
  simpa using h

theorem IndicesBelow_length (n : Nat) : (IndicesBelow n).length = n := by
  simp [IndicesBelow]

theorem Filling_start {α : Type} (Q : α → Prop) (n : Nat) (elems : List α)
    (h : elems.length = n) : Filling Q n (resize [] n false) elems [] :=
  { flags_length := resize_length _ _ _
    elems_length := h
    nodup := List.nodup_nil
    range := by intro e he; simp at he
    marked := by
      intro i hi
      simp [resize, List.getD_eq_getElem?_getD, List.getElem?_replicate, hi]
    good := by
      intro i x hf
      by_cases hi : i < n <;>
        simp [resize, List.getD_eq_getElem?_getD, List.getElem?_replicate, hi] at hf }

theorem Filling_step {α : Type} {Q : α → Prop} {n : Nat} {flags : List Bool}
    {elems : List α} {entries : List Int} (h : Filling Q n flags elems entries)
    {index : Int} {x : α} (h0 : 0 ≤ index) (hn : index < n)
    (hfree : ¬ flags.getD index.toNat false = true) (hx : Q x) :
    Filling Q n (flags.set index.toNat true) (elems.set index.toNat x) (entries ++ [index]) :=
  { flags_length := by rw [List.length_set]; exact h.flags_length
    elems_length := by rw [List.length_set]; exact h.elems_length
    nodup := by
      rw [List.nodup_append]
      refine ⟨h.nodup, List.nodup_singleton _, ?_⟩
      intro a ha hb
      simp only [List.mem_singleton] at hb
      subst hb
      apply hfree
      have := (h.marked a.toNat (by omega)).mpr (by rw [Int.toNat_of_nonneg h0]; exact ha)
      exact this
    range := by
      intro e he
      rw [List.mem_append, List.mem_singleton] at he
      rcases he with he | he
      · exact h.range e he
      · subst he; exact ⟨h0, hn⟩
    marked := by
      intro i hi
      have hlen : index.toNat < flags.length := by rw [h.flags_length]; omega
      by_cases hik : index.toNat = i
      · subst hik
        simp only [List.getD_eq_getElem?_getD, List.getElem?_set, hlen, if_true,
          Option.getD_some, true_iff, List.mem_append, List.mem_singleton]
        right
        omega
      · have hne : (i : Int) ≠ index := by omega
        simp only [List.getD_eq_getElem?_getD, List.getElem?_set, hik, if_false,
          List.mem_append, List.mem_singleton, hne, or_false]
        have := h.marked i hi
        simp only [List.getD_eq_getElem?_getD] at this
        exact this
    good := by
      intro i y hf hy
      have hlen : index.toNat < elems.length := by rw [h.elems_length]; omega
      by_cases hik : index.toNat = i
      · subst hik
        simp only [List.getElem?_set, hlen, if_true, Option.some.injEq] at hy
        subst hy
        exact hx
      · simp only [List.getD_eq_getElem?_getD, List.getElem?_set, hik, if_false] at hf hy
        exact h.good i y (by simpa only [List.getD_eq_getElem?_getD] using hf) hy }

theorem Filling_length_le {α : Type} {Q : α → Prop} {n : Nat} {flags : List Bool}
    {elems : List α} {entries : List Int} (h : Filling Q n flags elems entries) :
    entries.length ≤ n := by
  have hsub : entries ⊆ IndicesBelow n := fun e he => IndicesBelow_mem.mpr (h.range e he)
  have := (List.subperm_of_subset h.nodup hsub).length_le
  rw [IndicesBelow_length] at this
  exact this

theorem Filling_full {α : Type} {Q : α → Prop} {n : Nat} {flags : List Bool}
    {elems : List α} {entries : List Int} (h : Filling Q n flags elems entries)
    (hlen : entries.length = n) :
    entries.Perm (IndicesBelow n) ∧ ∀ x ∈ elems, Q x := by
  have hsub : entries ⊆ IndicesBelow n := fun e he => IndicesBelow_mem.mpr (h.range e he)
  have hperm : entries.Perm (IndicesBelow n) :=
    (List.subperm_of_subset h.nodup hsub).perm_of_length_le
      (by rw [IndicesBelow_length, hlen])
  refine ⟨hperm, ?_⟩
  intro x hx
  obtain ⟨i, hi, hxi⟩ := List.getElem_of_mem hx
  have hin : i < n := by rw [← h.elems_length]; exact hi
  have hmem : (i : Int) ∈ entries := hperm.mem_iff.mpr (IndicesBelow_mem.mpr ⟨by omega, by omega⟩)
  have hflag := (h.marked i hin).mpr hmem
  exact h.good i x hflag (by rw [List.getElem?_eq_getElem hi, hxi])


/-! ## Lemmas on the joints of a mesh file -/

theorem Disciplined_Reject_with {Members α : Type} (message : MD5ParserBase Members → String)
    (hm : ∀ p, message p ≠ "") :
    Disciplined (fun p => MD5ParserBase.Reject (message p) p :
      MD5ParserBase Members → Accept (MD5ParserBase Members) α) :=
  { rejected := by
      intro p q h
      simp only [MD5ParserBase.Reject, Option.some.injEq, Prod.mk.injEq, true_and] at h
      rw [← h]
      exact hm p
    accepted := by
      intro p a q h
      simp [MD5ParserBase.Reject] at h }

theorem AcceptJointFields_keeps (library : FloatLibrary) (bound : Nat) :
    KeepsMembers (MD5MeshParser.AcceptJointFields library bound) :=
  KeepsMembers_andThen (AcceptDoubleQuotedString_keeps bound) fun _ =>
    KeepsMembers_andThen AcceptInt_keeps fun _ =>
      KeepsMembers_andThen (AcceptTriple_keeps library) fun _ =>
        KeepsMembers_andThen (AcceptTriple_keeps library) fun _ => KeepsMembers_Done _

theorem AcceptJointFields_disciplined (library : FloatLibrary) (bound : Nat) :
    Disciplined (MD5MeshParser.AcceptJointFields library bound) :=
  Disciplined_andThen (AcceptDoubleQuotedString_disciplined bound) fun _ =>
    Disciplined_andThen AcceptInt_disciplined fun _ =>
      Disciplined_andThen (AcceptTriple_disciplined library) fun _ =>
        Disciplined_andThen (AcceptTriple_disciplined library) fun _ =>
          Disciplined_Done_same _

theorem AcceptJoint_disciplined (library : FloatLibrary) (bound : Nat) :
    Disciplined (MD5MeshParser.AcceptJoint library bound) :=
  Disciplined_andThen (AcceptJointFields_disciplined library bound) fun _ =>
    Disciplined_ite _ (Disciplined_Reject (by decide))
      (Disciplined_ite _ (Disciplined_Reject (by decide)) (Disciplined_Done _ _))

theorem AcceptJoint_accepted {library : FloatLibrary} {bound : Nat} {p q : MD5MeshParser}
    (h : MD5MeshParser.AcceptJoint library bound p = some (some (), q)) :
    ∃ joint : MD5Joint,
      -1 ≤ joint.ParentIndex ∧
      joint.ParentIndex < toInt32 p.members.mModel.BindPoseJoints.length ∧
      q.members
        = { p.members with
            mModel :=
              { p.members.mModel with
                BindPoseJoints := p.members.mModel.BindPoseJoints ++ [joint] } } := by
  obtain ⟨joint, p1, h1, h2⟩ := andThen_accepted.mp h
  have hk := AcceptJointFields_keeps library bound p _ p1 h1
  refine ⟨joint, ?_⟩
  split_ifs at h2 with hc1 hc2
  · simp [MD5ParserBase.Reject] at h2
  · simp [MD5ParserBase.Reject] at h2
  · simp only [MD5ParserBase.Done, Option.some.injEq, Prod.mk.injEq, true_and] at h2
    rw [hk] at hc1 hc2
    refine ⟨by omega, by omega, ?_⟩
    rw [← h2, hk]

theorem AcceptJoints_disciplined (library : FloatLibrary) (bound : Nat) :
    Disciplined (MD5MeshParser.AcceptJoints library bound) :=
  Disciplined_andThen
    (Disciplined_andThen (RequireIdentifier_disciplined _ (by decide)) fun _ =>
      RequireChar_disciplined _) fun _ =>
    Disciplined_andThen (AcceptLoop_disciplined _ _ (AcceptJoint_disciplined library bound) _ _)
      fun _ =>
      Disciplined_ite _
        (Disciplined_Reject_with _ fun _ =>
          append_ne_empty _ (append_ne_empty _ (append_ne_empty _
            (show "Expected " ≠ "" by decide))))
        (Disciplined_Done_same _)

theorem AcceptJoints_accepted {library : FloatLibrary} {bound : Nat} {p q : MD5MeshParser}
    (hempty : p.members.mModel.BindPoseJoints = [])
    (hexpected : 0 ≤ p.members.mNumExpectedJoints)
    (h : MD5MeshParser.AcceptJoints library bound p = some (some (), q)) :
    ∃ joints : List MD5Joint,
      q.members
        = { p.members with mModel := { p.members.mModel with BindPoseJoints := joints } } ∧
      (joints.length : Int) = p.members.mNumExpectedJoints ∧
      ParentsFirst (joints.map fun joint => joint.ParentIndex) := by
  obtain ⟨u, p2, h1, h2⟩ := andThen_accepted.mp h
  have hk : p2.members = p.members :=
    (KeepsMembers_andThen (RequireIdentifier_keeps _) fun _ => RequireChar_keeps _) p _ p2 h1
  obtain ⟨c, p3, h3, h4⟩ := andThen_accepted.mp h2
  have hinv := AcceptLoop_invariant _ _ (MD5MeshParser.AcceptJoint library bound)
    (fun n m => ∃ joints : List MD5Joint,
      m = { p.members with mModel := { p.members.mModel with BindPoseJoints := joints } } ∧
      joints.length = n ∧ n ≤ 2147483648 ∧
      ParentsFirst (joints.map fun joint => joint.ParentIndex))
    (by
      rintro n a b ⟨joints, hm, hlen, hle, hpf⟩ hb
      obtain ⟨joint, hj1, hj2, hj3⟩ := AcceptJoint_accepted hb
      rw [hm] at hj2 hj3
      simp only at hj2 hj3
      rw [hlen] at hj2
      have hn : n < 2147483648 := by
        by_contra hc
        have : n = 2147483648 := by omega
        subst this
        have : toInt32 ((2147483648 : Nat) : Int) = -2147483648 := by decide
        rw [this] at hj2
        omega
      rw [toInt32_of_range (by omega) (by omega)] at hj2
      refine ⟨joints ++ [joint], hj3, by simp [hlen], by omega, ?_⟩
      rw [List.map_append]
      exact ParentsFirst_append hpf hj1 (by simpa [hlen] using hj2))
    bound 0 p2 c p3
    ⟨[], by rw [hk, ← hempty], rfl, by omega, ParentsFirst_nil⟩
    h3
  obtain ⟨n, ⟨joints, hm, hlen, hle, hpf⟩, hc⟩ := hinv
  split_ifs at h4 with hne
  · simp [MD5ParserBase.Reject] at h4
  · simp only [MD5ParserBase.Done, Option.some.injEq, Prod.mk.injEq, true_and] at h4
    refine ⟨joints, by rw [← h4, hm], ?_, hpf⟩
    have hc2 : c = p3.members.mNumExpectedJoints := by
      by_contra hx
      exact hne hx
    rw [hm] at hc2
    simp only at hc2
    rw [hlen]
    have hn : n < 2147483648 := by
      by_contra hcon
      have : n = 2147483648 := by omega
      subst this
      have : toInt32 ((2147483648 : Nat) : Int) = -2147483648 := by decide
      rw [this] at hc
      omega
    rw [toInt32_of_range (by omega) (by omega)] at hc
    omega


theorem sentry_failbit {s s1 : InputStream} (h : s.sentry = (false, s1)) :
    s1.failbit = true := by
  unfold InputStream.sentry at h
  split at h
  · split at h
    · simp only [Prod.mk.injEq, true_and] at h
      rw [← h]
    · simp at h
  · simp only [Prod.mk.injEq, true_and] at h
    rw [← h]

theorem extractInt_range (s : InputStream) (h : s.extractInt.2.failbit = false) :
    -2147483648 ≤ s.extractInt.1 ∧ s.extractInt.1 ≤ 2147483647 := by
  unfold InputStream.extractInt at h ⊢
  split at h
  · simp only at h ⊢
    split_ifs at h ⊢ <;> first | (simp at h; done) | (simp only; omega)
  · next s1 hs =>
    have := sentry_failbit hs
    simp only at h
    rw [this] at h
    cases h

theorem AcceptInt_range {Members : Type} {p q : MD5ParserBase Members} {a : Int}
    (h : MD5ParserBase.AcceptInt p = some (some a, q)) :
    -2147483648 ≤ a ∧ a ≤ 2147483647 := by
  unfold MD5ParserBase.AcceptInt at h
  simp only at h
  split_ifs at h with hf
  · simp [MD5ParserBase.Reject] at h
  · simp only [MD5ParserBase.Done, Option.some.injEq, Prod.mk.injEq] at h
    rw [← h.1]
    exact extractInt_range _ (by simpa using hf)


/-! ## Lemmas on the meshes of a mesh file -/

theorem MeshPhase_same (m : MD5MeshParserMembers) : MeshPhase m m :=
  ⟨rfl, rfl, rfl⟩

theorem MeshPhase_chain {a b c : MD5MeshParserMembers} (h1 : MeshPhase a b)
    (h2 : MeshPhase b c) : MeshPhase a c :=
  ⟨h2.joints.trans h1.joints, h2.numJoints.trans h1.numJoints,
    h2.numMeshes.trans h1.numMeshes⟩

theorem AcceptNumVertices_disciplined : Disciplined MD5MeshParser.AcceptNumVertices :=
  Disciplined_andThen
    (Disciplined_andThen (RequireIdentifier_disciplined _ (by decide)) fun _ =>
      AcceptInt_disciplined) fun _ =>
    Disciplined_ite _ (Disciplined_Reject (by decide)) (Disciplined_Done _ _)

theorem AcceptNumVertices_accepted {p q : MD5MeshParser}
    (h : MD5MeshParser.AcceptNumVertices p = some (some (), q)) :
    ∃ numverts : Int, 0 ≤ numverts ∧ numverts ≤ 2147483647 ∧
      q.members
        = { p.members with
            mModel :=
              { p.members.mModel with
                Meshes :=
                  modifyBack
                    (fun mesh =>
                      { mesh with
                        Vertices := resize mesh.Vertices numverts.toNat MD5Vertex.empty })
                    p.members.mModel.Meshes }
            mNumExpectedVertices := numverts
            mExpectedIndices := resize [] numverts.toNat false } := by
  obtain ⟨n, p2, h1, h2⟩ := andThen_accepted.mp h
  have hk : p2.members = p.members :=
    (KeepsMembers_andThen (RequireIdentifier_keeps _) fun _ => AcceptInt_keeps) p _ p2 h1
  obtain ⟨_, _, _, hint⟩ := andThen_accepted.mp h1
  have hr := AcceptInt_range hint
  split_ifs at h2 with hc
  · simp [MD5ParserBase.Reject] at h2
  · simp only [MD5ParserBase.Done, Option.some.injEq, Prod.mk.injEq, true_and] at h2
    exact ⟨n, by omega, hr.2, by rw [← h2, hk]⟩

theorem AcceptVertexFields_keeps (library : FloatLibrary) :
    KeepsMembers (MD5MeshParser.AcceptVertexFields library) :=
  KeepsMembers_andThen (RequireIdentifier_keeps _) fun _ =>
    KeepsMembers_andThen AcceptInt_keeps fun _ =>
      KeepsMembers_andThen (RequireChar_keeps _) fun _ =>
        KeepsMembers_andThen (AcceptFloat_keeps library) fun _ =>
          KeepsMembers_andThen (AcceptFloat_keeps library) fun _ =>
            KeepsMembers_andThen (RequireChar_keeps _) fun _ =>
              KeepsMembers_andThen AcceptInt_keeps fun _ =>
                KeepsMembers_andThen AcceptInt_keeps fun _ => KeepsMembers_Done _

theorem AcceptVertexFields_disciplined (library : FloatLibrary) :
    Disciplined (MD5MeshParser.AcceptVertexFields library) :=
  Disciplined_andThen (RequireIdentifier_disciplined _ (by decide)) fun _ =>
    Disciplined_andThen AcceptInt_disciplined fun _ =>
      Disciplined_andThen (RequireChar_disciplined _) fun _ =>
        Disciplined_andThen (AcceptFloat_disciplined library) fun _ =>
          Disciplined_andThen (AcceptFloat_disciplined library) fun _ =>
            Disciplined_andThen (RequireChar_disciplined _) fun _ =>
              Disciplined_andThen AcceptInt_disciplined fun _ =>
                Disciplined_andThen AcceptInt_disciplined fun _ => Disciplined_Done_same _

theorem AcceptVertex_disciplined (library : FloatLibrary) :
    Disciplined (MD5MeshParser.AcceptVertex library) :=
  Disciplined_andThen (AcceptVertexFields_disciplined library) fun _ =>
    Disciplined_ite _ (Disciplined_Reject (by decide))
      (Disciplined_ite _ (Disciplined_Reject (by decide))
        (Disciplined_ite _ (Disciplined_Reject (by decide))
          (Disciplined_ite _ (Disciplined_Reject (by decide)) (Disciplined_Done _ _))))

theorem AcceptVertex_accepted {library : FloatLibrary} {p q : MD5MeshParser}
    (h : MD5MeshParser.AcceptVertex library p = some (some (), q)) :
    ∃ (index : Int) (vertex : MD5Vertex),
      0 ≤ index ∧ index < p.members.mNumExpectedVertices ∧ VertexAccepted vertex ∧
      ¬ p.members.mExpectedIndices.getD index.toNat false = true ∧
      q.members
        = { p.members with
            mExpectedIndices := p.members.mExpectedIndices.set index.toNat true
            mModel :=
              { p.members.mModel with
                Meshes :=
                  modifyBack
                    (fun mesh => { mesh with Vertices := mesh.Vertices.set index.toNat vertex })
                    p.members.mModel.Meshes }
            Accepted := MD5MeshParser.Record EntryKind.vert index p.members } := by
  obtain ⟨fields, p1, h1, h2⟩ := andThen_accepted.mp h
  have hk := AcceptVertexFields_keeps library p _ p1 h1
  refine ⟨fields.1, fields.2, ?_⟩
  split_ifs at h2 with hc1 hc2 hc3 hc4
  · simp [MD5ParserBase.Reject] at h2
  · simp [MD5ParserBase.Reject] at h2
  · simp [MD5ParserBase.Reject] at h2
  · simp [MD5ParserBase.Reject] at h2
  · simp only [MD5ParserBase.Done, Option.some.injEq, Prod.mk.injEq, true_and] at h2
    rw [hk] at hc1 hc4
    refine ⟨by omega, by omega, ⟨by omega, by omega⟩, hc4, ?_⟩
    rw [← h2, hk]

theorem AcceptVertices_disciplined (library : FloatLibrary) (bound : Nat) :
    Disciplined (MD5MeshParser.AcceptVertices library bound) :=
  Disciplined_andThen (AcceptLoop_disciplined _ _ (AcceptVertex_disciplined library) _ _)
    fun _ =>
    Disciplined_ite _
      (Disciplined_Reject_with _ fun _ =>
        append_ne_empty _ (append_ne_empty _ (append_ne_empty _
          (show "Expected " ≠ "" by decide))))
      (Disciplined_Done_same _)

theorem EntriesFor_append (mesh : Nat) (kind : EntryKind) (entries : List Int) (index : Int) :
    EntriesFor mesh kind (entries ++ [index])
      = EntriesFor mesh kind entries ++ [{ Mesh := mesh, Kind := kind, Index := index }] := by
  simp [EntriesFor]

theorem toInt32_count {n numberExpected : Nat} {expected : Int} (hle : n ≤ numberExpected)
    (hexp : expected = numberExpected) (hmax : expected < 2147483648)
    (h : toInt32 n = expected) : n = numberExpected := by
  rw [toInt32_of_range (by omega) (by omega)] at h
  omega

theorem AcceptVertices_accepted {library : FloatLibrary} {bound : Nat} {p q : MD5MeshParser}
    {ms : List MD5Mesh} {mesh : MD5Mesh} {numverts : Nat}
    (hmeshes : p.members.mModel.Meshes = ms ++ [mesh])
    (hlength : mesh.Vertices.length = numverts)
    (hflags : p.members.mExpectedIndices = resize [] numverts false)
    (hexpected : p.members.mNumExpectedVertices = numverts)
    (hmax : p.members.mNumExpectedVertices < 2147483648)
    (h : MD5MeshParser.AcceptVertices library bound p = some (some (), q)) :
    ∃ (elems : List MD5Vertex) (entries : List Int),
      MeshPhase p.members q.members ∧
      q.members.mModel.Meshes = ms ++ [{ mesh with Vertices := elems }] ∧
      q.members.Accepted = p.members.Accepted ++ EntriesFor ms.length EntryKind.vert entries ∧
      q.members.mNumExpectedVertices = numverts ∧
      elems.length = numverts ∧
      entries.Perm (IndicesBelow numverts) ∧
      ∀ vertex ∈ elems, VertexAccepted vertex := by
  obtain ⟨c, p1, h1, h2⟩ := andThen_accepted.mp h
  have hinv := AcceptLoop_invariant _ _ (MD5MeshParser.AcceptVertex library)
    (fun n m => ∃ (elems : List MD5Vertex) (entries : List Int),
      MeshPhase p.members m ∧
      m.mModel.Meshes = ms ++ [{ mesh with Vertices := elems }] ∧
      m.Accepted = p.members.Accepted ++ EntriesFor ms.length EntryKind.vert entries ∧
      m.mNumExpectedVertices = numverts ∧
      Filling VertexAccepted numverts m.mExpectedIndices elems entries ∧
      entries.length = n)
    (by
      rintro n a b ⟨elems, entries, hph, hms, hacc, hnum, hfill, hlen⟩ hb
      obtain ⟨index, vertex, hi0, hin, hv, hfree, hq⟩ := AcceptVertex_accepted hb
      rw [hnum] at hin
      refine ⟨elems.set index.toNat vertex, entries ++ [index], ?_, ?_, ?_, ?_, ?_, ?_⟩
      · rw [hq]
        exact ⟨hph.joints, hph.numJoints, hph.numMeshes⟩
      · rw [hq]
        simp only
        rw [hms, modifyBack_concat]
      · rw [hq]
        simp only [MD5MeshParser.Record]
        rw [hacc, hms, EntriesFor_append, List.append_assoc]
        simp
      · rw [hq]
        exact hnum
      · rw [hq]
        exact Filling_step hfill hi0 hin hfree hv
      · simp [hlen])
    bound 0 p c p1
    ⟨mesh.Vertices, [], MeshPhase_same _, by rw [hmeshes], by simp [EntriesFor], hexpected,
      by rw [hflags]; exact Filling_start _ _ _ hlength, rfl⟩
    h1
  obtain ⟨n, ⟨elems, entries, hph, hms, hacc, hnum, hfill, hlen⟩, hc⟩ := hinv
  split_ifs at h2 with hne
  · simp [MD5ParserBase.Reject] at h2
  · simp only [MD5ParserBase.Done, Option.some.injEq, Prod.mk.injEq, true_and] at h2
    subst h2
    have hc2 : c = p1.members.mNumExpectedVertices := by
      by_contra hx
      exact hne hx
    have hle := Filling_length_le hfill
    rw [hlen] at hle
    have hn : n = numverts :=
      toInt32_count hle hnum (by rw [hnum]; rw [hexpected] at hmax; exact hmax)
        (by rw [← hc, hc2])
    obtain ⟨hperm, hall⟩ := Filling_full hfill (by rw [hlen, hn])
    exact ⟨elems, entries, hph, hms, hacc, hnum, hfill.elems_length, hperm, hall⟩


theorem AcceptNumTriangles_disciplined : Disciplined MD5MeshParser.AcceptNumTriangles :=
  Disciplined_andThen
    (Disciplined_andThen (RequireIdentifier_disciplined _ (by decide)) fun _ =>
      AcceptInt_disciplined) fun _ =>
    Disciplined_ite _ (Disciplined_Reject (by decide)) (Disciplined_Done _ _)

theorem AcceptNumTriangles_accepted {p q : MD5MeshParser}
    (h : MD5MeshParser.AcceptNumTriangles p = some (some (), q)) :
    ∃ numtris : Int, 0 ≤ numtris ∧ numtris ≤ 2147483647 ∧
      q.members
        = { p.members with
            mModel :=
              { p.members.mModel with
                Meshes :=
                  modifyBack
                    (fun mesh =>
                      { mesh with
                        Triangles := resize mesh.Triangles numtris.toNat MD5Triangle.empty })
                    p.members.mModel.Meshes }
            mNumExpectedTriangles := numtris
            mExpectedIndices := resize [] numtris.toNat false } := by
  obtain ⟨n, p2, h1, h2⟩ := andThen_accepted.mp h
  have hk : p2.members = p.members :=
    (KeepsMembers_andThen (RequireIdentifier_keeps _) fun _ => AcceptInt_keeps) p _ p2 h1
  obtain ⟨_, _, _, hint⟩ := andThen_accepted.mp h1
  have hr := AcceptInt_range hint
  split_ifs at h2 with hc
  · simp [MD5ParserBase.Reject] at h2
  · simp only [MD5ParserBase.Done, Option.some.injEq, Prod.mk.injEq, true_and] at h2
    exact ⟨n, by omega, hr.2, by rw [← h2, hk]⟩

theorem AcceptTriangleFields_keeps : KeepsMembers MD5MeshParser.AcceptTriangleFields :=
  KeepsMembers_andThen (RequireIdentifier_keeps _) fun _ =>
    KeepsMembers_andThen AcceptInt_keeps fun _ =>
      KeepsMembers_andThen AcceptInt_keeps fun _ =>
        KeepsMembers_andThen AcceptInt_keeps fun _ =>
          KeepsMembers_andThen AcceptInt_keeps fun _ => KeepsMembers_Done _

theorem AcceptTriangleFields_disciplined : Disciplined MD5MeshParser.AcceptTriangleFields :=
  Disciplined_andThen (RequireIdentifier_disciplined _ (by decide)) fun _ =>
    Disciplined_andThen AcceptInt_disciplined fun _ =>
      Disciplined_andThen AcceptInt_disciplined fun _ =>
        Disciplined_andThen AcceptInt_disciplined fun _ =>
          Disciplined_andThen AcceptInt_disciplined fun _ => Disciplined_Done_same _

theorem AcceptTriangle_disciplined : Disciplined MD5MeshParser.AcceptTriangle :=
  Disciplined_andThen AcceptTriangleFields_disciplined fun _ =>
    Disciplined_ite _ (Disciplined_Reject (by decide))
      (Disciplined_ite _ (Disciplined_Reject (by decide))
        (Disciplined_ite _ (Disciplined_Reject (by decide))
          (Disciplined_ite _ (Disciplined_Reject (by decide))
            (Disciplined_ite _ (Disciplined_Reject (by decide)) (Disciplined_Done _ _)))))

theorem AcceptTriangle_accepted {p q : MD5MeshParser}
    (h : MD5MeshParser.AcceptTriangle p = some (some (), q)) :
    ∃ (index : Int) (triangle : MD5Triangle),
      0 ≤ index ∧ index < p.members.mNumExpectedTriangles ∧
      ((0 ≤ triangle.VertexIndices.1 ∧
          triangle.VertexIndices.1 < p.members.mNumExpectedVertices) ∧
        (0 ≤ triangle.VertexIndices.2.1 ∧
          triangle.VertexIndices.2.1 < p.members.mNumExpectedVertices) ∧
        (0 ≤ triangle.VertexIndices.2.2 ∧
          triangle.VertexIndices.2.2 < p.members.mNumExpectedVertices)) ∧
      ¬ p.members.mExpectedIndices.getD index.toNat false = true ∧
      q.members
        = { p.members with
            mExpectedIndices := p.members.mExpectedIndices.set index.toNat true
            mModel :=
              { p.members.mModel with
                Meshes :=
                  modifyBack
                    (fun mesh =>
                      { mesh with Triangles := mesh.Triangles.set index.toNat triangle })
                    p.members.mModel.Meshes }
            Accepted := MD5MeshParser.Record EntryKind.tri index p.members } := by
  obtain ⟨fields, p1, h1, h2⟩ := andThen_accepted.mp h
  have hk := AcceptTriangleFields_keeps p _ p1 h1
  refine ⟨fields.1, fields.2, ?_⟩
  split_ifs at h2 with hc1 hc2 hc3 hc4 hc5
  · simp [MD5ParserBase.Reject] at h2
  · simp [MD5ParserBase.Reject] at h2
  · simp [MD5ParserBase.Reject] at h2
  · simp [MD5ParserBase.Reject] at h2
  · simp [MD5ParserBase.Reject] at h2
  · simp only [MD5ParserBase.Done, Option.some.injEq, Prod.mk.injEq, true_and] at h2
    rw [hk] at hc1 hc2 hc3 hc4 hc5
    refine ⟨by omega, by omega, ⟨⟨by omega, by omega⟩, ⟨by omega, by omega⟩,
      ⟨by omega, by omega⟩⟩, hc5, ?_⟩
    rw [← h2, hk]

theorem AcceptTriangles_disciplined (bound : Nat) :
    Disciplined (MD5MeshParser.AcceptTriangles bound) :=
  Disciplined_andThen (AcceptLoop_disciplined _ _ AcceptTriangle_disciplined _ _) fun _ =>
    Disciplined_ite _
      (Disciplined_Reject_with _ fun _ =>
        append_ne_empty _ (append_ne_empty _ (append_ne_empty _
          (show "Expected " ≠ "" by decide))))
      (Disciplined_Done_same _)

theorem AcceptTriangles_accepted {bound : Nat} {p q : MD5MeshParser}
    {ms : List MD5Mesh} {mesh : MD5Mesh} {numtris numverts : Nat}
    (hmeshes : p.members.mModel.Meshes = ms ++ [mesh])
    (hlength : mesh.Triangles.length = numtris)
    (hflags : p.members.mExpectedIndices = resize [] numtris false)
    (hexpected : p.members.mNumExpectedTriangles = numtris)
    (hmax : p.members.mNumExpectedTriangles < 2147483648)
    (hverts : p.members.mNumExpectedVertices = numverts)
    (h : MD5MeshParser.AcceptTriangles bound p = some (some (), q)) :
    ∃ (elems : List MD5Triangle) (entries : List Int),
      MeshPhase p.members q.members ∧
      q.members.mModel.Meshes = ms ++ [{ mesh with Triangles := elems }] ∧
      q.members.Accepted = p.members.Accepted ++ EntriesFor ms.length EntryKind.tri entries ∧
      elems.length = numtris ∧
      entries.Perm (IndicesBelow numtris) ∧
      ∀ triangle ∈ elems, TriangleInBounds numverts triangle := by
  obtain ⟨c, p1, h1, h2⟩ := andThen_accepted.mp h
  have hinv := AcceptLoop_invariant _ _ MD5MeshParser.AcceptTriangle
    (fun n m => ∃ (elems : List MD5Triangle) (entries : List Int),
      MeshPhase p.members m ∧
      m.mModel.Meshes = ms ++ [{ mesh with Triangles := elems }] ∧
      m.Accepted = p.members.Accepted ++ EntriesFor ms.length EntryKind.tri entries ∧
      m.mNumExpectedTriangles = numtris ∧
      m.mNumExpectedVertices = numverts ∧
      Filling (TriangleInBounds numverts) numtris m.mExpectedIndices elems entries ∧
      entries.length = n)
    (by
      rintro n a b ⟨elems, entries, hph, hms, hacc, hnum, hnv, hfill, hlen⟩ hb
      obtain ⟨index, triangle, hi0, hin, ht, hfree, hq⟩ := AcceptTriangle_accepted hb
      rw [hnum] at hin
      rw [hnv] at ht
      refine ⟨elems.set index.toNat triangle, entries ++ [index], ?_, ?_, ?_, ?_, ?_, ?_, ?_⟩
      · rw [hq]
        exact ⟨hph.joints, hph.numJoints, hph.numMeshes⟩
      · rw [hq]
        simp only
        rw [hms, modifyBack_concat]
      · rw [hq]
        simp only [MD5MeshParser.Record]
        rw [hacc, hms, EntriesFor_append, List.append_assoc]
        simp
      · rw [hq]
        exact hnum
      · rw [hq]
        exact hnv
      · rw [hq]
        exact Filling_step hfill hi0 hin hfree ht
      · simp [hlen])
    bound 0 p c p1
    ⟨mesh.Triangles, [], MeshPhase_same _, by rw [hmeshes], by simp [EntriesFor], hexpected,
      hverts, by rw [hflags]; exact Filling_start _ _ _ hlength, rfl⟩
    h1
  obtain ⟨n, ⟨elems, entries, hph, hms, hacc, hnum, hnv, hfill, hlen⟩, hc⟩ := hinv
  split_ifs at h2 with hne
  · simp [MD5ParserBase.Reject] at h2
  · simp only [MD5ParserBase.Done, Option.some.injEq, Prod.mk.injEq, true_and] at h2
    subst h2
    have hc2 : c = p1.members.mNumExpectedTriangles := by
      by_contra hx
      exact hne hx
    have hle := Filling_length_le hfill
    rw [hlen] at hle
    have hn : n = numtris :=
      toInt32_count hle hnum (by rw [hnum]; rw [hexpected] at hmax; exact hmax)
        (by rw [← hc, hc2])
    obtain ⟨hperm, hall⟩ := Filling_full hfill (by rw [hlen, hn])
    exact ⟨elems, entries, hph, hms, hacc, hfill.elems_length, hperm, hall⟩

theorem AcceptNumWeights_disciplined : Disciplined MD5MeshParser.AcceptNumWeights :=
  Disciplined_andThen
    (Disciplined_andThen (RequireIdentifier_disciplined _ (by decide)) fun _ =>
      AcceptInt_disciplined) fun _ =>
    Disciplined_ite _ (Disciplined_Reject (by decide)) (Disciplined_Done _ _)

theorem AcceptNumWeights_accepted {p q : MD5MeshParser}
    (h : MD5MeshParser.AcceptNumWeights p = some (some (), q)) :
    ∃ numweights : Int, 0 ≤ numweights ∧ numweights ≤ 2147483647 ∧
      q.members
        = { p.members with
            mModel :=
              { p.members.mModel with
                Meshes :=
                  modifyBack
                    (fun mesh =>
                      { mesh with
                        Weights := resize mesh.Weights numweights.toNat MD5Weight.empty })
                    p.members.mModel.Meshes }
            mNumExpectedWeights := numweights
            mExpectedIndices := resize [] numweights.toNat false } := by
  obtain ⟨n, p2, h1, h2⟩ := andThen_accepted.mp h
  have hk : p2.members = p.members :=
    (KeepsMembers_andThen (RequireIdentifier_keeps _) fun _ => AcceptInt_keeps) p _ p2 h1
  obtain ⟨_, _, _, hint⟩ := andThen_accepted.mp h1
  have hr := AcceptInt_range hint
  split_ifs at h2 with hc
  · simp [MD5ParserBase.Reject] at h2
  · simp only [MD5ParserBase.Done, Option.some.injEq, Prod.mk.injEq, true_and] at h2
    exact ⟨n, by omega, hr.2, by rw [← h2, hk]⟩

theorem AcceptWeightFields_keeps (library : FloatLibrary) :
    KeepsMembers (MD5MeshParser.AcceptWeightFields library) :=
  KeepsMembers_andThen (RequireIdentifier_keeps _) fun _ =>
    KeepsMembers_andThen AcceptInt_keeps fun _ =>
      KeepsMembers_andThen AcceptInt_keeps fun _ =>
        KeepsMembers_andThen (AcceptFloat_keeps library) fun _ =>
          KeepsMembers_andThen (AcceptTriple_keeps library) fun _ => KeepsMembers_Done _

theorem AcceptWeightFields_disciplined (library : FloatLibrary) :
    Disciplined (MD5MeshParser.AcceptWeightFields library) :=
  Disciplined_andThen (RequireIdentifier_disciplined _ (by decide)) fun _ =>
    Disciplined_andThen AcceptInt_disciplined fun _ =>
      Disciplined_andThen AcceptInt_disciplined fun _ =>
        Disciplined_andThen (AcceptFloat_disciplined library) fun _ =>
          Disciplined_andThen (AcceptTriple_disciplined library) fun _ =>
            Disciplined_Done_same _

theorem AcceptWeight_disciplined (library : FloatLibrary) :
    Disciplined (MD5MeshParser.AcceptWeight library) :=
  Disciplined_andThen (AcceptWeightFields_disciplined library) fun _ =>
    Disciplined_ite _ (Disciplined_Reject (by decide))
      (Disciplined_ite _ (Disciplined_Reject (by decide))
        (Disciplined_ite _ (Disciplined_Reject (by decide)) (Disciplined_Done _ _)))

theorem AcceptWeight_accepted {library : FloatLibrary} {p q : MD5MeshParser}
    (h : MD5MeshParser.AcceptWeight library p = some (some (), q)) :
    ∃ (index : Int) (weight : MD5Weight),
      0 ≤ index ∧ index < p.members.mNumExpectedWeights ∧
      WeightInBounds p.members.mNumExpectedJoints weight ∧
      ¬ p.members.mExpectedIndices.getD index.toNat false = true ∧
      q.members
        = { p.members with
            mExpectedIndices := p.members.mExpectedIndices.set index.toNat true
            mModel :=
              { p.members.mModel with
                Meshes :=
                  modifyBack
                    (fun mesh => { mesh with Weights := mesh.Weights.set index.toNat weight })
                    p.members.mModel.Meshes }
            Accepted := MD5MeshParser.Record EntryKind.weight index p.members } := by
  obtain ⟨fields, p1, h1, h2⟩ := andThen_accepted.mp h
  have hk := AcceptWeightFields_keeps library p _ p1 h1
  refine ⟨fields.1, fields.2, ?_⟩
  split_ifs at h2 with hc1 hc2 hc3
  · simp [MD5ParserBase.Reject] at h2
  · simp [MD5ParserBase.Reject] at h2
  · simp [MD5ParserBase.Reject] at h2
  · simp only [MD5ParserBase.Done, Option.some.injEq, Prod.mk.injEq, true_and] at h2
    rw [hk] at hc1 hc2 hc3
    refine ⟨by omega, by omega, ⟨by omega, by omega⟩, hc3, ?_⟩
    rw [← h2, hk]

theorem AcceptWeights_disciplined (library : FloatLibrary) (bound : Nat) :
    Disciplined (MD5MeshParser.AcceptWeights library bound) :=
  Disciplined_andThen (AcceptLoop_disciplined _ _ (AcceptWeight_disciplined library) _ _)
    fun _ =>
    Disciplined_ite _
      (Disciplined_Reject_with _ fun _ =>
        append_ne_empty _ (append_ne_empty _ (append_ne_empty _
          (show "Expected " ≠ "" by decide))))
      (Disciplined_ite _ (Disciplined_Reject (by decide)) (Disciplined_Done_same _))

theorem AcceptWeights_accepted {library : FloatLibrary} {bound : Nat} {p q : MD5MeshParser}
    {ms : List MD5Mesh} {mesh : MD5Mesh} {numweights : Nat}
    (hmeshes : p.members.mModel.Meshes = ms ++ [mesh])
    (hlength : mesh.Weights.length = numweights)
    (hflags : p.members.mExpectedIndices = resize [] numweights false)
    (hexpected : p.members.mNumExpectedWeights = numweights)
    (hmax : p.members.mNumExpectedWeights < 2147483648)
    (h : MD5MeshParser.AcceptWeights library bound p = some (some (), q)) :
    ∃ (elems : List MD5Weight) (entries : List Int),
      MeshPhase p.members q.members ∧
      q.members.mModel.Meshes = ms ++ [{ mesh with Weights := elems }] ∧
      q.members.Accepted
        = p.members.Accepted ++ EntriesFor ms.length EntryKind.weight entries ∧
      elems.length = numweights ∧
      entries.Perm (IndicesBelow numweights) ∧
      (∀ weight ∈ elems, WeightInBounds p.members.mNumExpectedJoints weight) ∧
      ∀ vertex ∈ mesh.Vertices,
        MD5MeshParser.WeightsOutOfBounds numweights vertex = false := by
  obtain ⟨c, p1, h1, h2⟩ := andThen_accepted.mp h
  have hinv := AcceptLoop_invariant _ _ (MD5MeshParser.AcceptWeight library)
    (fun n m => ∃ (elems : List MD5Weight) (entries : List Int),
      MeshPhase p.members m ∧
      m.mModel.Meshes = ms ++ [{ mesh with Weights := elems }] ∧
      m.Accepted = p.members.Accepted ++ EntriesFor ms.length EntryKind.weight entries ∧
      m.mNumExpectedWeights = numweights ∧
      Filling (WeightInBounds p.members.mNumExpectedJoints) numweights m.mExpectedIndices
        elems entries ∧
      entries.length = n)
    (by
      rintro n a b ⟨elems, entries, hph, hms, hacc, hnum, hfill, hlen⟩ hb
      obtain ⟨index, weight, hi0, hin, hw, hfree, hq⟩ := AcceptWeight_accepted hb
      rw [hnum] at hin
      rw [hph.numJoints] at hw
      refine ⟨elems.set index.toNat weight, entries ++ [index], ?_, ?_, ?_, ?_, ?_, ?_⟩
      · rw [hq]
        exact ⟨hph.joints, hph.numJoints, hph.numMeshes⟩
      · rw [hq]
        simp only
        rw [hms, modifyBack_concat]
      · rw [hq]
        simp only [MD5MeshParser.Record]
        rw [hacc, hms, EntriesFor_append, List.append_assoc]
        simp
      · rw [hq]
        exact hnum
      · rw [hq]
        exact Filling_step hfill hi0 hin hfree hw
      · simp [hlen])
    bound 0 p c p1
    ⟨mesh.Weights, [], MeshPhase_same _, by rw [hmeshes], by simp [EntriesFor], hexpected,
      by rw [hflags]; exact Filling_start _ _ _ hlength, rfl⟩
    h1
  obtain ⟨n, ⟨elems, entries, hph, hms, hacc, hnum, hfill, hlen⟩, hc⟩ := hinv
  split_ifs at h2 with hne hany
  · simp [MD5ParserBase.Reject] at h2
  · simp [MD5ParserBase.Reject] at h2
  · simp only [MD5ParserBase.Done, Option.some.injEq, Prod.mk.injEq, true_and] at h2
    subst h2
    have hc2 : c = p1.members.mNumExpectedWeights := by
      by_contra hx
      exact hne hx
    have hle := Filling_length_le hfill
    rw [hlen] at hle
    have hn : n = numweights :=
      toInt32_count hle hnum (by rw [hnum]; rw [hexpected] at hmax; exact hmax)
        (by rw [← hc, hc2])
    obtain ⟨hperm, hall⟩ := Filling_full hfill (by rw [hlen, hn])
    refine ⟨elems, entries, hph, hms, hacc, hfill.elems_length, hperm, hall, ?_⟩
    intro vertex hv
    rw [hms, backMesh_concat, hnum] at hany
    simp only [List.any_eq_true, not_exists, not_and, Bool.not_eq_true] at hany
    exact hany vertex hv


theorem EntriesOf_append (a b : List AcceptedEntry) (mesh : Nat) (kind : EntryKind) :
    EntriesOf (a ++ b) mesh kind = EntriesOf a mesh kind ++ EntriesOf b mesh kind := by
  simp [EntriesOf]

theorem EntriesOf_EntriesFor_same (mesh : Nat) (kind : EntryKind) (entries : List Int) :
    EntriesOf (EntriesFor mesh kind entries) mesh kind = entries := by
  induction entries with
  | nil => rfl
  | cons e rest ih =>
    simp only [EntriesOf, EntriesFor, List.map_cons] at ih ⊢
    simp only [List.filter_cons, and_self, decide_True, if_true, List.map_cons]
    rw [ih]

theorem EntriesOf_EntriesFor_other {mesh mesh2 : Nat} {kind kind2 : EntryKind}
    (entries : List Int) (h : mesh ≠ mesh2 ∨ kind ≠ kind2) :
    EntriesOf (EntriesFor mesh kind entries) mesh2 kind2 = [] := by
  induction entries with
  | nil => rfl
  | cons e rest ih =>
    simp only [EntriesOf, EntriesFor, List.map_cons] at ih ⊢
    have hn : ¬ (mesh = mesh2 ∧ kind = kind2) := by
      rintro ⟨h1, h2⟩
      rcases h with h | h
      · exact h h1
      · exact h h2
    simp only [List.filter_cons, hn, decide_False, Bool.false_eq_true, if_false]
    exact ih

theorem EntriesOf_of_smaller {accepted : List AcceptedEntry} {n : Nat}
    (h : ∀ e ∈ accepted, e.Mesh < n) (kind : EntryKind) : EntriesOf accepted n kind = [] := by
  unfold EntriesOf
  rw [List.map_eq_nil_iff, List.filter_eq_nil_iff]
  intro e he
  have := h e he
  simp only [decide_eq_true_eq, not_and]
  intro hm
  omega

theorem Disciplined_after {Members α : Type}
    {f : MD5ParserBase Members → Accept (MD5ParserBase Members) α}
    (change : MD5ParserBase Members → Members) (hf : Disciplined f) :
    Disciplined fun p => f { p with members := change p } :=
  { rejected := fun p q h => hf.rejected _ q h
    accepted := by
      intro p a q h
      have hh := hf.accepted _ a q h
      exact hh }

theorem AcceptMesh_disciplined (library : FloatLibrary) (bound : Nat) :
    Disciplined (MD5MeshParser.AcceptMesh library bound) :=
  Disciplined_andThen
    (Disciplined_andThen (RequireIdentifier_disciplined _ (by decide)) fun _ =>
      RequireChar_disciplined _) fun _ =>
    Disciplined_andThen
      (Disciplined_after _ (RequireIdentifier_disciplined "shader" (by decide))) fun _ =>
      Disciplined_andThen (AcceptDoubleQuotedString_disciplined bound) fun _ =>
        Disciplined_andThen (Disciplined_after _ AcceptNumVertices_disciplined) fun _ =>
          Disciplined_andThen (AcceptVertices_disciplined library bound) fun _ =>
            Disciplined_andThen AcceptNumTriangles_disciplined fun _ =>
              Disciplined_andThen (AcceptTriangles_disciplined bound) fun _ =>
                Disciplined_andThen AcceptNumWeights_disciplined fun _ =>
                  Disciplined_andThen (AcceptWeights_disciplined library bound) fun _ =>
                    RequireChar_disciplined _


theorem AcceptMesh_accepted {library : FloatLibrary} {bound : Nat} {p q : MD5MeshParser}
    (h : MD5MeshParser.AcceptMesh library bound p = some (some (), q)) :
    ∃ (mesh : MD5Mesh) (verts tris weights : List Int),
      MeshPhase p.members q.members ∧
      q.members.mModel.Meshes = p.members.mModel.Meshes ++ [mesh] ∧
      q.members.Accepted
        = p.members.Accepted ++
          (EntriesFor p.members.mModel.Meshes.length EntryKind.vert verts ++
            (EntriesFor p.members.mModel.Meshes.length EntryKind.tri tris ++
              EntriesFor p.members.mModel.Meshes.length EntryKind.weight weights)) ∧
      MeshParsed p.members.mNumExpectedJoints mesh verts tris weights := by
  obtain ⟨_, p2, h1, h2⟩ := andThen_accepted.mp h
  have hk2 : p2.members = p.members :=
    (KeepsMembers_andThen (RequireIdentifier_keeps _) fun _ => RequireChar_keeps _) p _ p2 h1
  obtain ⟨_, p3, h3, h4⟩ := andThen_accepted.mp h2
  have hk3 := RequireIdentifier_keeps _ _ _ p3 h3
  simp only at hk3
  obtain ⟨shader, p4, h5, h6⟩ := andThen_accepted.mp h4
  have hk4 := AcceptDoubleQuotedString_keeps bound p3 _ p4 h5
  obtain ⟨_, p5, h7, h8⟩ := andThen_accepted.mp h6
  obtain ⟨nv, hnv0, hnvmax, hm5⟩ := AcceptNumVertices_accepted h7
  simp only at hm5
  obtain ⟨_, p6, h9, h10⟩ := andThen_accepted.mp h8
  have hmeshes5 : p5.members.mModel.Meshes
      = p.members.mModel.Meshes ++
        [{ Shader := shader, Vertices := resize [] nv.toNat MD5Vertex.empty, Triangles := [],
           Weights := [] }] := by
    rw [hm5, hk4, hk3, hk2]
    simp only
    rw [modifyBack_concat, modifyBack_concat]
    rfl
  have hphase5 : MeshPhase p.members p5.members := by
    rw [hm5, hk4, hk3, hk2]
    exact ⟨rfl, rfl, rfl⟩
  have hacc5 : p5.members.Accepted = p.members.Accepted := by
    rw [hm5, hk4, hk3, hk2]
  obtain ⟨elemsV, verts, hph6, hms6, hacc6, hnum6, hlenV, hpermV, hallV⟩ :=
    AcceptVertices_accepted hmeshes5 (resize_length _ _ _)
      (by rw [hm5]) (by rw [hm5]; simp only; omega) (by rw [hm5]; simp only; omega) h9
  obtain ⟨_, p7, h11, h12⟩ := andThen_accepted.mp h10
  obtain ⟨nt, hnt0, hntmax, hm7⟩ := AcceptNumTriangles_accepted h11
  obtain ⟨_, p8, h13, h14⟩ := andThen_accepted.mp h12
  have hmeshes7 : p7.members.mModel.Meshes
      = p.members.mModel.Meshes ++
        [{ Shader := shader, Vertices := elemsV,
           Triangles := resize [] nt.toNat MD5Triangle.empty, Weights := [] }] := by
    rw [hm7]
    simp only
    rw [hms6, modifyBack_concat]
  obtain ⟨elemsT, tris, hph8, hms8, hacc8, hlenT, hpermT, hallT⟩ :=
    @AcceptTriangles_accepted _ _ _ _ _ _ nv.toNat hmeshes7 (resize_length _ _ _)
      (by rw [hm7]) (by rw [hm7]; simp only; omega) (by rw [hm7]; simp only; omega)
      (by rw [hm7]; simp only; rw [hnum6]) h13
  obtain ⟨_, p9, h15, h16⟩ := andThen_accepted.mp h14
  obtain ⟨nw, hnw0, hnwmax, hm9⟩ := AcceptNumWeights_accepted h15
  have hmeshes9 : p9.members.mModel.Meshes
      = p.members.mModel.Meshes ++
        [{ Shader := shader, Vertices := elemsV, Triangles := elemsT,
           Weights := resize [] nw.toNat MD5Weight.empty }] := by
    rw [hm9]
    simp only
    rw [hms8, modifyBack_concat]
  obtain ⟨_, p10, h17, h18⟩ := andThen_accepted.mp h16
  obtain ⟨elemsW, weights, hph10, hms10, hacc10, hlenW, hpermW, hallW, hvert⟩ :=
    AcceptWeights_accepted hmeshes9 (resize_length _ _ _)
      (by rw [hm9]) (by rw [hm9]; simp only; omega) (by rw [hm9]; simp only; omega) h17
  have hk10 := RequireChar_keeps _ p10 _ q h18
  have hphase7 : MeshPhase p6.members p7.members := by
    rw [hm7]
    exact ⟨rfl, rfl, rfl⟩
  have hphase9 : MeshPhase p8.members p9.members := by
    rw [hm9]
    exact ⟨rfl, rfl, rfl⟩
  have hphase9all : MeshPhase p.members p9.members :=
    MeshPhase_chain (MeshPhase_chain (MeshPhase_chain (MeshPhase_chain hphase5 hph6) hphase7)
      hph8) hphase9
  refine ⟨{ Shader := shader, Vertices := elemsV, Triangles := elemsT, Weights := elemsW },
    verts, tris, weights, ?_, ?_, ?_, ?_⟩
  · rw [hk10]
    exact MeshPhase_chain hphase9all hph10
  · rw [hk10, hms10]
  · rw [hk10, hacc10, hm9]
    simp only
    rw [hacc8, hm7]
    simp only
    rw [hacc6, hacc5]
    simp only [List.append_assoc]
  · refine ⟨?_, ?_, ?_, ?_, ?_, ?_⟩
    · simp only
      rw [hlenV]
      exact hpermV
    · simp only
      rw [hlenT]
      exact hpermT
    · simp only
      rw [hlenW]
      exact hpermW
    · simp only
      rw [hlenV]
      exact hallT
    · simp only
      rw [← hphase9all.numJoints]
      exact hallW
    · simp only
      intro vertex hv
      rw [hlenW]
      exact ⟨hallV vertex hv, hvert vertex hv⟩


theorem MeshesParsed_append {numJoints : Int} {meshes : List MD5Mesh}
    {accepted : List AcceptedEntry} (h : MeshesParsed numJoints meshes accepted)
    {mesh : MD5Mesh} {verts tris weights : List Int}
    (hmesh : MeshParsed numJoints mesh verts tris weights) :
    MeshesParsed numJoints (meshes ++ [mesh])
      (accepted ++
        (EntriesFor meshes.length EntryKind.vert verts ++
          (EntriesFor meshes.length EntryKind.tri tris ++
            EntriesFor meshes.length EntryKind.weight weights))) := by
  constructor
  · intro e he
    simp only [List.mem_append, EntriesFor, List.mem_map] at he
    simp only [List.length_append, List.length_singleton]
    rcases he with he | ⟨i, _, rfl⟩ | ⟨i, _, rfl⟩ | ⟨i, _, rfl⟩
    · have := h.known e he
      omega
    · simp
    · simp
    · simp
  · intro k m hk
    by_cases hlt : k < meshes.length
    · rw [List.getElem?_append_left hlt] at hk
      have hne : meshes.length ≠ k := by omega
      simp only [EntriesOf_append]
      rw [EntriesOf_EntriesFor_other verts (Or.inl hne),
        EntriesOf_EntriesFor_other tris (Or.inl hne),
        EntriesOf_EntriesFor_other weights (Or.inl hne),
        EntriesOf_EntriesFor_other verts (Or.inl hne),
        EntriesOf_EntriesFor_other tris (Or.inl hne),
        EntriesOf_EntriesFor_other weights (Or.inl hne),
        EntriesOf_EntriesFor_other verts (Or.inl hne),
        EntriesOf_EntriesFor_other tris (Or.inl hne),
        EntriesOf_EntriesFor_other weights (Or.inl hne)]
      simp only [List.append_nil]
      exact h.parsed k m hk
    · have hkeq : k = meshes.length := by
        by_contra hc
        have : (meshes ++ [mesh])[k]? = none := by
          apply List.getElem?_eq_none
          simp only [List.length_append, List.length_singleton]
          omega
        rw [this] at hk
        cases hk
      subst hkeq
      rw [List.getElem?_append_right (Nat.le_refl _)] at hk
      simp only [Nat.sub_self, List.getElem?_cons_zero, Option.some.injEq] at hk
      subst hk
      simp only [EntriesOf_append]
      rw [EntriesOf_of_smaller h.known, EntriesOf_of_smaller h.known,
        EntriesOf_of_smaller h.known,
        EntriesOf_EntriesFor_same, EntriesOf_EntriesFor_same, EntriesOf_EntriesFor_same,
        EntriesOf_EntriesFor_other tris (Or.inr (by decide)),
        EntriesOf_EntriesFor_other weights (Or.inr (by decide)),
        EntriesOf_EntriesFor_other verts (Or.inr (by decide)),
        EntriesOf_EntriesFor_other weights (Or.inr (by decide)),
        EntriesOf_EntriesFor_other verts (Or.inr (by decide)),
        EntriesOf_EntriesFor_other tris (Or.inr (by decide))]
      simp only [List.nil_append, List.append_nil]
      exact hmesh

theorem AcceptMeshes_disciplined (library : FloatLibrary) (bound : Nat) :
    Disciplined (MD5MeshParser.AcceptMeshes library bound) :=
  Disciplined_andThen (AcceptLoop_disciplined _ _ (AcceptMesh_disciplined library bound) _ _)
    fun _ =>
    Disciplined_ite _
      (Disciplined_Reject_with _ fun _ =>
        append_ne_empty _ (append_ne_empty _ (append_ne_empty _
          (show "Expected " ≠ "" by decide))))
      (Disciplined_Done_same _)

theorem AcceptMeshes_accepted {library : FloatLibrary} {bound : Nat} {p q : MD5MeshParser}
    (hstart : MeshesParsed p.members.mNumExpectedJoints p.members.mModel.Meshes
      p.members.Accepted)
    (h : MD5MeshParser.AcceptMeshes library bound p = some (some (), q)) :
    MeshPhase p.members q.members ∧
    MeshesParsed p.members.mNumExpectedJoints q.members.mModel.Meshes q.members.Accepted := by
  obtain ⟨c, p1, h1, h2⟩ := andThen_accepted.mp h
  have hinv := AcceptLoop_invariant _ _ (MD5MeshParser.AcceptMesh library bound)
    (fun _ m => MeshPhase p.members m ∧
      MeshesParsed p.members.mNumExpectedJoints m.mModel.Meshes m.Accepted)
    (by
      rintro n a b ⟨hph, hmp⟩ hb
      obtain ⟨mesh, verts, tris, weights, hph2, hms, hacc, hparsed⟩ := AcceptMesh_accepted hb
      refine ⟨MeshPhase_chain hph hph2, ?_⟩
      rw [hms, hacc]
      rw [hph.numJoints] at hparsed
      exact MeshesParsed_append hmp hparsed)
    bound 0 p c p1 ⟨MeshPhase_same _, hstart⟩ h1
  obtain ⟨n, ⟨hph, hmp⟩, _⟩ := hinv
  split_ifs at h2 with hne
  · simp [MD5ParserBase.Reject] at h2
  · simp only [MD5ParserBase.Done, Option.some.injEq, Prod.mk.injEq, true_and] at h2
    subst h2
    exact ⟨hph, hmp⟩

theorem MeshNumJoints_disciplined : Disciplined MD5MeshParser.AcceptNumJoints :=
  Disciplined_andThen
    (Disciplined_andThen (RequireIdentifier_disciplined _ (by decide)) fun _ =>
      AcceptInt_disciplined) fun _ =>
    Disciplined_ite _ (Disciplined_Reject (by decide)) (Disciplined_Done _ _)

theorem MeshNumJoints_accepted {p q : MD5MeshParser}
    (h : MD5MeshParser.AcceptNumJoints p = some (some (), q)) :
    ∃ numJoints : Int, 0 ≤ numJoints ∧
      q.members = { p.members with mNumExpectedJoints := numJoints } := by
  obtain ⟨n, p2, h1, h2⟩ := andThen_accepted.mp h
  have hk : p2.members = p.members :=
    (KeepsMembers_andThen (RequireIdentifier_keeps _) fun _ => AcceptInt_keeps) p _ p2 h1
  split_ifs at h2 with hc
  · simp [MD5ParserBase.Reject] at h2
  · simp only [MD5ParserBase.Done, Option.some.injEq, Prod.mk.injEq, true_and] at h2
    exact ⟨n, by omega, by rw [← h2, hk]⟩

theorem AcceptNumMeshes_disciplined : Disciplined MD5MeshParser.AcceptNumMeshes :=
  Disciplined_andThen
    (Disciplined_andThen (RequireIdentifier_disciplined _ (by decide)) fun _ =>
      AcceptInt_disciplined) fun _ =>
    Disciplined_ite _ (Disciplined_Reject (by decide)) (Disciplined_Done _ _)

theorem AcceptNumMeshes_accepted {p q : MD5MeshParser}
    (h : MD5MeshParser.AcceptNumMeshes p = some (some (), q)) :
    ∃ numMeshes : Int, q.members = { p.members with mNumExpectedMeshes := numMeshes } := by
  obtain ⟨n, p2, h1, h2⟩ := andThen_accepted.mp h
  have hk : p2.members = p.members :=
    (KeepsMembers_andThen (RequireIdentifier_keeps _) fun _ => AcceptInt_keeps) p _ p2 h1
  split_ifs at h2 with hc
  · simp [MD5ParserBase.Reject] at h2
  · simp only [MD5ParserBase.Done, Option.some.injEq, Prod.mk.injEq, true_and] at h2
    exact ⟨n, by rw [← h2, hk]⟩

theorem MeshParse_disciplined (library : FloatLibrary) (bound : Nat) :
    Disciplined (MD5MeshParser.Parse library bound) :=
  Disciplined_andThen AcceptVersion_disciplined fun _ =>
    Disciplined_andThen (Disciplined_after _ (AcceptCommandLine_disciplined bound)) fun _ =>
      Disciplined_andThen (Disciplined_after _ MeshNumJoints_disciplined) fun _ =>
        Disciplined_andThen AcceptNumMeshes_disciplined fun _ =>
          Disciplined_andThen (AcceptJoints_disciplined library bound) fun _ =>
            AcceptMeshes_disciplined library bound

theorem MeshParse_accepted {library : FloatLibrary} {bound : Nat} {p q : MD5MeshParser}
    (hjoints : p.members.mModel.BindPoseJoints = [])
    (hmeshes : p.members.mModel.Meshes = [])
    (haccepted : p.members.Accepted = [])
    (h : MD5MeshParser.Parse library bound p = some (some (), q)) :
    ModelParsed q.members.mModel q.members.Accepted ∧
    q.members.mNumExpectedJoints = q.members.mModel.BindPoseJoints.length := by
  obtain ⟨version, p1, h1, h2⟩ := andThen_accepted.mp h
  have hk1 := AcceptVersion_keeps p _ p1 h1
  obtain ⟨commandLine, p2, h3, h4⟩ := andThen_accepted.mp h2
  have hk2 := AcceptCommandLine_keeps bound _ _ p2 h3
  simp only at hk2
  obtain ⟨_, p3, h5, h6⟩ := andThen_accepted.mp h4
  obtain ⟨nj, hnj, hm3⟩ := MeshNumJoints_accepted h5
  simp only at hm3
  obtain ⟨_, p4, h7, h8⟩ := andThen_accepted.mp h6
  obtain ⟨nm, hm4⟩ := AcceptNumMeshes_accepted h7
  obtain ⟨_, p5, h9, h10⟩ := andThen_accepted.mp h8
  have hj4 : p4.members.mModel.BindPoseJoints = [] := by
    rw [hm4, hm3, hk2, hk1]
    exact hjoints
  have hn4 : p4.members.mNumExpectedJoints = nj := by
    rw [hm4, hm3]
  obtain ⟨joints, hm5, hlen, hpf⟩ := AcceptJoints_accepted hj4 (by rw [hn4]; exact hnj) h9
  have hms5 : p5.members.mModel.Meshes = [] := by
    rw [hm5, hm4, hm3, hk2, hk1]
    exact hmeshes
  have hacc5 : p5.members.Accepted = [] := by
    rw [hm5, hm4, hm3, hk2, hk1]
    exact haccepted
  have hn5 : p5.members.mNumExpectedJoints = joints.length := by
    rw [hm5]
    simp only
    rw [hlen]
  have hj5 : p5.members.mModel.BindPoseJoints = joints := by
    rw [hm5]
  have hstart : MeshesParsed p5.members.mNumExpectedJoints p5.members.mModel.Meshes
      p5.members.Accepted := by
    rw [hms5, hacc5]
    exact ⟨fun e he => by simp at he, fun k mesh hk => by simp at hk⟩
  obtain ⟨hph, hmp⟩ := AcceptMeshes_accepted hstart h10
  refine ⟨⟨?_, ?_⟩, ?_⟩
  · rw [hph.joints, hj5]
    exact hpf
  · rw [hph.joints, hj5, ← hn5]
    exact hmp
  · rw [hph.numJoints, hph.joints, hn5, hj5]


/-! ## Lemmas on the animation parser -/

theorem AnimPhase_same (m : MD5AnimParserMembers) : AnimPhase m m :=
  ⟨rfl, rfl, rfl⟩

theorem AnimPhase_chain {a b c : MD5AnimParserMembers} (h1 : AnimPhase a b)
    (h2 : AnimPhase b c) : AnimPhase a c :=
  ⟨h2.joints.trans h1.joints, h2.frames.trans h1.frames,
    h2.components.trans h1.components⟩

theorem AcceptNumFrames_accepted {p q : MD5AnimParser}
    (h : MD5AnimParser.AcceptNumFrames p = some (some (), q)) :
    ∃ numFrames : Int, q.members = { p.members with mNumExpectedFrames := numFrames } := by
  obtain ⟨n, p2, h1, h2⟩ := andThen_accepted.mp h
  have hk : p2.members = p.members :=
    (KeepsMembers_andThen (RequireIdentifier_keeps _) fun _ => AcceptInt_keeps) p _ p2 h1
  split_ifs at h2 with hc
  · simp [MD5ParserBase.Reject] at h2
  · simp only [MD5ParserBase.Done, Option.some.injEq, Prod.mk.injEq, true_and] at h2
    exact ⟨n, by rw [← h2, hk]⟩

theorem AnimNumJoints_accepted {p q : MD5AnimParser}
    (h : MD5AnimParser.AcceptNumJoints p = some (some (), q)) :
    ∃ numJoints : Int, q.members = { p.members with mNumExpectedJoints := numJoints } := by
  obtain ⟨n, p2, h1, h2⟩ := andThen_accepted.mp h
  have hk : p2.members = p.members :=
    (KeepsMembers_andThen (RequireIdentifier_keeps _) fun _ => AcceptInt_keeps) p _ p2 h1
  split_ifs at h2 with hc
  · simp [MD5ParserBase.Reject] at h2
  · simp only [MD5ParserBase.Done, Option.some.injEq, Prod.mk.injEq, true_and] at h2
    exact ⟨n, by rw [← h2, hk]⟩

theorem AcceptFrameRate_accepted {p q : MD5AnimParser}
    (h : MD5AnimParser.AcceptFrameRate p = some (some (), q)) :
    ∃ frameRate : Int,
      q.members
        = { p.members with mAnim := { p.members.mAnim with FrameRate := frameRate } } := by
  obtain ⟨n, p2, h1, h2⟩ := andThen_accepted.mp h
  have hk : p2.members = p.members :=
    (KeepsMembers_andThen (RequireIdentifier_keeps _) fun _ => AcceptInt_keeps) p _ p2 h1
  split_ifs at h2 with hc
  · simp [MD5ParserBase.Reject] at h2
  · simp only [MD5ParserBase.Done, Option.some.injEq, Prod.mk.injEq, true_and] at h2
    exact ⟨n, by rw [← h2, hk]⟩

theorem AcceptNumAnimatedComponents_accepted {p q : MD5AnimParser}
    (h : MD5AnimParser.AcceptNumAnimatedComponents p = some (some (), q)) :
    ∃ numAnimatedComponents : Int,
      q.members
        = { p.members with mNumExpectedAnimatedComponents := numAnimatedComponents } := by
  obtain ⟨n, p2, h1, h2⟩ := andThen_accepted.mp h
  have hk : p2.members = p.members :=
    (KeepsMembers_andThen (RequireIdentifier_keeps _) fun _ => AcceptInt_keeps) p _ p2 h1
  split_ifs at h2 with hc
  · simp [MD5ParserBase.Reject] at h2
  · simp only [MD5ParserBase.Done, Option.some.injEq, Prod.mk.injEq, true_and] at h2
    exact ⟨n, by rw [← h2, hk]⟩

theorem AcceptHierarchyJointFields_keeps (bound : Nat) :
    KeepsMembers (MD5AnimParser.AcceptHierarchyJointFields bound) :=
  KeepsMembers_andThen (AcceptDoubleQuotedString_keeps bound) fun _ =>
    KeepsMembers_andThen AcceptInt_keeps fun _ =>
      KeepsMembers_andThen AcceptInt_keeps fun _ =>
        KeepsMembers_andThen AcceptInt_keeps fun _ => KeepsMembers_Done _

theorem or_63_le {n : Nat} (h : ¬ n ||| 63 ≠ 63) : n ≤ 63 := by
  have h2 : n ||| 63 = 63 := by
    by_contra hc
    exact h hc
  by_contra hgt
  have hge : n ≥ 2 ^ 6 := by
    have : (2 : Nat) ^ 6 = 64 := by decide
    omega
  obtain ⟨i, hi, hbit⟩ := Nat.ge_two_pow_implies_high_bit_true hge
  have h63 : (63 : Nat).testBit i = false :=
    Nat.testBit_lt_two_pow (Nat.lt_of_lt_of_le (by decide : 63 < 2 ^ 6)
      (Nat.pow_le_pow_right (by decide) hi))
  have hor : (n ||| 63).testBit i = true := by
    rw [Nat.testBit_or, hbit]
    rfl
  rw [h2, h63] at hor
  cases hor

theorem AcceptHierarchyJoint_accepted {bound : Nat} {p q : MD5AnimParser}
    (h : MD5AnimParser.AcceptHierarchyJoint bound p = some (some (), q)) :
    ∃ joint : MD5AnimationJoint,
      -1 ≤ joint.ParentIndex ∧
      joint.ParentIndex < toInt32 p.members.mAnim.Joints.length ∧
      HierarchyJointAccepted p.members.mNumExpectedAnimatedComponents joint ∧
      q.members
        = { p.members with
            mAnim := { p.members.mAnim with Joints := p.members.mAnim.Joints ++ [joint] } } := by
  obtain ⟨fields, p1, h1, h2⟩ := andThen_accepted.mp h
  have hk := AcceptHierarchyJointFields_keeps bound p _ p1 h1
  split_ifs at h2 with hc1 hc2 hc3 hc4 hc5
  · simp [MD5ParserBase.Reject] at h2
  · simp [MD5ParserBase.Reject] at h2
  · simp [MD5ParserBase.Reject] at h2
  · simp [MD5ParserBase.Reject] at h2
  · simp [MD5ParserBase.Reject] at h2
  · simp only [MD5ParserBase.Done, Option.some.injEq, Prod.mk.injEq, true_and] at h2
    rw [hk] at hc1 hc2 hc3
    refine ⟨_, ?_, ?_, ⟨or_63_le hc5, ?_, ?_⟩, by rw [← h2, hk]⟩
    · simp only; omega
    · simp only; omega
    · simp only; omega
    · simp only; omega

theorem AcceptHierarchy_accepted {bound : Nat} {p q : MD5AnimParser}
    (hempty : p.members.mAnim.Joints = [])
    (h : MD5AnimParser.AcceptHierarchy bound p = some (some (), q)) :
    ∃ joints : List MD5AnimationJoint,
      q.members = { p.members with mAnim := { p.members.mAnim with Joints := joints } } ∧
      ParentsFirst (joints.map fun joint => joint.ParentIndex) ∧
      ∀ joint ∈ joints,
        HierarchyJointAccepted p.members.mNumExpectedAnimatedComponents joint := by
  obtain ⟨u, p2, h1, h2⟩ := andThen_accepted.mp h
  have hk : p2.members = p.members :=
    (KeepsMembers_andThen (RequireIdentifier_keeps _) fun _ => RequireChar_keeps _) p _ p2 h1
  obtain ⟨c, p3, h3, h4⟩ := andThen_accepted.mp h2
  have hinv := AcceptLoop_invariant _ _ (MD5AnimParser.AcceptHierarchyJoint bound)
    (fun n m => ∃ joints : List MD5AnimationJoint,
      m = { p.members with mAnim := { p.members.mAnim with Joints := joints } } ∧
      joints.length = n ∧ n ≤ 2147483648 ∧
      ParentsFirst (joints.map fun joint => joint.ParentIndex) ∧
      ∀ joint ∈ joints,
        HierarchyJointAccepted p.members.mNumExpectedAnimatedComponents joint)
    (by
      rintro n a b ⟨joints, hm, hlen, hle, hpf, hall⟩ hb
      obtain ⟨joint, hj1, hj2, hja, hj3⟩ := AcceptHierarchyJoint_accepted hb
      rw [hm] at hj2 hj3 hja
      simp only at hj2 hj3 hja
      rw [hlen] at hj2
      have hn : n < 2147483648 := by
        by_contra hc
        have : n = 2147483648 := by omega
        subst this
        have : toInt32 ((2147483648 : Nat) : Int) = -2147483648 := by decide
        rw [this] at hj2
        omega
      rw [toInt32_of_range (by omega) (by omega)] at hj2
      refine ⟨joints ++ [joint], hj3, by simp [hlen], by omega, ?_, ?_⟩
      · rw [List.map_append]
        exact ParentsFirst_append hpf hj1 (by simpa [hlen] using hj2)
      · intro j hj
        rw [List.mem_append, List.mem_singleton] at hj
        rcases hj with hj | hj
        · exact hall j hj
        · rw [hj]; exact hja)
    bound 0 p2 c p3
    ⟨[], by rw [hk, ← hempty], rfl, by omega, ParentsFirst_nil,
      fun j hj => by simp at hj⟩
    h3
  obtain ⟨n, ⟨joints, hm, hlen, hle, hpf, hall⟩, hc⟩ := hinv
  split_ifs at h4 with hne
  · simp [MD5ParserBase.Reject] at h4
  · simp only [MD5ParserBase.Done, Option.some.injEq, Prod.mk.injEq, true_and] at h4
    exact ⟨joints, by rw [← h4, hm], hpf, hall⟩

theorem AcceptBound_accepted {library : FloatLibrary} {p q : MD5AnimParser}
    (h : MD5AnimParser.AcceptBound library p = some (some (), q)) :
    AnimPhase p.members q.members := by
  obtain ⟨bounds, p3, h1, h2⟩ := andThen_accepted.mp h
  have hk : p3.members = p.members :=
    (KeepsMembers_andThen (AcceptTriple_keeps library) fun _ =>
      KeepsMembers_andThen (AcceptTriple_keeps library) fun _ => KeepsMembers_Done _)
      p _ p3 h1
  split_ifs at h2 with hc
  · simp [MD5ParserBase.Reject] at h2
  · simp only [MD5ParserBase.Done, Option.some.injEq, Prod.mk.injEq, true_and] at h2
    rw [← h2, hk]
    exact ⟨rfl, rfl, rfl⟩

theorem AcceptBounds_accepted {library : FloatLibrary} {bound : Nat} {p q : MD5AnimParser}
    (h : MD5AnimParser.AcceptBounds library bound p = some (some (), q)) :
    AnimPhase p.members q.members := by
  obtain ⟨u, p2, h1, h2⟩ := andThen_accepted.mp h
  have hk : p2.members = p.members :=
    (KeepsMembers_andThen (RequireIdentifier_keeps _) fun _ => RequireChar_keeps _) p _ p2 h1
  obtain ⟨c, p3, h3, h4⟩ := andThen_accepted.mp h2
  have hinv := AcceptLoop_invariant _ _ (MD5AnimParser.AcceptBound library)
    (fun _ m => AnimPhase p.members m)
    (fun n a b ha hb => AnimPhase_chain ha (AcceptBound_accepted hb))
    bound 0 p2 c p3 (by rw [hk]; exact AnimPhase_same _) h3
  obtain ⟨n, hph, _⟩ := hinv
  split_ifs at h4 with hne
  · simp [MD5ParserBase.Reject] at h4
  · simp only [MD5ParserBase.Done, Option.some.injEq, Prod.mk.injEq, true_and] at h4
    rw [← h4]
    exact hph

theorem AcceptBaseFrameJointPose_accepted {library : FloatLibrary} {p q : MD5AnimParser}
    (h : MD5AnimParser.AcceptBaseFrameJointPose library p = some (some (), q)) :
    AnimPhase p.members q.members := by
  obtain ⟨position, p1, h1, h2⟩ := andThen_accepted.mp h
  have hk1 := AcceptTriple_keeps library p _ p1 h1
  obtain ⟨orientation, p2, h3, h4⟩ := andThen_accepted.mp h2
  have hk2 := AcceptTriple_keeps library p1 _ p2 h3
  simp only [MD5ParserBase.Done, Option.some.injEq, Prod.mk.injEq, true_and] at h4
  rw [← h4, hk2, hk1]
  exact ⟨rfl, rfl, rfl⟩

theorem AcceptBaseFrame_accepted {library : FloatLibrary} {bound : Nat} {p q : MD5AnimParser}
    (h : MD5AnimParser.AcceptBaseFrame library bound p = some (some (), q)) :
    AnimPhase p.members q.members := by
  obtain ⟨u, p2, h1, h2⟩ := andThen_accepted.mp h
  have hk : p2.members = p.members :=
    (KeepsMembers_andThen (RequireIdentifier_keeps _) fun _ => RequireChar_keeps _) p _ p2 h1
  obtain ⟨c, p3, h3, h4⟩ := andThen_accepted.mp h2
  have hinv := AcceptLoop_invariant _ _ (MD5AnimParser.AcceptBaseFrameJointPose library)
    (fun _ m => AnimPhase p.members m)
    (fun n a b ha hb => AnimPhase_chain ha (AcceptBaseFrameJointPose_accepted hb))
    bound 0 p2 c p3 (by rw [hk]; exact AnimPhase_same _) h3
  obtain ⟨n, hph, _⟩ := hinv
  split_ifs at h4 with hne
  · simp [MD5ParserBase.Reject] at h4
  · simp only [MD5ParserBase.Done, Option.some.injEq, Prod.mk.injEq, true_and] at h4
    rw [← h4]
    exact hph

theorem AcceptAnimationComponent_accepted {library : FloatLibrary} {p q : MD5AnimParser}
    (h : MD5AnimParser.AcceptAnimationComponent library p = some (some (), q)) :
    ∃ value : Float32,
      q.members
        = { p.members with
            mAnim :=
              { p.members.mAnim with
                Frames :=
                  modifyBack
                    (fun frame =>
                      { frame with
                        AnimationComponents := frame.AnimationComponents ++ [value] })
                    p.members.mAnim.Frames } } := by
  obtain ⟨value, p1, h1, h2⟩ := andThen_accepted.mp h
  have hk := AcceptFloat_keeps library p _ p1 h1
  simp only [MD5ParserBase.Done, Option.some.injEq, Prod.mk.injEq, true_and] at h2
  exact ⟨value, by rw [← h2, hk]⟩

theorem AcceptAnimationComponents_accepted {library : FloatLibrary} {bound : Nat}
    {p q : MD5AnimParser} {frames : List MD5Frame}
    (hframes : p.members.mAnim.Frames = frames ++ [{ AnimationComponents := [] }])
    (h : MD5AnimParser.AcceptAnimationComponents library bound p = some (some (), q)) :
    ∃ values : List Float32,
      q.members
        = { p.members with
            mAnim :=
              { p.members.mAnim with
                Frames := frames ++ [{ AnimationComponents := values }] } } ∧
      toInt32 values.length = p.members.mNumExpectedAnimatedComponents ∧
      ∀ joint ∈ p.members.mAnim.Joints,
        FrameDataOutOfRange p.members.mNumExpectedAnimatedComponents joint = false := by
  obtain ⟨c, p1, h1, h2⟩ := andThen_accepted.mp h
  have hinv := AcceptLoop_invariant _ _ (MD5AnimParser.AcceptAnimationComponent library)
    (fun n m => ∃ values : List Float32,
      m = { p.members with
            mAnim :=
              { p.members.mAnim with
                Frames := frames ++ [{ AnimationComponents := values }] } } ∧
      values.length = n)
    (by
      rintro n a b ⟨values, hm, hlen⟩ hb
      obtain ⟨value, hq⟩ := AcceptAnimationComponent_accepted hb
      refine ⟨values ++ [value], ?_, by simp [hlen]⟩
      rw [hq, hm]
      simp only
      rw [modifyBack_concat])
    bound 0 p c p1 ⟨[], by rw [← hframes], rfl⟩ h1
  obtain ⟨n, ⟨values, hm, hlen⟩, hc⟩ := hinv
  split_ifs at h2 with hne hany
  · simp [MD5ParserBase.Reject] at h2
  · simp [MD5ParserBase.Reject] at h2
  · simp only [MD5ParserBase.Done, Option.some.injEq, Prod.mk.injEq, true_and] at h2
    subst h2
    have hc2 : c = p1.members.mNumExpectedAnimatedComponents := by
      by_contra hx
      exact hne hx
    rw [hm] at hc2 hany
    simp only at hc2 hany
    refine ⟨values, hm, by rw [hlen, ← hc, hc2], ?_⟩
    intro joint hj
    simp only [List.any_eq_true, not_exists, not_and, Bool.not_eq_true] at hany
    rw [← hc2]
    exact hany joint hj

theorem AcceptFrame_accepted {library : FloatLibrary} {bound : Nat} {p q : MD5AnimParser}
    (h : MD5AnimParser.AcceptFrame library bound p = some (some (), q)) :
    ∃ values : List Float32,
      q.members
        = { p.members with
            mAnim :=
              { p.members.mAnim with
                Frames := p.members.mAnim.Frames ++ [{ AnimationComponents := values }] } } ∧
      toInt32 values.length = p.members.mNumExpectedAnimatedComponents ∧
      ∀ joint ∈ p.members.mAnim.Joints,
        FrameDataOutOfRange p.members.mNumExpectedAnimatedComponents joint = false := by
  obtain ⟨frameNumber, p4, h1, h2⟩ := andThen_accepted.mp h
  have hk : p4.members = p.members :=
    (KeepsMembers_andThen (RequireIdentifier_keeps _) fun _ =>
      KeepsMembers_andThen AcceptInt_keeps fun _ =>
        KeepsMembers_andThen (RequireChar_keeps _) fun _ => KeepsMembers_Done _) p _ p4 h1
  split_ifs at h2 with hc
  · simp [MD5ParserBase.Reject] at h2
  · obtain ⟨_, p5, h3, h4⟩ := andThen_accepted.mp h2
    obtain ⟨values, hm, hlen, hdata⟩ :=
      @AcceptAnimationComponents_accepted _ _ _ _ p4.members.mAnim.Frames rfl h3
    have hk5 := RequireChar_keeps _ p5 _ q h4
    simp only at hm hlen hdata
    rw [hk] at hm hlen hdata
    exact ⟨values, by rw [hk5, hm], hlen, hdata⟩

theorem AcceptFrames_accepted {library : FloatLibrary} {bound : Nat} {p q : MD5AnimParser}
    (hempty : p.members.mAnim.Frames = [])
    (h : MD5AnimParser.AcceptFrames library bound p = some (some (), q)) :
    q.members.mAnim.Joints = p.members.mAnim.Joints ∧
    q.members.mNumExpectedAnimatedComponents = p.members.mNumExpectedAnimatedComponents ∧
    (∀ frame ∈ q.members.mAnim.Frames,
      toInt32 frame.AnimationComponents.length
        = p.members.mNumExpectedAnimatedComponents) ∧
    (q.members.mAnim.Frames ≠ [] →
      ∀ joint ∈ p.members.mAnim.Joints,
        FrameDataOutOfRange p.members.mNumExpectedAnimatedComponents joint = false) := by
  obtain ⟨c, p1, h1, h2⟩ := andThen_accepted.mp h
  have hinv := AcceptLoop_invariant _ _ (MD5AnimParser.AcceptFrame library bound)
    (fun _ m =>
      m.mAnim.Joints = p.members.mAnim.Joints ∧
      m.mNumExpectedAnimatedComponents = p.members.mNumExpectedAnimatedComponents ∧
      (∀ frame ∈ m.mAnim.Frames,
        toInt32 frame.AnimationComponents.length
          = p.members.mNumExpectedAnimatedComponents) ∧
      (m.mAnim.Frames ≠ [] →
        ∀ joint ∈ p.members.mAnim.Joints,
          FrameDataOutOfRange p.members.mNumExpectedAnimatedComponents joint = false))
    (by
      rintro n a b ⟨hj, hn, hfr, hdata⟩ hb
      obtain ⟨values, hm, hlen, hd⟩ := AcceptFrame_accepted hb
      rw [hn] at hlen hd
      rw [hj] at hd
      refine ⟨by rw [hm]; exact hj, by rw [hm]; exact hn, ?_, fun _ => hd⟩
      intro frame hf
      rw [hm] at hf
      simp only [List.mem_append, List.mem_singleton] at hf
      rcases hf with hf | hf
      · exact hfr frame hf
      · rw [hf]; exact hlen)
    bound 0 p c p1
    ⟨rfl, rfl, by rw [hempty]; intro f hf; simp at hf, fun hne => absurd hempty hne⟩ h1
  obtain ⟨n, hall, _⟩ := hinv
  split_ifs at h2 with hne
  · simp [MD5ParserBase.Reject] at h2
  · simp only [MD5ParserBase.Done, Option.some.injEq, Prod.mk.injEq, true_and] at h2
    subst h2
    exact hall

theorem AnimParse_accepted {library : FloatLibrary} {bound : Nat} {p q : MD5AnimParser}
    (hjoints : p.members.mAnim.Joints = [])
    (hframes : p.members.mAnim.Frames = [])
    (h : MD5AnimParser.Parse library bound p = some (some (), q)) :
    AnimParsed q.members.mAnim q.members.mNumExpectedAnimatedComponents := by
  obtain ⟨version, p1, h1, h2⟩ := andThen_accepted.mp h
  have hk1 := AcceptVersion_keeps p _ p1 h1
  obtain ⟨commandLine, p2, h3, h4⟩ := andThen_accepted.mp h2
  have hk2 := AcceptCommandLine_keeps bound _ _ p2 h3
  simp only at hk2
  obtain ⟨_, p3, h5, h6⟩ := andThen_accepted.mp h4
  obtain ⟨nf, hm3⟩ := AcceptNumFrames_accepted h5
  simp only at hm3
  obtain ⟨_, p4, h7, h8⟩ := andThen_accepted.mp h6
  obtain ⟨nj, hm4⟩ := AnimNumJoints_accepted h7
  obtain ⟨_, p5, h9, h10⟩ := andThen_accepted.mp h8
  obtain ⟨fr, hm5⟩ := AcceptFrameRate_accepted h9
  obtain ⟨_, p6, h11, h12⟩ := andThen_accepted.mp h10
  obtain ⟨nc, hm6⟩ := AcceptNumAnimatedComponents_accepted h11
  obtain ⟨_, p7, h13, h14⟩ := andThen_accepted.mp h12
  have hj6 : p6.members.mAnim.Joints = [] := by
    rw [hm6, hm5, hm4, hm3, hk2, hk1]
    exact hjoints
  have hf6 : p6.members.mAnim.Frames = [] := by
    rw [hm6, hm5, hm4, hm3, hk2, hk1]
    exact hframes
  obtain ⟨joints, hm7, hpf, hall⟩ := AcceptHierarchy_accepted hj6 h13
  obtain ⟨_, p8, h15, h16⟩ := andThen_accepted.mp h14
  have hph8 := AcceptBounds_accepted h15
  obtain ⟨_, p9, h17, h18⟩ := andThen_accepted.mp h16
  have hph9 := AnimPhase_chain hph8 (AcceptBaseFrame_accepted h17)
  have hj7 : p7.members.mAnim.Joints = joints := by rw [hm7]
  have hf7 : p7.members.mAnim.Frames = [] := by rw [hm7]; exact hf6
  have hc7 : p7.members.mNumExpectedAnimatedComponents
      = p6.members.mNumExpectedAnimatedComponents := by rw [hm7]
  obtain ⟨hjq, hcq, hfr, hdata⟩ := AcceptFrames_accepted (by rw [hph9.frames, hf7]) h18
  rw [hph9.components, hc7] at hcq hfr hdata
  rw [hph9.joints, hj7] at hjq hdata
  exact
    { parents := by rw [hjq]; exact hpf
      joints := by rw [hjq, hcq]; exact hall
      frames := by rw [hcq]; exact hfr
      data := by rw [hjq, hcq]; exact hdata }


/-! ## The claims on the MD5 loader -/

theorem TryLoadMD5Mesh_true {library : FloatLibrary} {bound : Nat} {model loaded : MD5Model}
    {md5meshFile : IReadFile} {error message : String}
    (h : TryLoadMD5Mesh library bound model md5meshFile error = some (true, loaded, message)) :
    ∃ parser : MD5MeshParser,
      (MD5MeshParser.create MD5Model.empty md5meshFile "").Parse library bound
        = some (some (), parser) ∧
      parser.members.mModel = loaded ∧ parser.mError = message := by
  unfold TryLoadMD5Mesh at h
  split at h
  · cases h
  · simp at h
  · next u parser hp =>
    simp only [Option.some.injEq, Prod.mk.injEq, true_and] at h
    exact ⟨parser, hp, h.1, h.2⟩

theorem TryLoadMD5Mesh_parsed {library : FloatLibrary} {bound : Nat} {model loaded : MD5Model}
    {md5meshFile : IReadFile} {error message : String}
    (h : TryLoadMD5Mesh library bound model md5meshFile error = some (true, loaded, message)) :
    ∃ parser : MD5MeshParser,
      (MD5MeshParser.create MD5Model.empty md5meshFile "").Parse library bound
        = some (some (), parser) ∧
      parser.members.mModel = loaded ∧
      ModelParsed loaded parser.members.Accepted ∧
      parser.members.mNumExpectedJoints = loaded.BindPoseJoints.length := by
  obtain ⟨parser, hp, hl, _⟩ := TryLoadMD5Mesh_true h
  obtain ⟨hm, hn⟩ := MeshParse_accepted rfl rfl rfl hp
  rw [hl] at hm hn
  exact ⟨parser, hp, hl, hm, hn⟩

theorem TryLoadMD5Anim_parsed {library : FloatLibrary} {bound : Nat} {anim loaded : MD5Anim}
    {md5animFile : IReadFile} {error message : String}
    (h : TryLoadMD5Anim library bound anim md5animFile error = some (true, loaded, message)) :
    ∃ parser : MD5AnimParser,
      (MD5AnimParser.create MD5Anim.empty md5animFile "").Parse library bound
        = some (some (), parser) ∧
      parser.members.mAnim = loaded ∧
      AnimParsed loaded parser.members.mNumExpectedAnimatedComponents := by
  unfold TryLoadMD5Anim at h
  split at h
  · cases h
  · simp at h
  · next u parser hp =>
    simp only [Option.some.injEq, Prod.mk.injEq, true_and] at h
    have hm := AnimParse_accepted rfl rfl hp
    rw [h.1] at hm
    exact ⟨parser, hp, h.1, hm⟩

/-- C23: when `parents` is the list of the parent indices of the joints of a mesh
that `TryLoadMD5Mesh` has loaded (`BindPoseJoints`), or of the hierarchy joints
of an animation that `TryLoadMD5Anim` has loaded, in their order, the parent
index at every position `i` is at least -1 and smaller than `i`; this holds for
every float library and every bound on the loops. -/
theorem parents_appear_before_children (library : FloatLibrary) (bound : Nat)
    (md5File : IReadFile) (parents : List Int)
    (h : (∃ (model loaded : MD5Model) (error message : String),
          TryLoadMD5Mesh library bound model md5File error = some (true, loaded, message) ∧
          parents = loaded.BindPoseJoints.map fun joint => joint.ParentIndex) ∨
        (∃ (anim loaded : MD5Anim) (error message : String),
          TryLoadMD5Anim library bound anim md5File error = some (true, loaded, message) ∧
          parents = loaded.Joints.map fun joint => joint.ParentIndex)) :
    ∀ (i : Nat) (parent : Int), parents[i]? = some parent → -1 ≤ parent ∧ parent < i := by
  rcases h with ⟨model, loaded, error, message, hl, hp⟩ | ⟨anim, loaded, error, message, hl, hp⟩
  · obtain ⟨parser, _, _, hm, _⟩ := TryLoadMD5Mesh_parsed hl
    rw [hp]
    exact hm.joints
  · obtain ⟨parser, _, _, hm⟩ := TryLoadMD5Anim_parsed hl
    rw [hp]
    exact hm.parents

/-- Witness of C23: the sample mesh file is loaded, and the parent indices of its
two joints are -1 and 0. -/
theorem parents_appear_before_children_witness :
    (loadedMesh decimalFloats 64 sampleMeshFile).2.1.BindPoseJoints.map
        (fun joint => joint.ParentIndex) = [-1, 0] ∧
    ∀ (i : Nat) (parent : Int),
      ((loadedMesh decimalFloats 64 sampleMeshFile).2.1.BindPoseJoints.map
        fun joint => joint.ParentIndex)[i]? = some parent → -1 ≤ parent ∧ parent < i :=
  ⟨by decide,
   parents_appear_before_children decimalFloats 64 sampleMeshFile _
     (Or.inl ⟨MD5Model.empty, (loadedMesh decimalFloats 64 sampleMeshFile).2.1, "",
       (loadedMesh decimalFloats 64 sampleMeshFile).2.2, by rfl, rfl⟩)⟩


/-- C24: when `TryLoadMD5Mesh` has loaded a mesh file, the parser has accepted
a list of indexed entries from which the loaded model results, every entry
belongs to a mesh of the model, and for every mesh of the model the indices of
its `vert` entries are, up to their order, the indices from 0 to the number of
its vertices, each exactly once; likewise the indices of its `tri` entries for
its triangles and of its `weight` entries for its weights. -/
theorem entries_cover_each_index_once (library : FloatLibrary) (bound : Nat)
    (model loaded : MD5Model) (md5meshFile : IReadFile) (error message : String)
    (h : TryLoadMD5Mesh library bound model md5meshFile error = some (true, loaded, message)) :
    ∃ parser : MD5MeshParser,
      (MD5MeshParser.create MD5Model.empty md5meshFile "").Parse library bound
        = some (some (), parser) ∧
      parser.members.mModel = loaded ∧
      (∀ e ∈ parser.members.Accepted, e.Mesh < loaded.Meshes.length) ∧
      ∀ (k : Nat) (mesh : MD5Mesh), loaded.Meshes[k]? = some mesh →
        (EntriesOf parser.members.Accepted k EntryKind.vert).Perm
          (IndicesBelow mesh.Vertices.length) ∧
        (EntriesOf parser.members.Accepted k EntryKind.tri).Perm
          (IndicesBelow mesh.Triangles.length) ∧
        (EntriesOf parser.members.Accepted k EntryKind.weight).Perm
          (IndicesBelow mesh.Weights.length) := by
  obtain ⟨parser, hp, hl, hm, _⟩ := TryLoadMD5Mesh_parsed h
  refine ⟨parser, hp, hl, hm.meshes.known, fun k mesh hk => ?_⟩
  have := hm.meshes.parsed k mesh hk
  exact ⟨this.verts, this.tris, this.weights⟩

/-- Witness of C24: the sample mesh file is loaded; its mesh has three vertices,
whose `vert` entries come in the order 0, 2, 1. -/
theorem entries_cover_each_index_once_witness :
    TryLoadMD5Mesh decimalFloats 64 previousModel sampleMeshFile "stale"
      = some (true, (loadedMesh decimalFloats 64 sampleMeshFile).2.1, "") ∧
    ∃ parser : MD5MeshParser,
      (MD5MeshParser.create MD5Model.empty sampleMeshFile "").Parse decimalFloats 64
        = some (some (), parser) ∧
      parser.members.mModel = (loadedMesh decimalFloats 64 sampleMeshFile).2.1 ∧
      (∀ e ∈ parser.members.Accepted,
        e.Mesh < (loadedMesh decimalFloats 64 sampleMeshFile).2.1.Meshes.length) ∧
      ∀ (k : Nat) (mesh : MD5Mesh),
        (loadedMesh decimalFloats 64 sampleMeshFile).2.1.Meshes[k]? = some mesh →
        (EntriesOf parser.members.Accepted k EntryKind.vert).Perm
          (IndicesBelow mesh.Vertices.length) ∧
        (EntriesOf parser.members.Accepted k EntryKind.tri).Perm
          (IndicesBelow mesh.Triangles.length) ∧
        (EntriesOf parser.members.Accepted k EntryKind.weight).Perm
          (IndicesBelow mesh.Weights.length) :=
  ⟨by rfl,
   entries_cover_each_index_once decimalFloats 64 previousModel
     (loadedMesh decimalFloats 64 sampleMeshFile).2.1 sampleMeshFile "stale" "" (by rfl)⟩

/-- C25, at the failing input: the file `overflowMeshFile` is loaded. Its mesh has
two weights and one vertex with `StartWeight` 1 and `WeightCount` 2147483647:
the sum 2147483648 exceeds the number of weights, but as an `int` addition it
wraps to -2147483648, which the test of `AcceptWeights` lets pass. With a
`WeightCount` of 2 the same file is rejected. -/
theorem weight_range_test_overflows :
    (loadedMesh decimalFloats 64 overflowMeshFile).1 = true ∧
    (loadedMesh decimalFloats 64 overflowMeshFile).2.2 = "" ∧
    (loadedMesh decimalFloats 64 overflowMeshFile).2.1.Meshes.map
        (fun mesh =>
          (mesh.Weights.length,
            mesh.Vertices.map fun vertex => (vertex.StartWeight, vertex.WeightCount)))
      = [(2, [(1, 2147483647)])] ∧
    ¬ ((1 : Int) + 2147483647 ≤ 2) ∧
    toInt32 (1 + 2147483647) = -2147483648 ∧
    MD5MeshParser.WeightsOutOfBounds 2
      { Texcoords := (Float32.zero, Float32.zero), StartWeight := 1,
        WeightCount := 2147483647 } = false ∧
    MD5MeshParser.WeightsOutOfBounds 2
      { Texcoords := (Float32.zero, Float32.zero), StartWeight := 1, WeightCount := 2 }
      = true ∧
    TryLoadMD5Mesh decimalFloats 64 MD5Model.empty
        (overflowMeshFile.set 10 "  vert 0 ( 0 0 ) 1 2") ""
      = some (false, MD5Model.empty, "StartWeight/WeightCount out of bounds") := by
  decide

/-- C26: when `TryLoadMD5Mesh` has loaded a mesh file, in every mesh of the
loaded model the three `VertexIndices` of every triangle are at least 0 and
smaller than the number of vertices of the mesh, the `JointIndex` of every
weight is at least 0 and smaller than the number of joints of the model, and
the `numJoints` that the parser has read is the number of joints of the model. -/
theorem triangles_and_weights_in_bounds (library : FloatLibrary) (bound : Nat)
    (model loaded : MD5Model) (md5meshFile : IReadFile) (error message : String)
    (h : TryLoadMD5Mesh library bound model md5meshFile error = some (true, loaded, message)) :
    (∀ mesh ∈ loaded.Meshes,
      (∀ triangle ∈ mesh.Triangles,
        (0 ≤ triangle.VertexIndices.1 ∧ triangle.VertexIndices.1 < mesh.Vertices.length) ∧
        (0 ≤ triangle.VertexIndices.2.1 ∧
          triangle.VertexIndices.2.1 < mesh.Vertices.length) ∧
        (0 ≤ triangle.VertexIndices.2.2 ∧
          triangle.VertexIndices.2.2 < mesh.Vertices.length)) ∧
      ∀ weight ∈ mesh.Weights,
        0 ≤ weight.JointIndex ∧ weight.JointIndex < loaded.BindPoseJoints.length) ∧
    ∃ parser : MD5MeshParser,
      (MD5MeshParser.create MD5Model.empty md5meshFile "").Parse library bound
        = some (some (), parser) ∧
      parser.members.mNumExpectedJoints = loaded.BindPoseJoints.length := by
  obtain ⟨parser, hp, hl, hm, hn⟩ := TryLoadMD5Mesh_parsed h
  refine ⟨fun mesh hmesh => ?_, parser, hp, hn⟩
  obtain ⟨k, hk, hkm⟩ := List.getElem_of_mem hmesh
  have := hm.meshes.parsed k mesh (by rw [List.getElem?_eq_getElem hk, hkm])
  exact ⟨this.triangles, this.joints⟩

/-- Witness of C26: the sample mesh file is loaded, with two joints, and the
triangle of its mesh names the vertices 0, 2 and 1 of three. -/
theorem triangles_and_weights_in_bounds_witness :
    (loadedMesh decimalFloats 64 sampleMeshFile).2.1.Meshes.map
        (fun mesh => mesh.Triangles.map fun triangle => triangle.VertexIndices)
      = [[(0, 2, 1)]] ∧
    ∃ parser : MD5MeshParser,
      (MD5MeshParser.create MD5Model.empty sampleMeshFile "").Parse decimalFloats 64
        = some (some (), parser) ∧
      parser.members.mNumExpectedJoints
        = (loadedMesh decimalFloats 64 sampleMeshFile).2.1.BindPoseJoints.length :=
  ⟨by decide,
   (triangles_and_weights_in_bounds decimalFloats 64 MD5Model.empty
     (loadedMesh decimalFloats 64 sampleMeshFile).2.1 sampleMeshFile "" "" (by rfl)).2⟩

theorem ComponentCount_le (Flags : Nat) : ComponentCount Flags ≤ 6 := by
  unfold ComponentCount
  have := List.length_filter_le (fun i => decide (Flags &&& (1 <<< i) ≠ 0)) (List.range 6)
  simp only [List.length_range] at this
  omega

/-- C27, the counterexample: the file `noFrameAnimFile` is loaded. It announces
one animated component and no frame, and its joint has the start index 0 and the
flags 63, six bits: 0 + 6 exceeds 1. The test on the frame data of the joints
is made for each frame, and there is none. -/
theorem no_frame_no_frame_data_test :
    (loadedAnim decimalFloats 64 noFrameAnimFile).1 = true ∧
    (loadedAnim decimalFloats 64 noFrameAnimFile).2.1.Frames = [] ∧
    (loadedAnim decimalFloats 64 noFrameAnimFile).2.1.Joints.map
        (fun joint => (joint.StartIndex, joint.Flags, ComponentCount joint.Flags))
      = [(0, 63, 6)] ∧
    (((MD5AnimParser.create MD5Anim.empty noFrameAnimFile "").Parse decimalFloats 64).map
        fun r => (r.1, r.2.members.mNumExpectedAnimatedComponents))
      = some (some (), 1) ∧
    ¬ ((0 : Int) + 6 ≤ 1) := by
  decide

/-- C27, amended: when `TryLoadMD5Anim` has loaded an animation file that
announces `numAnimatedComponents` animated components, the flags of every joint
are at most 63 and its start index is at least 0 and smaller than
`numAnimatedComponents`; the number of values of every frame, converted to
`int`, is `numAnimatedComponents`, so a frame of fewer than 2147483648 values
holds exactly `numAnimatedComponents` values; and when the animation has a
frame, every joint whose start index is at most 2147483641 has its start index
plus the number of bits set among the 6 low bits of its flags at most
`numAnimatedComponents`. -/
theorem frame_data_in_range_with_a_frame (library : FloatLibrary) (bound : Nat)
    (anim loaded : MD5Anim) (md5animFile : IReadFile) (error message : String)
    (h : TryLoadMD5Anim library bound anim md5animFile error = some (true, loaded, message)) :
    ∃ parser : MD5AnimParser,
      (MD5AnimParser.create MD5Anim.empty md5animFile "").Parse library bound
        = some (some (), parser) ∧
      parser.members.mAnim = loaded ∧
      (∀ joint ∈ loaded.Joints,
        joint.Flags ≤ 63 ∧ 0 ≤ joint.StartIndex ∧
        joint.StartIndex < parser.members.mNumExpectedAnimatedComponents) ∧
      (∀ frame ∈ loaded.Frames,
        toInt32 frame.AnimationComponents.length
          = parser.members.mNumExpectedAnimatedComponents ∧
        (frame.AnimationComponents.length < 2147483648 →
          (frame.AnimationComponents.length : Int)
            = parser.members.mNumExpectedAnimatedComponents)) ∧
      (loaded.Frames ≠ [] →
        ∀ joint ∈ loaded.Joints, joint.StartIndex ≤ 2147483641 →
          joint.StartIndex + ComponentCount joint.Flags
            ≤ parser.members.mNumExpectedAnimatedComponents) := by
  obtain ⟨parser, hp, hl, hm⟩ := TryLoadMD5Anim_parsed h
  refine ⟨parser, hp, hl, hm.joints, fun frame hf => ?_, fun hne joint hj hmax => ?_⟩
  · refine ⟨hm.frames frame hf, fun hlt => ?_⟩
    have := hm.frames frame hf
    rw [toInt32_of_range (by omega) (by omega)] at this
    exact this
  · have hd := hm.data hne joint hj
    have hja := hm.joints joint hj
    have hcc := ComponentCount_le joint.Flags
    have hcc0 : 0 ≤ ComponentCount joint.Flags := by
      unfold ComponentCount
      omega
    unfold FrameDataOutOfRange at hd
    simp only [decide_eq_false_iff_not, not_or, not_lt, ge_iff_le, gt_iff_lt, not_le] at hd
    obtain ⟨_, hsum⟩ := hd
    rw [toInt32_of_range (by have := hja.2.1; omega) (by omega)] at hsum
    exact hsum

/-- Witness of C27, amended: the sample animation file is loaded, with one frame
of four values. -/
theorem frame_data_in_range_with_a_frame_witness :
    (loadedAnim decimalFloats 64 sampleAnimFile).2.1.Frames.map
        (fun frame => frame.AnimationComponents.length) = [4] ∧
    ∃ parser : MD5AnimParser,
      (MD5AnimParser.create MD5Anim.empty sampleAnimFile "").Parse decimalFloats 64
        = some (some (), parser) ∧
      parser.members.mAnim = (loadedAnim decimalFloats 64 sampleAnimFile).2.1 :=
  ⟨by decide,
   (frame_data_in_range_with_a_frame decimalFloats 64 MD5Anim.empty
      (loadedAnim decimalFloats 64 sampleAnimFile).2.1 sampleAnimFile "" "" (by rfl)).imp
     fun _ hparser => ⟨hparser.1, hparser.2.1⟩⟩


/-- C28: `TryLoadMD5Mesh` and `TryLoadMD5Anim` are atomic. When `TryLoadMD5Mesh`
returns `false`, the caller's model is the one before the call. When it returns
`true`, the caller's model is the model of a parser that started from an empty
model and parsed the file, and the call yields the same result, model and
message with any other model and error string of the caller. The same holds of
`TryLoadMD5Anim` and the caller's animation. -/
theorem loaders_are_atomic (library : FloatLibrary) (bound : Nat) (md5File : IReadFile) :
    (∀ (model after : MD5Model) (error message : String) (result : Bool),
      TryLoadMD5Mesh library bound model md5File error = some (result, after, message) →
      (result = false → after = model) ∧
      (result = true →
        (∃ parser : MD5MeshParser,
          (MD5MeshParser.create MD5Model.empty md5File "").Parse library bound
            = some (some (), parser) ∧ parser.members.mModel = after) ∧
        ∀ (other : MD5Model) (stale : String),
          TryLoadMD5Mesh library bound other md5File stale = some (true, after, message))) ∧
    (∀ (anim after : MD5Anim) (error message : String) (result : Bool),
      TryLoadMD5Anim library bound anim md5File error = some (result, after, message) →
      (result = false → after = anim) ∧
      (result = true →
        (∃ parser : MD5AnimParser,
          (MD5AnimParser.create MD5Anim.empty md5File "").Parse library bound
            = some (some (), parser) ∧ parser.members.mAnim = after) ∧
        ∀ (other : MD5Anim) (stale : String),
          TryLoadMD5Anim library bound other md5File stale = some (true, after, message))) := by
  constructor
  · intro model after error message result h
    unfold TryLoadMD5Mesh at h ⊢
    split at h
    · cases h
    · simp only [Option.some.injEq, Prod.mk.injEq] at h
      obtain ⟨h1, h2, _⟩ := h
      exact ⟨fun _ => h2.symm, fun ht => by rw [← h1] at ht; cases ht⟩
    · next u parser hp =>
      simp only [Option.some.injEq, Prod.mk.injEq] at h
      obtain ⟨_, h2, h3⟩ := h
      refine ⟨fun hf => ?_, fun _ => ⟨⟨parser, hp, h2⟩, fun other stale => ?_⟩⟩
      · subst hf
        simp at *
      · simp only [hp, h2, h3]
  · intro anim after error message result h
    unfold TryLoadMD5Anim at h ⊢
    split at h
    · cases h
    · simp only [Option.some.injEq, Prod.mk.injEq] at h
      obtain ⟨h1, h2, _⟩ := h
      exact ⟨fun _ => h2.symm, fun ht => by rw [← h1] at ht; cases ht⟩
    · next u parser hp =>
      simp only [Option.some.injEq, Prod.mk.injEq] at h
      obtain ⟨_, h2, h3⟩ := h
      refine ⟨fun hf => ?_, fun _ => ⟨⟨parser, hp, h2⟩, fun other stale => ?_⟩⟩
      · subst hf
        simp at *
      · simp only [hp, h2, h3]

/-- Witness of C28: a file that announces a negative number of joints is
refused and leaves the caller's model, which has one joint, as it was; the
sample mesh file replaces that model by the one it describes, which is also
what a caller with an empty model obtains. -/
theorem loaders_are_atomic_witness :
    TryLoadMD5Mesh decimalFloats 64 previousModel negativeJointsFile "stale"
      = some (false, previousModel, "numJoints < 0") ∧
    TryLoadMD5Mesh decimalFloats 64 previousModel sampleMeshFile "stale"
      = some (true, (loadedMesh decimalFloats 64 sampleMeshFile).2.1, "") ∧
    ∀ (other : MD5Model) (stale : String),
      TryLoadMD5Mesh decimalFloats 64 other sampleMeshFile stale
        = some (true, (loadedMesh decimalFloats 64 sampleMeshFile).2.1, "") :=
  ⟨by rfl, by rfl,
   (((loaders_are_atomic decimalFloats 64 sampleMeshFile).1 previousModel
      (loadedMesh decimalFloats 64 sampleMeshFile).2.1 "stale" "" true (by rfl)).2 rfl).2⟩

/-- C29: whenever `TryLoadMD5Mesh` returns, it returns `false` exactly when the
error string is not empty afterwards, whatever the error string held before;
and the message of the exception that `LoadMD5Mesh` throws is never empty. -/
theorem false_exactly_with_a_message (library : FloatLibrary) (bound : Nat)
    (md5meshFile : IReadFile) (model : MD5Model) :
    (∀ (error message : String) (result : Bool) (after : MD5Model),
      TryLoadMD5Mesh library bound model md5meshFile error = some (result, after, message) →
      (result = false ↔ message ≠ "")) ∧
    ∀ message : String,
      LoadMD5Mesh library bound model md5meshFile = some (Except.error message) →
      message ≠ "" := by
  have key : ∀ (error message : String) (result : Bool) (after : MD5Model),
      TryLoadMD5Mesh library bound model md5meshFile error = some (result, after, message) →
      (result = false ↔ message ≠ "") := by
    intro error message result after h
    unfold TryLoadMD5Mesh at h
    split at h
    · cases h
    · next parser hp =>
      simp only [Option.some.injEq, Prod.mk.injEq] at h
      obtain ⟨h1, _, h3⟩ := h
      have := (MeshParse_disciplined library bound).rejected _ _ hp
      rw [h3] at this
      exact ⟨fun _ => this, fun _ => h1.symm⟩
    · next u parser hp =>
      simp only [Option.some.injEq, Prod.mk.injEq] at h
      obtain ⟨h1, _, h3⟩ := h
      have := (MeshParse_disciplined library bound).accepted _ _ _ hp
      rw [h3] at this
      have hm : message = "" := this
      subst hm
      subst h1
      simp
  refine ⟨key, fun message h => ?_⟩
  unfold LoadMD5Mesh at h
  split at h
  · cases h
  · next after error he =>
    simp only [Option.some.injEq, Except.error.injEq] at h
    rw [← h]
    exact (key "" error false after he).mp rfl
  · cases h

/-- Witness of C29: the file that announces a negative number of joints is
refused with a message, though the error string was empty before the call, and
`LoadMD5Mesh` throws that message; the sample mesh file is loaded and the error
string, which held a message before the call, is empty afterwards. -/
theorem false_exactly_with_a_message_witness :
    TryLoadMD5Mesh decimalFloats 64 previousModel negativeJointsFile ""
      = some (false, previousModel, "numJoints < 0") ∧
    LoadMD5Mesh decimalFloats 64 previousModel negativeJointsFile
      = some (Except.error "numJoints < 0") ∧
    TryLoadMD5Mesh decimalFloats 64 previousModel sampleMeshFile "stale"
      = some (true, (loadedMesh decimalFloats 64 sampleMeshFile).2.1, "") ∧
    ((true = false) ↔ ("" : String) ≠ "") :=
  ⟨by rfl, by rfl, by rfl,
   (false_exactly_with_a_message decimalFloats 64 sampleMeshFile previousModel).1 "stale" ""
     true (loadedMesh decimalFloats 64 sampleMeshFile).2.1 (by rfl)⟩

theorem AcceptDoubleQuotedStringLoop_unterminated {Members : Type} (bound : Nat) :
    ∀ (p : MD5ParserBase Members) (s : String),
      (∀ c ∈ p.mInputStream.Buffer, c ≠ Char.ofNat 34 ∧ c ≠ Char.ofNat 92) →
      MD5ParserBase.AcceptDoubleQuotedStringLoop bound p s false = none := by
  induction bound with
  | zero => intro p s _; rfl
  | succ bound ih =>
    intro p s hp
    obtain ⟨mError, ⟨Buffer, eofbit, failbit⟩, members⟩ := p
    unfold MD5ParserBase.AcceptDoubleQuotedStringLoop
    cases eofbit <;> cases failbit <;> cases Buffer with
    | nil =>
      simp [InputStream.peek, InputStream.good, InputStream.get]
      exact ih _ _ (by simp)
    | cons c rest =>
      simp [InputStream.peek, InputStream.good, InputStream.get]
      first
        | exact ih _ _ (by simpa using hp)
        | (have hc := hp c (by simp)
           rw [if_neg hc.1, if_neg hc.2]
           exact ih _ _ (fun d hd => hp d (by simp [hd])))

/-- The command line of `unterminatedQuoteFile` is reached: `AcceptVersion` and
`RequireIdentifier("commandline")` and the opening `RequireChar` succeed, and
what is left of the stream holds no double quote and no backslash. -/
theorem AcceptCommandLine_unterminated {Members : Type} (bound : Nat)
    (p : MD5ParserBase Members)
    (h : p.mInputStream
      = { Buffer := "\ncommandline \x22abc\n".data, eofbit := false, failbit := false }) :
    MD5ParserBase.AcceptCommandLine bound p = none := by
  obtain ⟨mError, stream, members⟩ := p
  simp only at h
  subst h
  have h1 : MD5ParserBase.RequireIdentifier "commandline"
      ({ mError := mError,
         mInputStream :=
           { Buffer := "\ncommandline \x22abc\n".data, eofbit := false, failbit := false },
         members := members } : MD5ParserBase Members)
      = some (some (),
          { mError := mError,
            mInputStream := { Buffer := " \x22abc\n".data, eofbit := false, failbit := false },
            members := members }) := by
    rfl
  have h2 : MD5ParserBase.RequireChar (Char.ofNat 34)
      ({ mError := mError,
         mInputStream := { Buffer := " \x22abc\n".data, eofbit := false, failbit := false },
         members := members } : MD5ParserBase Members)
      = some (some (),
          { mError := mError,
            mInputStream := { Buffer := "abc\n".data, eofbit := false, failbit := false },
            members := members }) := by
    rfl
  unfold MD5ParserBase.AcceptCommandLine MD5ParserBase.AcceptDoubleQuotedString
  rw [h1]
  simp only [Accept.andThen]
  rw [h2]
  simp only [Accept.andThen]
  have h3 : ∀ c ∈ "abc\n".data, c ≠ Char.ofNat 34 ∧ c ≠ Char.ofNat 92 := by decide
  rw [AcceptDoubleQuotedStringLoop_unterminated bound _ _ h3]

/-- C30, at the failing input: the file `unterminatedQuoteFile` ends inside the
double-quoted string of its command line. Whatever the float library, the
caller's model or animation and the error string, no bound on the iterations of
the loops is enough for `TryLoadMD5Mesh` or `TryLoadMD5Anim` to return on it:
the loop of `AcceptDoubleQuotedString` does not end. The same file with the
closing quote is refused by `TryLoadMD5Mesh` in few iterations. -/
theorem unterminated_quote_never_returns (library : FloatLibrary) (bound : Nat) :
    (∀ (model : MD5Model) (error : String),
      TryLoadMD5Mesh library bound model unterminatedQuoteFile error = none) ∧
    (∀ (anim : MD5Anim) (error : String),
      TryLoadMD5Anim library bound anim unterminatedQuoteFile error = none) ∧
    TryLoadMD5Mesh library 8 MD5Model.empty ["MD5Version 10", "commandline \x22abc\x22"] ""
      = some (false, MD5Model.empty, "Expected numJoints") := by
  have hmesh : MD5ParserBase.AcceptVersion (MD5MeshParser.create MD5Model.empty unterminatedQuoteFile "")
      = some (some 10,
          { MD5MeshParser.create MD5Model.empty unterminatedQuoteFile "" with
            mInputStream :=
              { Buffer := "\ncommandline \x22abc\n".data, eofbit := false, failbit := false } }) := by
    rfl
  have hanim : MD5ParserBase.AcceptVersion (MD5AnimParser.create MD5Anim.empty unterminatedQuoteFile "")
      = some (some 10,
          { MD5AnimParser.create MD5Anim.empty unterminatedQuoteFile "" with
            mInputStream :=
              { Buffer := "\ncommandline \x22abc\n".data, eofbit := false, failbit := false } }) := by
    rfl
  refine ⟨fun model error => ?_, fun anim error => ?_, by rfl⟩
  · unfold TryLoadMD5Mesh MD5MeshParser.Parse
    rw [hmesh]
    simp only [Accept.andThen]
    rw [AcceptCommandLine_unterminated bound _ rfl]
  · unfold TryLoadMD5Anim MD5AnimParser.Parse
    rw [hanim]
    simp only [Accept.andThen]
    rw [AcceptCommandLine_unterminated bound _ rfl]

/-! ## Lemmas on the loops of `UVSphere::Init` -/

theorem ForInt_invariant {σ : Type} (P : Nat → σ → Prop) (body : Int → σ → σ) (s : σ)
    (n : Nat) (hstart : P 0 s)
    (hstep : ∀ (i : Nat) (acc : σ), i < n → P i acc → P (i + 1) (body (i : Int) acc)) :
    P n (ForInt (n : Int) body s) := by
  unfold ForInt
  rw [Int.toNat_ofNat]
  induction n with
  | zero => exact hstart
  | succ n ih =>
    rw [List.range_succ, List.foldl_append]
    exact hstep n _ (Nat.lt_succ_self n)
      (ih fun i acc hi hP => hstep i acc (Nat.lt_succ_of_lt hi) hP)

theorem toUInt32_of_range {n : Nat} (h : n < 4294967296) : toUInt32 (n : Int) = n := by
  unfold toUInt32
  omega

theorem sphere_index_range {r s i j : Nat} (hi : i ≤ s) (hj : j ≤ r) :
    i * (r + 1) + j < (s + 1) * (r + 1) := by
  have h1 : i * (r + 1) ≤ s * (r + 1) := Nat.mul_le_mul_right _ hi
  have h2 : (s + 1) * (r + 1) = s * (r + 1) + (r + 1) := Nat.succ_mul s (r + 1)
  omega

theorem sphere_rings_range {r s : Nat} (hs : 1 ≤ s) (hrange : (s + 1) * (r + 1) ≤ 2147483648) :
    r + 1 < 2147483648 := by
  have h := sphere_index_range (Nat.le_of_eq (rfl : s = s)) (Nat.le_refl r)
  have h1 : 1 * (r + 1) ≤ s * (r + 1) := Nat.mul_le_mul_right _ hs
  omega

theorem sphere_index_value {r s i j : Nat} (hi : i ≤ s) (hj : j ≤ r)
    (hrange : (s + 1) * (r + 1) ≤ 2147483648) :
    toUInt32 (toInt32 (toInt32 ((i : Int) * ((r + 1 : Nat) : Int)) + (j : Int)))
      = i * (r + 1) + j := by
  have hlt := sphere_index_range hi hj
  have e1 : (i : Int) * ((r + 1 : Nat) : Int) = ((i * (r + 1) : Nat) : Int) := by push_cast; ring
  have h1 : toInt32 ((i * (r + 1) : Nat) : Int) = ((i * (r + 1) : Nat) : Int) :=
    toInt32_of_range (by omega) (by omega)
  have e2 : ((i * (r + 1) : Nat) : Int) + (j : Int) = ((i * (r + 1) + j : Nat) : Int) := by
    push_cast; ring
  have h2 : toInt32 ((i * (r + 1) + j : Nat) : Int) = ((i * (r + 1) + j : Nat) : Int) :=
    toInt32_of_range (by omega) (by omega)
  rw [e1, h1, e2, h2, toUInt32_of_range (by omega)]

theorem sphere_row_value {r s i : Nat} (hi : i ≤ s)
    (hrange : (s + 1) * (r + 1) ≤ 2147483648) :
    toUInt32 (toInt32 ((i : Int) * ((r + 1 : Nat) : Int))) = i * (r + 1) := by
  have hlt := sphere_index_range hi (Nat.zero_le r)
  have e1 : (i : Int) * ((r + 1 : Nat) : Int) = ((i * (r + 1) : Nat) : Int) := by push_cast; ring
  have h1 : toInt32 ((i * (r + 1) : Nat) : Int) = ((i * (r + 1) : Nat) : Int) :=
    toInt32_of_range (by omega) (by omega)
  rw [e1, h1, toUInt32_of_range (by omega)]

theorem sphere_vertices_length (r s : Nat) :
    (ForInt ((s : Int) + 1)
      (fun (segment : Int) (vertices : List SphereVertex) =>
        ForInt ((r : Int) + 1)
          (fun ring vertices1 => vertices1 ++ [{ Segment := segment, Ring := ring }])
          vertices)
      []).length = (s + 1) * (r + 1) := by
  have hs : (s : Int) + 1 = ((s + 1 : Nat) : Int) := by push_cast; rfl
  have hr : (r : Int) + 1 = ((r + 1 : Nat) : Int) := by push_cast; rfl
  rw [hs, hr]
  refine ForInt_invariant
    (fun (i : Nat) (vertices : List SphereVertex) => vertices.length = i * (r + 1)) _ _ _
    (by simp) fun i acc _ hacc => ?_
  have hinner := ForInt_invariant
    (fun (j : Nat) (vertices : List SphereVertex) => vertices.length = acc.length + j)
    (fun (ring : Int) (vertices1 : List SphereVertex) =>
      vertices1 ++ [{ Segment := (i : Int), Ring := ring }]) acc (r + 1) rfl
    fun j vertices _ hv => by simp only [List.length_append, List.length_singleton, hv]; omega
  simp only at hinner ⊢
  rw [hinner, hacc, Nat.succ_mul]

theorem sphere_segment_succ {r s i : Nat} (hi : i < s)
    (hrange : (s + 1) * (r + 1) ≤ 2147483648) :
    toInt32 ((i : Int) + 1) = ((i + 1 : Nat) : Int) := by
  have h := sphere_index_range (Nat.le_refl s) (Nat.zero_le r)
  have h1 : s * 1 ≤ s * (r + 1) := Nat.mul_le_mul_left _ (by omega)
  rw [toInt32_of_range (by omega) (by omega)]
  push_cast
  rfl

theorem sphere_indices_spec (r s : Nat) (hs : 1 ≤ s)
    (hrange : (s + 1) * (r + 1) ≤ 2147483648) :
    (ForInt (s : Int)
        (fun (segment : Int) (indices : List Nat) =>
          let indices1 :=
            ForInt (toInt32 ((r : Int) + 1))
              (fun ring indices0 =>
                indices0 ++
                  [toUInt32 (toInt32 (toInt32 (segment * toInt32 ((r : Int) + 1)) + ring)),
                   toUInt32
                     (toInt32
                       (toInt32 (toInt32 (segment + 1) * toInt32 ((r : Int) + 1)) + ring))])
              indices
          if segment < toInt32 ((s : Int) - 1) then
            indices1 ++
              [toUInt32
                 (toInt32
                   (toInt32 (toInt32 (segment + 1) * toInt32 ((r : Int) + 1)) + (r : Int))),
               toUInt32 (toInt32 (toInt32 (segment + 1) * toInt32 ((r : Int) + 1)))]
          else indices1)
        []).length = 2 * (r + 1) * s + 2 * (s - 1) ∧
    ∀ index ∈
      ForInt (s : Int)
        (fun (segment : Int) (indices : List Nat) =>
          let indices1 :=
            ForInt (toInt32 ((r : Int) + 1))
              (fun ring indices0 =>
                indices0 ++
                  [toUInt32 (toInt32 (toInt32 (segment * toInt32 ((r : Int) + 1)) + ring)),
                   toUInt32
                     (toInt32
                       (toInt32 (toInt32 (segment + 1) * toInt32 ((r : Int) + 1)) + ring))])
              indices
          if segment < toInt32 ((s : Int) - 1) then
            indices1 ++
              [toUInt32
                 (toInt32
                   (toInt32 (toInt32 (segment + 1) * toInt32 ((r : Int) + 1)) + (r : Int))),
               toUInt32 (toInt32 (toInt32 (segment + 1) * toInt32 ((r : Int) + 1)))]
          else indices1)
        [],
      index < (s + 1) * (r + 1) := by
  have hr := sphere_rings_range hs hrange
  have hsmax : s < 2147483648 := by
    have h := sphere_index_range (Nat.le_refl s) (Nat.zero_le r)
    have h1 : s * 1 ≤ s * (r + 1) := Nat.mul_le_mul_left _ (by omega)
    omega
  have hlimit : toInt32 ((r : Int) + 1) = ((r + 1 : Nat) : Int) := by
    rw [toInt32_of_range (by omega) (by omega)]
    push_cast
    rfl
  have hlast : toInt32 ((s : Int) - 1) = (s : Int) - 1 :=
    toInt32_of_range (by omega) (by omega)
  have key := ForInt_invariant
    (fun (i : Nat) (indices : List Nat) =>
      (indices.length = i * (2 * (r + 1)) + 2 * min i (s - 1)) ∧
      ∀ index ∈ indices, index < (s + 1) * (r + 1))
    (fun (segment : Int) (indices : List Nat) =>
          let indices1 :=
            ForInt (toInt32 ((r : Int) + 1))
              (fun ring indices0 =>
                indices0 ++
                  [toUInt32 (toInt32 (toInt32 (segment * toInt32 ((r : Int) + 1)) + ring)),
                   toUInt32
                     (toInt32
                       (toInt32 (toInt32 (segment + 1) * toInt32 ((r : Int) + 1)) + ring))])
              indices
          if segment < toInt32 ((s : Int) - 1) then
            indices1 ++
              [toUInt32
                 (toInt32
                   (toInt32 (toInt32 (segment + 1) * toInt32 ((r : Int) + 1)) + (r : Int))),
               toUInt32 (toInt32 (toInt32 (segment + 1) * toInt32 ((r : Int) + 1)))]
          else indices1)
    [] s ⟨by simp, by simp⟩
    (fun i acc hi hacc => by
      have hsucc := sphere_segment_succ hi hrange
      have hinner := ForInt_invariant
        (fun (j : Nat) (indices : List Nat) =>
          indices.length = acc.length + 2 * j ∧
          ∀ index ∈ indices, index < (s + 1) * (r + 1))
        (fun (ring : Int) (indices0 : List Nat) =>
          indices0 ++
            [toUInt32 (toInt32 (toInt32 ((i : Int) * ((r + 1 : Nat) : Int)) + ring)),
             toUInt32 (toInt32 (toInt32 (((i + 1 : Nat) : Int) * ((r + 1 : Nat) : Int)) + ring))])
        acc (r + 1) ⟨rfl, hacc.2⟩
        (fun j indices hj hind => by
          simp only at hind ⊢
          rw [sphere_index_value (Nat.le_of_lt hi) (Nat.le_of_lt_succ hj) hrange,
            sphere_index_value (Nat.succ_le_of_lt hi) (Nat.le_of_lt_succ hj) hrange]
          refine ⟨?_, fun index hindex => ?_⟩
          · simp only [List.length_append, List.length_cons, List.length_nil, hind.1]
            omega
          · simp only [List.mem_append, List.mem_cons, List.mem_singleton, List.not_mem_nil,
              or_false] at hindex
            rcases hindex with h | h | h
            · exact hind.2 index h
            · rw [h]
              exact sphere_index_range (Nat.le_of_lt hi) (Nat.le_of_lt_succ hj)
            · rw [h]
              exact sphere_index_range (Nat.succ_le_of_lt hi) (Nat.le_of_lt_succ hj))
      have hlength := hacc.1
      simp only at hinner hlength ⊢
      simp only [hlimit, hlast, hsucc]
      have e : (i + 1) * (2 * (r + 1)) = i * (2 * (r + 1)) + 2 * (r + 1) := Nat.succ_mul _ _
      split_ifs with hdegenerate
      · rw [sphere_index_value (Nat.succ_le_of_lt hi) (Nat.le_refl r) hrange,
          sphere_row_value (Nat.succ_le_of_lt hi) hrange]
        refine ⟨?_, fun index hindex => ?_⟩
        · simp only [List.length_append, List.length_cons, List.length_nil, hinner.1, hlength]
          omega
        · simp only [List.mem_append, List.mem_cons, List.mem_singleton, List.not_mem_nil,
            or_false] at hindex
          rcases hindex with h | h | h
          · exact hinner.2 index h
          · rw [h]
            exact sphere_index_range (Nat.succ_le_of_lt hi) (Nat.le_refl r)
          · rw [h]
            exact sphere_index_range (Nat.succ_le_of_lt hi) (Nat.zero_le r)
      · refine ⟨?_, hinner.2⟩
        rw [hinner.1, hlength]
        omega)
  refine ⟨?_, key.2⟩
  have h := key.1
  simp only at h
  rw [h]
  have e : 2 * (r + 1) * s = s * (2 * (r + 1)) := Nat.mul_comm _ _
  omega

/-! ## The claim on the UV sphere -/

/-- C31, the counterexamples: with one ring and one segment and the radius -1,
`UVSphere::Init` throws the logic error and generates nothing; with 2147483647
rings and 2 segments, `numRings + 1` wraps to a negative `int`, the loops over
the rings do not run, and `Init` generates no vertex and the two indices
4294967295 and 2147483648 of the degenerate triangles. -/
theorem Init_outside_its_range :
    UVSphere.Init decimalFloats 1 1 Float32.minusOne = Completion.raised Raised.logic_error ∧
    UVSphere.Init decimalFloats 2147483647 2 Float32.one
      = Completion.returned
          { sphereVertices := [], sphereIndices := [4294967295, 2147483648],
            indexBufferSize := 8, indexCount := 2 } ∧
    toInt32 (2147483647 + 1) = -2147483648 := by
  decide

/-- C31, amended: for `numRings >= 1`, `numSegments >= 1`, a radius that is not
smaller than 0 and `(numSegments + 1) * (numRings + 1)` at most 2147483648, so
that no `int` of the computation overflows, `UVSphere::Init` reaches its call
of `mMesh->Init` with exactly `(numSegments + 1) * (numRings + 1)` vertices and
`2 * (numRings + 1) * numSegments + 2 * (numSegments - 1)` indices, that number
of indices is the index count it passes, and every index is smaller than the
number of vertices. -/
theorem Init_generates_the_sphere (library : FloatLibrary) (numRings numSegments : Int)
    (radius : Float32) (hrings : 1 ≤ numRings) (hsegments : 1 ≤ numSegments)
    (hradius : library.Greater Float32.zero radius = false)
    (hrange : (numSegments + 1) * (numRings + 1) ≤ 2147483648) :
    ∃ buffers : SphereBuffers,
      UVSphere.Init library numRings numSegments radius = Completion.returned buffers ∧
      (buffers.sphereVertices.length : Int) = (numSegments + 1) * (numRings + 1) ∧
      (buffers.sphereIndices.length : Int)
        = 2 * (numRings + 1) * numSegments + 2 * (numSegments - 1) ∧
      buffers.indexCount = buffers.sphereIndices.length ∧
      ∀ index ∈ buffers.sphereIndices, index < buffers.sphereVertices.length := by
  obtain ⟨r, hr⟩ := Int.eq_ofNat_of_zero_le (by omega : 0 ≤ numRings)
  obtain ⟨s, hs⟩ := Int.eq_ofNat_of_zero_le (by omega : 0 ≤ numSegments)
  subst hr
  subst hs
  have hs1 : 1 ≤ s := by omega
  have hN : (s + 1) * (r + 1) ≤ 2147483648 := by exact_mod_cast hrange
  have hrmax := sphere_rings_range hs1 hN
  have hsmax : s + 1 < 2147483649 := by
    have h := sphere_index_range (Nat.le_refl s) (Nat.zero_le r)
    have h1 : s * 1 ≤ s * (r + 1) := Nat.mul_le_mul_left _ (by omega)
    omega
  have hguard : ¬ ((r : Int) < 1 ∨ (s : Int) < 1 ∨ library.Greater Float32.zero radius = true) := by
    rw [hradius]
    simp only [Bool.false_eq_true, or_false, not_or, not_lt]
    exact ⟨hrings, hsegments⟩
  have hvertices := sphere_vertices_length r s
  have hindices := sphere_indices_spec r s hs1 hN
  have hlimit : toInt32 ((r : Int) + 1) = (r : Int) + 1 := toInt32_of_range (by omega) (by omega)
  unfold UVSphere.Init
  rw [if_neg hguard]
  refine ⟨_, rfl, ?_, ?_, rfl, ?_⟩
  · simp only
    by_cases hfull : s + 1 < 2147483648
    · rw [toInt32_of_range (by omega : (-2147483648 : Int) ≤ (s : Int) + 1) (by omega), hlimit,
        hvertices]
      push_cast
      ring
    · exfalso
      have hsv : s + 1 = 2147483648 := by omega
      have h1 : (s + 1) * 2 ≤ (s + 1) * (r + 1) := Nat.mul_le_mul_left _ (by omega)
      omega
  · simp only
    rw [hindices.1]
    have : ((s - 1 : Nat) : Int) = (s : Int) - 1 := by omega
    push_cast
    rw [this]
  · simp only
    intro index hindex
    have hlt := hindices.2 index hindex
    have hsfull : s + 1 < 2147483648 := by
      have h1 : (s + 1) * 2 ≤ (s + 1) * (r + 1) := Nat.mul_le_mul_left _ (by omega)
      omega
    rw [toInt32_of_range (by omega : (-2147483648 : Int) ≤ (s : Int) + 1) (by omega), hlimit,
      hvertices]
    exact hlt

/-- Witness of C31, amended: with 2 rings, 2 segments and the radius 1, `Init`
generates 9 vertices and 14 indices, each smaller than 9. -/
theorem Init_generates_the_sphere_witness :
    ((1 : Int) ≤ 2 ∧ decimalFloats.Greater Float32.zero Float32.one = false ∧
      ((2 : Int) + 1) * (2 + 1) ≤ 2147483648) ∧
    ∃ buffers : SphereBuffers,
      UVSphere.Init decimalFloats 2 2 Float32.one = Completion.returned buffers ∧
      (buffers.sphereVertices.length : Int) = (2 + 1) * (2 + 1) ∧
      (buffers.sphereIndices.length : Int) = 2 * (2 + 1) * 2 + 2 * (2 - 1) ∧
      buffers.indexCount = buffers.sphereIndices.length ∧
      ∀ index ∈ buffers.sphereIndices, index < buffers.sphereVertices.length :=
  ⟨by decide,
   Init_generates_the_sphere decimalFloats 2 2 Float32.one (by decide) (by decide) (by decide)
     (by decide)⟩

/-! ## Lemmas on what a drain appends to the buffer it drains -/

theorem DeletionsOf_nil (handles : List ReleasedHandle) : DeletionsOf handles [] := by
  intro x hx
  cases hx

theorem DeletionsOf_append {handles more : List ReleasedHandle}
    {a b : List OpenGLInstruction} (ha : DeletionsOf handles a) (hb : DeletionsOf more b) :
    DeletionsOf (handles ++ more) (a ++ b) := by
  intro x hx
  rcases List.mem_append.mp hx with h | h
  · obtain ⟨handle, hm, hk⟩ := ha x h
    exact ⟨handle, List.mem_append_left _ hm, hk⟩
  · obtain ⟨handle, hm, hk⟩ := hb x h
    exact ⟨handle, List.mem_append_right _ hm, hk⟩

theorem DeletionsFor_nil (handled : List OpenGLInstruction) : DeletionsFor handled [] := by
  intro x hx
  cases hx

theorem DeletionsFor_of (inst : OpenGLInstruction) {added : List OpenGLInstruction}
    (h : DeletionsOf inst.Released added) : DeletionsFor [inst] added := by
  intro x hx
  refine ⟨inst, by simp, ?_⟩
  intro y hy
  simp only [List.mem_singleton] at hy
  subst hy
  exact h y hx

theorem DeletionsFor_append {handled more : List OpenGLInstruction}
    {a b : List OpenGLInstruction} (ha : DeletionsFor handled a) (hb : DeletionsFor more b) :
    DeletionsFor (handled ++ more) (a ++ b) := by
  intro x hx
  rcases List.mem_append.mp hx with h | h
  · obtain ⟨inst, hm, hk⟩ := ha x h
    exact ⟨inst, List.mem_append_left _ hm, hk⟩
  · obtain ⟨inst, hm, hk⟩ := hb x h
    exact ⟨inst, List.mem_append_right _ hm, hk⟩

theorem PushResourceInstructionWith_none_buffer (r : OpenGLRenderer) (self : ThreadId)
    (inst : OpenGLInstruction) (hrel : inst.Released = []) (j : Bool) :
    (PushResourceInstructionWith NoHandleToDestroy r self inst).1.buffer j = r.buffer j := by
  rcases mode_cases r with hm | hm
  · rw [PushResourceInstructionWith_sync hm]
    simp only [HandleResourceInstructionWith, hrel, RunDestructors]
    rfl
  · cases hp : r.mInstructionBuffer.PushInstruction inst with
    | none => rw [PushResourceInstructionWith_async_none hm hp]
    | some b =>
      rw [PushResourceInstructionWith_async_some hm hp]
      rfl

theorem PushRenderingInstruction_appends (r : OpenGLRenderer) (self : ThreadId)
    (inst : OpenGLInstruction) (j : Bool) :
    ((PushRenderingInstruction r self inst).1.buffer j).Instructions = (r.buffer j).Instructions ∨
    ((PushRenderingInstruction r self inst).1.buffer j).Instructions
      = (r.buffer j).Instructions ++ [inst] := by
  cases hp : (r.buffer (PushRenderingWriteIndex r self)).PushInstruction inst with
  | none =>
    rw [PushRenderingInstruction_of_none hp]
    exact Or.inl rfl
  | some b =>
    rw [PushRenderingInstruction_of_some hp]
    by_cases hj : j = PushRenderingWriteIndex r self
    · subst hj
      simp only [buffer_setBuffer_same]
      unfold OpenGLInstructionLinearBuffer.PushInstruction at hp
      split at hp
      · cases hp
        exact Or.inr rfl
      · cases hp
    · rw [buffer_setBuffer_ne r _ j b hj]
      exact Or.inl rfl

theorem DestroyHandle_deletes (r : OpenGLRenderer) (self : ThreadId) (handle : ReleasedHandle)
    (j : Bool) :
    ∃ added, ((DestroyHandle r self handle).1.buffer j).Instructions
        = (r.buffer j).Instructions ++ added ∧ DeletionsOf [handle] added := by
  unfold DestroyHandle DestroyHandleWith
  cases hk : handle.Kind
  · refine ⟨[], ?_, DeletionsOf_nil _⟩
    rw [PushResourceInstructionWith_none_buffer r self
      (ToInstruction (OpCodeParams.DeleteBuffer handle.Handle) []) rfl j, List.append_nil]
  · simp only [SendDeleteVertexArray]
    rcases PushRenderingInstruction_appends r self
      (ToInstruction (OpCodeParams.DeleteVertexArray handle.Handle) []) j with h | h
    · exact ⟨[], by rw [h, List.append_nil], DeletionsOf_nil _⟩
    · refine ⟨_, h, ?_⟩
      intro x hx
      simp only [List.mem_singleton] at hx
      exact ⟨handle, by simp, hk, hx⟩
  · refine ⟨[], ?_, DeletionsOf_nil _⟩
    rw [PushResourceInstructionWith_none_buffer r self
      (ToInstruction (OpCodeParams.DeleteShader handle.Handle) []) rfl j, List.append_nil]
  · refine ⟨[], ?_, DeletionsOf_nil _⟩
    rw [PushResourceInstructionWith_none_buffer r self
      (ToInstruction (OpCodeParams.DeleteShaderProgram handle.Handle) []) rfl j, List.append_nil]

theorem RunDestructors_deletes (self : ThreadId) (handles : List ReleasedHandle) (j : Bool) :
    ∀ r : OpenGLRenderer,
      ∃ added, ((RunDestructors DestroyHandle self r handles).1.buffer j).Instructions
          = (r.buffer j).Instructions ++ added ∧ DeletionsOf handles added := by
  induction handles with
  | nil =>
    intro r
    exact ⟨[], by simp [RunDestructors], DeletionsOf_nil _⟩
  | cons handle rest ih =>
    intro r
    obtain ⟨added1, h1, d1⟩ := DestroyHandle_deletes r self handle j
    have hended := (DestroyHandle_destroyed r self handle).2
    rcases hd : DestroyHandle r self handle with ⟨r1, c⟩
    rw [hd] at h1 hended
    simp only at h1 hended
    rcases hended with hc | hc
    · subst hc
      rw [RunDestructors_cons_returned hd]
      obtain ⟨added2, h2, d2⟩ := ih r1
      refine ⟨added1 ++ added2, by rw [h2, h1, List.append_assoc], ?_⟩
      exact DeletionsOf_append d1 d2
    · subst hc
      rw [RunDestructors_cons_raised hd]
      refine ⟨added1, h1, ?_⟩
      have := DeletionsOf_append d1 (DeletionsOf_nil rest)
      simpa using this

theorem HandleRenderingInstruction_deletes (r : OpenGLRenderer) (self : ThreadId)
    (inst : OpenGLInstruction) (j : Bool) :
    ∃ added, ((HandleRenderingInstruction r self inst).1.buffer j).Instructions
        = (r.buffer j).Instructions ++ added ∧ DeletionsOf inst.Released added :=
  RunDestructors_deletes self inst.Released j
    { r with Effects := r.Effects ++ (RenderingInstructionEffects inst).1
             RenderingExecuted := r.RenderingExecuted ++ [inst] }

/-- One step of a drain, with what the step has appended to the buffer. -/
theorem drain_step_deletes {r r2 : OpenGLRenderer} {self : ThreadId} {i : Bool}
    {inst : OpenGLInstruction} {b : OpenGLInstructionLinearBuffer}
    {c : Completion InstructionHandlerResponse}
    (h : (r.buffer i).PopInstruction = some (inst, b))
    (hh : HandleRenderingInstruction (r.setBuffer i b) self inst = (r2, c)) :
    ∃ rest added,
      (r.buffer i).Pending = inst :: rest ∧
      (r2.buffer i).Instructions = (r.buffer i).Instructions ++ added ∧
      (r2.buffer i).Pending = rest ++ added ∧
      DeletionsOf inst.Released added ∧
      r2.RenderingExecuted = r.RenderingExecuted ++ [inst] ∧
      (r.setBuffer i b).RenderingExecuted = r.RenderingExecuted ∧
      DrainBound (r2.buffer i) + 1 ≤ DrainBound (r.buffer i) := by
  obtain ⟨rest, added, hrest, hadd, hread, _, _, hexec, hbound⟩ := drain_step h hh
  obtain ⟨added1, hadd1, hdel⟩ := HandleRenderingInstruction_deletes (r.setBuffer i b) self inst i
  obtain ⟨_, hb⟩ := PopInstruction_some h
  rw [hh] at hadd1
  simp only [buffer_setBuffer_same] at hadd1
  subst hb
  simp only at hadd1
  have heq : added1 = added := List.append_cancel_left (hadd1.symm.trans hadd)
  subst heq
  refine ⟨rest, added1, hrest, hadd, ?_, hdel, hexec, rfl, hbound⟩
  unfold OpenGLInstructionLinearBuffer.Pending
  rw [hadd, hread, (drop_append_cons hrest added1).2]

/-- The loop of the Synchronous drain, run with a bound that is large enough:
what it appends to the buffer, what it handles, and how it ends. -/
theorem SynchronousDrain_exact (self : ThreadId) (i : Bool) :
    ∀ (bound : Nat) (r : OpenGLRenderer), DrainBound (r.buffer i) ≤ bound →
      ∃ added handled rest,
        ((SynchronousDrain bound r self i).1.buffer i).Instructions
          = (r.buffer i).Instructions ++ added ∧
        DeletionsFor handled added ∧
        (r.buffer i).Pending ++ added = handled ++ rest ∧
        (SynchronousDrain bound r self i).1.RenderingExecuted = r.RenderingExecuted ++ handled ∧
        (((SynchronousDrain bound r self i).2 = Completion.returned () ∧ rest = []) ∨
          ∃ e before inst rk,
            (SynchronousDrain bound r self i).2 = Completion.raised e ∧
            handled = before ++ [inst] ∧
            rk.RenderingExecuted = r.RenderingExecuted ++ before ∧
            HandleRenderingInstruction rk self inst
              = ((SynchronousDrain bound r self i).1, Completion.raised e)) := by
  intro bound
  induction bound with
  | zero =>
    intro r hb
    simp [DrainBound] at hb
  | succ bound ih =>
    intro r hb
    cases hp : (r.buffer i).PopInstruction with
    | none =>
      rw [SynchronousDrain_none hp]
      have hnil : (r.buffer i).Pending = [] := PopInstruction_none hp
      exact ⟨[], [], [], by simp, DeletionsFor_nil _, by simp [hnil], by simp,
        Or.inl ⟨rfl, rfl⟩⟩
    | some popped =>
      obtain ⟨inst, b⟩ := popped
      rcases hh : HandleRenderingInstruction (r.setBuffer i b) self inst with ⟨r2, c⟩
      obtain ⟨rest0, added1, hpend, hadd, hpend2, hdel, hexec, hpopped, hbound⟩ :=
        drain_step_deletes hp hh
      rcases HandleRenderingInstruction_result hh with ⟨response, hc⟩ | ⟨e, hc⟩
      · subst hc
        rw [SynchronousDrain_returned hp hh]
        obtain ⟨added2, handled2, rest2, hI, hdel2, hsplit, hexec2, hcase⟩ :=
          ih r2 (by omega)
        refine ⟨added1 ++ added2, inst :: handled2, rest2, ?_, ?_, ?_, ?_, ?_⟩
        · rw [hI, hadd, List.append_assoc]
        · exact DeletionsFor_append (DeletionsFor_of inst hdel) hdel2
        · rw [hpend2] at hsplit
          rw [hpend, List.cons_append, List.cons_append, ← List.append_assoc, hsplit]
        · rw [hexec2, hexec, List.append_assoc, List.singleton_append]
        · rcases hcase with hret | ⟨e, before, last, rk, he, hhandled, hrk, hraise⟩
          · exact Or.inl hret
          · refine Or.inr ⟨e, inst :: before, last, rk, he, ?_, ?_, hraise⟩
            · rw [hhandled, List.cons_append]
            · rw [hrk, hexec, List.append_assoc, List.singleton_append]
      · subst hc
        rw [SynchronousDrain_raised hp hh]
        refine ⟨added1, [inst], rest0 ++ added1, hadd, DeletionsFor_of inst hdel, ?_, hexec, ?_⟩
        · rw [hpend, List.cons_append, List.singleton_append]
        · exact Or.inr ⟨e, [], inst, r.setBuffer i b, rfl, by simp, by simp [hpopped], hh⟩

/-- The inner loop of the rendering thread, run with a bound that is large
enough, for any response so far: what it appends to the buffer, what it
handles, and how it ends. -/
theorem RenderingThreadDrain_exact (self : ThreadId) (i : Bool) :
    ∀ (bound : Nat) (r : OpenGLRenderer) (response : InstructionHandlerResponse),
      DrainBound (r.buffer i) ≤ bound →
      ∃ added handled rest,
        ((RenderingThreadDrain bound r self i response).1.buffer i).Instructions
          = (r.buffer i).Instructions ++ added ∧
        DeletionsFor handled added ∧
        (r.buffer i).Pending ++ added = handled ++ rest ∧
        (RenderingThreadDrain bound r self i response).1.RenderingExecuted
          = r.RenderingExecuted ++ handled ∧
        ((∃ last, (RenderingThreadDrain bound r self i response).2 = Completion.returned last ∧
            handled = (if response = InstructionHandlerResponse.Quit then []
              else ThroughFirstQuit ((r.buffer i).Pending ++ added))) ∨
          ∃ e before inst rk,
            (RenderingThreadDrain bound r self i response).2 = Completion.raised e ∧
            handled = before ++ [inst] ∧
            rk.RenderingExecuted = r.RenderingExecuted ++ before ∧
            HandleRenderingInstruction rk self inst
              = ((RenderingThreadDrain bound r self i response).1, Completion.raised e)) := by
  intro bound
  induction bound with
  | zero =>
    intro r response hb
    simp [DrainBound] at hb
  | succ bound ih =>
    intro r response hb
    cases hp : (r.buffer i).PopInstruction with
    | none =>
      rw [RenderingThreadDrain_none hp]
      have hnil : (r.buffer i).Pending = [] := PopInstruction_none hp
      refine ⟨[], [], [], by simp, DeletionsFor_nil _, by simp [hnil], by simp,
        Or.inl ⟨response, rfl, ?_⟩⟩
      simp [hnil, ThroughFirstQuit]
    | some popped =>
      obtain ⟨inst, b⟩ := popped
      cases response with
      | Quit =>
        rw [RenderingThreadDrain_after_quit hp]
        obtain ⟨_, hbv⟩ := PopInstruction_some hp
        subst hbv
        refine ⟨[], [], (r.buffer i).Pending, by simp [buffer_setBuffer_same],
          DeletionsFor_nil _, by simp, by simp [OpenGLRenderer.setBuffer],
          Or.inl ⟨InstructionHandlerResponse.Quit, rfl, by simp⟩⟩
      | Continue =>
        rcases hh : HandleRenderingInstruction (r.setBuffer i b) self inst with ⟨r2, c⟩
        obtain ⟨rest0, added1, hpend, hadd, hpend2, hdel, hexec, hpopped, hbound⟩ :=
          drain_step_deletes hp hh
        rcases HandleRenderingInstruction_result hh with ⟨next, hc⟩ | ⟨e, hc⟩
        · subst hc
          rw [RenderingThreadDrain_returned hp hh]
          have hquit := HandleRenderingInstruction_quit hh
          obtain ⟨added2, handled2, rest2, hI, hdel2, hsplit, hexec2, hcase⟩ :=
            ih r2 next (by omega)
          refine ⟨added1 ++ added2, inst :: handled2, rest2, ?_, ?_, ?_, ?_, ?_⟩
          · rw [hI, hadd, List.append_assoc]
          · exact DeletionsFor_append (DeletionsFor_of inst hdel) hdel2
          · rw [hpend2] at hsplit
            rw [hpend, List.cons_append, List.cons_append, ← List.append_assoc, hsplit]
          · rw [hexec2, hexec, List.append_assoc, List.singleton_append]
          · rcases hcase with ⟨last, hret, hhandled⟩ | ⟨e, before, last, rk, he, hhandled, hrk, hraise⟩
            · refine Or.inl ⟨last, hret, ?_⟩
              rw [hhandled, hpend2, hpend]
              by_cases hq : inst.OpCode = OpenGLOpCode.Quit
              · simp [ThroughFirstQuit, hq, hquit.mpr hq]
              · have hn : next ≠ InstructionHandlerResponse.Quit := fun h => hq (hquit.mp h)
                simp [ThroughFirstQuit, hq, hn]
            · refine Or.inr ⟨e, inst :: before, last, rk, he, ?_, ?_, hraise⟩
              · rw [hhandled, List.cons_append]
              · rw [hrk, hexec, List.append_assoc, List.singleton_append]
        · subst hc
          rw [RenderingThreadDrain_raised hp hh]
          refine ⟨added1, [inst], rest0 ++ added1, hadd, DeletionsFor_of inst hdel, ?_, hexec, ?_⟩
          · rw [hpend, List.cons_append, List.singleton_append]
          · exact Or.inr ⟨e, [], inst, r.setBuffer i b, rfl, by simp, by simp [hpopped], hh⟩

/-! ## The claim on the order of a drain -/

/-- C3: both drain loops, run on buffer `i` with the bound `DrainBound`, come to
an end. While a loop runs, the buffer only grows, by the instructions `added`,
which are deletion instructions of vertex arrays released by the instructions
handled; the instructions passed to `HandleRenderingInstruction` are `handled`,
an initial segment of the pending instructions followed by the added ones, in
buffer order, so none is skipped or repeated. When the loop of the Synchronous
branch of `SwapRenderingInstructionQueues` returns, it has handled all of them;
when the inner loop of the rendering thread returns, it has handled exactly
those up to and including the first Quit. A loop that does not return was left
by the exception that `HandleRenderingInstruction` raised on the last
instruction handled. -/
theorem drain_loops_follow_push_order (r : OpenGLRenderer) (self : ThreadId) (i : Bool) :
    (∃ added handled rest,
      ((SynchronousDrain (DrainBound (r.buffer i)) r self i).1.buffer i).Instructions
        = (r.buffer i).Instructions ++ added ∧
      DeletionsFor handled added ∧
      (r.buffer i).Pending ++ added = handled ++ rest ∧
      (SynchronousDrain (DrainBound (r.buffer i)) r self i).1.RenderingExecuted
        = r.RenderingExecuted ++ handled ∧
      (((SynchronousDrain (DrainBound (r.buffer i)) r self i).2 = Completion.returned () ∧
          rest = []) ∨
        ∃ e before inst rk,
          (SynchronousDrain (DrainBound (r.buffer i)) r self i).2 = Completion.raised e ∧
          handled = before ++ [inst] ∧
          rk.RenderingExecuted = r.RenderingExecuted ++ before ∧
          HandleRenderingInstruction rk self inst
            = ((SynchronousDrain (DrainBound (r.buffer i)) r self i).1,
               Completion.raised e))) ∧
    (∃ added handled rest,
      ((RenderingThreadDrain (DrainBound (r.buffer i)) r self i
          InstructionHandlerResponse.Continue).1.buffer i).Instructions
        = (r.buffer i).Instructions ++ added ∧
      DeletionsFor handled added ∧
      (r.buffer i).Pending ++ added = handled ++ rest ∧
      (RenderingThreadDrain (DrainBound (r.buffer i)) r self i
          InstructionHandlerResponse.Continue).1.RenderingExecuted
        = r.RenderingExecuted ++ handled ∧
      ((∃ last,
          (RenderingThreadDrain (DrainBound (r.buffer i)) r self i
            InstructionHandlerResponse.Continue).2 = Completion.returned last ∧
          handled = ThroughFirstQuit ((r.buffer i).Pending ++ added)) ∨
        ∃ e before inst rk,
          (RenderingThreadDrain (DrainBound (r.buffer i)) r self i
            InstructionHandlerResponse.Continue).2 = Completion.raised e ∧
          handled = before ++ [inst] ∧
          rk.RenderingExecuted = r.RenderingExecuted ++ before ∧
          HandleRenderingInstruction rk self inst
            = ((RenderingThreadDrain (DrainBound (r.buffer i)) r self i
                InstructionHandlerResponse.Continue).1,
               Completion.raised e))) := by
  refine ⟨SynchronousDrain_exact self i _ r (Nat.le_refl _), ?_⟩
  obtain ⟨added, handled, rest, h1, h2, h3, h4, h5⟩ :=
    RenderingThreadDrain_exact self i _ r InstructionHandlerResponse.Continue (Nat.le_refl _)
  refine ⟨added, handled, rest, h1, h2, h3, h4, ?_⟩
  rcases h5 with ⟨last, hret, hhandled⟩ | hraise
  · exact Or.inl ⟨last, hret, by simpa using hhandled⟩
  · exact Or.inr hraise

/-! ## Lemmas on the handlers when a future may be unfulfilled -/

end ng
